import Mathlib

/-!
# Shallow embedding of `src/api_manager/check_auth.cc`

The per-request authentication state machine `AuthChecker` is written in the
source in continuation-passing style over a request context, two caches, an
issuer registry, a token validator and an asynchronous HTTP fetcher.  Here each
step of the machine is a pure function on an explicit execution state `Exec`
that carries

* the fields of the `AuthChecker` object (`validator_`, `user_info_`,
  `auth_token_`),
* the shared `World` (clock, token cache, key cache, issuer registry), and
* the `trace` of every call the checker makes on its collaborators, in order,
  the final continuation `on_done_` included.

Strings are Lean strings.  `std::string::size` counts bytes and `String.length`
counts characters; the only place the source measures a length is the test
`size() <= 7 || compare(0, 7, "Bearer ") != 0`, whose value is the same under
both readings because the seven characters of `"Bearer "` are single bytes.
-/

namespace CheckAuthModel

/-! ## Status -/

/-- The values of `Status::ErrorCause`. -/
inductive ErrorCause where
  | INTERNAL
  | APPLICATION
  | AUTH
  | SERVICE_CONTROL
  deriving DecidableEq, Repr

/-- Canonical code `OK`. -/
def Code.OK : Nat := 0

/-- Canonical code `UNAUTHENTICATED`. -/
def Code.UNAUTHENTICATED : Nat := 16

/-- A `utils::Status`: canonical code, message and error cause. -/
structure Status where
  code : Nat
  message : String
  cause : ErrorCause
  deriving DecidableEq, Repr

/-- The constant `Status::OK`. -/
def Status.OK : Status := { code := Code.OK, message := "", cause := ErrorCause.INTERNAL }

/-- The method `Status::ok()`. -/
def Status.ok (s : Status) : Bool := s.code == Code.OK

/-- The method `Status::SetErrorCause`. -/
def Status.SetErrorCause (s : Status) (c : ErrorCause) : Status := { s with cause := c }

/-! ## Data -/

/-- The `UserInfo` extracted from a token (`audiences` is a `std::set`). -/
structure UserInfo where
  id : String
  issuer : String
  audiences : List String
  deriving DecidableEq, Repr

/-- The initial value of the member `user_info_`. -/
def UserInfo.empty : UserInfo := { id := "", issuer := "", audiences := [] }

/-- A `JwtValue`, the value type of the token cache. -/
structure JwtValue where
  user_info : UserInfo
  exp : Nat
  inserted_at : Nat
  deriving DecidableEq, Repr

/-- A `JwtValidator` object for one token, as the checker uses it: `Parse`
(given the current time) yields a status and the user info it writes,
`VerifySignature` takes the key blob, `GetExpirationTime` is the token's
expiration time. -/
structure JwtValidator where
  Parse : Nat → Status × UserInfo
  VerifySignature : String → Status
  GetExpirationTime : Nat

/-- The policy surface of a method (`MethodInfo`). -/
structure MethodInfo where
  auth : Bool
  isIssuerAllowed : String → Bool
  isAudienceAllowed : String → List String → Bool

/-- What the checker reads of its `RequestContext`: the service settings, the
method (null when the request matched none) and the request's headers and query
parameters. -/
structure Context where
  RequireAuth : Bool
  service_name : String
  method : Option MethodInfo
  FindHeader : String → Option String
  FindQuery : String → Option String

/-- The shared state the checker works on: the clock, the token cache
(`jwt_cache()`), the key cache (`certs()`) and the issuer registry behind
`GetJwksUri` / `SetJwksUri`. -/
structure World where
  now : Nat
  jwt_cache : String → Option JwtValue
  certs : String → Option (String × Nat)
  jwks_uri : String → String × Bool

/-- What the environment does with one HTTP request: the status
`RunHTTPRequest` returns, and, when the request completes, the status and body
handed to its continuation after `delay` seconds.  A request completes at most
once; `completion = none` is a request whose continuation is never invoked. -/
structure FetchResult where
  ret : Status
  completion : Option (Status × String)
  delay : Nat

/-- The collaborators that are not part of the shared state.  `RunHTTPRequest`
is given the number of requests this check has already issued and the URL. -/
structure Env where
  Create : String → Option JwtValidator
  AudiencesAsString : List String → String
  Json : Type
  grpc_json_parse_string : String → Option Json
  GetStringValue : Json → String → Option String
  RunHTTPRequest : Nat → String → FetchResult

/-- Every call the checker makes on a collaborator. -/
inductive Event where
  | LogDebug (msg : String)
  | LogError (msg : String)
  | FindHeader (name : String)
  | FindQuery (name : String)
  | SetAuthToken (token : String)
  | SetUserInfo (info : UserInfo)
  | set_auth_issuer (issuer : String)
  | set_auth_audience (audience : String)
  | isIssuerAllowed (issuer : String)
  | isAudienceAllowed (issuer : String) (audiences : List String)
  | JwtCacheLookup (token : String)
  | JwtCacheRemove (token : String)
  | JwtCacheInsert (token : String) (info : UserInfo) (exp : Nat) (now : Nat)
  | ValidatorCreate (token : String)
  | ValidatorParse (token : String)
  | ValidatorVerifySignature (token : String) (key : String)
  | ValidatorGetExpirationTime (token : String)
  | GetCert (issuer : String)
  | CertsUpdate (issuer : String) (blob : String) (exp : Nat)
  | GetJwksUri (issuer : String)
  | SetJwksUri (issuer : String) (url : String) (openid_valid : Bool)
  | HttpGet (url : String)
  | NullDereference
  | on_done (status : Status)
  deriving DecidableEq, Repr

/-- The state of one run of the checker. -/
structure Exec where
  validator_ : Option JwtValidator
  user_info_ : UserInfo
  auth_token_ : String
  world : World
  trace : List Event

/-! ## Constants -/

def kAccessTokenName : String := "access_token"

def kAuthHeader : String := "authorization"

def kBearer : String := "Bearer "

/-- The lifetime of a public key cache entry. Unit: seconds. -/
def kPubKeyCacheDuration : Nat := 300

/-- The value of `sizeof(kBearer) - 1`. -/
def bearer_len : Nat := 7

/-! ## Collaborator operations -/

/-- Record a call in the trace. -/
def Exec.emit (s : Exec) (e : Event) : Exec := { s with trace := s.trace ++ [e] }

/-- Modelled from the spec: `JwtCache::Insert` is not part of the sources; the
spec's `insert(token, user_info, token_expiry, inserted_at)` stores the entry
`(user_info, token_expiry, inserted_at)` under the token, a later insertion
overwriting an earlier one. -/
def JwtCache.Insert (c : String → Option JwtValue) (token : String) (info : UserInfo)
    (token_exp now : Nat) : String → Option JwtValue :=
  fun t => if t = token then some { user_info := info, exp := token_exp, inserted_at := now }
           else c t

/-- Modelled from the spec: `JwtCache::Remove` is not part of the sources; the
spec's `remove(token)` drops the entry of the token. -/
def JwtCache.Remove (c : String → Option JwtValue) (token : String) : String → Option JwtValue :=
  fun t => if t = token then none else c t

/-- Modelled from the spec: `Certs::Update` is not part of the sources; the
spec's `update(issuer, key_blob, expires_at)` replaces the issuer's entry. -/
def Certs.Update (c : String → Option (String × Nat)) (issuer blob : String) (exp : Nat) :
    String → Option (String × Nat) :=
  fun i => if i = issuer then some (blob, exp) else c i

/-- Modelled from the spec: `ServiceContext::SetJwksUri` is not part of the
sources; the spec's `record_discovered(issuer, url_or_empty)` writes the
issuer's entry, which `resolve_key_url` then returns verbatim. -/
def Registry.SetJwksUri (r : String → String × Bool) (issuer url : String) (openid_valid : Bool) :
    String → String × Bool :=
  fun i => if i = issuer then (url, openid_valid) else r i

/-- The URLs of the HTTP requests in a trace, in order. -/
def httpGets (t : List Event) : List String :=
  t.filterMap fun e => match e with
    | Event.HttpGet u => some u
    | _ => none

/-- Statuses handed to the final continuation in a trace. -/
def completions (t : List Event) : List Status :=
  t.filterMap fun e => match e with
    | Event.on_done st => some st
    | _ => none

/-- The user infos passed to `SetUserInfo` in a trace, in order. -/
def userInfos (t : List Event) : List UserInfo :=
  t.filterMap fun e => match e with
    | Event.SetUserInfo info => some info
    | _ => none

/-- The token-cache insertions in a trace, in order. -/
def inserts (t : List Event) : List (String × UserInfo × Nat × Nat) :=
  t.filterMap fun e => match e with
    | Event.JwtCacheInsert token info exp now => some (token, info, exp, now)
    | _ => none

/-- The signature verifications in a trace, in order: token and key blob. -/
def verifies (t : List Event) : List (String × String) :=
  t.filterMap fun e => match e with
    | Event.ValidatorVerifySignature token key => some (token, key)
    | _ => none

/-- The key-cache updates in a trace, in order: issuer, key blob, expiry. -/
def updates (t : List Event) : List (String × String × Nat) :=
  t.filterMap fun e => match e with
    | Event.CertsUpdate issuer blob exp => some (issuer, blob, exp)
    | _ => none

/-! ## The state machine, from the last step to the first -/

/-- The method `AuthChecker::Unauthorized`. -/
def Unauthorized (error : String) (s : Exec) : Exec :=
  s.emit (Event.on_done
    { code := Code.UNAUTHENTICATED
      message := "JWT validation failed: " ++ error
      cause := ErrorCause.AUTH })

/-- The method `AuthChecker::PassUserInfoOnSuccess`. -/
def PassUserInfoOnSuccess (s : Exec) : Exec :=
  (s.emit (Event.SetUserInfo s.user_info_)).emit (Event.on_done Status.OK)

/-- The method `AuthChecker::VerifySignature`. -/
def VerifySignature (s : Exec) : Exec :=
  let s1 := s.emit (Event.GetCert s.user_info_.issuer)
  match s1.world.certs s1.user_info_.issuer with
  | none => Unauthorized "Missing verification key" s1
  | some cert =>
    match s1.validator_ with
    | none => s1.emit Event.NullDereference
    | some v =>
      let s2 := s1.emit (Event.ValidatorVerifySignature s1.auth_token_ cert.1)
      let status := v.VerifySignature cert.1
      if !status.ok then Unauthorized status.message s2
      else
        let s3 := s2.emit (Event.ValidatorGetExpirationTime s2.auth_token_)
        let s4 := s3.emit (Event.JwtCacheInsert s3.auth_token_ s3.user_info_
                    v.GetExpirationTime s3.world.now)
        let s5 : Exec :=
          { s4 with world :=
              { s4.world with jwt_cache :=
                  (JwtCache.Insert s4.world.jwt_cache s4.auth_token_ s4.user_info_
                    v.GetExpirationTime s4.world.now) } }
        PassUserInfoOnSuccess s5

/-- The method `AuthChecker::PostFetchPubKey`. -/
def PostFetchPubKey (status : Status) (body : String) (s : Exec) : Exec :=
  if !status.ok || body.isEmpty then Unauthorized "Unable to fetch verification key" s
  else
    let exp := s.world.now + kPubKeyCacheDuration
    let s1 := s.emit (Event.CertsUpdate s.user_info_.issuer body exp)
    let s2 : Exec :=
      { s1 with world :=
          { s1.world with certs := Certs.Update s1.world.certs s1.user_info_.issuer body exp } }
    VerifySignature s2

/-- The method `AuthChecker::HttpFetch`.  The request object is allocated with a
plain `new`, which does not return null, so the `Out of memory` return is not
taken.  When the environment completes the request, the wrapped continuation
sets the error cause of the status to `AUTH` and runs the checker continuation
before `RunHTTPRequest` returns (as the environment of the tests does), the
clock having advanced by the delay of the fetch. -/
def HttpFetch (env : Env) (url : String) (continuation : Status → String → Exec → Exec)
    (s : Exec) : Status × Exec :=
  let s1 := s.emit (Event.LogDebug ("http fetch: " ++ url))
  let r := env.RunHTTPRequest (httpGets s.trace).length url
  let s2 := s1.emit (Event.HttpGet url)
  match r.completion with
  | none => (r.ret, s2)
  | some (status, body) =>
    let s3 : Exec := { s2 with world := { s2.world with now := s2.world.now + r.delay } }
    (r.ret, continuation (status.SetErrorCause ErrorCause.AUTH) body s3)

/-- The method `AuthChecker::FetchPubKey`. -/
def FetchPubKey (env : Env) (url : String) (s : Exec) : Exec :=
  let r := HttpFetch env url PostFetchPubKey s
  if !r.1.ok then Unauthorized "Unable to fetch public key" r.2 else r.2

/-- The method `AuthChecker::PostFetchJwksUri`. -/
def PostFetchJwksUri (env : Env) (status : Status) (body : String) (s : Exec) : Exec :=
  if !status.ok then
    let s1 := s.emit (Event.SetJwksUri s.user_info_.issuer "" false)
    let s2 : Exec :=
      { s1 with world :=
          { s1.world with jwks_uri :=
              Registry.SetJwksUri s1.world.jwks_uri s1.user_info_.issuer "" false } }
    Unauthorized "Unable to fetch URI of the key via OpenID discovery" s2
  else
    let jwks_uri : Option String :=
      match env.grpc_json_parse_string body with
      | some discovery_json => env.GetStringValue discovery_json "jwks_uri"
      | none => none
    match jwks_uri with
    | none =>
      let s0 := s.emit (Event.LogError "OpenID discovery failed due to invalid doc format")
      let s1 := s0.emit (Event.SetJwksUri s0.user_info_.issuer "" false)
      let s2 : Exec :=
        { s1 with world :=
            { s1.world with jwks_uri :=
                Registry.SetJwksUri s1.world.jwks_uri s1.user_info_.issuer "" false } }
      Unauthorized "Unable to fetch URI of the key via OpenID discovery" s2
    | some uri =>
      let s1 := s.emit (Event.SetJwksUri s.user_info_.issuer uri false)
      let s2 : Exec :=
        { s1 with world :=
            { s1.world with jwks_uri :=
                Registry.SetJwksUri s1.world.jwks_uri s1.user_info_.issuer uri false } }
      FetchPubKey env uri s2

/-- The method `AuthChecker::DiscoverJwksUri`. -/
def DiscoverJwksUri (env : Env) (url : String) (s : Exec) : Exec :=
  let r := HttpFetch env url (PostFetchJwksUri env) s
  if !r.1.ok then Unauthorized "Unable to fetch URI of the key via OpenID discovery" r.2
  else r.2

/-- The method `AuthChecker::InitKey`. -/
def InitKey (env : Env) (s : Exec) : Exec :=
  let s1 := s.emit (Event.GetCert s.user_info_.issuer)
  let cert := s1.world.certs s1.user_info_.issuer
  let stale : Bool :=
    match cert with
    | none => true
    | some c => decide (s1.world.now > c.2)
  if stale then
    let s2 := s1.emit (Event.GetJwksUri s1.user_info_.issuer)
    let r := s2.world.jwks_uri s2.user_info_.issuer
    let url := r.1
    let tryOpenId := r.2
    if url.isEmpty then Unauthorized "Cannot determine the URI of the key" s2
    else if tryOpenId then DiscoverJwksUri env url s2
    else FetchPubKey env url s2
  else VerifySignature s1

/-- The method `AuthChecker::CheckAudience`.  The method pointer was checked in
`Check`; a null method here would be a null dereference.  The call of
`isAudienceAllowed` is the right operand of `&&`: it is made only when the
service name is not among the audiences. -/
def CheckAudience (env : Env) (ctx : Context) (cache_hit : Bool) (s : Exec) : Exec :=
  let audience : String :=
    if s.user_info_.audiences.isEmpty then "" else env.AudiencesAsString s.user_info_.audiences
  let s1 := s.emit (Event.set_auth_issuer s.user_info_.issuer)
  let s2 := s1.emit (Event.set_auth_audience audience)
  match ctx.method with
  | none => s2.emit Event.NullDereference
  | some m =>
    let s3 := s2.emit (Event.isIssuerAllowed s2.user_info_.issuer)
    if !m.isIssuerAllowed s3.user_info_.issuer then Unauthorized "Issuer not allowed" s3
    else
      let s4 :=
        if s3.user_info_.audiences.contains ctx.service_name then s3
        else s3.emit (Event.isAudienceAllowed s3.user_info_.issuer s3.user_info_.audiences)
      if !(s3.user_info_.audiences.contains ctx.service_name) &&
          !m.isAudienceAllowed s3.user_info_.issuer s3.user_info_.audiences then
        Unauthorized "Audience not allowed" s4
      else if cache_hit then PassUserInfoOnSuccess s4
      else InitKey env s4

/-- The part of `AuthChecker::ParseJwt` after the validator exists. -/
def ParseJwt.parse (env : Env) (ctx : Context) (v : JwtValidator) (s : Exec) : Exec :=
  let s1 := s.emit (Event.ValidatorParse s.auth_token_)
  let r := v.Parse s1.world.now
  let s2 : Exec := { s1 with user_info_ := r.2 }
  if !r.1.ok then Unauthorized r.1.message s2
  else CheckAudience env ctx false s2

/-- The method `AuthChecker::ParseJwt`. -/
def ParseJwt (env : Env) (ctx : Context) (s : Exec) : Exec :=
  match s.validator_ with
  | some v => ParseJwt.parse env ctx v s
  | none =>
    let s1 := s.emit (Event.ValidatorCreate s.auth_token_)
    match env.Create s1.auth_token_ with
    | none => Unauthorized "Internal error" s1
    | some v => ParseJwt.parse env ctx v { s1 with validator_ := some v }

/-- The method `AuthChecker::LookupJwtCache`. -/
def LookupJwtCache (env : Env) (ctx : Context) (s : Exec) : Exec :=
  let s1 := s.emit (Event.JwtCacheLookup s.auth_token_)
  match s1.world.jwt_cache s1.auth_token_ with
  | some val =>
    if s1.world.now ≤ val.exp then
      -- Cache hit and cache entry is not expired.
      CheckAudience env ctx true { s1 with user_info_ := val.user_info }
    else
      -- Need to remove the expired cache entry.
      let s2 := s1.emit (Event.JwtCacheRemove s1.auth_token_)
      let s3 : Exec :=
        { s2 with world :=
            { s2.world with jwt_cache := JwtCache.Remove s2.world.jwt_cache s2.auth_token_ } }
      ParseJwt env ctx s3
  | none => ParseJwt env ctx s1

/-- The method `AuthChecker::GetAuthToken`. -/
def GetAuthToken (ctx : Context) (s : Exec) : Exec :=
  let s1 := s.emit (Event.FindHeader kAuthHeader)
  match ctx.FindHeader kAuthHeader with
  | none =>
    -- When authorization header is missing, check query parameter.
    let s2 := s1.emit (Event.FindQuery kAccessTokenName)
    match ctx.FindQuery kAccessTokenName with
    | some v => { s2 with auth_token_ := v }
    | none => s2
  | some auth_header =>
    if auth_header.length ≤ bearer_len || auth_header.data.take bearer_len != kBearer.data then
      { s1 with auth_token_ := "" }
    else
      { s1 with auth_token_ := String.mk (auth_header.data.drop bearer_len) }

/-- The method `AuthChecker::Check`. -/
def Check (env : Env) (ctx : Context) (s : Exec) : Exec :=
  let authNotRequired : Bool :=
    !ctx.RequireAuth ||
      (match ctx.method with
       | none => true
       | some m => !m.auth)
  if authNotRequired then
    (s.emit (Event.LogDebug "Auth not required.")).emit (Event.on_done Status.OK)
  else
    let s1 := GetAuthToken ctx s
    if s1.auth_token_.isEmpty then Unauthorized "Missing or invalid credentials" s1
    else
      let s2 := s1.emit (Event.SetAuthToken s1.auth_token_)
      let s3 := s2.emit (Event.LogDebug ("auth token: " ++ s2.auth_token_))
      LookupJwtCache env ctx s3

/-- The constructor `AuthChecker::AuthChecker`, on a world. -/
def AuthChecker.new (w : World) : Exec :=
  { validator_ := none, user_info_ := UserInfo.empty, auth_token_ := "", world := w, trace := [] }

/-- The entry point `CheckAuth`. -/
def CheckAuth (env : Env) (ctx : Context) (w : World) : Exec :=
  Check env ctx (AuthChecker.new w)

/-! ## Reference definitions, in the words of the specification -/

/-- The token of a request as the specification words it: with no
`authorization` header, the value of the `access_token` query parameter (empty
when that is absent too); with a header `h`, `h` without its first 7 characters
when `h` begins with the literal `Bearer ` and is longer than 7 characters, and
the empty string otherwise. -/
def GetAuthToken_reference (ctx : Context) : String :=
  match ctx.FindHeader "authorization" with
  | none =>
    match ctx.FindQuery "access_token" with
    | some q => q
    | none => ""
  | some h =>
    if "Bearer ".data.isPrefixOf h.data && decide (h.length > 7) then String.mk (h.data.drop 7)
    else ""

/-- The reads `GetAuthToken` makes on the request: the header, and the query
parameter when the header is absent. -/
def readEvents (ctx : Context) : List Event :=
  match ctx.FindHeader "authorization" with
  | none => [Event.FindHeader "authorization", Event.FindQuery "access_token"]
  | some _ => [Event.FindHeader "authorization"]

/-- The state in which a check with the non-empty token `t` enters
`LookupJwtCache`. -/
def lookupState (ctx : Context) (w : World) (t : String) : Exec :=
  { validator_ := none
    user_info_ := UserInfo.empty
    auth_token_ := t
    world := w
    trace := readEvents ctx ++ [Event.SetAuthToken t, Event.LogDebug ("auth token: " ++ t)] }

/-- The shared state after the token-cache lookup of `t`: an entry found
expired has been removed, nothing else has changed. -/
def World.afterLookup (w : World) (t : String) : World :=
  match w.jwt_cache t with
  | some val =>
    if w.now ≤ val.exp then w else { w with jwt_cache := JwtCache.Remove w.jwt_cache t }
  | none => w

/-- The user info `info` of the token `t` reaches the policy stage: either from
an unexpired token-cache entry (`cache_hit`), or, with no such entry, from a
successful parse by a validator that could be created. -/
def ReachesPolicy (env : Env) (w : World) (t : String) (cache_hit : Bool) (info : UserInfo) :
    Prop :=
  (cache_hit = true ∧
    ∃ val, w.jwt_cache t = some val ∧ w.now ≤ val.exp ∧ info = val.user_info) ∨
  (cache_hit = false ∧ (∀ val, w.jwt_cache t = some val → val.exp < w.now) ∧
    ∃ v, env.Create t = some v ∧ (v.Parse w.now).1.ok = true ∧ info = (v.Parse w.now).2)

/-- The denial status `Unauthorized` hands to the final continuation. -/
def denial (error : String) : Status :=
  { code := Code.UNAUTHENTICATED
    message := "JWT validation failed: " ++ error
    cause := ErrorCause.AUTH }

/-- The audience rule of the policy stage: the service name is one of the
audiences, or the method allows the audiences for the issuer. -/
def audienceAccepted (ctx : Context) (m : MethodInfo) (info : UserInfo) : Bool :=
  info.audiences.contains ctx.service_name || m.isAudienceAllowed info.issuer info.audiences

/-- The calls the policy stage makes before it decides, for a user info whose
issuer the method allows. -/
def policyEvents (env : Env) (ctx : Context) (info : UserInfo) : List Event :=
  [Event.set_auth_issuer info.issuer,
   Event.set_auth_audience
     (if info.audiences.isEmpty then "" else env.AudiencesAsString info.audiences),
   Event.isIssuerAllowed info.issuer] ++
  (if info.audiences.contains ctx.service_name then []
   else [Event.isAudienceAllowed info.issuer info.audiences])

/-- The calls a check makes between the log of the token and the policy stage. -/
def lookupEvents (w : World) (t : String) (cache_hit : Bool) : List Event :=
  if cache_hit then [Event.JwtCacheLookup t]
  else
    match w.jwt_cache t with
    | some _ =>
      [Event.JwtCacheLookup t, Event.JwtCacheRemove t, Event.ValidatorCreate t,
       Event.ValidatorParse t]
    | none => [Event.JwtCacheLookup t, Event.ValidatorCreate t, Event.ValidatorParse t]

/-- The state in which a check leaves the policy stage when the policy accepts
the user info. -/
def policyState (env : Env) (ctx : Context) (w : World) (t : String) (cache_hit : Bool)
    (info : UserInfo) : Exec :=
  { validator_ := if cache_hit then none else env.Create t
    user_info_ := info
    auth_token_ := t
    world := w.afterLookup t
    trace := (lookupState ctx w t).trace ++ lookupEvents w t cache_hit ++
      policyEvents env ctx info }

/-- The state in which a check enters the policy stage. -/
def policyEntryState (env : Env) (ctx : Context) (w : World) (t : String) (cache_hit : Bool)
    (info : UserInfo) : Exec :=
  { validator_ := if cache_hit then none else env.Create t
    user_info_ := info
    auth_token_ := t
    world := w.afterLookup t
    trace := (lookupState ctx w t).trace ++ lookupEvents w t cache_hit }

/-- The state in which a check whose key lookup found no fresh entry enters
`DiscoverJwksUri` or `FetchPubKey`. -/
def keyLookupState (env : Env) (ctx : Context) (w : World) (t : String) (info : UserInfo) :
    Exec :=
  { policyState env ctx w t false info with
    trace := (policyState env ctx w t false info).trace ++
      [Event.GetCert info.issuer, Event.GetJwksUri info.issuer] }

/-- The state in which a check enters `FetchPubKey` after the discovery request
to `d` has delivered a document whose `jwks_uri` is `u`. -/
def discoveredState (env : Env) (ctx : Context) (w : World) (t : String) (info : UserInfo)
    (d u : String) : Exec :=
  { keyLookupState env ctx w t info with
    world :=
      { (keyLookupState env ctx w t info).world with
        now := w.now + (env.RunHTTPRequest 0 d).delay
        jwks_uri := Registry.SetJwksUri w.jwks_uri info.issuer u false }
    trace := (keyLookupState env ctx w t info).trace ++
      [Event.LogDebug ("http fetch: " ++ d), Event.HttpGet d,
       Event.SetJwksUri info.issuer u false] }

/-! ## A concrete service, after the fixture of `check_auth_test.cc` -/

namespace Sample

def kServiceName : String := "endpoints-test.cloudendpointsapis.com"

def kIss : String := "https://issuer1.com"

def kIss2 : String := "https://issuer2.com"

def kSub : String := "end-user-id"

def kSub2 : String := "another-user-id"

def kIssuer1OpenIdUrl : String := "https://issuer1.com/.well-known/openid-configuration"

def kIssuer1PubkeyUrl : String := "https://issuer1.com/pubkey"

def kIssuer2PubkeyUrl : String := "https://issuer2.com/pubkey"

def kOpenIdContent : String := "jwks_uri=https://issuer1.com/pubkey"

def kPubkey : String := "keys"

/-- The time at which the sample checks run. -/
def kNow : Nat := 1500000000

/-- The expiration time of the sample tokens. -/
def kExp : Nat := 2461782921

/-- A validator for a token with the given claims: parsing fails once the token
has expired, the signature verifies against `kPubkey` only. -/
def validator (sub iss aud : String) (exp : Nat) : JwtValidator :=
  { Parse := fun now =>
      if now < exp then (Status.OK, { id := sub, issuer := iss, audiences := [aud] })
      else ({ code := Code.UNAUTHENTICATED, message := "TIME_CONSTRAINT_FAILURE",
              cause := ErrorCause.INTERNAL }, UserInfo.empty)
    VerifySignature := fun key =>
      if key = kPubkey then Status.OK
      else { code := Code.UNAUTHENTICATED, message := "KEY_RETRIEVAL_ERROR",
             cause := ErrorCause.INTERNAL }
    GetExpirationTime := exp }

/-- The user info of the token `kTokenStale`: issuer 1, an audience the sample
method does not accept. -/
def staleInfo : UserInfo := { id := kSub, issuer := kIss, audiences := ["some-audience"] }

/-- A validator for a token that expired ten seconds before `kNow` and whose
time constraints are checked with a clock skew of one minute. -/
def staleValidator : JwtValidator :=
  { Parse := fun now =>
      if now ≤ kNow - 10 + 60 then (Status.OK, staleInfo)
      else ({ code := Code.UNAUTHENTICATED, message := "TIME_CONSTRAINT_FAILURE",
              cause := ErrorCause.INTERNAL }, UserInfo.empty)
    VerifySignature := fun key =>
      if key = kPubkey then Status.OK
      else { code := Code.UNAUTHENTICATED, message := "KEY_RETRIEVAL_ERROR",
             cause := ErrorCause.INTERNAL }
    GetExpirationTime := kNow - 10 }

/-- The tokens of the fixture, by name. -/
def Create (token : String) : Option JwtValidator :=
  if token = "kToken" then some (validator kSub kIss kServiceName kExp)
  else if token = "kToken2" then some (validator kSub2 kIss kServiceName kExp)
  else if token = "kTokenIssuer2" then some (validator kSub kIss2 kServiceName kExp)
  else if token = "kTokenExpired" then some (validator kSub kIss kServiceName 1461782921)
  else if token = "kTokenBadAud" then some (validator kSub kIss "some-audience" kExp)
  else if token = "kTokenBadIss" then some (validator kSub "https://unknown.com" kServiceName kExp)
  else if token = "kTokenStale" then some staleValidator
  else none

/-- An environment whose fetcher serves the discovery document and the key set
of issuer 1 and the key set of issuer 2, and refuses every other request. -/
def env : Env :=
  { Create := Create
    AudiencesAsString := fun l => String.intercalate "," l
    Json := String
    grpc_json_parse_string := fun body =>
      if "jwks_uri=".data.isPrefixOf body.data then some (String.mk (body.data.drop 9)) else none
    GetStringValue := fun j k => if k = "jwks_uri" then some j else none
    RunHTTPRequest := fun _ url =>
      if url = kIssuer1OpenIdUrl then
        { ret := Status.OK, completion := some (Status.OK, kOpenIdContent), delay := 1 }
      else if url = kIssuer1PubkeyUrl ∨ url = kIssuer2PubkeyUrl then
        { ret := Status.OK, completion := some (Status.OK, kPubkey), delay := 1 }
      else
        { ret := { code := 14, message := "unreachable", cause := ErrorCause.INTERNAL }
          completion := none
          delay := 0 } }

/-- The method `ListShelves`: auth required, issuers 1 and 2 accepted, no
audience accepted beyond the service name. -/
def method : MethodInfo :=
  { auth := true
    isIssuerAllowed := fun i => i = kIss || i = kIss2
    isAudienceAllowed := fun _ _ => false }

/-- A request to `ListShelves` with the given `authorization` header and
`access_token` query parameter. -/
def ctx (header query : Option String) : Context :=
  { RequireAuth := true
    service_name := kServiceName
    method := some method
    FindHeader := fun n => if n = "authorization" then header else none
    FindQuery := fun n => if n = "access_token" then query else none }

/-- The initial shared state: empty caches; issuer 2 has a configured key URL,
every other issuer is resolved by discovery. -/
def world : World :=
  { now := kNow
    jwt_cache := fun _ => none
    certs := fun _ => none
    jwks_uri := fun i =>
      if i = kIss2 then (kIssuer2PubkeyUrl, false)
      else (i ++ "/.well-known/openid-configuration", true) }

/-- The shared state after `kTokenStale` was accepted, a minute before `kNow`,
by a check for a method that accepts its audience: the token cache holds its
entry, which has expired by `kNow`. -/
def staleWorld : World :=
  { world with
    jwt_cache :=
      JwtCache.Insert world.jwt_cache "kTokenStale" staleInfo staleValidator.GetExpirationTime
        (kNow - 60) }

/-- The shared state after the cold check of `kToken`: the key set of issuer 1
and the token are cached. -/
def warmWorld : World :=
  (CheckAuth env (ctx (some "Bearer kToken") none) world).world

/-- A method that accepts issuer 2 only. -/
def otherMethod : MethodInfo :=
  { auth := true
    isIssuerAllowed := fun i => i = kIss2
    isAudienceAllowed := fun _ _ => false }

end Sample

/-- What the key stage of a check (from `InitKey` on) for the token `token`
with user info `info` and validator `v` can have added to the trace and done to
the token cache `cache`: either nothing was inserted, the cache is as it was,
and no signature was verified or no Allow was reported; or the signature was
verified once, the entry of the token was inserted with the validator's
expiration time, and `SetUserInfo` was called once, with `info`. -/
def KeyOutcome (token : String) (info : UserInfo) (cache : String → Option JwtValue)
    (v : JwtValidator) (added : List Event) (w : World) : Prop :=
  (inserts added = [] ∧ (verifies added = [] ∨ Status.OK ∉ completions added) ∧
    userInfos added = [] ∧ w.jwt_cache = cache) ∨
  (∃ key n, inserts added = [(token, info, v.GetExpirationTime, n)] ∧
    verifies added = [(token, key)] ∧ userInfos added = [info] ∧
    w.jwt_cache = JwtCache.Insert cache token info v.GetExpirationTime n)

/-- What a check for the token `token` can have added to the trace: either it
inserted nothing into the token cache, and verified no signature or reported no
Allow; or it verified the signature once, inserted the entry of the token with
the user info it passed to `SetUserInfo` and the expiration time of the token's
validator, and this entry is in the token cache it leaves. -/
def CheckOutcome (env : Env) (token : String) (added : List Event) (w : World) : Prop :=
  (inserts added = [] ∧ (verifies added = [] ∨ Status.OK ∉ completions added)) ∨
  (∃ v info key n, env.Create token = some v ∧
    inserts added = [(token, info, v.GetExpirationTime, n)] ∧
    verifies added = [(token, key)] ∧ userInfos added = [info] ∧
    w.jwt_cache token = some { user_info := info, exp := v.GetExpirationTime, inserted_at := n })

/-- What a check can have done to the key cache `certs`: nothing, or one update,
which its trace records. -/
def CertsOutcome (certs : String → Option (String × Nat)) (added : List Event) (w : World) :
    Prop :=
  (updates added = [] ∧ w.certs = certs) ∨
  (∃ issuer blob exp, updates added = [(issuer, blob, exp)] ∧
    w.certs = Certs.Update certs issuer blob exp)

/-! ## The shape of a check's trace -/

/-- The token-cache calls of a check whose token misses the token cache: the
lookup, and the removal of an entry found expired. -/
def missEvents (w : World) (t : String) : List Event :=
  match w.jwt_cache t with
  | some _ => [Event.JwtCacheLookup t, Event.JwtCacheRemove t]
  | none => [Event.JwtCacheLookup t]

/-- The denial a step adds when the environment refused to dispatch a request:
nothing when `RunHTTPRequest` returned OK. -/
def dispatchDenial (ok : Bool) (error : String) : List Event :=
  if ok then [] else [Event.on_done (denial error)]

/-- What `VerifySignature` adds to the trace, for the token `t` with user info
`info` and validator `v`. -/
inductive VerifyTrace (t : String) (info : UserInfo) (v : JwtValidator) : List Event → Prop where
  | missing :
      VerifyTrace t info v
        [Event.GetCert info.issuer, Event.on_done (denial "Missing verification key")]
  | failed (key : String) (h : (v.VerifySignature key).ok = false) :
      VerifyTrace t info v
        [Event.GetCert info.issuer, Event.ValidatorVerifySignature t key,
         Event.on_done (denial (v.VerifySignature key).message)]
  | verified (key : String) (n : Nat) (h : (v.VerifySignature key).ok = true) :
      VerifyTrace t info v
        [Event.GetCert info.issuer, Event.ValidatorVerifySignature t key,
         Event.ValidatorGetExpirationTime t,
         Event.JwtCacheInsert t info v.GetExpirationTime n,
         Event.SetUserInfo info, Event.on_done Status.OK]

/-- What `PostFetchPubKey` adds to the trace. -/
inductive PubKeyTrace (t : String) (info : UserInfo) (v : JwtValidator) : List Event → Prop where
  | failed :
      PubKeyTrace t info v [Event.on_done (denial "Unable to fetch verification key")]
  | stored (body : String) (exp : Nat) (tail : List Event) (hb : body.isEmpty = false)
      (h : VerifyTrace t info v tail) :
      PubKeyTrace t info v (Event.CertsUpdate info.issuer body exp :: tail)

/-- What `FetchPubKey` adds to the trace, for the URL `url`: the request, what
its continuation adds if the request completes, and a denial if the request was
not dispatched with status OK. -/
inductive FetchTrace (t : String) (info : UserInfo) (v : JwtValidator) (url : String) :
    List Event → Prop where
  | dropped (ok : Bool) :
      FetchTrace t info v url
        ([Event.LogDebug ("http fetch: " ++ url), Event.HttpGet url] ++
          dispatchDenial ok "Unable to fetch public key")
  | completed (ok : Bool) (mid : List Event) (h : PubKeyTrace t info v mid) :
      FetchTrace t info v url
        ([Event.LogDebug ("http fetch: " ++ url), Event.HttpGet url] ++ mid ++
          dispatchDenial ok "Unable to fetch public key")

/-- What `PostFetchJwksUri` adds to the trace. -/
inductive JwksUriTrace (t : String) (info : UserInfo) (v : JwtValidator) : List Event → Prop where
  | failed :
      JwksUriTrace t info v
        [Event.SetJwksUri info.issuer "" false,
         Event.on_done (denial "Unable to fetch URI of the key via OpenID discovery")]
  | invalid :
      JwksUriTrace t info v
        [Event.LogError "OpenID discovery failed due to invalid doc format",
         Event.SetJwksUri info.issuer "" false,
         Event.on_done (denial "Unable to fetch URI of the key via OpenID discovery")]
  | found (u : String) (tail : List Event) (h : FetchTrace t info v u tail) :
      JwksUriTrace t info v (Event.SetJwksUri info.issuer u false :: tail)

/-- What `DiscoverJwksUri` adds to the trace, for the discovery URL `d`. -/
inductive DiscoverTrace (t : String) (info : UserInfo) (v : JwtValidator) (d : String) :
    List Event → Prop where
  | dropped (ok : Bool) :
      DiscoverTrace t info v d
        ([Event.LogDebug ("http fetch: " ++ d), Event.HttpGet d] ++
          dispatchDenial ok "Unable to fetch URI of the key via OpenID discovery")
  | completed (ok : Bool) (mid : List Event) (h : JwksUriTrace t info v mid) :
      DiscoverTrace t info v d
        ([Event.LogDebug ("http fetch: " ++ d), Event.HttpGet d] ++ mid ++
          dispatchDenial ok "Unable to fetch URI of the key via OpenID discovery")

/-- What `InitKey` adds to the trace. -/
inductive KeyTrace (t : String) (info : UserInfo) (v : JwtValidator) : List Event → Prop where
  | cached (tail : List Event) (h : VerifyTrace t info v tail) :
      KeyTrace t info v (Event.GetCert info.issuer :: tail)
  | no_url :
      KeyTrace t info v
        [Event.GetCert info.issuer, Event.GetJwksUri info.issuer,
         Event.on_done (denial "Cannot determine the URI of the key")]
  | discover (d : String) (tail : List Event) (hd : d.isEmpty = false)
      (h : DiscoverTrace t info v d tail) :
      KeyTrace t info v ([Event.GetCert info.issuer, Event.GetJwksUri info.issuer] ++ tail)
  | fetch (k : String) (tail : List Event) (hk : k.isEmpty = false)
      (h : FetchTrace t info v k tail) :
      KeyTrace t info v ([Event.GetCert info.issuer, Event.GetJwksUri info.issuer] ++ tail)

/-- What `CheckAudience` adds to the trace, for the method `m`: `vo` is the
validator of the checker, which exists when the user info was parsed. -/
inductive PolicyTrace (env : Env) (ctx : Context) (m : MethodInfo) (t : String)
    (info : UserInfo) (vo : Option JwtValidator) : Bool → List Event → Prop where
  | issuer_denied (cache_hit : Bool) (h : m.isIssuerAllowed info.issuer = false) :
      PolicyTrace env ctx m t info vo cache_hit
        [Event.set_auth_issuer info.issuer,
         Event.set_auth_audience
           (if info.audiences.isEmpty then "" else env.AudiencesAsString info.audiences),
         Event.isIssuerAllowed info.issuer,
         Event.on_done (denial "Issuer not allowed")]
  | audience_denied (cache_hit : Bool) (h : m.isIssuerAllowed info.issuer = true)
      (ha : audienceAccepted ctx m info = false) :
      PolicyTrace env ctx m t info vo cache_hit
        (policyEvents env ctx info ++ [Event.on_done (denial "Audience not allowed")])
  | cached (h : m.isIssuerAllowed info.issuer = true)
      (ha : audienceAccepted ctx m info = true) :
      PolicyTrace env ctx m t info vo true
        (policyEvents env ctx info ++ [Event.SetUserInfo info, Event.on_done Status.OK])
  | key (v : JwtValidator) (tail : List Event) (hv : vo = some v)
      (h : m.isIssuerAllowed info.issuer = true) (ha : audienceAccepted ctx m info = true)
      (ht : KeyTrace t info v tail) :
      PolicyTrace env ctx m t info vo false (policyEvents env ctx info ++ tail)

/-- The trace of a whole check, in the shared state `w`. -/
inductive CheckTrace (env : Env) (ctx : Context) (w : World) : List Event → Prop where
  | not_required
      (h : ctx.RequireAuth = false ∨ ctx.method = none ∨
        ∃ m, ctx.method = some m ∧ m.auth = false) :
      CheckTrace env ctx w [Event.LogDebug "Auth not required.", Event.on_done Status.OK]
  | no_token (m : MethodInfo) (hreq : ctx.RequireAuth = true) (hm : ctx.method = some m)
      (hauth : m.auth = true) (ht : (GetAuthToken_reference ctx).isEmpty = true) :
      CheckTrace env ctx w
        (readEvents ctx ++ [Event.on_done (denial "Missing or invalid credentials")])
  | hit (m : MethodInfo) (val : JwtValue) (tail : List Event)
      (hreq : ctx.RequireAuth = true) (hm : ctx.method = some m) (hauth : m.auth = true)
      (ht : (GetAuthToken_reference ctx).isEmpty = false)
      (hval : w.jwt_cache (GetAuthToken_reference ctx) = some val) (hexp : w.now ≤ val.exp)
      (h : PolicyTrace env ctx m (GetAuthToken_reference ctx) val.user_info none true tail) :
      CheckTrace env ctx w
        ((lookupState ctx w (GetAuthToken_reference ctx)).trace ++
          lookupEvents w (GetAuthToken_reference ctx) true ++ tail)
  | create_failed (m : MethodInfo)
      (hreq : ctx.RequireAuth = true) (hm : ctx.method = some m) (hauth : m.auth = true)
      (ht : (GetAuthToken_reference ctx).isEmpty = false)
      (hmiss : ∀ val, w.jwt_cache (GetAuthToken_reference ctx) = some val → val.exp < w.now)
      (hc : env.Create (GetAuthToken_reference ctx) = none) :
      CheckTrace env ctx w
        ((lookupState ctx w (GetAuthToken_reference ctx)).trace ++
          missEvents w (GetAuthToken_reference ctx) ++
          [Event.ValidatorCreate (GetAuthToken_reference ctx),
           Event.on_done (denial "Internal error")])
  | parse_failed (m : MethodInfo) (v : JwtValidator)
      (hreq : ctx.RequireAuth = true) (hm : ctx.method = some m) (hauth : m.auth = true)
      (ht : (GetAuthToken_reference ctx).isEmpty = false)
      (hmiss : ∀ val, w.jwt_cache (GetAuthToken_reference ctx) = some val → val.exp < w.now)
      (hc : env.Create (GetAuthToken_reference ctx) = some v)
      (hp : (v.Parse w.now).1.ok = false) :
      CheckTrace env ctx w
        ((lookupState ctx w (GetAuthToken_reference ctx)).trace ++
          lookupEvents w (GetAuthToken_reference ctx) false ++
          [Event.on_done (denial (v.Parse w.now).1.message)])
  | parsed (m : MethodInfo) (v : JwtValidator) (tail : List Event)
      (hreq : ctx.RequireAuth = true) (hm : ctx.method = some m) (hauth : m.auth = true)
      (ht : (GetAuthToken_reference ctx).isEmpty = false)
      (hmiss : ∀ val, w.jwt_cache (GetAuthToken_reference ctx) = some val → val.exp < w.now)
      (hc : env.Create (GetAuthToken_reference ctx) = some v)
      (hp : (v.Parse w.now).1.ok = true)
      (h : PolicyTrace env ctx m (GetAuthToken_reference ctx) (v.Parse w.now).2 (some v) false
        tail) :
      CheckTrace env ctx w
        ((lookupState ctx w (GetAuthToken_reference ctx)).trace ++
          lookupEvents w (GetAuthToken_reference ctx) false ++ tail)

/-- The effect on the shared stores of one call recorded in a trace. -/
def applyEvent (w : World) (e : Event) : World :=
  match e with
  | Event.JwtCacheInsert token info exp now =>
    { w with jwt_cache := JwtCache.Insert w.jwt_cache token info exp now }
  | Event.JwtCacheRemove token => { w with jwt_cache := JwtCache.Remove w.jwt_cache token }
  | Event.CertsUpdate issuer blob exp =>
    { w with certs := Certs.Update w.certs issuer blob exp }
  | Event.SetJwksUri issuer url valid =>
    { w with jwks_uri := Registry.SetJwksUri w.jwks_uri issuer url valid }
  | _ => w

/-- The shared state `w` after the writes recorded in a trace. -/
def replay (added : List Event) (w : World) : World := added.foldl applyEvent w

/-- The state in which the continuation of a request to `url`, issued from `s`,
runs: the request is on the trace and the clock has advanced by its delay. -/
def fetchedState (env : Env) (url : String) (s : Exec) : Exec :=
  { s with
    world :=
      { s.world with
        now := s.world.now + (env.RunHTTPRequest (httpGets s.trace).length url).delay }
    trace := s.trace ++ [Event.LogDebug ("http fetch: " ++ url), Event.HttpGet url] }

/-- The `jwks_uri` that `PostFetchJwksUri` extracts from a discovery document:
none when the body does not parse or has no string member `jwks_uri`. -/
def jwksUriOf (env : Env) (body : String) : Option String :=
  match env.grpc_json_parse_string body with
  | some discovery_json => env.GetStringValue discovery_json "jwks_uri"
  | none => none

/-- The state `PostFetchJwksUri` leaves in `s` before it continues or denies:
the URL `u` is recorded for the issuer, after the calls `pre`. -/
def recordedState (s : Exec) (pre : List Event) (u : String) : Exec :=
  { s with
    world := { s.world with
      jwks_uri := Registry.SetJwksUri s.world.jwks_uri s.user_info_.issuer u false }
    trace := s.trace ++ pre ++ [Event.SetJwksUri s.user_info_.issuer u false] }

/-- The state in which `InitKey` resolves the key URL. -/
def resolveState (s : Exec) : Exec :=
  (s.emit (Event.GetCert s.user_info_.issuer)).emit (Event.GetJwksUri s.user_info_.issuer)

/-- The state in which a check whose token `t` misses the token cache enters
`ParseJwt`. -/
def missState (ctx : Context) (w : World) (t : String) : Exec :=
  { lookupState ctx w t with
    world := w.afterLookup t
    trace := (lookupState ctx w t).trace ++ missEvents w t }

/-- The two shared states hold the same token cache, key cache and registry. -/
def sameStores (a b : World) : Prop :=
  a.jwt_cache = b.jwt_cache ∧ a.certs = b.certs ∧ a.jwks_uri = b.jwks_uri

/-- The run from `s` to `e` adds to the trace a list of calls of the shape `G`,
and changes the shared stores by the writes among these calls only. -/
def Produces (s e : Exec) (G : List Event → Prop) : Prop :=
  ∃ added, e.trace = s.trace ++ added ∧ G added ∧ sameStores e.world (replay added s.world)

/-- The writes to the issuer registry in a trace, in order: issuer, URL and
discovery flag. -/
def registryWrites (t : List Event) : List (String × String × Bool) :=
  t.filterMap fun e => match e with
    | Event.SetJwksUri issuer url valid => some (issuer, url, valid)
    | _ => none

namespace Sample

/-- The environment of `TestOpenIdFailed`: the discovery endpoint of issuer 1
answers with status OK and an empty body. -/
def emptyDiscoveryEnv : Env :=
  { env with
    RunHTTPRequest := fun n url =>
      if url = kIssuer1OpenIdUrl then
        { ret := Status.OK, completion := some (Status.OK, ""), delay := 1 }
      else env.RunHTTPRequest n url }

end Sample

/-- The calls of the stages after parsing: the evaluation of the method policy,
the reads and writes of the key cache and of the issuer registry, and the HTTP
requests. -/
def Event.pastParsing : Event → Bool
  | Event.isIssuerAllowed _ => true
  | Event.isAudienceAllowed _ _ => true
  | Event.GetCert _ => true
  | Event.CertsUpdate _ _ _ => true
  | Event.GetJwksUri _ => true
  | Event.SetJwksUri _ _ _ => true
  | Event.HttpGet _ => true
  | _ => false

namespace Sample

/-- The initial shared state with one token-cache entry, for `kToken`, inserted
a minute before `kNow` and expiring at `kNow` exactly. -/
def boundaryWorld : World :=
  { world with
    jwt_cache :=
      JwtCache.Insert world.jwt_cache "kToken"
        { id := kSub, issuer := kIss, audiences := [kServiceName] } kNow (kNow - 60) }

/-- An environment whose fetcher refuses to dispatch every request. -/
def refusingEnv : Env :=
  { env with
    RunHTTPRequest := fun _ _ =>
      { ret := { code := 14, message := "unreachable", cause := ErrorCause.INTERNAL }
        completion := none
        delay := 0 } }

end Sample

namespace Sample

/-- A method that accepts issuers 1 and 2 with any audience. -/
def openMethod : MethodInfo :=
  { auth := true
    isIssuerAllowed := fun i => i = kIss || i = kIss2
    isAudienceAllowed := fun _ _ => true }

/-- A request with the given `authorization` header to the method
`openMethod`. -/
def openCtx (header : Option String) : Context :=
  { ctx header none with method := some openMethod }

/-- An environment whose key-set endpoints answer with status OK and an empty
body; discovery works as in `env`. -/
def emptyKeyEnv : Env :=
  { env with
    RunHTTPRequest := fun n url =>
      if url = kIssuer1PubkeyUrl ∨ url = kIssuer2PubkeyUrl then
        { ret := Status.OK, completion := some (Status.OK, ""), delay := 1 }
      else env.RunHTTPRequest n url }

/-- An environment whose discovery document for issuer 1 has an empty
`jwks_uri`, and whose request to the empty URL completes with an error
status. -/
def emptyUriEnv : Env :=
  { env with
    RunHTTPRequest := fun n url =>
      if url = kIssuer1OpenIdUrl then
        { ret := Status.OK, completion := some (Status.OK, "jwks_uri="), delay := 1 }
      else if url = "" then
        { ret := Status.OK
          completion :=
            some ({ code := 3, message := "invalid url", cause := ErrorCause.INTERNAL }, "")
          delay := 1 }
      else env.RunHTTPRequest n url }

end Sample

/-- The issuers whose key URL a trace resolves through the registry, in
order. -/
def resolutions (t : List Event) : List String :=
  t.filterMap fun e => match e with
    | Event.GetJwksUri issuer => some issuer
    | _ => none

namespace Sample

/-- The shared state `warmWorld` at the instant `n`. -/
def warmWorldAt (n : Nat) : World := { warmWorld with now := n }

/-- The initial shared state after a failed discovery for issuer 1: the
registry holds the empty key URL for it. -/
def negativeWorld : World :=
  { world with jwks_uri := Registry.SetJwksUri world.jwks_uri kIss "" false }

end Sample

/-- The seven fixed reasons of the specification's table of denial messages. -/
def tableReasons : List String :=
  ["Missing or invalid credentials", "Issuer not allowed", "Audience not allowed",
   "Cannot determine the URI of the key",
   "Unable to fetch URI of the key via OpenID discovery",
   "Unable to fetch verification key", "Missing verification key"]

/-- The fixed reasons of the denials of `check_auth.cc`: the seven of the
table, and the two of a validator that cannot be created and of a key-set
request that is not dispatched. -/
def fixedReasons : List String :=
  tableReasons ++ ["Internal error", "Unable to fetch public key"]

/-- A status the key stage of a check with the validator `v` can report: Allow,
a denial for a fixed reason, or a denial with an error text of the signature
verification of `v`. -/
def KeyStatus (v : JwtValidator) (st : Status) : Prop :=
  st = Status.OK ∨ (∃ r, r ∈ fixedReasons ∧ st = denial r) ∨
    ∃ key, st = denial (v.VerifySignature key).message

/-- The tokens whose token-cache entry a trace removes, in order. -/
def removes (t : List Event) : List String :=
  t.filterMap fun e => match e with
    | Event.JwtCacheRemove token => some token
    | _ => none

/-- A stretch of a trace with no token-cache write and no signature
verification. -/
def quiet (l : List Event) : Prop := inserts l = [] ∧ removes l = [] ∧ verifies l = []

/-- The calls from the signature verification of the token `t` against `key` to
the Allow completion. -/
def verifiedEvents (t : String) (info : UserInfo) (v : JwtValidator) (key : String) (n : Nat) :
    List Event :=
  [Event.ValidatorVerifySignature t key, Event.ValidatorGetExpirationTime t,
   Event.JwtCacheInsert t info v.GetExpirationTime n, Event.SetUserInfo info,
   Event.on_done Status.OK]

/-- What the stages from the policy on add to a trace, as far as the token
cache goes: either no token-cache write, with every signature verification
failed; or one successful signature verification followed at once by the
insertion of the token's entry, `SetUserInfo` and the Allow completion, and
nothing else that writes the token cache or verifies a signature. -/
def KeyShape (t : String) (info : UserInfo) (v : JwtValidator) (added : List Event) : Prop :=
  (inserts added = [] ∧ removes added = [] ∧ Status.OK ∉ completions added ∧
    ∀ p ∈ verifies added, (v.VerifySignature p.2).ok = false) ∨
  (∃ key n pre post, (v.VerifySignature key).ok = true ∧
    added = pre ++ verifiedEvents t info v key n ++ post ∧ quiet pre ∧ quiet post)

/-! ## The key stage of a check, with what it reads -/

/-- What `VerifySignature` adds to the trace when its key-cache lookup finds the
blob `key` for the issuer, at the time `now`. -/
inductive VerifyRun (t : String) (info : UserInfo) (v : JwtValidator) (key : String)
    (now : Nat) : List Event → Prop where
  | failed (h : (v.VerifySignature key).ok = false) :
      VerifyRun t info v key now
        [Event.GetCert info.issuer, Event.ValidatorVerifySignature t key,
         Event.on_done (denial (v.VerifySignature key).message)]
  | verified (h : (v.VerifySignature key).ok = true) :
      VerifyRun t info v key now
        [Event.GetCert info.issuer, Event.ValidatorVerifySignature t key,
         Event.ValidatorGetExpirationTime t,
         Event.JwtCacheInsert t info v.GetExpirationTime now,
         Event.SetUserInfo info, Event.on_done Status.OK]

/-- What `FetchPubKey` adds to the trace when it issues the request number
`idx` of the check, to `url`, at the time `now`: the request is left without
completion, or completes with a failure, or completes OK with a non-empty body,
which is stored in the key cache and then read back by `VerifySignature`. -/
inductive FetchRun (env : Env) (t : String) (info : UserInfo) (v : JwtValidator) (idx : Nat)
    (url : String) (now : Nat) : List Event → Prop where
  | dropped (h : (env.RunHTTPRequest idx url).completion = none) :
      FetchRun env t info v idx url now
        ([Event.LogDebug ("http fetch: " ++ url), Event.HttpGet url] ++
          dispatchDenial (env.RunHTTPRequest idx url).ret.ok "Unable to fetch public key")
  | failed (st : Status) (body : String)
      (h : (env.RunHTTPRequest idx url).completion = some (st, body))
      (hf : st.ok = false ∨ body.isEmpty = true) :
      FetchRun env t info v idx url now
        ([Event.LogDebug ("http fetch: " ++ url), Event.HttpGet url,
          Event.on_done (denial "Unable to fetch verification key")] ++
          dispatchDenial (env.RunHTTPRequest idx url).ret.ok "Unable to fetch public key")
  | stored (st : Status) (body : String) (tail : List Event)
      (h : (env.RunHTTPRequest idx url).completion = some (st, body))
      (hok : st.ok = true) (hb : body.isEmpty = false)
      (ht : VerifyRun t info v body (now + (env.RunHTTPRequest idx url).delay) tail) :
      FetchRun env t info v idx url now
        ([Event.LogDebug ("http fetch: " ++ url), Event.HttpGet url,
          Event.CertsUpdate info.issuer body
            (now + (env.RunHTTPRequest idx url).delay + 300)] ++ tail ++
          dispatchDenial (env.RunHTTPRequest idx url).ret.ok "Unable to fetch public key")

/-- What `InitKey` adds to the trace when it runs from the state `s` with the
validator `v`, by what it finds in the key cache and the registry and by what
the fetcher does. -/
inductive KeyRun (env : Env) (v : JwtValidator) (s : Exec) : List Event → Prop where
  | cached (cert : String × Nat) (tail : List Event)
      (hc : s.world.certs s.user_info_.issuer = some cert) (hn : s.world.now ≤ cert.2)
      (ht : VerifyRun s.auth_token_ s.user_info_ v cert.1 s.world.now tail) :
      KeyRun env v s (Event.GetCert s.user_info_.issuer :: tail)
  | no_url
      (hstale : ∀ cert, s.world.certs s.user_info_.issuer = some cert → cert.2 < s.world.now)
      (hu : (s.world.jwks_uri s.user_info_.issuer).1.isEmpty = true) :
      KeyRun env v s
        [Event.GetCert s.user_info_.issuer, Event.GetJwksUri s.user_info_.issuer,
         Event.on_done (denial "Cannot determine the URI of the key")]
  | fetch (tail : List Event)
      (hstale : ∀ cert, s.world.certs s.user_info_.issuer = some cert → cert.2 < s.world.now)
      (hu : (s.world.jwks_uri s.user_info_.issuer).1.isEmpty = false)
      (ho : (s.world.jwks_uri s.user_info_.issuer).2 = false)
      (ht : FetchRun env s.auth_token_ s.user_info_ v (httpGets s.trace).length
        (s.world.jwks_uri s.user_info_.issuer).1 s.world.now tail) :
      KeyRun env v s
        ([Event.GetCert s.user_info_.issuer, Event.GetJwksUri s.user_info_.issuer] ++ tail)
  | discover_dropped
      (hstale : ∀ cert, s.world.certs s.user_info_.issuer = some cert → cert.2 < s.world.now)
      (hu : (s.world.jwks_uri s.user_info_.issuer).1.isEmpty = false)
      (ho : (s.world.jwks_uri s.user_info_.issuer).2 = true)
      (h : (env.RunHTTPRequest (httpGets s.trace).length
        (s.world.jwks_uri s.user_info_.issuer).1).completion = none) :
      KeyRun env v s
        ([Event.GetCert s.user_info_.issuer, Event.GetJwksUri s.user_info_.issuer,
          Event.LogDebug ("http fetch: " ++ (s.world.jwks_uri s.user_info_.issuer).1),
          Event.HttpGet (s.world.jwks_uri s.user_info_.issuer).1] ++
          dispatchDenial (env.RunHTTPRequest (httpGets s.trace).length
            (s.world.jwks_uri s.user_info_.issuer).1).ret.ok
            "Unable to fetch URI of the key via OpenID discovery")
  | discover_failed (st : Status) (body : String) (pre : List Event)
      (hstale : ∀ cert, s.world.certs s.user_info_.issuer = some cert → cert.2 < s.world.now)
      (hu : (s.world.jwks_uri s.user_info_.issuer).1.isEmpty = false)
      (ho : (s.world.jwks_uri s.user_info_.issuer).2 = true)
      (h : (env.RunHTTPRequest (httpGets s.trace).length
        (s.world.jwks_uri s.user_info_.issuer).1).completion = some (st, body))
      (hf : (st.ok = false ∧ pre = []) ∨
        (st.ok = true ∧ jwksUriOf env body = none ∧
          pre = [Event.LogError "OpenID discovery failed due to invalid doc format"])) :
      KeyRun env v s
        ([Event.GetCert s.user_info_.issuer, Event.GetJwksUri s.user_info_.issuer,
          Event.LogDebug ("http fetch: " ++ (s.world.jwks_uri s.user_info_.issuer).1),
          Event.HttpGet (s.world.jwks_uri s.user_info_.issuer).1] ++ pre ++
          [Event.SetJwksUri s.user_info_.issuer "" false,
           Event.on_done (denial "Unable to fetch URI of the key via OpenID discovery")] ++
          dispatchDenial (env.RunHTTPRequest (httpGets s.trace).length
            (s.world.jwks_uri s.user_info_.issuer).1).ret.ok
            "Unable to fetch URI of the key via OpenID discovery")
  | discover_found (st : Status) (body u : String) (tail : List Event)
      (hstale : ∀ cert, s.world.certs s.user_info_.issuer = some cert → cert.2 < s.world.now)
      (hu : (s.world.jwks_uri s.user_info_.issuer).1.isEmpty = false)
      (ho : (s.world.jwks_uri s.user_info_.issuer).2 = true)
      (h : (env.RunHTTPRequest (httpGets s.trace).length
        (s.world.jwks_uri s.user_info_.issuer).1).completion = some (st, body))
      (hok : st.ok = true) (hfound : jwksUriOf env body = some u)
      (ht : FetchRun env s.auth_token_ s.user_info_ v ((httpGets s.trace).length + 1) u
        (s.world.now + (env.RunHTTPRequest (httpGets s.trace).length
          (s.world.jwks_uri s.user_info_.issuer).1).delay) tail) :
      KeyRun env v s
        ([Event.GetCert s.user_info_.issuer, Event.GetJwksUri s.user_info_.issuer,
          Event.LogDebug ("http fetch: " ++ (s.world.jwks_uri s.user_info_.issuer).1),
          Event.HttpGet (s.world.jwks_uri s.user_info_.issuer).1,
          Event.SetJwksUri s.user_info_.issuer u false] ++ tail ++
          dispatchDenial (env.RunHTTPRequest (httpGets s.trace).length
            (s.world.jwks_uri s.user_info_.issuer).1).ret.ok
            "Unable to fetch URI of the key via OpenID discovery")

/-- The signature verification `p` (token and key blob) in the stretch `added`
of a trace that starts in the shared state `w0` at the time `now`, for the
issuer `issuer`: the verification follows at once a read of the key cache,
which at this point holds the blob of `p` for the issuer, with expiry `exp`;
nothing is stored in the key cache after it; and either the stretch stores
nothing and the entry is the one found in `w0`, not expired at `now`, or the
stretch stores once, before the read, the body that a request of the check
delivered with status OK, and this body is the blob. -/
def VerifiesStored (env : Env) (issuer : String) (w0 : World) (now : Nat)
    (added : List Event) (p : String × String) (exp : Nat) : Prop :=
  ∃ pre post,
    added = pre ++ [Event.GetCert issuer, Event.ValidatorVerifySignature p.1 p.2] ++ post ∧
    (replay pre w0).certs issuer = some (p.2, exp) ∧ updates post = [] ∧
    ((updates added = [] ∧ w0.certs issuer = some (p.2, exp) ∧ now ≤ exp) ∨
     (∃ idx url st, (env.RunHTTPRequest idx url).completion = some (st, p.2) ∧ st.ok = true ∧
        url ∈ httpGets pre ∧ updates added = [(issuer, p.2, exp)]))

/-- One step of the scan of a trace for a key-cache read that is directly
followed by a completion, which is what `VerifySignature` leaves when its read
finds no entry: the state is whether such a pair was seen, and whether the last
call was a key-cache read. -/
def missScan (st : Bool × Bool) (e : Event) : Bool × Bool :=
  match e with
  | Event.on_done _ => (st.1 || st.2, false)
  | Event.GetCert _ => (st.1, true)
  | _ => (st.1, false)

/-- Whether a trace has a key-cache read that is directly followed by a
completion. -/
def missingKey (l : List Event) : Bool := (l.foldl missScan (false, false)).1

/-- The fixed reasons of the denials a check can report when the shared state
is written by this check only: those of `fixedReasons` but `Missing
verification key`. -/
def reachableReasons : List String :=
  ["Missing or invalid credentials", "Issuer not allowed", "Audience not allowed",
   "Cannot determine the URI of the key",
   "Unable to fetch URI of the key via OpenID discovery",
   "Unable to fetch verification key", "Internal error", "Unable to fetch public key"]

/-- A status the key stage of a check with the validator `v` reports: Allow, a
denial for one of the `reachableReasons`, or a denial with an error text of the
signature verification of `v`. -/
def RunStatus (v : JwtValidator) (st : Status) : Prop :=
  st = Status.OK ∨ (∃ r, r ∈ reachableReasons ∧ st = denial r) ∨
    ∃ key, st = denial (v.VerifySignature key).message

namespace Sample

/-- An environment whose fetcher, for the key-set URL of issuer 2, both invokes
the continuation (status OK, the key set) and returns a non-OK dispatch
status. -/
def doubleKeyEnv : Env :=
  { env with
    RunHTTPRequest := fun n url =>
      if url = kIssuer2PubkeyUrl then
        { ret := { code := 14, message := "unreachable", cause := ErrorCause.INTERNAL }
          completion := some (Status.OK, kPubkey)
          delay := 1 }
      else env.RunHTTPRequest n url }

/-- An environment whose fetcher, for the discovery URL of issuer 1, both
invokes the continuation (status OK, the discovery document) and returns a
non-OK dispatch status. -/
def doubleDiscoveryEnv : Env :=
  { env with
    RunHTTPRequest := fun n url =>
      if url = kIssuer1OpenIdUrl then
        { ret := { code := 14, message := "unreachable", cause := ErrorCause.INTERNAL }
          completion := some (Status.OK, kOpenIdContent)
          delay := 1 }
      else env.RunHTTPRequest n url }

end Sample

/-- The calls of the key stage of a check, from `InitKey` to the insertion
into the token cache: the reads and writes of the key cache and of the issuer
registry, the HTTP requests, the signature verification, the read of the
expiration time and the token-cache insertion. -/
def Event.keyStage : Event → Bool
  | Event.GetCert _ => true
  | Event.CertsUpdate _ _ _ => true
  | Event.GetJwksUri _ => true
  | Event.SetJwksUri _ _ _ => true
  | Event.HttpGet _ => true
  | Event.ValidatorVerifySignature _ _ => true
  | Event.ValidatorGetExpirationTime _ => true
  | Event.JwtCacheInsert _ _ _ _ => true
  | _ => false

/-- The tokens passed to `SetAuthToken` in a trace, in order. -/
def authTokens (t : List Event) : List String :=
  t.filterMap fun e => match e with
    | Event.SetAuthToken token => some token
    | _ => none

/-- A stretch of a trace as far as `SetUserInfo` and the Allow completion go:
either it has neither, or it has exactly one `SetUserInfo`, with `info`,
directly followed by the only Allow completion. -/
def AllowShape (info : UserInfo) (l : List Event) : Prop :=
  (userInfos l = [] ∧ Status.OK ∉ completions l) ∨
  (∃ pre post, l = pre ++ [Event.SetUserInfo info, Event.on_done Status.OK] ++ post ∧
    userInfos pre = [] ∧ userInfos post = [] ∧
    Status.OK ∉ completions pre ∧ Status.OK ∉ completions post)

/-- The kinds of call that mark the steps of the state machine: the header read
of `GetAuthToken`, the lookup of `LookupJwtCache`, the validator creation of
`ParseJwt`, the issuer report of `CheckAudience`, the key-cache read of
`InitKey` and of `VerifySignature`, the registry read of `InitKey`, the request
of `DiscoverJwksUri` and of `FetchPubKey`, the registry write of
`PostFetchJwksUri`, the key-cache write of `PostFetchPubKey`, the signature
verification of `VerifySignature`, and the `SetUserInfo` of
`PassUserInfoOnSuccess`. -/
inductive Call where
  | FindHeader
  | JwtCacheLookup
  | ValidatorCreate
  | set_auth_issuer
  | GetCert
  | GetJwksUri
  | HttpGet
  | SetJwksUri
  | CertsUpdate
  | ValidatorVerifySignature
  | SetUserInfo
  deriving DecidableEq, Repr

/-- The kind of a call, when it marks a step. -/
def Event.call : Event → Option Call
  | Event.FindHeader _ => some Call.FindHeader
  | Event.JwtCacheLookup _ => some Call.JwtCacheLookup
  | Event.ValidatorCreate _ => some Call.ValidatorCreate
  | Event.set_auth_issuer _ => some Call.set_auth_issuer
  | Event.GetCert _ => some Call.GetCert
  | Event.GetJwksUri _ => some Call.GetJwksUri
  | Event.HttpGet _ => some Call.HttpGet
  | Event.SetJwksUri _ _ _ => some Call.SetJwksUri
  | Event.CertsUpdate _ _ _ => some Call.CertsUpdate
  | Event.ValidatorVerifySignature _ _ => some Call.ValidatorVerifySignature
  | Event.SetUserInfo _ => some Call.SetUserInfo
  | _ => none

/-- The marking calls of a trace, in order. -/
def calls (l : List Event) : List Call := l.filterMap Event.call

/-- The marking calls of the steps from `InitKey` on, in the order in which the
code chains the steps: `InitKey`, `DiscoverJwksUri`, `PostFetchJwksUri`,
`FetchPubKey`, `PostFetchPubKey`, `VerifySignature`, `PassUserInfoOnSuccess`. -/
def keyPipeline : List Call :=
  [Call.GetCert, Call.GetJwksUri, Call.HttpGet, Call.SetJwksUri, Call.HttpGet, Call.CertsUpdate,
   Call.GetCert, Call.ValidatorVerifySignature, Call.SetUserInfo]

/-- The marking calls of all steps, in the order in which the code chains the
steps: `GetAuthToken`, `LookupJwtCache`, `ParseJwt`, `CheckAudience`, then the
steps of `keyPipeline`. -/
def pipeline : List Call :=
  [Call.FindHeader, Call.JwtCacheLookup, Call.ValidatorCreate, Call.set_auth_issuer] ++
    keyPipeline

/-- The requests `gets` of a key stage that runs for `issuer` in the shared
state `w` and whose first request has the number `idx`: none, when the key
cache holds an entry of the issuer that has not expired or the registry gives
the empty URL; otherwise the entry is absent or expired, the URL of the
registry is not empty, and the requests are: the URL alone when it needs no
discovery (the key-set request); the URL alone when it needs discovery and the
discovery request delivers no key URL; the URL and then the key URL `u` taken
from the document that the discovery request delivers with status OK. -/
def KeyGets (env : Env) (issuer : String) (w : World) (idx : Nat) (gets : List String) : Prop :=
  (gets = [] ∧
    ((∃ cert, w.certs issuer = some cert ∧ w.now ≤ cert.2) ∨
      (w.jwks_uri issuer).1.isEmpty = true)) ∨
  ((∀ cert, w.certs issuer = some cert → cert.2 < w.now) ∧
    (w.jwks_uri issuer).1.isEmpty = false ∧
    (((w.jwks_uri issuer).2 = false ∧ gets = [(w.jwks_uri issuer).1]) ∨
     ((w.jwks_uri issuer).2 = true ∧ gets = [(w.jwks_uri issuer).1] ∧
       ∀ st body, (env.RunHTTPRequest idx (w.jwks_uri issuer).1).completion = some (st, body) →
         st.ok = true → jwksUriOf env body = none) ∨
     ((w.jwks_uri issuer).2 = true ∧
       ∃ st body u,
         (env.RunHTTPRequest idx (w.jwks_uri issuer).1).completion = some (st, body) ∧
         st.ok = true ∧ jwksUriOf env body = some u ∧ gets = [(w.jwks_uri issuer).1, u])))

/-! ## Fetchers -/

/-- A fetch result of a fetcher that honours its contract: it either returns an
error status and never invokes the continuation, or returns OK and invokes the
continuation (once). -/
def FetchResult.wellBehaved (r : FetchResult) : Prop :=
  (r.ret.ok = false ∧ r.completion = none) ∨ (r.ret.ok = true ∧ r.completion.isSome = true)

/-- The request completes with an OK status and the given body. -/
def FetchResult.delivers (r : FetchResult) (body : String) : Prop :=
  ∃ status, status.ok = true ∧ r.completion = some (status, body)

/-- Number of times the final continuation has been invoked. -/
def doneCount (s : Exec) : Nat := (completions s.trace).length

/-- The check of the token `t` with parsed user info `info` enters
`FetchPubKey` for the key URL `k` from the state `s0`: either the registry
yields `k` with no discovery required, or it yields a discovery URL whose
request, dispatched with status OK, delivered a document whose `jwks_uri` is
`k`. -/
def EntersKeyFetch (env : Env) (ctx : Context) (w : World) (t : String) (info : UserInfo)
    (k : String) (s0 : Exec) : Prop :=
  (w.jwks_uri info.issuer = (k, false) ∧ k.isEmpty = false ∧
    s0 = keyLookupState env ctx w t info) ∨
  (∃ d doc, w.jwks_uri info.issuer = (d, true) ∧ d.isEmpty = false ∧
    (env.RunHTTPRequest 0 d).ret.ok = true ∧ (env.RunHTTPRequest 0 d).delivers doc ∧
    jwksUriOf env doc = some k ∧ s0 = discoveredState env ctx w t info d k)

/-! ## Basic facts about traces -/

@[simp] theorem completions_nil : completions [] = [] := rfl

@[simp] theorem completions_append (a b : List Event) :
    completions (a ++ b) = completions a ++ completions b := by
  simp [completions, List.filterMap_append]

@[simp] theorem httpGets_nil : httpGets [] = [] := rfl

@[simp] theorem httpGets_append (a b : List Event) :
    httpGets (a ++ b) = httpGets a ++ httpGets b := by
  simp [httpGets, List.filterMap_append]

@[simp] theorem completions_cons (e : Event) (t : List Event) :
    completions (e :: t) =
      (match e with
        | Event.on_done st => [st]
        | _ => []) ++ completions t := by
  cases e <;> simp [completions, List.filterMap_cons]

@[simp] theorem httpGets_cons (e : Event) (t : List Event) :
    httpGets (e :: t) =
      (match e with
        | Event.HttpGet u => [u]
        | _ => []) ++ httpGets t := by
  cases e <;> simp [httpGets, List.filterMap_cons]

@[simp] theorem userInfos_nil : userInfos [] = [] := rfl

@[simp] theorem userInfos_append (a b : List Event) :
    userInfos (a ++ b) = userInfos a ++ userInfos b := by
  simp [userInfos, List.filterMap_append]

@[simp] theorem userInfos_cons (e : Event) (t : List Event) :
    userInfos (e :: t) =
      (match e with
        | Event.SetUserInfo info => [info]
        | _ => []) ++ userInfos t := by
  cases e <;> simp [userInfos, List.filterMap_cons]

@[simp] theorem inserts_nil : inserts [] = [] := rfl

@[simp] theorem inserts_append (a b : List Event) :
    inserts (a ++ b) = inserts a ++ inserts b := by
  simp [inserts, List.filterMap_append]

@[simp] theorem inserts_cons (e : Event) (t : List Event) :
    inserts (e :: t) =
      (match e with
        | Event.JwtCacheInsert token info exp now => [(token, info, exp, now)]
        | _ => []) ++ inserts t := by
  cases e <;> simp [inserts, List.filterMap_cons]

@[simp] theorem verifies_nil : verifies [] = [] := rfl

@[simp] theorem verifies_append (a b : List Event) :
    verifies (a ++ b) = verifies a ++ verifies b := by
  simp [verifies, List.filterMap_append]

@[simp] theorem verifies_cons (e : Event) (t : List Event) :
    verifies (e :: t) =
      (match e with
        | Event.ValidatorVerifySignature token key => [(token, key)]
        | _ => []) ++ verifies t := by
  cases e <;> simp [verifies, List.filterMap_cons]

@[simp] theorem updates_nil : updates [] = [] := rfl

@[simp] theorem updates_append (a b : List Event) :
    updates (a ++ b) = updates a ++ updates b := by
  simp [updates, List.filterMap_append]

@[simp] theorem updates_cons (e : Event) (t : List Event) :
    updates (e :: t) =
      (match e with
        | Event.CertsUpdate issuer blob exp => [(issuer, blob, exp)]
        | _ => []) ++ updates t := by
  cases e <;> simp [updates, List.filterMap_cons]

@[simp] theorem emit_validator (s : Exec) (e : Event) : (s.emit e).validator_ = s.validator_ := rfl

@[simp] theorem emit_user_info (s : Exec) (e : Event) : (s.emit e).user_info_ = s.user_info_ := rfl

@[simp] theorem emit_auth_token (s : Exec) (e : Event) :
    (s.emit e).auth_token_ = s.auth_token_ := rfl

@[simp] theorem emit_world (s : Exec) (e : Event) : (s.emit e).world = s.world := rfl

@[simp] theorem emit_trace (s : Exec) (e : Event) : (s.emit e).trace = s.trace ++ [e] := rfl

/-! ## Exactly-once completion -/

theorem doneCount_Unauthorized (error : String) (s : Exec) :
    doneCount (Unauthorized error s) = doneCount s + 1 := by
  simp [doneCount, Unauthorized]

theorem doneCount_PassUserInfoOnSuccess (s : Exec) :
    doneCount (PassUserInfoOnSuccess s) = doneCount s + 1 := by
  simp [doneCount, PassUserInfoOnSuccess]

theorem doneCount_VerifySignature (s : Exec) (hv : s.validator_.isSome = true) :
    doneCount (VerifySignature s) = doneCount s + 1 := by
  obtain ⟨v, hv⟩ := Option.isSome_iff_exists.mp hv
  unfold VerifySignature
  simp only [emit_validator, emit_world, emit_user_info, hv]
  repeat' split
  all_goals simp [doneCount, Unauthorized, PassUserInfoOnSuccess]

theorem doneCount_PostFetchPubKey (status : Status) (body : String) (s : Exec)
    (hv : s.validator_.isSome = true) :
    doneCount (PostFetchPubKey status body s) = doneCount s + 1 := by
  unfold PostFetchPubKey
  split
  · exact doneCount_Unauthorized _ _
  · rw [doneCount_VerifySignature _ (by simpa using hv)]
    simp [doneCount]

theorem HttpFetch_none (env : Env) (url : String) (k : Status → String → Exec → Exec) (s : Exec)
    (h : (env.RunHTTPRequest (httpGets s.trace).length url).completion = none) :
    HttpFetch env url k s =
      ((env.RunHTTPRequest (httpGets s.trace).length url).ret,
        (s.emit (Event.LogDebug ("http fetch: " ++ url))).emit (Event.HttpGet url)) := by
  simp [HttpFetch, h]

theorem HttpFetch_some (env : Env) (url : String) (k : Status → String → Exec → Exec) (s : Exec)
    (status : Status) (body : String)
    (h : (env.RunHTTPRequest (httpGets s.trace).length url).completion = some (status, body)) :
    HttpFetch env url k s =
      ((env.RunHTTPRequest (httpGets s.trace).length url).ret,
        k (status.SetErrorCause ErrorCause.AUTH) body
          { ((s.emit (Event.LogDebug ("http fetch: " ++ url))).emit (Event.HttpGet url)) with
            world :=
              { s.world with
                now := s.world.now + (env.RunHTTPRequest (httpGets s.trace).length url).delay } }) := by
  simp [HttpFetch, h]

theorem doneCount_FetchPubKey (env : Env) (url : String) (s : Exec)
    (hf : ∀ i u, (env.RunHTTPRequest i u).wellBehaved)
    (hv : s.validator_.isSome = true) :
    doneCount (FetchPubKey env url s) = doneCount s + 1 := by
  unfold FetchPubKey
  rcases hf (httpGets s.trace).length url with ⟨h1, h2⟩ | ⟨h1, h2⟩
  · rw [HttpFetch_none env url _ s h2]
    simp [h1, doneCount_Unauthorized]
    simp [doneCount]
  · obtain ⟨c, hc⟩ := Option.isSome_iff_exists.mp h2
    rw [HttpFetch_some env url _ s c.1 c.2 hc]
    simp only [h1, Bool.not_true, Bool.false_eq_true, if_false]
    rw [doneCount_PostFetchPubKey _ _ _ (by simpa using hv)]
    simp [doneCount]

theorem doneCount_PostFetchJwksUri (env : Env) (status : Status) (body : String) (s : Exec)
    (hf : ∀ i u, (env.RunHTTPRequest i u).wellBehaved)
    (hv : s.validator_.isSome = true) :
    doneCount (PostFetchJwksUri env status body s) = doneCount s + 1 := by
  unfold PostFetchJwksUri
  dsimp only
  repeat' split
  all_goals first
    | (rw [doneCount_Unauthorized]; simp [doneCount])
    | (rw [doneCount_FetchPubKey env _ _ hf (by simpa using hv)]; simp [doneCount])

theorem doneCount_DiscoverJwksUri (env : Env) (url : String) (s : Exec)
    (hf : ∀ i u, (env.RunHTTPRequest i u).wellBehaved)
    (hv : s.validator_.isSome = true) :
    doneCount (DiscoverJwksUri env url s) = doneCount s + 1 := by
  unfold DiscoverJwksUri
  rcases hf (httpGets s.trace).length url with ⟨h1, h2⟩ | ⟨h1, h2⟩
  · rw [HttpFetch_none env url _ s h2]
    simp [h1, doneCount_Unauthorized]
    simp [doneCount]
  · obtain ⟨c, hc⟩ := Option.isSome_iff_exists.mp h2
    rw [HttpFetch_some env url _ s c.1 c.2 hc]
    simp only [h1, Bool.not_true, Bool.false_eq_true, if_false]
    rw [doneCount_PostFetchJwksUri env _ _ _ hf (by simpa using hv)]
    simp [doneCount]

theorem doneCount_InitKey (env : Env) (s : Exec)
    (hf : ∀ i u, (env.RunHTTPRequest i u).wellBehaved)
    (hv : s.validator_.isSome = true) :
    doneCount (InitKey env s) = doneCount s + 1 := by
  unfold InitKey
  dsimp only
  split_ifs
  · rw [doneCount_Unauthorized]; simp [doneCount]
  · rw [doneCount_DiscoverJwksUri env _ _ hf (by simpa using hv)]; simp [doneCount]
  · rw [doneCount_FetchPubKey env _ _ hf (by simpa using hv)]; simp [doneCount]
  · rw [doneCount_VerifySignature _ (by simpa using hv)]; simp [doneCount]

theorem doneCount_CheckAudience (env : Env) (ctx : Context) (cache_hit : Bool) (s : Exec)
    (hf : ∀ i u, (env.RunHTTPRequest i u).wellBehaved)
    (hm : ctx.method.isSome = true)
    (hv : cache_hit = true ∨ s.validator_.isSome = true) :
    doneCount (CheckAudience env ctx cache_hit s) = doneCount s + 1 := by
  obtain ⟨m, hm⟩ := Option.isSome_iff_exists.mp hm
  unfold CheckAudience
  simp only [hm, emit_user_info]
  split_ifs with h1 h2 h3 h4 h5 h6 h7
  all_goals first
    | (rw [doneCount_Unauthorized]; simp [doneCount])
    | (rw [doneCount_PassUserInfoOnSuccess]; simp [doneCount])
    | (rw [doneCount_InitKey env _ hf (by simpa using (hv.resolve_left (by assumption)))]
       simp [doneCount])

theorem doneCount_ParseJwt_parse (env : Env) (ctx : Context) (v : JwtValidator) (s : Exec)
    (hf : ∀ i u, (env.RunHTTPRequest i u).wellBehaved)
    (hm : ctx.method.isSome = true) (hv : s.validator_.isSome = true) :
    doneCount (ParseJwt.parse env ctx v s) = doneCount s + 1 := by
  unfold ParseJwt.parse
  dsimp only
  split_ifs
  · rw [doneCount_Unauthorized]; simp [doneCount]
  · rw [doneCount_CheckAudience env ctx _ _ hf hm (Or.inr (by simpa using hv))]
    simp [doneCount]

theorem doneCount_ParseJwt (env : Env) (ctx : Context) (s : Exec)
    (hf : ∀ i u, (env.RunHTTPRequest i u).wellBehaved)
    (hm : ctx.method.isSome = true) :
    doneCount (ParseJwt env ctx s) = doneCount s + 1 := by
  unfold ParseJwt
  dsimp only
  repeat' split
  · rw [doneCount_ParseJwt_parse env ctx _ _ hf hm (by simp [*])]
  · rw [doneCount_Unauthorized]; simp [doneCount]
  · rw [doneCount_ParseJwt_parse env ctx _ _ hf hm (by simp)]; simp [doneCount]

theorem doneCount_LookupJwtCache (env : Env) (ctx : Context) (s : Exec)
    (hf : ∀ i u, (env.RunHTTPRequest i u).wellBehaved)
    (hm : ctx.method.isSome = true) :
    doneCount (LookupJwtCache env ctx s) = doneCount s + 1 := by
  unfold LookupJwtCache
  dsimp only
  repeat' split
  · rw [doneCount_CheckAudience env ctx _ _ hf hm (Or.inl rfl)]; simp [doneCount]
  · rw [doneCount_ParseJwt env ctx _ hf hm]; simp [doneCount]
  · rw [doneCount_ParseJwt env ctx _ hf hm]; simp [doneCount]

theorem doneCount_GetAuthToken (ctx : Context) (s : Exec) :
    doneCount (GetAuthToken ctx s) = doneCount s := by
  unfold GetAuthToken
  dsimp only
  repeat' split
  all_goals simp [doneCount]

theorem doneCount_Check (env : Env) (ctx : Context) (s : Exec)
    (hf : ∀ i u, (env.RunHTTPRequest i u).wellBehaved) :
    doneCount (Check env ctx s) = doneCount s + 1 := by
  unfold Check
  dsimp only
  split_ifs with h1 h2
  · simp [doneCount]
  · rw [doneCount_Unauthorized, doneCount_GetAuthToken]
  · have hm : ctx.method.isSome = true := by
      cases hmm : ctx.method with
      | none => simp [hmm] at h1
      | some m => rfl
    rw [doneCount_LookupJwtCache env ctx _ hf hm]
    simp [doneCount]
    exact doneCount_GetAuthToken ctx s

/-- C1. For every request, every state of the token cache, key cache and issuer
registry, and every fetcher that for each GET either returns an error status
without invoking the continuation or returns OK and invokes the continuation
once, `CheckAuth` invokes the completion callback exactly once. -/
theorem CheckAuth_completes_exactly_once (env : Env) (ctx : Context) (w : World)
    (hf : ∀ i u, (env.RunHTTPRequest i u).wellBehaved) :
    (completions (CheckAuth env ctx w).trace).length = 1 := by
  have h := doneCount_Check env ctx (AuthChecker.new w) hf
  simpa [doneCount, CheckAuth, AuthChecker.new] using h

/-! ## Auth not required -/

theorem Check_not_required (env : Env) (ctx : Context) (w : World)
    (h : ctx.RequireAuth = false ∨ ctx.method = none ∨
      ∃ m, ctx.method = some m ∧ m.auth = false) :
    (CheckAuth env ctx w).trace =
        [Event.LogDebug "Auth not required.", Event.on_done Status.OK] ∧
      (CheckAuth env ctx w).world = w := by
  rcases h with h | h | ⟨m, h, hm⟩
  · simp [CheckAuth, Check, AuthChecker.new, h]
  · simp [CheckAuth, Check, AuthChecker.new, h]
  · simp [CheckAuth, Check, AuthChecker.new, h, hm]

/-- C2. If the service does not require auth, or the request has no method, or
the method's auth flag is off, the check does exactly two things: it logs
`Auth not required.` and invokes the completion with `Status::OK`.  The trace
holds no header or query read, no `SetAuthToken` or `SetUserInfo`, no cache or
registry access and no HTTP fetch, and the shared state is unchanged. -/
theorem CheckAuth_auth_not_required (env : Env) (ctx : Context) (w : World)
    (h : ctx.RequireAuth = false ∨ ctx.method = none ∨
      ∃ m, ctx.method = some m ∧ m.auth = false) :
    (CheckAuth env ctx w).trace =
        [Event.LogDebug "Auth not required.", Event.on_done Status.OK] ∧
      (CheckAuth env ctx w).world = w := by
  unfold CheckAuth Check
  rcases h with h | h | ⟨m, h, hm⟩
  · simp [AuthChecker.new, h]
  · simp [AuthChecker.new, h]
  · simp [AuthChecker.new, h, hm]

/-! ## Token extraction -/

theorem take_eq_iff_isPrefixOf (h : String) :
    (h.data.take bearer_len = kBearer.data) = (kBearer.data.isPrefixOf h.data = true) := by
  rw [List.isPrefixOf_iff_prefix, List.prefix_iff_eq_take]
  have : kBearer.data.length = bearer_len := by decide
  rw [this]
  exact propext eq_comm

theorem GetAuthToken_world (ctx : Context) (s : Exec) : (GetAuthToken ctx s).world = s.world := by
  unfold GetAuthToken
  dsimp only
  repeat' split
  all_goals rfl

theorem GetAuthToken_token (ctx : Context) (w : World) :
    (GetAuthToken ctx (AuthChecker.new w)).auth_token_ = GetAuthToken_reference ctx := by
  unfold GetAuthToken GetAuthToken_reference
  cases hh : ctx.FindHeader kAuthHeader with
  | none =>
    have hh2 : ctx.FindHeader "authorization" = none := hh
    cases hq : ctx.FindQuery kAccessTokenName with
    | none =>
      have hq2 : ctx.FindQuery "access_token" = none := hq
      simp [hh2, hq2, AuthChecker.new]
    | some q =>
      have hq2 : ctx.FindQuery "access_token" = some q := hq
      simp [hh2, hq2]
  | some h =>
    have hh2 : ctx.FindHeader "authorization" = some h := hh
    have hp := take_eq_iff_isPrefixOf h
    simp only [bearer_len, kBearer] at hp
    simp only [hh2, bearer_len, kBearer, Bool.or_eq_true, decide_eq_true_eq, bne_iff_ne, ne_eq,
      Bool.and_eq_true, gt_iff_lt, hp]
    by_cases h1 : h.length ≤ 7
    · simp [h1, Nat.not_lt.mpr h1]
    · by_cases h2 : "Bearer ".data.isPrefixOf h.data = true
      · simp [h1, h2, Nat.lt_of_not_le h1]
      · simp [h1, h2]

/-- C3. `GetAuthToken` computes the reference definition of the token: the
`access_token` query parameter (empty when absent) if there is no
`authorization` header, and otherwise the header without its first seven
characters if it begins with `Bearer ` and is longer than seven characters, the
empty string if not.  In particular the header `Bearer ` followed by a non-empty
`t` yields `t`. -/
theorem GetAuthToken_eq_reference (ctx : Context) (w : World) :
    (GetAuthToken ctx (AuthChecker.new w)).auth_token_ = GetAuthToken_reference ctx ∧
      ∀ t : String, t ≠ "" → ctx.FindHeader "authorization" = some ("Bearer " ++ t) →
        (GetAuthToken ctx (AuthChecker.new w)).auth_token_ = t := by
  refine ⟨GetAuthToken_token ctx w, ?_⟩
  intro t ht hh
  rw [GetAuthToken_token, GetAuthToken_reference, hh]
  have hlen : ("Bearer " ++ t).length > 7 := by
    have : t.length ≠ 0 := by
      intro h0
      apply ht
      cases t with
      | mk d =>
        have : d = [] := List.length_eq_zero.mp h0
        subst this
        rfl
    have h7 : ("Bearer " : String).length = 7 := by decide
    rw [String.length_append, h7]
    omega
  have hpre : "Bearer ".data.isPrefixOf ("Bearer " ++ t).data = true := by
    rw [List.isPrefixOf_iff_prefix, String.data_append]
    exact List.prefix_append _ _
  have hdrop : String.mk (("Bearer " ++ t).data.drop 7) = t := by
    rw [String.data_append]
    have h7 : ("Bearer " : String).data.length = 7 := by decide
    rw [← h7, List.drop_left]
  simp only [hlen, hpre, decide_True, Bool.and_self, if_true, hdrop]

theorem Sample.env_wellBehaved (i : Nat) (u : String) :
    (Sample.env.RunHTTPRequest i u).wellBehaved := by
  unfold Sample.env FetchResult.wellBehaved
  dsimp only
  split_ifs <;> simp [Status.ok, Status.OK, Code.OK]

/-- Witness of C1: the cold-discovery check of the sample service. -/
theorem CheckAuth_completes_exactly_once_witness :
    (∀ i u, (Sample.env.RunHTTPRequest i u).wellBehaved) ∧
      (completions (CheckAuth Sample.env (Sample.ctx (some "Bearer kToken") none)
        Sample.world).trace).length = 1 :=
  ⟨Sample.env_wellBehaved,
    CheckAuth_completes_exactly_once Sample.env (Sample.ctx (some "Bearer kToken") none)
      Sample.world Sample.env_wellBehaved⟩

/-- Witness of C2: a request that matched no method. -/
theorem CheckAuth_auth_not_required_witness :
    (CheckAuth Sample.env { Sample.ctx (some "Bearer kToken") none with method := none }
        Sample.world).trace =
        [Event.LogDebug "Auth not required.", Event.on_done Status.OK] ∧
      (CheckAuth Sample.env { Sample.ctx (some "Bearer kToken") none with method := none }
        Sample.world).world = Sample.world :=
  CheckAuth_auth_not_required Sample.env
    { Sample.ctx (some "Bearer kToken") none with method := none } Sample.world
    (Or.inr (Or.inl rfl))

/-- Witness of C3: the header `Bearer kToken` yields `kToken`. -/
theorem GetAuthToken_eq_reference_witness :
    (GetAuthToken (Sample.ctx (some "Bearer kToken") none)
      (AuthChecker.new Sample.world)).auth_token_ = "kToken" :=
  (GetAuthToken_eq_reference (Sample.ctx (some "Bearer kToken") none) Sample.world).2
    "kToken" (by decide) (by decide)

/-! ## Malformed header -/

theorem Check_auth_required (env : Env) (ctx : Context) (s : Exec) (m : MethodInfo)
    (hreq : ctx.RequireAuth = true) (hm : ctx.method = some m) (hauth : m.auth = true) :
    Check env ctx s =
      if (GetAuthToken ctx s).auth_token_.isEmpty then
        Unauthorized "Missing or invalid credentials" (GetAuthToken ctx s)
      else
        LookupJwtCache env ctx
          (((GetAuthToken ctx s).emit (Event.SetAuthToken (GetAuthToken ctx s).auth_token_)).emit
            (Event.LogDebug ("auth token: " ++ (GetAuthToken ctx s).auth_token_))) := by
  unfold Check
  simp [hreq, hm, hauth]

/-- C4. On an auth-requiring method, an `authorization` header that does not
begin with `Bearer ` or is not longer than 7 characters is denied with
`Missing or invalid credentials`, whatever the `access_token` query parameter
is: the check reads the header and invokes the completion, and nothing else (no
query read, no `SetAuthToken`, no cache lookup, no parse, no fetch). -/
theorem CheckAuth_malformed_header (env : Env) (ctx : Context) (w : World) (m : MethodInfo)
    (h : String)
    (hreq : ctx.RequireAuth = true) (hm : ctx.method = some m) (hauth : m.auth = true)
    (hh : ctx.FindHeader "authorization" = some h)
    (hbad : "Bearer ".data.isPrefixOf h.data = false ∨ h.length ≤ 7) :
    (CheckAuth env ctx w).trace =
        [Event.FindHeader "authorization",
         Event.on_done
           { code := Code.UNAUTHENTICATED
             message := "JWT validation failed: Missing or invalid credentials"
             cause := ErrorCause.AUTH }] ∧
      (CheckAuth env ctx w).world = w := by
  have htok : (GetAuthToken ctx (AuthChecker.new w)).auth_token_ = "" := by
    rw [GetAuthToken_token, GetAuthToken_reference, hh]
    rcases hbad with hb | hb
    · simp [hb]
    · simp [Nat.not_lt.mpr hb]
  have htr : (GetAuthToken ctx (AuthChecker.new w)).trace = [Event.FindHeader "authorization"] := by
    have hh2 : ctx.FindHeader kAuthHeader = some h := hh
    unfold GetAuthToken
    simp only [hh2]
    split <;> simp [AuthChecker.new, kAuthHeader]
  have hw : (GetAuthToken ctx (AuthChecker.new w)).world = w :=
    GetAuthToken_world ctx (AuthChecker.new w)
  have he : ("" : String).isEmpty = true := by decide
  rw [CheckAuth, Check_auth_required env ctx _ m hreq hm hauth]
  simp only [htok, he, if_true]
  simp [Unauthorized, htr, hw]

/-- Witness of C4: the header is exactly `Bearer `, and a good token sits in
the query. -/
theorem CheckAuth_malformed_header_witness :
    (CheckAuth Sample.env (Sample.ctx (some "Bearer ") (some "kToken")) Sample.world).trace =
        [Event.FindHeader "authorization",
         Event.on_done
           { code := Code.UNAUTHENTICATED
             message := "JWT validation failed: Missing or invalid credentials"
             cause := ErrorCause.AUTH }] ∧
      (CheckAuth Sample.env (Sample.ctx (some "Bearer ") (some "kToken")) Sample.world).world =
        Sample.world :=
  CheckAuth_malformed_header Sample.env (Sample.ctx (some "Bearer ") (some "kToken"))
    Sample.world Sample.method "Bearer " rfl rfl rfl (by decide) (Or.inr (by decide))

/-! ## From the start of the check to the policy stage -/

theorem GetAuthToken_eq (ctx : Context) (w : World) :
    GetAuthToken ctx (AuthChecker.new w) =
      { validator_ := none
        user_info_ := UserInfo.empty
        auth_token_ := GetAuthToken_reference ctx
        world := w
        trace := readEvents ctx } := by
  have ht := GetAuthToken_token ctx w
  revert ht
  unfold GetAuthToken readEvents
  cases hh : ctx.FindHeader kAuthHeader with
  | none =>
    have hh2 : ctx.FindHeader "authorization" = none := hh
    simp only [hh2]
    cases hq : ctx.FindQuery kAccessTokenName with
    | none => intro ht; simp only [] at ht; rw [← ht]; rfl
    | some q => intro ht; simp only [] at ht; rw [← ht]; rfl
  | some h =>
    have hh2 : ctx.FindHeader "authorization" = some h := hh
    simp only [hh2]
    split
    · intro ht; simp only [] at ht; rw [← ht]; rfl
    · intro ht; simp only [] at ht; rw [← ht]; rfl

theorem CheckAuth_to_lookup (env : Env) (ctx : Context) (w : World) (m : MethodInfo) (t : String)
    (hreq : ctx.RequireAuth = true) (hm : ctx.method = some m) (hauth : m.auth = true)
    (htok : GetAuthToken_reference ctx = t) (hne : t.isEmpty = false) :
    CheckAuth env ctx w = LookupJwtCache env ctx (lookupState ctx w t) := by
  rw [CheckAuth, Check_auth_required env ctx _ m hreq hm hauth, GetAuthToken_eq, htok]
  simp only [hne, Bool.false_eq_true, if_false]
  simp [lookupState, Exec.emit]

theorem LookupJwtCache_to_policy (env : Env) (ctx : Context) (w : World) (t : String)
    (cache_hit : Bool) (info : UserInfo) (hin : ReachesPolicy env w t cache_hit info) :
    LookupJwtCache env ctx (lookupState ctx w t) =
      CheckAudience env ctx cache_hit (policyEntryState env ctx w t cache_hit info) := by
  rcases hin with ⟨hhit, val, hval, hexp, hinfo⟩ | ⟨hhit, hstale, v, hv, hok, hinfo⟩
  · subst hhit
    unfold LookupJwtCache
    simp [lookupState, hval, hexp, policyEntryState, lookupEvents, World.afterLookup, hinfo]
  · subst hhit
    unfold LookupJwtCache
    cases hval : w.jwt_cache t with
    | none =>
      simp [lookupState, hval, policyEntryState, lookupEvents, World.afterLookup, ParseJwt,
        ParseJwt.parse, hv, hok, hinfo]
    | some val =>
      have hlt := hstale val hval
      simp [lookupState, hval, Nat.not_le.mpr hlt, policyEntryState, lookupEvents,
        World.afterLookup, ParseJwt, ParseJwt.parse, hv, hok, hinfo]

theorem CheckAuth_to_policy (env : Env) (ctx : Context) (w : World) (m : MethodInfo) (t : String)
    (cache_hit : Bool) (info : UserInfo)
    (hreq : ctx.RequireAuth = true) (hm : ctx.method = some m) (hauth : m.auth = true)
    (htok : GetAuthToken_reference ctx = t) (hne : t.isEmpty = false)
    (hin : ReachesPolicy env w t cache_hit info) :
    CheckAuth env ctx w =
      CheckAudience env ctx cache_hit (policyEntryState env ctx w t cache_hit info) := by
  rw [CheckAuth_to_lookup env ctx w m t hreq hm hauth htok hne,
    LookupJwtCache_to_policy env ctx w t cache_hit info hin]

/-! ## The policy stage -/

theorem CheckAudience_issuer_denied (env : Env) (ctx : Context) (cache_hit : Bool) (s : Exec)
    (m : MethodInfo) (hm : ctx.method = some m)
    (hiss : m.isIssuerAllowed s.user_info_.issuer = false) :
    CheckAudience env ctx cache_hit s =
      { s with trace := s.trace ++
          [Event.set_auth_issuer s.user_info_.issuer,
           Event.set_auth_audience
             (if s.user_info_.audiences.isEmpty then ""
              else env.AudiencesAsString s.user_info_.audiences),
           Event.isIssuerAllowed s.user_info_.issuer,
           Event.on_done (denial "Issuer not allowed")] } := by
  unfold CheckAudience
  simp [hm, hiss, Unauthorized, Exec.emit, denial]

theorem CheckAudience_audience_denied (env : Env) (ctx : Context) (cache_hit : Bool) (s : Exec)
    (m : MethodInfo) (hm : ctx.method = some m)
    (hiss : m.isIssuerAllowed s.user_info_.issuer = true)
    (haud : audienceAccepted ctx m s.user_info_ = false) :
    CheckAudience env ctx cache_hit s =
      { s with trace := s.trace ++ policyEvents env ctx s.user_info_ ++
          [Event.on_done (denial "Audience not allowed")] } := by
  unfold audienceAccepted at haud
  simp only [Bool.or_eq_false_iff] at haud
  have hc : ctx.service_name ∉ s.user_info_.audiences := by simpa using haud.1
  unfold CheckAudience
  simp [hm, hiss, hc, haud.2, Unauthorized, Exec.emit, denial, policyEvents]

theorem CheckAudience_accepted (env : Env) (ctx : Context) (cache_hit : Bool) (s : Exec)
    (m : MethodInfo) (hm : ctx.method = some m)
    (hiss : m.isIssuerAllowed s.user_info_.issuer = true)
    (haud : audienceAccepted ctx m s.user_info_ = true) :
    CheckAudience env ctx cache_hit s =
      if cache_hit then
        PassUserInfoOnSuccess { s with trace := s.trace ++ policyEvents env ctx s.user_info_ }
      else InitKey env { s with trace := s.trace ++ policyEvents env ctx s.user_info_ } := by
  unfold audienceAccepted at haud
  unfold CheckAudience
  by_cases hc : ctx.service_name ∈ s.user_info_.audiences
  · cases cache_hit <;> simp [hm, hiss, hc, Exec.emit, policyEvents]
  · have ha : m.isAudienceAllowed s.user_info_.issuer s.user_info_.audiences = true := by
      simpa [hc] using haud
    cases cache_hit <;> simp [hm, hiss, hc, ha, Exec.emit, policyEvents]

theorem httpGets_readEvents (ctx : Context) : httpGets (readEvents ctx) = [] := by
  unfold readEvents
  split <;> simp

theorem completions_readEvents (ctx : Context) : completions (readEvents ctx) = [] := by
  unfold readEvents
  split <;> simp

theorem httpGets_lookupEvents (w : World) (t : String) (cache_hit : Bool) :
    httpGets (lookupEvents w t cache_hit) = [] := by
  unfold lookupEvents
  repeat' split
  all_goals simp

theorem completions_lookupEvents (w : World) (t : String) (cache_hit : Bool) :
    completions (lookupEvents w t cache_hit) = [] := by
  unfold lookupEvents
  repeat' split
  all_goals simp

theorem httpGets_policyEvents (env : Env) (ctx : Context) (info : UserInfo) :
    httpGets (policyEvents env ctx info) = [] := by
  unfold policyEvents
  by_cases h : ctx.service_name ∈ info.audiences <;> simp [h]

theorem completions_policyEvents (env : Env) (ctx : Context) (info : UserInfo) :
    completions (policyEvents env ctx info) = [] := by
  unfold policyEvents
  by_cases h : ctx.service_name ∈ info.audiences <;> simp [h]

theorem userInfos_readEvents (ctx : Context) : userInfos (readEvents ctx) = [] := by
  unfold readEvents
  split <;> simp

theorem userInfos_lookupEvents (w : World) (t : String) (cache_hit : Bool) :
    userInfos (lookupEvents w t cache_hit) = [] := by
  unfold lookupEvents
  repeat' split
  all_goals simp

theorem userInfos_policyEvents (env : Env) (ctx : Context) (info : UserInfo) :
    userInfos (policyEvents env ctx info) = [] := by
  unfold policyEvents
  by_cases h : ctx.service_name ∈ info.audiences <;> simp [h]

theorem inserts_readEvents (ctx : Context) : inserts (readEvents ctx) = [] := by
  unfold readEvents
  split <;> simp

theorem verifies_readEvents (ctx : Context) : verifies (readEvents ctx) = [] := by
  unfold readEvents
  split <;> simp

theorem inserts_policyEvents (env : Env) (ctx : Context) (info : UserInfo) :
    inserts (policyEvents env ctx info) = [] := by
  unfold policyEvents
  by_cases h : ctx.service_name ∈ info.audiences <;> simp [h]

theorem verifies_policyEvents (env : Env) (ctx : Context) (info : UserInfo) :
    verifies (policyEvents env ctx info) = [] := by
  unfold policyEvents
  by_cases h : ctx.service_name ∈ info.audiences <;> simp [h]

theorem updates_readEvents (ctx : Context) : updates (readEvents ctx) = [] := by
  unfold readEvents
  split <;> simp

theorem updates_policyEvents (env : Env) (ctx : Context) (info : UserInfo) :
    updates (policyEvents env ctx info) = [] := by
  unfold policyEvents
  by_cases h : ctx.service_name ∈ info.audiences <;> simp [h]

theorem userInfos_policyEntryState (env : Env) (ctx : Context) (w : World) (t : String)
    (cache_hit : Bool) (info : UserInfo) :
    userInfos (policyEntryState env ctx w t cache_hit info).trace = [] := by
  simp [policyEntryState, lookupState, userInfos_readEvents, userInfos_lookupEvents]

theorem httpGets_policyEntryState (env : Env) (ctx : Context) (w : World) (t : String)
    (cache_hit : Bool) (info : UserInfo) :
    httpGets (policyEntryState env ctx w t cache_hit info).trace = [] := by
  simp [policyEntryState, lookupState, httpGets_readEvents, httpGets_lookupEvents]

theorem completions_policyEntryState (env : Env) (ctx : Context) (w : World) (t : String)
    (cache_hit : Bool) (info : UserInfo) :
    completions (policyEntryState env ctx w t cache_hit info).trace = [] := by
  simp [policyEntryState, lookupState, completions_readEvents, completions_lookupEvents]

theorem policyState_eq (env : Env) (ctx : Context) (w : World) (t : String) (cache_hit : Bool)
    (info : UserInfo) :
    policyState env ctx w t cache_hit info =
      { policyEntryState env ctx w t cache_hit info with
        trace := (policyEntryState env ctx w t cache_hit info).trace ++
          policyEvents env ctx (policyEntryState env ctx w t cache_hit info).user_info_ } := rfl

theorem afterLookup_certs (w : World) (t : String) : (w.afterLookup t).certs = w.certs := by
  unfold World.afterLookup
  repeat' split
  all_goals rfl

theorem afterLookup_jwks_uri (w : World) (t : String) :
    (w.afterLookup t).jwks_uri = w.jwks_uri := by
  unfold World.afterLookup
  repeat' split
  all_goals rfl

theorem afterLookup_now (w : World) (t : String) : (w.afterLookup t).now = w.now := by
  unfold World.afterLookup
  repeat' split
  all_goals rfl

theorem afterLookup_jwt_cache_other (w : World) (t t2 : String) (h : t2 ≠ t) :
    (w.afterLookup t).jwt_cache t2 = w.jwt_cache t2 := by
  unfold World.afterLookup
  repeat' split
  all_goals simp [JwtCache.Remove, h]

theorem afterLookup_fresh (w : World) (t : String)
    (h : ∀ val, w.jwt_cache t = some val → w.now ≤ val.exp) : w.afterLookup t = w := by
  unfold World.afterLookup
  cases hv : w.jwt_cache t with
  | none => rfl
  | some val => simp [h val hv]

theorem policy_accepted_next (env : Env) (ctx : Context) (w : World) (m : MethodInfo)
    (t : String) (cache_hit : Bool) (info : UserInfo)
    (hreq : ctx.RequireAuth = true) (hm : ctx.method = some m) (hauth : m.auth = true)
    (htok : GetAuthToken_reference ctx = t) (hne : t.isEmpty = false)
    (hin : ReachesPolicy env w t cache_hit info)
    (hiss : m.isIssuerAllowed info.issuer = true)
    (hacc : audienceAccepted ctx m info = true) :
    CheckAuth env ctx w =
      if cache_hit then PassUserInfoOnSuccess (policyState env ctx w t cache_hit info)
      else InitKey env (policyState env ctx w t cache_hit info) := by
  have hui : (policyEntryState env ctx w t cache_hit info).user_info_ = info := rfl
  rw [CheckAuth_to_policy env ctx w m t cache_hit info hreq hm hauth htok hne hin,
    CheckAudience_accepted env ctx cache_hit _ m hm (by rw [hui]; exact hiss)
      (by rw [hui]; exact hacc), policyState_eq]

/-- C5 (as amended). For every user info that reaches the policy stage and whose
issuer the method allows: if the service name is among its audiences or the
method allows its audiences, the check leaves the policy stage for the next
step (`PassUserInfoOnSuccess` on a token-cache hit, `InitKey` otherwise);
otherwise it denies with `Audience not allowed`, having issued no HTTP fetch
and left the key cache, the issuer registry and every token-cache entry of
another token unchanged; the token cache as a whole is unchanged unless the
lookup found an expired entry of this token, which has then been removed. -/
theorem CheckAuth_audience_policy (env : Env) (ctx : Context) (w : World) (m : MethodInfo)
    (t : String) (cache_hit : Bool) (info : UserInfo)
    (hreq : ctx.RequireAuth = true) (hm : ctx.method = some m) (hauth : m.auth = true)
    (htok : GetAuthToken_reference ctx = t) (hne : t.isEmpty = false)
    (hin : ReachesPolicy env w t cache_hit info)
    (hiss : m.isIssuerAllowed info.issuer = true) :
    (audienceAccepted ctx m info = true →
      CheckAuth env ctx w =
        if cache_hit then PassUserInfoOnSuccess (policyState env ctx w t cache_hit info)
        else InitKey env (policyState env ctx w t cache_hit info)) ∧
    (audienceAccepted ctx m info = false →
      (CheckAuth env ctx w).trace =
          (policyState env ctx w t cache_hit info).trace ++
            [Event.on_done (denial "Audience not allowed")] ∧
        completions (CheckAuth env ctx w).trace = [denial "Audience not allowed"] ∧
        httpGets (CheckAuth env ctx w).trace = [] ∧
        (CheckAuth env ctx w).world.certs = w.certs ∧
        (CheckAuth env ctx w).world.jwks_uri = w.jwks_uri ∧
        (∀ t2, t2 ≠ t → (CheckAuth env ctx w).world.jwt_cache t2 = w.jwt_cache t2) ∧
        (CheckAuth env ctx w).world = w.afterLookup t ∧
        ((∀ val, w.jwt_cache t = some val → w.now ≤ val.exp) →
          (CheckAuth env ctx w).world = w)) := by
  have hto := CheckAuth_to_policy env ctx w m t cache_hit info hreq hm hauth htok hne hin
  have hui : (policyEntryState env ctx w t cache_hit info).user_info_ = info := rfl
  constructor
  · intro hacc
    rw [hto, CheckAudience_accepted env ctx cache_hit _ m hm (by rw [hui]; exact hiss)
      (by rw [hui]; exact hacc), policyState_eq]
  · intro hacc
    rw [hto, CheckAudience_audience_denied env ctx cache_hit _ m hm (by rw [hui]; exact hiss)
      (by rw [hui]; exact hacc)]
    have hw : (policyEntryState env ctx w t cache_hit info).world = w.afterLookup t := rfl
    refine ⟨by simp [policyState_eq], ?_, ?_, ?_, ?_, ?_, ?_, ?_⟩
    · simp [completions_policyEntryState, completions_policyEvents]
    · simp [httpGets_policyEntryState, httpGets_policyEvents]
    · simp only [hw, afterLookup_certs]
    · simp only [hw, afterLookup_jwks_uri]
    · intro t2 h2
      simp only [hw]
      exact afterLookup_jwt_cache_other w t t2 h2
    · exact hw
    · intro hfresh
      simp only [hw]
      exact afterLookup_fresh w t hfresh

/-- Counterexample to C5 as stated: the token `kTokenStale` sits in the token
cache with an expired entry while its validator still parses it (clock skew).
Its issuer is allowed and its audience is not, the check denies with
`Audience not allowed`, and it has removed the entry from the token cache. -/
theorem CheckAuth_audience_denial_changes_token_cache :
    Sample.method.isIssuerAllowed Sample.staleInfo.issuer = true ∧
      audienceAccepted (Sample.ctx (some "Bearer kTokenStale") none) Sample.method
        Sample.staleInfo = false ∧
      completions (CheckAuth Sample.env (Sample.ctx (some "Bearer kTokenStale") none)
        Sample.staleWorld).trace = [denial "Audience not allowed"] ∧
      Sample.staleWorld.jwt_cache "kTokenStale" =
        some { user_info := Sample.staleInfo, exp := 1499999990, inserted_at := 1499999940 } ∧
      (CheckAuth Sample.env (Sample.ctx (some "Bearer kTokenStale") none)
        Sample.staleWorld).world.jwt_cache "kTokenStale" = none ∧
      (CheckAuth Sample.env (Sample.ctx (some "Bearer kTokenStale") none)
        Sample.staleWorld).world.jwt_cache ≠ Sample.staleWorld.jwt_cache := by
  refine ⟨by decide, by decide, by decide, by decide, by decide, ?_⟩
  intro h
  have h1 := congrFun h "kTokenStale"
  revert h1
  decide

/-- Witness of C5: the token `kTokenBadAud` of the sample service. -/
theorem CheckAuth_audience_policy_witness :
    completions (CheckAuth Sample.env (Sample.ctx (some "Bearer kTokenBadAud") none)
        Sample.world).trace = [denial "Audience not allowed"] ∧
      httpGets (CheckAuth Sample.env (Sample.ctx (some "Bearer kTokenBadAud") none)
        Sample.world).trace = [] ∧
      (CheckAuth Sample.env (Sample.ctx (some "Bearer kTokenBadAud") none)
        Sample.world).world = Sample.world :=
  have h := (CheckAuth_audience_policy Sample.env (Sample.ctx (some "Bearer kTokenBadAud") none)
    Sample.world Sample.method "kTokenBadAud" false
    { id := Sample.kSub, issuer := Sample.kIss, audiences := ["some-audience"] }
    rfl rfl rfl (by decide) (by decide)
    (Or.inr ⟨rfl, fun _ hv => by simp [Sample.world] at hv,
      Sample.validator Sample.kSub Sample.kIss "some-audience" Sample.kExp,
      rfl, by decide, by decide⟩)
    (by decide)).2 (by decide)
  ⟨h.2.1, h.2.2.1, h.2.2.2.2.2.2.2 (fun _ hv => by simp [Sample.world] at hv)⟩

/-- C6. For every user info that reaches the policy stage, if the method does
not allow its issuer the check denies with `Issuer not allowed`, whatever the
audiences are: after `isIssuerAllowed` the only further call is the completion,
so `isAudienceAllowed` is not consulted and no audience denial is reported. -/
theorem CheckAuth_issuer_not_allowed (env : Env) (ctx : Context) (w : World) (m : MethodInfo)
    (t : String) (cache_hit : Bool) (info : UserInfo)
    (hreq : ctx.RequireAuth = true) (hm : ctx.method = some m) (hauth : m.auth = true)
    (htok : GetAuthToken_reference ctx = t) (hne : t.isEmpty = false)
    (hin : ReachesPolicy env w t cache_hit info)
    (hiss : m.isIssuerAllowed info.issuer = false) :
    (CheckAuth env ctx w).trace =
        (policyEntryState env ctx w t cache_hit info).trace ++
          [Event.set_auth_issuer info.issuer,
           Event.set_auth_audience
             (if info.audiences.isEmpty then "" else env.AudiencesAsString info.audiences),
           Event.isIssuerAllowed info.issuer,
           Event.on_done
             { code := Code.UNAUTHENTICATED
               message := "JWT validation failed: Issuer not allowed"
               cause := ErrorCause.AUTH }] ∧
      completions (CheckAuth env ctx w).trace =
        [{ code := Code.UNAUTHENTICATED
           message := "JWT validation failed: Issuer not allowed"
           cause := ErrorCause.AUTH }] := by
  have hto := CheckAuth_to_policy env ctx w m t cache_hit info hreq hm hauth htok hne hin
  have hui : (policyEntryState env ctx w t cache_hit info).user_info_ = info := rfl
  have hd : denial "Issuer not allowed" =
      { code := Code.UNAUTHENTICATED
        message := "JWT validation failed: Issuer not allowed"
        cause := ErrorCause.AUTH } := by decide
  rw [hto, CheckAudience_issuer_denied env ctx cache_hit _ m hm (by rw [hui]; exact hiss), hd]
  constructor
  · simp only [hui]
  · simp [completions_policyEntryState]

/-- Witness of C6: the token `kTokenBadIss`, whose audience is the service name
and whose issuer the sample method does not allow. -/
theorem CheckAuth_issuer_not_allowed_witness :
    audienceAccepted (Sample.ctx (some "Bearer kTokenBadIss") none) Sample.method
        { id := Sample.kSub, issuer := "https://unknown.com",
          audiences := [Sample.kServiceName] } = true ∧
      completions (CheckAuth Sample.env (Sample.ctx (some "Bearer kTokenBadIss") none)
        Sample.world).trace =
        [{ code := Code.UNAUTHENTICATED
           message := "JWT validation failed: Issuer not allowed"
           cause := ErrorCause.AUTH }] :=
  ⟨by decide,
    (CheckAuth_issuer_not_allowed Sample.env (Sample.ctx (some "Bearer kTokenBadIss") none)
      Sample.world Sample.method "kTokenBadIss" false
      { id := Sample.kSub, issuer := "https://unknown.com", audiences := [Sample.kServiceName] }
      rfl rfl rfl (by decide) (by decide)
      (Or.inr ⟨rfl, fun _ hv => by simp [Sample.world] at hv,
        Sample.validator Sample.kSub "https://unknown.com" Sample.kServiceName Sample.kExp,
        rfl, by decide, by decide⟩)
      (by decide)).2⟩

/-! ## Token-cache hit -/

theorem policy_denied_completions (env : Env) (ctx : Context) (w : World) (m : MethodInfo)
    (t : String) (cache_hit : Bool) (info : UserInfo)
    (hreq : ctx.RequireAuth = true) (hm : ctx.method = some m) (hauth : m.auth = true)
    (htok : GetAuthToken_reference ctx = t) (hne : t.isEmpty = false)
    (hin : ReachesPolicy env w t cache_hit info) :
    (m.isIssuerAllowed info.issuer = false →
      completions (CheckAuth env ctx w).trace = [denial "Issuer not allowed"] ∧
        userInfos (CheckAuth env ctx w).trace = []) ∧
    (m.isIssuerAllowed info.issuer = true → audienceAccepted ctx m info = false →
      completions (CheckAuth env ctx w).trace = [denial "Audience not allowed"] ∧
        userInfos (CheckAuth env ctx w).trace = []) := by
  have hto := CheckAuth_to_policy env ctx w m t cache_hit info hreq hm hauth htok hne hin
  have hui : (policyEntryState env ctx w t cache_hit info).user_info_ = info := rfl
  constructor
  · intro hiss
    rw [hto, CheckAudience_issuer_denied env ctx cache_hit _ m hm (by rw [hui]; exact hiss)]
    simp [completions_policyEntryState, userInfos_policyEntryState]
  · intro hiss hacc
    rw [hto, CheckAudience_audience_denied env ctx cache_hit _ m hm (by rw [hui]; exact hiss)
      (by rw [hui]; exact hacc)]
    simp [completions_policyEntryState, userInfos_policyEntryState, completions_policyEvents,
      userInfos_policyEvents]

/-- C7. A token-cache hit does not bypass method policy.  For a token found
unexpired in the token cache the check runs `CheckAudience` on the cached user
info.  If the method does not allow the issuer, or the audience rule fails, the
check denies with the corresponding message and never calls `SetUserInfo`, and
a freshly parsed token carrying the same user info is denied identically.  Only
if both pass does the check end in Allow, and then its whole trace is the token
extraction, the cache lookup, the policy calls, `SetUserInfo` and the
completion: no validator is created, nothing is parsed, no key is looked up and
no signature is verified. -/
theorem CheckAuth_cache_hit_policy (env : Env) (ctx : Context) (w : World) (m : MethodInfo)
    (t : String) (val : JwtValue)
    (hreq : ctx.RequireAuth = true) (hm : ctx.method = some m) (hauth : m.auth = true)
    (htok : GetAuthToken_reference ctx = t) (hne : t.isEmpty = false)
    (hval : w.jwt_cache t = some val) (hexp : w.now ≤ val.exp) :
    CheckAuth env ctx w =
        CheckAudience env ctx true (policyEntryState env ctx w t true val.user_info) ∧
    (m.isIssuerAllowed val.user_info.issuer = false →
      completions (CheckAuth env ctx w).trace = [denial "Issuer not allowed"] ∧
        userInfos (CheckAuth env ctx w).trace = []) ∧
    (m.isIssuerAllowed val.user_info.issuer = true →
      audienceAccepted ctx m val.user_info = false →
      completions (CheckAuth env ctx w).trace = [denial "Audience not allowed"] ∧
        userInfos (CheckAuth env ctx w).trace = []) ∧
    (m.isIssuerAllowed val.user_info.issuer = true →
      audienceAccepted ctx m val.user_info = true →
      (CheckAuth env ctx w).trace =
          readEvents ctx ++
            [Event.SetAuthToken t, Event.LogDebug ("auth token: " ++ t),
             Event.JwtCacheLookup t] ++
            policyEvents env ctx val.user_info ++
            [Event.SetUserInfo val.user_info, Event.on_done Status.OK] ∧
        (CheckAuth env ctx w).world = w) ∧
    (∀ w2 : World, ReachesPolicy env w2 t false val.user_info →
      (m.isIssuerAllowed val.user_info.issuer = false ∨
        audienceAccepted ctx m val.user_info = false) →
      completions (CheckAuth env ctx w2).trace = completions (CheckAuth env ctx w).trace) := by
  have hin : ReachesPolicy env w t true val.user_info := Or.inl ⟨rfl, val, hval, hexp, rfl⟩
  have hto := CheckAuth_to_policy env ctx w m t true val.user_info hreq hm hauth htok hne hin
  have hden := policy_denied_completions env ctx w m t true val.user_info hreq hm hauth htok hne hin
  refine ⟨hto, hden.1, hden.2, ?_, ?_⟩
  · intro hiss hacc
    rw [hto, CheckAudience_accepted env ctx true _ m hm hiss hacc]
    simp [PassUserInfoOnSuccess, policyEntryState, lookupState, lookupEvents, World.afterLookup,
      hval, hexp]
  · intro w2 hin2 hrej
    have hden2 :=
      policy_denied_completions env ctx w2 m t false val.user_info hreq hm hauth htok hne hin2
    cases hiss : m.isIssuerAllowed val.user_info.issuer with
    | false => rw [(hden.1 hiss).1, (hden2.1 hiss).1]
    | true =>
      rcases hrej with h | h
      · rw [hiss] at h; cases h
      · rw [(hden.2 hiss h).1, (hden2.2 hiss h).1]

/-! ## What a check that verifies a signature leaves behind -/

theorem denial_ne_OK (error : String) : denial error ≠ Status.OK := by
  intro h
  have := congrArg Status.code h
  simp [denial, Status.OK, Code.UNAUTHENTICATED, Code.OK] at this

theorem KeyOutcome_cons (token : String) (info : UserInfo) (cache : String → Option JwtValue)
    (v : JwtValidator) (x : Event) (added : List Event) (w : World)
    (hi : inserts [x] = []) (hv : verifies [x] = []) (hu : userInfos [x] = [])
    (hc : completions [x] = [])
    (h : KeyOutcome token info cache v added w) :
    KeyOutcome token info cache v (x :: added) w := by
  have e1 : inserts (x :: added) = inserts added := by
    rw [← List.singleton_append, inserts_append, hi]; rfl
  have e2 : verifies (x :: added) = verifies added := by
    rw [← List.singleton_append, verifies_append, hv]; rfl
  have e3 : userInfos (x :: added) = userInfos added := by
    rw [← List.singleton_append, userInfos_append, hu]; rfl
  have e4 : completions (x :: added) = completions added := by
    rw [← List.singleton_append, completions_append, hc]; rfl
  unfold KeyOutcome
  rw [e1, e2, e3, e4]
  exact h

theorem KeyOutcome_append_denial (token : String) (info : UserInfo)
    (cache : String → Option JwtValue) (v : JwtValidator) (error : String) (added : List Event)
    (w : World) (h : KeyOutcome token info cache v added w) :
    KeyOutcome token info cache v (added ++ [Event.on_done (denial error)]) w := by
  unfold KeyOutcome at *
  have hne : ¬ Status.OK = denial error := fun h => denial_ne_OK error h.symm
  simpa [hne] using h

theorem KeyOutcome_denial (token : String) (info : UserInfo) (cache : String → Option JwtValue)
    (v : JwtValidator) (error : String) (w : World) (hw : w.jwt_cache = cache) :
    KeyOutcome token info cache v [Event.on_done (denial error)] w := by
  unfold KeyOutcome
  left
  simp [hw]

theorem Unauthorized_eq (error : String) (s : Exec) :
    Unauthorized error s = { s with trace := s.trace ++ [Event.on_done (denial error)] } := rfl

theorem VerifySignature_outcome (s : Exec) (v : JwtValidator) (hv : s.validator_ = some v) :
    ∃ added, (VerifySignature s).trace = s.trace ++ added ∧
      KeyOutcome s.auth_token_ s.user_info_ s.world.jwt_cache v added (VerifySignature s).world := by
  unfold VerifySignature
  simp only [emit_world, emit_user_info, emit_validator, hv, emit_auth_token]
  cases hc : s.world.certs s.user_info_.issuer with
  | none =>
    refine ⟨[Event.GetCert s.user_info_.issuer,
      Event.on_done (denial "Missing verification key")], ?_, ?_⟩
    · simp [Unauthorized_eq]
    · exact KeyOutcome_cons _ _ _ _ _ _ _ rfl rfl rfl rfl (KeyOutcome_denial _ _ _ _ _ _ rfl)
  | some cert =>
    by_cases hok : (v.VerifySignature cert.1).ok = true
    · refine ⟨[Event.GetCert s.user_info_.issuer,
        Event.ValidatorVerifySignature s.auth_token_ cert.1,
        Event.ValidatorGetExpirationTime s.auth_token_,
        Event.JwtCacheInsert s.auth_token_ s.user_info_ v.GetExpirationTime s.world.now,
        Event.SetUserInfo s.user_info_, Event.on_done Status.OK], ?_, ?_⟩
      · simp [hok, PassUserInfoOnSuccess]
      · right
        refine ⟨cert.1, s.world.now, ?_, ?_, ?_, ?_⟩ <;> simp [hok, PassUserInfoOnSuccess]
    · refine ⟨[Event.GetCert s.user_info_.issuer,
        Event.ValidatorVerifySignature s.auth_token_ cert.1,
        Event.on_done (denial (v.VerifySignature cert.1).message)], ?_, ?_⟩
      · simp [hok, Unauthorized_eq]
      · left
        have hne : ¬ Status.OK = denial (v.VerifySignature cert.1).message :=
          fun h => denial_ne_OK _ h.symm
        simp [hok, Unauthorized_eq, hne]

theorem KeyOutcome_prepend (token : String) (info : UserInfo) (cache : String → Option JwtValue)
    (v : JwtValidator) (pre added : List Event) (w : World)
    (hi : inserts pre = []) (hv : verifies pre = []) (hu : userInfos pre = [])
    (hc : completions pre = [])
    (h : KeyOutcome token info cache v added w) :
    KeyOutcome token info cache v (pre ++ added) w := by
  unfold KeyOutcome
  rw [inserts_append, verifies_append, userInfos_append, completions_append, hi, hv, hu, hc]
  exact h

/-- The outcome of a step that first moves from `s` to `s2`, adding `pre` to
the trace and keeping token, user info and token cache, and then runs a step
whose outcome is known. -/
theorem outcome_step (s s2 e : Exec) (v : JwtValidator) (pre : List Event)
    (htr : s2.trace = s.trace ++ pre) (htok : s2.auth_token_ = s.auth_token_)
    (hui : s2.user_info_ = s.user_info_) (hcache : s2.world.jwt_cache = s.world.jwt_cache)
    (hi : inserts pre = []) (hv : verifies pre = []) (hu : userInfos pre = [])
    (hc : completions pre = [])
    (h : ∃ added, e.trace = s2.trace ++ added ∧
      KeyOutcome s2.auth_token_ s2.user_info_ s2.world.jwt_cache v added e.world) :
    ∃ added, e.trace = s.trace ++ added ∧
      KeyOutcome s.auth_token_ s.user_info_ s.world.jwt_cache v added e.world := by
  obtain ⟨added, h1, h2⟩ := h
  refine ⟨pre ++ added, ?_, ?_⟩
  · rw [h1, htr, List.append_assoc]
  · rw [htok, hui, hcache] at h2
    exact KeyOutcome_prepend _ _ _ _ _ _ _ hi hv hu hc h2

/-- The outcome of a step followed by a denial. -/
theorem outcome_then_denial (s e : Exec) (v : JwtValidator) (error : String)
    (h : ∃ added, e.trace = s.trace ++ added ∧
      KeyOutcome s.auth_token_ s.user_info_ s.world.jwt_cache v added e.world) :
    ∃ added, (Unauthorized error e).trace = s.trace ++ added ∧
      KeyOutcome s.auth_token_ s.user_info_ s.world.jwt_cache v added
        (Unauthorized error e).world := by
  obtain ⟨added, h1, h2⟩ := h
  refine ⟨added ++ [Event.on_done (denial error)], ?_, ?_⟩
  · simp [Unauthorized_eq, h1]
  · exact KeyOutcome_append_denial _ _ _ _ _ _ _ h2

/-- The outcome of a step that only denies. -/
theorem outcome_denial (s : Exec) (v : JwtValidator) (error : String) :
    ∃ added, (Unauthorized error s).trace = s.trace ++ added ∧
      KeyOutcome s.auth_token_ s.user_info_ s.world.jwt_cache v added
        (Unauthorized error s).world :=
  ⟨[Event.on_done (denial error)], rfl, KeyOutcome_denial _ _ _ _ _ _ rfl⟩

theorem PostFetchPubKey_outcome (status : Status) (body : String) (s : Exec) (v : JwtValidator)
    (hv : s.validator_ = some v) :
    ∃ added, (PostFetchPubKey status body s).trace = s.trace ++ added ∧
      KeyOutcome s.auth_token_ s.user_info_ s.world.jwt_cache v added
        (PostFetchPubKey status body s).world := by
  unfold PostFetchPubKey
  split
  · exact outcome_denial s v _
  · refine outcome_step s _ _ v
      [Event.CertsUpdate s.user_info_.issuer body (s.world.now + kPubKeyCacheDuration)]
      ?_ ?_ ?_ ?_ rfl rfl rfl rfl (VerifySignature_outcome _ v hv) <;>
    rfl

theorem FetchPubKey_outcome (env : Env) (url : String) (s : Exec) (v : JwtValidator)
    (hv : s.validator_ = some v) :
    ∃ added, (FetchPubKey env url s).trace = s.trace ++ added ∧
      KeyOutcome s.auth_token_ s.user_info_ s.world.jwt_cache v added
        (FetchPubKey env url s).world := by
  have hpre : ∃ added, (HttpFetch env url PostFetchPubKey s).2.trace = s.trace ++ added ∧
      KeyOutcome s.auth_token_ s.user_info_ s.world.jwt_cache v added
        (HttpFetch env url PostFetchPubKey s).2.world := by
    cases hc : (env.RunHTTPRequest (httpGets s.trace).length url).completion with
    | none =>
      rw [HttpFetch_none env url _ s hc]
      refine ⟨[Event.LogDebug ("http fetch: " ++ url), Event.HttpGet url], by simp, ?_⟩
      left
      simp
    | some c =>
      rw [HttpFetch_some env url _ s c.1 c.2 hc]
      refine outcome_step s _ _ v [Event.LogDebug ("http fetch: " ++ url), Event.HttpGet url]
        ?_ ?_ ?_ ?_ rfl rfl rfl rfl (PostFetchPubKey_outcome _ _ _ v hv) <;>
        first | rfl | simp
  unfold FetchPubKey
  dsimp only
  split
  · exact outcome_then_denial s _ v _ hpre
  · exact hpre

theorem PostFetchJwksUri_outcome (env : Env) (status : Status) (body : String) (s : Exec)
    (v : JwtValidator) (hv : s.validator_ = some v) :
    ∃ added, (PostFetchJwksUri env status body s).trace = s.trace ++ added ∧
      KeyOutcome s.auth_token_ s.user_info_ s.world.jwt_cache v added
        (PostFetchJwksUri env status body s).world := by
  unfold PostFetchJwksUri
  dsimp only
  split
  · refine outcome_step s _ _ v [Event.SetJwksUri s.user_info_.issuer "" false]
      ?_ ?_ ?_ ?_ rfl rfl rfl rfl (outcome_denial _ v _) <;>
    rfl
  · split
    · refine outcome_step s _ _ v
        [Event.LogError "OpenID discovery failed due to invalid doc format",
         Event.SetJwksUri s.user_info_.issuer "" false]
        ?_ ?_ ?_ ?_ rfl rfl rfl rfl (outcome_denial _ v _) <;>
      first | rfl | simp
    · rename_i uri _
      refine outcome_step s _ _ v [Event.SetJwksUri s.user_info_.issuer uri false]
        ?_ ?_ ?_ ?_ rfl rfl rfl rfl (FetchPubKey_outcome env uri _ v hv) <;>
        rfl

theorem DiscoverJwksUri_outcome (env : Env) (url : String) (s : Exec) (v : JwtValidator)
    (hv : s.validator_ = some v) :
    ∃ added, (DiscoverJwksUri env url s).trace = s.trace ++ added ∧
      KeyOutcome s.auth_token_ s.user_info_ s.world.jwt_cache v added
        (DiscoverJwksUri env url s).world := by
  have hpre : ∃ added, (HttpFetch env url (PostFetchJwksUri env) s).2.trace = s.trace ++ added ∧
      KeyOutcome s.auth_token_ s.user_info_ s.world.jwt_cache v added
        (HttpFetch env url (PostFetchJwksUri env) s).2.world := by
    cases hc : (env.RunHTTPRequest (httpGets s.trace).length url).completion with
    | none =>
      rw [HttpFetch_none env url _ s hc]
      refine ⟨[Event.LogDebug ("http fetch: " ++ url), Event.HttpGet url], by simp, ?_⟩
      left
      simp
    | some c =>
      rw [HttpFetch_some env url _ s c.1 c.2 hc]
      refine outcome_step s _ _ v [Event.LogDebug ("http fetch: " ++ url), Event.HttpGet url]
        ?_ ?_ ?_ ?_ rfl rfl rfl rfl (PostFetchJwksUri_outcome env _ _ _ v hv) <;>
        first | rfl | simp
  unfold DiscoverJwksUri
  dsimp only
  split
  · exact outcome_then_denial s _ v _ hpre
  · exact hpre

theorem InitKey_outcome (env : Env) (s : Exec) (v : JwtValidator) (hv : s.validator_ = some v) :
    ∃ added, (InitKey env s).trace = s.trace ++ added ∧
      KeyOutcome s.auth_token_ s.user_info_ s.world.jwt_cache v added (InitKey env s).world := by
  unfold InitKey
  dsimp only
  split_ifs
  · refine outcome_step s _ _ v
      [Event.GetCert s.user_info_.issuer, Event.GetJwksUri s.user_info_.issuer]
      ?_ ?_ ?_ ?_ rfl rfl rfl rfl (outcome_denial _ v _) <;>
    first | rfl | simp
  · refine outcome_step s _ _ v
      [Event.GetCert s.user_info_.issuer, Event.GetJwksUri s.user_info_.issuer]
      ?_ ?_ ?_ ?_ rfl rfl rfl rfl (DiscoverJwksUri_outcome env _ _ v hv) <;>
    first | rfl | simp
  · refine outcome_step s _ _ v
      [Event.GetCert s.user_info_.issuer, Event.GetJwksUri s.user_info_.issuer]
      ?_ ?_ ?_ ?_ rfl rfl rfl rfl (FetchPubKey_outcome env _ _ v hv) <;>
    first | rfl | simp
  · refine outcome_step s _ _ v [Event.GetCert s.user_info_.issuer]
      ?_ ?_ ?_ ?_ rfl rfl rfl rfl (VerifySignature_outcome _ v hv) <;>
    rfl

theorem CheckOutcome_of_KeyOutcome (env : Env) (token : String) (info : UserInfo)
    (cache : String → Option JwtValue) (v : JwtValidator) (added : List Event) (w : World)
    (hv : env.Create token = some v) (h : KeyOutcome token info cache v added w) :
    CheckOutcome env token added w := by
  rcases h with ⟨h1, h2, _, _⟩ | ⟨key, n, h1, h2, h3, h4⟩
  · exact Or.inl ⟨h1, h2⟩
  · exact Or.inr ⟨v, info, key, n, hv, h1, h2, h3, by simp [h4, JwtCache.Insert]⟩

theorem CheckOutcome_prepend (env : Env) (token : String) (pre added : List Event) (w : World)
    (hi : inserts pre = []) (hv : verifies pre = []) (hu : userInfos pre = [])
    (hc : completions pre = [])
    (h : CheckOutcome env token added w) :
    CheckOutcome env token (pre ++ added) w := by
  unfold CheckOutcome
  rw [inserts_append, verifies_append, userInfos_append, completions_append, hi, hv, hu, hc]
  exact h

theorem CheckOutcome_plain (env : Env) (token : String) (added : List Event) (w : World)
    (hi : inserts added = []) (hv : verifies added = []) :
    CheckOutcome env token added w :=
  Or.inl ⟨hi, Or.inl hv⟩

/-- The outcome of a step that first moves from `s` to `s2`, adding `pre` to
the trace and keeping the token, and then runs a step whose outcome is known. -/
theorem check_step (env : Env) (s s2 e : Exec) (pre : List Event)
    (htr : s2.trace = s.trace ++ pre) (htok : s2.auth_token_ = s.auth_token_)
    (hi : inserts pre = []) (hv : verifies pre = []) (hu : userInfos pre = [])
    (hc : completions pre = [])
    (h : ∃ added, e.trace = s2.trace ++ added ∧ CheckOutcome env s2.auth_token_ added e.world) :
    ∃ added, e.trace = s.trace ++ added ∧ CheckOutcome env s.auth_token_ added e.world := by
  obtain ⟨added, h1, h2⟩ := h
  refine ⟨pre ++ added, ?_, ?_⟩
  · rw [h1, htr, List.append_assoc]
  · rw [htok] at h2
    exact CheckOutcome_prepend _ _ _ _ _ hi hv hu hc h2

theorem check_denial (env : Env) (s : Exec) (error : String) :
    ∃ added, (Unauthorized error s).trace = s.trace ++ added ∧
      CheckOutcome env s.auth_token_ added (Unauthorized error s).world :=
  ⟨[Event.on_done (denial error)], rfl, CheckOutcome_plain _ _ _ _ rfl rfl⟩

theorem CheckAudience_outcome (env : Env) (ctx : Context) (cache_hit : Bool) (s : Exec)
    (m : MethodInfo) (hm : ctx.method = some m)
    (hv : cache_hit = true ∨ ∃ v, s.validator_ = some v ∧ env.Create s.auth_token_ = some v) :
    ∃ added, (CheckAudience env ctx cache_hit s).trace = s.trace ++ added ∧
      CheckOutcome env s.auth_token_ added (CheckAudience env ctx cache_hit s).world := by
  cases hiss : m.isIssuerAllowed s.user_info_.issuer with
  | false =>
    rw [CheckAudience_issuer_denied env ctx cache_hit s m hm hiss]
    exact ⟨_, rfl, CheckOutcome_plain _ _ _ _ (by simp) (by simp)⟩
  | true =>
    cases hacc : audienceAccepted ctx m s.user_info_ with
    | false =>
      rw [CheckAudience_audience_denied env ctx cache_hit s m hm hiss hacc]
      refine ⟨policyEvents env ctx s.user_info_ ++
        [Event.on_done (denial "Audience not allowed")], by simp, ?_⟩
      exact CheckOutcome_plain _ _ _ _ (by simp [inserts_policyEvents])
        (by simp [verifies_policyEvents])
    | true =>
      rw [CheckAudience_accepted env ctx cache_hit s m hm hiss hacc]
      cases cache_hit with
      | true =>
        refine ⟨policyEvents env ctx s.user_info_ ++
          [Event.SetUserInfo s.user_info_, Event.on_done Status.OK], ?_, ?_⟩
        · simp [PassUserInfoOnSuccess]
        · exact CheckOutcome_plain _ _ _ _ (by simp [inserts_policyEvents])
            (by simp [verifies_policyEvents])
      | false =>
        obtain ⟨v, hv1, hv2⟩ := hv.resolve_left (by simp)
        simp only [Bool.false_eq_true, if_false]
        refine check_step env s
          { s with trace := s.trace ++ policyEvents env ctx s.user_info_ } _
          (policyEvents env ctx s.user_info_) rfl rfl
          (inserts_policyEvents _ _ _) (verifies_policyEvents _ _ _)
          (userInfos_policyEvents _ _ _) (completions_policyEvents _ _ _) ?_
        obtain ⟨added, h1, h2⟩ := InitKey_outcome env
          { s with trace := s.trace ++ policyEvents env ctx s.user_info_ } v hv1
        exact ⟨added, h1, CheckOutcome_of_KeyOutcome env _ _ _ v _ _ hv2 h2⟩

theorem ParseJwt_outcome (env : Env) (ctx : Context) (s : Exec) (m : MethodInfo)
    (hm : ctx.method = some m) (hnone : s.validator_ = none) :
    ∃ added, (ParseJwt env ctx s).trace = s.trace ++ added ∧
      CheckOutcome env s.auth_token_ added (ParseJwt env ctx s).world := by
  unfold ParseJwt
  simp only [hnone, emit_auth_token]
  cases hc : env.Create s.auth_token_ with
  | none =>
    exact check_step env s (s.emit (Event.ValidatorCreate s.auth_token_)) _
      [Event.ValidatorCreate s.auth_token_] rfl rfl rfl rfl rfl rfl (check_denial env _ _)
  | some v =>
    simp only [ParseJwt.parse]
    split
    · exact check_step env s
        { ((s.emit (Event.ValidatorCreate s.auth_token_)).emit
            (Event.ValidatorParse s.auth_token_)) with
          validator_ := some v, user_info_ := (v.Parse s.world.now).2 } _
        [Event.ValidatorCreate s.auth_token_, Event.ValidatorParse s.auth_token_]
        (by simp) rfl rfl rfl rfl rfl (check_denial env _ _)
    · exact check_step env s
        { ((s.emit (Event.ValidatorCreate s.auth_token_)).emit
            (Event.ValidatorParse s.auth_token_)) with
          validator_ := some v, user_info_ := (v.Parse s.world.now).2 } _
        [Event.ValidatorCreate s.auth_token_, Event.ValidatorParse s.auth_token_]
        (by simp) rfl rfl rfl rfl rfl
        (CheckAudience_outcome env ctx false _ m hm (Or.inr ⟨v, rfl, hc⟩))

theorem LookupJwtCache_outcome (env : Env) (ctx : Context) (s : Exec) (m : MethodInfo)
    (hm : ctx.method = some m) (hnone : s.validator_ = none) :
    ∃ added, (LookupJwtCache env ctx s).trace = s.trace ++ added ∧
      CheckOutcome env s.auth_token_ added (LookupJwtCache env ctx s).world := by
  unfold LookupJwtCache
  dsimp only
  split
  · rename_i val _
    split
    · exact check_step env s
        { (s.emit (Event.JwtCacheLookup s.auth_token_)) with user_info_ := val.user_info } _
        [Event.JwtCacheLookup s.auth_token_] rfl rfl rfl rfl rfl rfl
        (CheckAudience_outcome env ctx true _ m hm (Or.inl rfl))
    · exact check_step env s
        { ((s.emit (Event.JwtCacheLookup s.auth_token_)).emit
            (Event.JwtCacheRemove s.auth_token_)) with
          world := { s.world with jwt_cache := JwtCache.Remove s.world.jwt_cache s.auth_token_ } }
        _ [Event.JwtCacheLookup s.auth_token_, Event.JwtCacheRemove s.auth_token_]
        (by simp) rfl rfl rfl rfl rfl (ParseJwt_outcome env ctx _ m hm hnone)
  · exact check_step env s (s.emit (Event.JwtCacheLookup s.auth_token_)) _
      [Event.JwtCacheLookup s.auth_token_] rfl rfl rfl rfl rfl rfl
      (ParseJwt_outcome env ctx _ m hm hnone)

/-- Every check either inserts nothing into the token cache, and then verifies
no signature or reports no Allow, or it is a check for a non-empty token that
verifies the signature once, inserts the token's entry, calls `SetUserInfo`
with the inserted user info and leaves the entry in the token cache. -/
theorem CheckAuth_outcome (env : Env) (ctx : Context) (w : World) :
    (inserts (CheckAuth env ctx w).trace = [] ∧
      (verifies (CheckAuth env ctx w).trace = [] ∨
        Status.OK ∉ completions (CheckAuth env ctx w).trace)) ∨
    ((GetAuthToken_reference ctx).isEmpty = false ∧
      CheckOutcome env (GetAuthToken_reference ctx) (CheckAuth env ctx w).trace
        (CheckAuth env ctx w).world) := by
  by_cases hreq : ctx.RequireAuth = true
  · cases hm : ctx.method with
    | none =>
      left
      rw [(Check_not_required env ctx w (Or.inr (Or.inl hm))).1]
      simp
    | some m =>
      by_cases hauth : m.auth = true
      · cases hne : (GetAuthToken_reference ctx).isEmpty with
        | true =>
          left
          rw [CheckAuth, Check_auth_required env ctx _ m hreq hm hauth, GetAuthToken_eq]
          simp only [hne, if_true, Unauthorized_eq]
          simp [inserts_readEvents, verifies_readEvents]
        | false =>
          right
          refine ⟨rfl, ?_⟩
          rw [CheckAuth_to_lookup env ctx w m _ hreq hm hauth rfl hne]
          obtain ⟨added, h1, h2⟩ := LookupJwtCache_outcome env ctx
            (lookupState ctx w (GetAuthToken_reference ctx)) m hm rfl
          rw [h1]
          exact CheckOutcome_prepend _ _ _ _ _
            (by simp [lookupState, inserts_readEvents])
            (by simp [lookupState, verifies_readEvents])
            (by simp [lookupState, userInfos_readEvents])
            (by simp [lookupState, completions_readEvents]) h2
      · left
        rw [(Check_not_required env ctx w
          (Or.inr (Or.inr ⟨m, hm, by simpa using hauth⟩))).1]
        simp
  · left
    rw [(Check_not_required env ctx w (Or.inl (by simpa using hreq))).1]
    simp

/-! ## The same token again -/

theorem mem_verifies (tr : List Event) (t key : String)
    (h : Event.ValidatorVerifySignature t key ∈ tr) : (t, key) ∈ verifies tr := by
  unfold verifies
  rw [List.mem_filterMap]
  exact ⟨_, h, rfl⟩

theorem mem_completions (tr : List Event) (st : Status) (h : Event.on_done st ∈ tr) :
    st ∈ completions tr := by
  unfold completions
  rw [List.mem_filterMap]
  exact ⟨_, h, rfl⟩

theorem mem_userInfos (tr : List Event) (info : UserInfo) (h : Event.SetUserInfo info ∈ tr) :
    info ∈ userInfos tr := by
  unfold userInfos
  rw [List.mem_filterMap]
  exact ⟨_, h, rfl⟩

/-- A check that verified the signature of `t` and reported Allow has left the
entry of `t` in the token cache: the user info it passed to `SetUserInfo`, with
the expiration time of the token's validator. -/
theorem CheckAuth_verified_entry (env : Env) (ctx : Context) (w : World) (t key : String)
    (hver : Event.ValidatorVerifySignature t key ∈ (CheckAuth env ctx w).trace)
    (hallow : Event.on_done Status.OK ∈ (CheckAuth env ctx w).trace) :
    t.isEmpty = false ∧ GetAuthToken_reference ctx = t ∧
      ∃ v info n, env.Create t = some v ∧ userInfos (CheckAuth env ctx w).trace = [info] ∧
        (CheckAuth env ctx w).world.jwt_cache t =
          some { user_info := info, exp := v.GetExpirationTime, inserted_at := n } := by
  have h1 := mem_verifies _ _ _ hver
  have h2 := mem_completions _ _ hallow
  have hno : ¬ (verifies (CheckAuth env ctx w).trace = [] ∨
      Status.OK ∉ completions (CheckAuth env ctx w).trace) := by
    rintro (h | h)
    · rw [h] at h1; cases h1
    · exact h h2
  rcases CheckAuth_outcome env ctx w with ⟨_, h⟩ | ⟨hne, ⟨_, h⟩ | ⟨v, info, key2, n, hv, _, hvs, hu, hc⟩⟩
  · exact absurd h hno
  · exact absurd h hno
  · rw [hvs] at h1
    have ht : t = GetAuthToken_reference ctx := by
      have := List.mem_singleton.mp h1
      exact congrArg Prod.fst this
    subst ht
    exact ⟨hne, rfl, v, info, n, hv, hu, hc⟩

/-- A check whose token is found unexpired in the token cache, with a user info
the method's policy accepts, is the token extraction, the cache lookup, the
policy calls, `SetUserInfo` and the completion, and changes nothing. -/
theorem CheckAuth_hit_allowed (env : Env) (ctx : Context) (w : World) (m : MethodInfo)
    (t : String) (val : JwtValue)
    (hreq : ctx.RequireAuth = true) (hm : ctx.method = some m) (hauth : m.auth = true)
    (htok : GetAuthToken_reference ctx = t) (hne : t.isEmpty = false)
    (hval : w.jwt_cache t = some val) (hexp : w.now ≤ val.exp)
    (hiss : m.isIssuerAllowed val.user_info.issuer = true)
    (hacc : audienceAccepted ctx m val.user_info = true) :
    (CheckAuth env ctx w).trace =
        readEvents ctx ++
          [Event.SetAuthToken t, Event.LogDebug ("auth token: " ++ t), Event.JwtCacheLookup t] ++
          policyEvents env ctx val.user_info ++
          [Event.SetUserInfo val.user_info, Event.on_done Status.OK] ∧
      (CheckAuth env ctx w).world = w := by
  have hin : ReachesPolicy env w t true val.user_info := Or.inl ⟨rfl, val, hval, hexp, rfl⟩
  rw [CheckAuth_to_policy env ctx w m t true val.user_info hreq hm hauth htok hne hin,
    CheckAudience_accepted env ctx true _ m hm hiss hacc]
  simp [PassUserInfoOnSuccess, policyEntryState, lookupState, lookupEvents, World.afterLookup,
    hval, hexp]

/-- C8. Let a check for the token `t` have verified its signature and ended in
Allow, passing `info` to `SetUserInfo`.  A later check with the same token, run
while the token-cache entry of `t` is as that check left it, at a time that
does not exceed the expiration time of the token, for a method whose policy
accepts `info`, ends in Allow and calls `SetUserInfo` with the same user info.
Its trace is the token extraction, the cache lookup, the policy calls,
`SetUserInfo` and the completion: it issues no HTTP fetch, creates no
validator, and neither reads nor writes the key cache or the issuer registry;
the shared state is unchanged. -/
theorem CheckAuth_repeat_token (env1 env2 : Env) (ctx1 ctx2 : Context) (w1 w2 : World)
    (m2 : MethodInfo) (t key : String) (info : UserInfo) (v : JwtValidator)
    (hver : Event.ValidatorVerifySignature t key ∈ (CheckAuth env1 ctx1 w1).trace)
    (hallow : Event.on_done Status.OK ∈ (CheckAuth env1 ctx1 w1).trace)
    (hinfo : Event.SetUserInfo info ∈ (CheckAuth env1 ctx1 w1).trace)
    (hv : env1.Create t = some v)
    (hreq : ctx2.RequireAuth = true) (hm : ctx2.method = some m2) (hauth : m2.auth = true)
    (htok : GetAuthToken_reference ctx2 = t)
    (hpresent : w2.jwt_cache t = (CheckAuth env1 ctx1 w1).world.jwt_cache t)
    (hnow : w2.now ≤ v.GetExpirationTime)
    (hiss : m2.isIssuerAllowed info.issuer = true)
    (hacc : audienceAccepted ctx2 m2 info = true) :
    (CheckAuth env2 ctx2 w2).trace =
        readEvents ctx2 ++
          [Event.SetAuthToken t, Event.LogDebug ("auth token: " ++ t), Event.JwtCacheLookup t] ++
          policyEvents env2 ctx2 info ++
          [Event.SetUserInfo info, Event.on_done Status.OK] ∧
      completions (CheckAuth env2 ctx2 w2).trace = [Status.OK] ∧
      userInfos (CheckAuth env2 ctx2 w2).trace = userInfos (CheckAuth env1 ctx1 w1).trace ∧
      httpGets (CheckAuth env2 ctx2 w2).trace = [] ∧
      (CheckAuth env2 ctx2 w2).world = w2 := by
  obtain ⟨hne, _, v2, info2, n, hv2, hu, hc⟩ :=
    CheckAuth_verified_entry env1 ctx1 w1 t key hver hallow
  have hvv : v2 = v := by
    rw [hv] at hv2
    exact (Option.some.inj hv2).symm
  subst hvv
  have hii : info = info2 := by
    have := mem_userInfos _ _ hinfo
    rw [hu] at this
    exact List.mem_singleton.mp this
  subst hii
  have hval : w2.jwt_cache t =
      some { user_info := info, exp := v2.GetExpirationTime, inserted_at := n } := by
    rw [hpresent, hc]
  obtain ⟨htr, hw⟩ := CheckAuth_hit_allowed env2 ctx2 w2 m2 t _ hreq hm hauth htok hne hval hnow
    hiss hacc
  refine ⟨htr, ?_, ?_, ?_, hw⟩
  · rw [htr]; simp [completions_readEvents, completions_policyEvents]
  · rw [htr, hu]; simp [userInfos_readEvents, userInfos_policyEvents]
  · rw [htr]; simp [httpGets_readEvents, httpGets_policyEvents]

/-- Witness of C7: `kToken` is in the token cache of the warm sample service,
and a method that does not allow its issuer denies it on the cache hit. -/
theorem CheckAuth_cache_hit_policy_witness :
    Sample.warmWorld.jwt_cache "kToken" =
        some { user_info := { id := Sample.kSub, issuer := Sample.kIss,
                              audiences := [Sample.kServiceName] },
               exp := Sample.kExp, inserted_at := 1500000002 } ∧
      completions (CheckAuth Sample.env
        { Sample.ctx (some "Bearer kToken") none with method := some Sample.otherMethod }
        Sample.warmWorld).trace = [denial "Issuer not allowed"] ∧
      userInfos (CheckAuth Sample.env
        { Sample.ctx (some "Bearer kToken") none with method := some Sample.otherMethod }
        Sample.warmWorld).trace = [] :=
  ⟨by decide,
    (CheckAuth_cache_hit_policy Sample.env
      { Sample.ctx (some "Bearer kToken") none with method := some Sample.otherMethod }
      Sample.warmWorld Sample.otherMethod "kToken"
      { user_info := { id := Sample.kSub, issuer := Sample.kIss,
                       audiences := [Sample.kServiceName] },
        exp := Sample.kExp, inserted_at := 1500000002 }
      rfl rfl rfl (by decide) (by decide) (by decide) (by decide)).2.1 (by decide)⟩

/-- Witness of C8: the cold check of `kToken` in the sample service, followed by
a second check of `kToken` in the state the first one left. -/
theorem CheckAuth_repeat_token_witness :
    completions (CheckAuth Sample.env (Sample.ctx (some "Bearer kToken") none)
        Sample.warmWorld).trace = [Status.OK] ∧
      userInfos (CheckAuth Sample.env (Sample.ctx (some "Bearer kToken") none)
        Sample.warmWorld).trace =
        [{ id := Sample.kSub, issuer := Sample.kIss, audiences := [Sample.kServiceName] }] ∧
      httpGets (CheckAuth Sample.env (Sample.ctx (some "Bearer kToken") none)
        Sample.warmWorld).trace = [] ∧
      (CheckAuth Sample.env (Sample.ctx (some "Bearer kToken") none)
        Sample.warmWorld).world = Sample.warmWorld :=
  have h := CheckAuth_repeat_token Sample.env Sample.env
    (Sample.ctx (some "Bearer kToken") none) (Sample.ctx (some "Bearer kToken") none)
    Sample.world Sample.warmWorld Sample.method "kToken" Sample.kPubkey
    { id := Sample.kSub, issuer := Sample.kIss, audiences := [Sample.kServiceName] }
    (Sample.validator Sample.kSub Sample.kIss Sample.kServiceName Sample.kExp)
    (by decide) (by decide) (by decide) rfl rfl rfl rfl (by decide) rfl (by decide)
    (by decide) (by decide)
  ⟨h.2.1, h.2.2.1.trans (by decide), h.2.2.2.1, h.2.2.2.2⟩

/-! ## What a check does to the key cache -/

theorem app1 (t : List Event) (a : Event) : t ++ [a] = t ++ [a] := rfl

theorem app2 (t : List Event) (a b : Event) : (t ++ [a]) ++ [b] = t ++ [a, b] := by simp

theorem app3 (t : List Event) (a b c : Event) : ((t ++ [a]) ++ [b]) ++ [c] = t ++ [a, b, c] := by
  simp

theorem app6 (t : List Event) (a b c d e f : Event) :
    (((((t ++ [a]) ++ [b]) ++ [c]) ++ [d]) ++ [e]) ++ [f] = t ++ [a, b, c, d, e, f] := by
  simp

theorem certs_step (s s2 e : Exec) (pre : List Event)
    (htr : s2.trace = s.trace ++ pre) (hcerts : s2.world.certs = s.world.certs)
    (hu : updates pre = [])
    (h : ∃ added, e.trace = s2.trace ++ added ∧ CertsOutcome s2.world.certs added e.world) :
    ∃ added, e.trace = s.trace ++ added ∧ CertsOutcome s.world.certs added e.world := by
  obtain ⟨added, h1, h2⟩ := h
  refine ⟨pre ++ added, ?_, ?_⟩
  · rw [h1, htr, List.append_assoc]
  · rw [hcerts] at h2
    unfold CertsOutcome at *
    rw [updates_append, hu]
    exact h2

theorem certs_then_denial (s e : Exec) (error : String)
    (h : ∃ added, e.trace = s.trace ++ added ∧ CertsOutcome s.world.certs added e.world) :
    ∃ added, (Unauthorized error e).trace = s.trace ++ added ∧
      CertsOutcome s.world.certs added (Unauthorized error e).world := by
  obtain ⟨added, h1, h2⟩ := h
  refine ⟨added ++ [Event.on_done (denial error)], ?_, ?_⟩
  · simp [Unauthorized_eq, h1]
  · unfold CertsOutcome at *
    simpa using h2

theorem certs_plain (s e : Exec) (added : List Event) (htr : e.trace = s.trace ++ added)
    (hu : updates added = []) (hw : e.world.certs = s.world.certs) :
    ∃ added, e.trace = s.trace ++ added ∧ CertsOutcome s.world.certs added e.world :=
  ⟨added, htr, Or.inl ⟨hu, hw⟩⟩

theorem VerifySignature_certs (s : Exec) :
    ∃ added, (VerifySignature s).trace = s.trace ++ added ∧ updates added = [] ∧
      (VerifySignature s).world.certs = s.world.certs := by
  unfold VerifySignature
  simp only [emit_world, emit_user_info, emit_validator, emit_auth_token]
  cases s.world.certs s.user_info_.issuer with
  | none => exact ⟨_, app2 _ _ _, by simp, rfl⟩
  | some cert =>
    cases s.validator_ with
    | none => exact ⟨_, app2 _ _ _, by simp, rfl⟩
    | some v =>
      by_cases hok : (v.VerifySignature cert.1).ok = true
      · simp only [hok, Bool.not_true, Bool.false_eq_true, if_false]
        exact ⟨_, app6 _ _ _ _ _ _ _, by simp, rfl⟩
      · simp only [hok, Bool.not_false, if_true]
        exact ⟨_, app3 _ _ _ _, by simp, rfl⟩

theorem PostFetchPubKey_certs (status : Status) (body : String) (s : Exec) :
    ∃ added, (PostFetchPubKey status body s).trace = s.trace ++ added ∧
      CertsOutcome s.world.certs added (PostFetchPubKey status body s).world := by
  unfold PostFetchPubKey
  split
  · exact certs_plain s _ _ (app1 _ _) rfl rfl
  · dsimp only
    obtain ⟨added, h1, h2, h3⟩ := VerifySignature_certs
      { (s.emit (Event.CertsUpdate s.user_info_.issuer body
            (s.world.now + kPubKeyCacheDuration))) with
        world := { s.world with
          certs := Certs.Update s.world.certs s.user_info_.issuer body
            (s.world.now + kPubKeyCacheDuration) } }
    refine ⟨Event.CertsUpdate s.user_info_.issuer body (s.world.now + kPubKeyCacheDuration) ::
      added, ?_, Or.inr ⟨s.user_info_.issuer, body, s.world.now + kPubKeyCacheDuration, ?_, ?_⟩⟩
    · simpa using h1
    · simp [h2]
    · exact h3

theorem FetchPubKey_certs (env : Env) (url : String) (s : Exec) :
    ∃ added, (FetchPubKey env url s).trace = s.trace ++ added ∧
      CertsOutcome s.world.certs added (FetchPubKey env url s).world := by
  have hpre : ∃ added, (HttpFetch env url PostFetchPubKey s).2.trace = s.trace ++ added ∧
      CertsOutcome s.world.certs added (HttpFetch env url PostFetchPubKey s).2.world := by
    cases hc : (env.RunHTTPRequest (httpGets s.trace).length url).completion with
    | none =>
      rw [HttpFetch_none env url _ s hc]
      exact certs_plain s _ [Event.LogDebug ("http fetch: " ++ url), Event.HttpGet url]
        (by simp) rfl rfl
    | some c =>
      rw [HttpFetch_some env url _ s c.1 c.2 hc]
      exact certs_step s
        { ((s.emit (Event.LogDebug ("http fetch: " ++ url))).emit (Event.HttpGet url)) with
          world :=
            { s.world with
              now := s.world.now + (env.RunHTTPRequest (httpGets s.trace).length url).delay } }
        _ [Event.LogDebug ("http fetch: " ++ url), Event.HttpGet url]
        (by simp) rfl rfl (PostFetchPubKey_certs _ _ _)
  unfold FetchPubKey
  dsimp only
  split
  · exact certs_then_denial s _ _ hpre
  · exact hpre

theorem PostFetchJwksUri_certs (env : Env) (status : Status) (body : String) (s : Exec) :
    ∃ added, (PostFetchJwksUri env status body s).trace = s.trace ++ added ∧
      CertsOutcome s.world.certs added (PostFetchJwksUri env status body s).world := by
  unfold PostFetchJwksUri
  dsimp only
  split
  · exact certs_plain s _ _ (app2 _ _ _) rfl rfl
  · split
    · exact certs_plain s _ _ (app3 _ _ _ _) rfl rfl
    · rename_i uri _
      exact certs_step s
        { (s.emit (Event.SetJwksUri s.user_info_.issuer uri false)) with
          world := { s.world with
            jwks_uri := Registry.SetJwksUri s.world.jwks_uri s.user_info_.issuer uri false } }
        _ [Event.SetJwksUri s.user_info_.issuer uri false] rfl rfl rfl
        (FetchPubKey_certs env uri _)

theorem DiscoverJwksUri_certs (env : Env) (url : String) (s : Exec) :
    ∃ added, (DiscoverJwksUri env url s).trace = s.trace ++ added ∧
      CertsOutcome s.world.certs added (DiscoverJwksUri env url s).world := by
  have hpre : ∃ added, (HttpFetch env url (PostFetchJwksUri env) s).2.trace = s.trace ++ added ∧
      CertsOutcome s.world.certs added (HttpFetch env url (PostFetchJwksUri env) s).2.world := by
    cases hc : (env.RunHTTPRequest (httpGets s.trace).length url).completion with
    | none =>
      rw [HttpFetch_none env url _ s hc]
      exact certs_plain s _ [Event.LogDebug ("http fetch: " ++ url), Event.HttpGet url]
        (by simp) rfl rfl
    | some c =>
      rw [HttpFetch_some env url _ s c.1 c.2 hc]
      exact certs_step s
        { ((s.emit (Event.LogDebug ("http fetch: " ++ url))).emit (Event.HttpGet url)) with
          world :=
            { s.world with
              now := s.world.now + (env.RunHTTPRequest (httpGets s.trace).length url).delay } }
        _ [Event.LogDebug ("http fetch: " ++ url), Event.HttpGet url]
        (by simp) rfl rfl (PostFetchJwksUri_certs env _ _ _)
  unfold DiscoverJwksUri
  dsimp only
  split
  · exact certs_then_denial s _ _ hpre
  · exact hpre

theorem InitKey_certs (env : Env) (s : Exec) :
    ∃ added, (InitKey env s).trace = s.trace ++ added ∧
      CertsOutcome s.world.certs added (InitKey env s).world := by
  unfold InitKey
  dsimp only
  split_ifs
  · exact certs_plain s _ _ (app3 _ _ _ _) rfl rfl
  · exact certs_step s
      ((s.emit (Event.GetCert s.user_info_.issuer)).emit (Event.GetJwksUri s.user_info_.issuer))
      _ [Event.GetCert s.user_info_.issuer, Event.GetJwksUri s.user_info_.issuer]
      (by simp) rfl rfl (DiscoverJwksUri_certs env _ _)
  · exact certs_step s
      ((s.emit (Event.GetCert s.user_info_.issuer)).emit (Event.GetJwksUri s.user_info_.issuer))
      _ [Event.GetCert s.user_info_.issuer, Event.GetJwksUri s.user_info_.issuer]
      (by simp) rfl rfl (FetchPubKey_certs env _ _)
  · obtain ⟨added, h1, h2, h3⟩ := VerifySignature_certs (s.emit (Event.GetCert s.user_info_.issuer))
    exact certs_plain s _ (Event.GetCert s.user_info_.issuer :: added) (by simpa using h1)
      (by simp [h2]) h3

theorem CheckAudience_certs (env : Env) (ctx : Context) (cache_hit : Bool) (s : Exec)
    (m : MethodInfo) (hm : ctx.method = some m) :
    ∃ added, (CheckAudience env ctx cache_hit s).trace = s.trace ++ added ∧
      CertsOutcome s.world.certs added (CheckAudience env ctx cache_hit s).world := by
  cases hiss : m.isIssuerAllowed s.user_info_.issuer with
  | false =>
    rw [CheckAudience_issuer_denied env ctx cache_hit s m hm hiss]
    exact certs_plain s _ _ rfl (by simp) rfl
  | true =>
    cases hacc : audienceAccepted ctx m s.user_info_ with
    | false =>
      rw [CheckAudience_audience_denied env ctx cache_hit s m hm hiss hacc]
      exact certs_plain s _ (policyEvents env ctx s.user_info_ ++
        [Event.on_done (denial "Audience not allowed")]) (by simp)
        (by simp [updates_policyEvents]) rfl
    | true =>
      rw [CheckAudience_accepted env ctx cache_hit s m hm hiss hacc]
      cases cache_hit with
      | true =>
        exact certs_plain s _ (policyEvents env ctx s.user_info_ ++
          [Event.SetUserInfo s.user_info_, Event.on_done Status.OK])
          (by simp [PassUserInfoOnSuccess]) (by simp [updates_policyEvents]) rfl
      | false =>
        simp only [Bool.false_eq_true, if_false]
        exact certs_step s { s with trace := s.trace ++ policyEvents env ctx s.user_info_ } _
          (policyEvents env ctx s.user_info_) rfl rfl (updates_policyEvents _ _ _)
          (InitKey_certs env _)

theorem LookupJwtCache_certs (env : Env) (ctx : Context) (s : Exec) (m : MethodInfo)
    (hm : ctx.method = some m) (hnone : s.validator_ = none) :
    ∃ added, (LookupJwtCache env ctx s).trace = s.trace ++ added ∧
      CertsOutcome s.world.certs added (LookupJwtCache env ctx s).world := by
  have hparse : ∀ s2 : Exec, s2.validator_ = none →
      ∃ added, (ParseJwt env ctx s2).trace = s2.trace ++ added ∧
        CertsOutcome s2.world.certs added (ParseJwt env ctx s2).world := by
    intro s2 h2
    unfold ParseJwt
    simp only [h2, emit_auth_token]
    cases env.Create s2.auth_token_ with
    | none => exact certs_plain s2 _ _ (app2 _ _ _) rfl rfl
    | some v =>
      simp only [ParseJwt.parse]
      split
      · exact certs_plain s2 _ _ (app3 _ _ _ _) rfl rfl
      · exact certs_step s2
          { ((s2.emit (Event.ValidatorCreate s2.auth_token_)).emit
              (Event.ValidatorParse s2.auth_token_)) with
            validator_ := some v, user_info_ := (v.Parse s2.world.now).2 } _
          [Event.ValidatorCreate s2.auth_token_, Event.ValidatorParse s2.auth_token_]
          (by simp) rfl rfl (CheckAudience_certs env ctx false _ m hm)
  unfold LookupJwtCache
  dsimp only
  split
  · rename_i val _
    split
    · exact certs_step s
        { (s.emit (Event.JwtCacheLookup s.auth_token_)) with user_info_ := val.user_info } _
        [Event.JwtCacheLookup s.auth_token_] rfl rfl rfl
        (CheckAudience_certs env ctx true _ m hm)
    · exact certs_step s
        { ((s.emit (Event.JwtCacheLookup s.auth_token_)).emit
            (Event.JwtCacheRemove s.auth_token_)) with
          world := { s.world with jwt_cache := JwtCache.Remove s.world.jwt_cache s.auth_token_ } }
        _ [Event.JwtCacheLookup s.auth_token_, Event.JwtCacheRemove s.auth_token_]
        (by simp) rfl rfl (hparse _ hnone)
  · exact certs_step s (s.emit (Event.JwtCacheLookup s.auth_token_)) _
      [Event.JwtCacheLookup s.auth_token_] rfl rfl rfl (hparse _ hnone)

/-- Every check leaves the key cache as it found it or updates it once, and the
update is on its trace. -/
theorem CheckAuth_certs (env : Env) (ctx : Context) (w : World) :
    CertsOutcome w.certs (CheckAuth env ctx w).trace (CheckAuth env ctx w).world := by
  by_cases hreq : ctx.RequireAuth = true
  · cases hm : ctx.method with
    | none =>
      obtain ⟨h1, h2⟩ := Check_not_required env ctx w (Or.inr (Or.inl hm))
      exact Or.inl ⟨by rw [h1]; simp, by rw [h2]⟩
    | some m =>
      by_cases hauth : m.auth = true
      · cases hne : (GetAuthToken_reference ctx).isEmpty with
        | true =>
          rw [CheckAuth, Check_auth_required env ctx _ m hreq hm hauth, GetAuthToken_eq]
          simp only [hne, if_true, Unauthorized_eq]
          exact Or.inl ⟨by simp [updates_readEvents], rfl⟩
        | false =>
          rw [CheckAuth_to_lookup env ctx w m _ hreq hm hauth rfl hne]
          obtain ⟨added, h1, h2⟩ := LookupJwtCache_certs env ctx
            (lookupState ctx w (GetAuthToken_reference ctx)) m hm rfl
          rw [h1]
          unfold CertsOutcome at *
          simpa [lookupState, updates_readEvents] using h2
      · obtain ⟨h1, h2⟩ := Check_not_required env ctx w
          (Or.inr (Or.inr ⟨m, hm, by simpa using hauth⟩))
        exact Or.inl ⟨by rw [h1]; simp, by rw [h2]⟩
  · obtain ⟨h1, h2⟩ := Check_not_required env ctx w (Or.inl (by simpa using hreq))
    exact Or.inl ⟨by rw [h1]; simp, by rw [h2]⟩

/-! ## Warm key, cold token -/

theorem mem_updates (tr : List Event) (issuer blob : String) (exp : Nat)
    (h : Event.CertsUpdate issuer blob exp ∈ tr) : (issuer, blob, exp) ∈ updates tr := by
  unfold updates
  rw [List.mem_filterMap]
  exact ⟨_, h, rfl⟩

/-- A key-cache update on the trace of a check is in the key cache the check
leaves. -/
theorem CheckAuth_update_entry (env : Env) (ctx : Context) (w : World) (issuer blob : String)
    (exp : Nat) (h : Event.CertsUpdate issuer blob exp ∈ (CheckAuth env ctx w).trace) :
    (CheckAuth env ctx w).world.certs issuer = some (blob, exp) := by
  have hmem := mem_updates _ _ _ _ h
  rcases CheckAuth_certs env ctx w with ⟨h1, _⟩ | ⟨i, b, e, h1, h2⟩
  · rw [h1] at hmem; cases hmem
  · rw [h1] at hmem
    have heq := List.mem_singleton.mp hmem
    cases heq
    simp [h2, Certs.Update]

theorem InitKey_cached (env : Env) (s : Exec) (cert : String × Nat)
    (hc : s.world.certs s.user_info_.issuer = some cert) (hnow : s.world.now ≤ cert.2) :
    InitKey env s = VerifySignature (s.emit (Event.GetCert s.user_info_.issuer)) := by
  unfold InitKey
  simp [hc, Nat.not_lt.mpr hnow]

theorem VerifySignature_ok (s : Exec) (cert : String × Nat) (v : JwtValidator)
    (hc : s.world.certs s.user_info_.issuer = some cert) (hv : s.validator_ = some v)
    (hok : (v.VerifySignature cert.1).ok = true) :
    VerifySignature s =
      { s with
        world := { s.world with
          jwt_cache := JwtCache.Insert s.world.jwt_cache s.auth_token_ s.user_info_
            v.GetExpirationTime s.world.now }
        trace := s.trace ++
          [Event.GetCert s.user_info_.issuer,
           Event.ValidatorVerifySignature s.auth_token_ cert.1,
           Event.ValidatorGetExpirationTime s.auth_token_,
           Event.JwtCacheInsert s.auth_token_ s.user_info_ v.GetExpirationTime s.world.now,
           Event.SetUserInfo s.user_info_,
           Event.on_done Status.OK] } := by
  unfold VerifySignature
  simp [hc, hv, hok, PassUserInfoOnSuccess, Exec.emit]

theorem VerifySignature_failed (s : Exec) (cert : String × Nat) (v : JwtValidator)
    (hc : s.world.certs s.user_info_.issuer = some cert) (hv : s.validator_ = some v)
    (hok : (v.VerifySignature cert.1).ok = false) :
    VerifySignature s =
      { s with
        trace := s.trace ++
          [Event.GetCert s.user_info_.issuer,
           Event.ValidatorVerifySignature s.auth_token_ cert.1,
           Event.on_done (denial (v.VerifySignature cert.1).message)] } := by
  unfold VerifySignature
  simp [hc, hv, hok, Unauthorized_eq, Exec.emit]

/-- C9. Let a check have fetched the key set `blob` of issuer `I` and cached it
at time `t0`.  Every check for a token `t2` of issuer `I` that is absent from
the token cache, parses, passes policy and runs at a time `now ≤ t0 + 300`,
while the key-cache entry of `I` is as the first check left it, issues no HTTP
fetch, verifies the signature once, against `blob`, and leaves the key cache
(so the blob and expiry of `I`) unchanged.  If verification succeeds it ends in
Allow and calls `SetUserInfo` once, with the user info parsed from `t2`; if it
fails the check denies with the validator's message and does not call
`SetUserInfo`. -/
theorem CheckAuth_warm_key (env1 env2 : Env) (ctx1 ctx2 : Context) (w1 w2 : World)
    (m2 : MethodInfo) (I blob t2 : String) (t0 : Nat) (v2 : JwtValidator)
    (hfetch : Event.CertsUpdate I blob (t0 + kPubKeyCacheDuration) ∈
      (CheckAuth env1 ctx1 w1).trace)
    (hcert : w2.certs I = (CheckAuth env1 ctx1 w1).world.certs I)
    (hnow : w2.now ≤ t0 + 300)
    (hreq : ctx2.RequireAuth = true) (hm : ctx2.method = some m2) (hauth : m2.auth = true)
    (htok : GetAuthToken_reference ctx2 = t2) (hne : t2.isEmpty = false)
    (habsent : w2.jwt_cache t2 = none)
    (hcreate : env2.Create t2 = some v2) (hparse : (v2.Parse w2.now).1.ok = true)
    (hI : (v2.Parse w2.now).2.issuer = I)
    (hiss : m2.isIssuerAllowed I = true)
    (hacc : audienceAccepted ctx2 m2 (v2.Parse w2.now).2 = true) :
    httpGets (CheckAuth env2 ctx2 w2).trace = [] ∧
      verifies (CheckAuth env2 ctx2 w2).trace = [(t2, blob)] ∧
      (CheckAuth env2 ctx2 w2).world.certs = w2.certs ∧
      (CheckAuth env2 ctx2 w2).world.certs I = some (blob, t0 + 300) ∧
      ((v2.VerifySignature blob).ok = true →
        completions (CheckAuth env2 ctx2 w2).trace = [Status.OK] ∧
          userInfos (CheckAuth env2 ctx2 w2).trace = [(v2.Parse w2.now).2]) ∧
      ((v2.VerifySignature blob).ok = false →
        completions (CheckAuth env2 ctx2 w2).trace =
            [denial (v2.VerifySignature blob).message] ∧
          userInfos (CheckAuth env2 ctx2 w2).trace = []) := by
  have hentry : w2.certs I = some (blob, t0 + 300) := by
    rw [hcert]
    exact CheckAuth_update_entry env1 ctx1 w1 I blob _ hfetch
  have hstale : ∀ val, w2.jwt_cache t2 = some val → val.exp < w2.now := by
    intro val hv
    rw [habsent] at hv
    cases hv
  have hin : ReachesPolicy env2 w2 t2 false (v2.Parse w2.now).2 :=
    Or.inr ⟨rfl, hstale, v2, hcreate, hparse, rfl⟩
  have hto := (policy_accepted_next env2 ctx2 w2 m2 t2 false (v2.Parse w2.now).2
    hreq hm hauth htok hne hin (by rw [hI]; exact hiss) hacc)
  simp only [Bool.false_eq_true, if_false] at hto
  have hfr : w2.afterLookup t2 = w2 :=
    afterLookup_fresh w2 t2 (fun val hv => by rw [habsent] at hv; cases hv)
  have hc : (policyState env2 ctx2 w2 t2 false (v2.Parse w2.now).2).world.certs
      (policyState env2 ctx2 w2 t2 false (v2.Parse w2.now).2).user_info_.issuer =
      some (blob, t0 + 300) := by
    simp only [policyState, hfr, hI, hentry]
  have hval : (policyState env2 ctx2 w2 t2 false (v2.Parse w2.now).2).validator_ = some v2 := by
    simp [policyState, hcreate]
  have hnow2 : (policyState env2 ctx2 w2 t2 false (v2.Parse w2.now).2).world.now ≤ t0 + 300 := by
    simp only [policyState, hfr]; exact hnow
  rw [hto, InitKey_cached env2 _ (blob, t0 + 300) hc hnow2]
  have hg : httpGets (policyState env2 ctx2 w2 t2 false (v2.Parse w2.now).2).trace = [] := by
    simp [policyState, lookupState, httpGets_readEvents, httpGets_lookupEvents,
      httpGets_policyEvents]
  have hvs : verifies (policyState env2 ctx2 w2 t2 false (v2.Parse w2.now).2).trace = [] := by
    simp [policyState, lookupState, verifies_readEvents, verifies_policyEvents, lookupEvents,
      habsent]
  have hcs : completions (policyState env2 ctx2 w2 t2 false (v2.Parse w2.now).2).trace = [] := by
    simp [policyState, lookupState, completions_readEvents, completions_lookupEvents,
      completions_policyEvents]
  have hus : userInfos (policyState env2 ctx2 w2 t2 false (v2.Parse w2.now).2).trace = [] := by
    simp [policyState, lookupState, userInfos_readEvents, userInfos_lookupEvents,
      userInfos_policyEvents]
  have htk : (policyState env2 ctx2 w2 t2 false (v2.Parse w2.now).2).auth_token_ = t2 := rfl
  have hwc : (policyState env2 ctx2 w2 t2 false (v2.Parse w2.now).2).world.certs = w2.certs := by
    simp only [policyState, hfr]
  cases hok : (v2.VerifySignature blob).ok with
  | true =>
    rw [VerifySignature_ok _ (blob, t0 + 300) v2 (by simpa using hc) (by simpa using hval) hok]
    simp [hg, hvs, hcs, hus, htk, hwc, hentry]
    rfl
  | false =>
    rw [VerifySignature_failed _ (blob, t0 + 300) v2 (by simpa using hc) (by simpa using hval)
      hok]
    simp [hg, hvs, hcs, hus, htk, hwc, hentry]

/-- Witness of C9: after the cold check of `kToken` in the sample service, the
check of `kToken2`, a token of the same issuer. -/
theorem CheckAuth_warm_key_witness :
    httpGets (CheckAuth Sample.env (Sample.ctx (some "Bearer kToken2") none)
        Sample.warmWorld).trace = [] ∧
      verifies (CheckAuth Sample.env (Sample.ctx (some "Bearer kToken2") none)
        Sample.warmWorld).trace = [("kToken2", Sample.kPubkey)] ∧
      completions (CheckAuth Sample.env (Sample.ctx (some "Bearer kToken2") none)
        Sample.warmWorld).trace = [Status.OK] ∧
      userInfos (CheckAuth Sample.env (Sample.ctx (some "Bearer kToken2") none)
        Sample.warmWorld).trace =
        [{ id := Sample.kSub2, issuer := Sample.kIss, audiences := [Sample.kServiceName] }] :=
  have h := CheckAuth_warm_key Sample.env Sample.env
    (Sample.ctx (some "Bearer kToken") none) (Sample.ctx (some "Bearer kToken2") none)
    Sample.world Sample.warmWorld Sample.method Sample.kIss Sample.kPubkey "kToken2" 1500000002
    (Sample.validator Sample.kSub2 Sample.kIss Sample.kServiceName Sample.kExp)
    (by decide) rfl (by decide) rfl rfl rfl (by decide) (by decide) (by decide) rfl
    (by decide) (by decide) (by decide) (by decide)
  ⟨h.1, h.2.1, (h.2.2.2.2.1 (by decide)).1, (h.2.2.2.2.1 (by decide)).2.trans (by decide)⟩

/-! ## Cold discovery -/

theorem SetErrorCause_ok (status : Status) (c : ErrorCause) :
    (status.SetErrorCause c).ok = status.ok := rfl

theorem InitKey_stale (env : Env) (s : Exec)
    (hnokey : ∀ cert, s.world.certs s.user_info_.issuer = some cert → cert.2 < s.world.now) :
    InitKey env s =
      if (s.world.jwks_uri s.user_info_.issuer).1.isEmpty then
        Unauthorized "Cannot determine the URI of the key"
          ((s.emit (Event.GetCert s.user_info_.issuer)).emit
            (Event.GetJwksUri s.user_info_.issuer))
      else if (s.world.jwks_uri s.user_info_.issuer).2 then
        DiscoverJwksUri env (s.world.jwks_uri s.user_info_.issuer).1
          ((s.emit (Event.GetCert s.user_info_.issuer)).emit
            (Event.GetJwksUri s.user_info_.issuer))
      else
        FetchPubKey env (s.world.jwks_uri s.user_info_.issuer).1
          ((s.emit (Event.GetCert s.user_info_.issuer)).emit
            (Event.GetJwksUri s.user_info_.issuer)) := by
  unfold InitKey
  cases hc : s.world.certs s.user_info_.issuer with
  | none => simp [hc]
  | some cert => simp [hc, hnokey cert hc]

/-- What `VerifySignature` leaves alone: it issues no HTTP fetch and writes
neither the key cache nor the issuer registry. -/
theorem VerifySignature_frame (s : Exec) :
    ∃ added, (VerifySignature s).trace = s.trace ++ added ∧ httpGets added = [] ∧
      (VerifySignature s).world.jwks_uri = s.world.jwks_uri := by
  unfold VerifySignature
  simp only [emit_world, emit_user_info, emit_validator, emit_auth_token]
  cases s.world.certs s.user_info_.issuer with
  | none => exact ⟨_, app2 _ _ _, by simp, rfl⟩
  | some cert =>
    cases s.validator_ with
    | none => exact ⟨_, app2 _ _ _, by simp, rfl⟩
    | some v =>
      by_cases hok : (v.VerifySignature cert.1).ok = true
      · simp only [hok, Bool.not_true, Bool.false_eq_true, if_false]
        exact ⟨_, app6 _ _ _ _ _ _ _, by simp, rfl⟩
      · simp only [hok, Bool.not_false, if_true]
        exact ⟨_, app3 _ _ _ _, by simp, rfl⟩

/-- The method `FetchPubKey` issues exactly one HTTP fetch, to its URL, and does
not write the issuer registry. -/
theorem FetchPubKey_frame (env : Env) (url : String) (s : Exec) :
    ∃ added, (FetchPubKey env url s).trace = s.trace ++ added ∧ httpGets added = [url] ∧
      (FetchPubKey env url s).world.jwks_uri = s.world.jwks_uri := by
  have hpre : ∃ added, (HttpFetch env url PostFetchPubKey s).2.trace = s.trace ++ added ∧
      httpGets added = [url] ∧
      (HttpFetch env url PostFetchPubKey s).2.world.jwks_uri = s.world.jwks_uri := by
    cases hc : (env.RunHTTPRequest (httpGets s.trace).length url).completion with
    | none =>
      rw [HttpFetch_none env url _ s hc]
      exact ⟨_, app2 _ _ _, by simp, rfl⟩
    | some c =>
      rw [HttpFetch_some env url _ s c.1 c.2 hc]
      unfold PostFetchPubKey
      split
      · exact ⟨_, app3 _ _ _ _, by simp, rfl⟩
      · dsimp only
        obtain ⟨added, h1, h2, h3⟩ := VerifySignature_frame
          { ((s.emit (Event.LogDebug ("http fetch: " ++ url))).emit (Event.HttpGet url)).emit
              (Event.CertsUpdate s.user_info_.issuer c.2
                (s.world.now + (env.RunHTTPRequest (httpGets s.trace).length url).delay +
                  kPubKeyCacheDuration)) with
            world :=
              { s.world with
                now := s.world.now + (env.RunHTTPRequest (httpGets s.trace).length url).delay
                certs := Certs.Update s.world.certs s.user_info_.issuer c.2
                  (s.world.now + (env.RunHTTPRequest (httpGets s.trace).length url).delay +
                    kPubKeyCacheDuration) } }
        refine ⟨[Event.LogDebug ("http fetch: " ++ url), Event.HttpGet url,
          Event.CertsUpdate s.user_info_.issuer c.2
            (s.world.now + (env.RunHTTPRequest (httpGets s.trace).length url).delay +
              kPubKeyCacheDuration)] ++ added, ?_, ?_, ?_⟩
        · simpa using h1
        · simp [h2]
        · exact h3
  unfold FetchPubKey
  dsimp only
  split
  · obtain ⟨added, h1, h2, h3⟩ := hpre
    exact ⟨added ++ [Event.on_done (denial "Unable to fetch public key")],
      by simp [Unauthorized_eq, h1], by simp [h2], h3⟩
  · exact hpre

theorem PostFetchPubKey_ok (status : Status) (body : String) (s : Exec)
    (hok : status.ok = true) (hbody : body.isEmpty = false) :
    PostFetchPubKey status body s =
      VerifySignature
        { s with
          world := { s.world with
            certs := Certs.Update s.world.certs s.user_info_.issuer body
              (s.world.now + kPubKeyCacheDuration) }
          trace := s.trace ++
            [Event.CertsUpdate s.user_info_.issuer body (s.world.now + kPubKeyCacheDuration)] } := by
  unfold PostFetchPubKey
  simp [hok, hbody, Exec.emit]

theorem PostFetchJwksUri_ok (env : Env) (status : Status) (doc : String) (s : Exec)
    (j : env.Json) (u : String) (hok : status.ok = true)
    (hj : env.grpc_json_parse_string doc = some j)
    (hu : env.GetStringValue j "jwks_uri" = some u) :
    PostFetchJwksUri env status doc s =
      FetchPubKey env u
        { s with
          world := { s.world with
            jwks_uri := Registry.SetJwksUri s.world.jwks_uri s.user_info_.issuer u false }
          trace := s.trace ++ [Event.SetJwksUri s.user_info_.issuer u false] } := by
  unfold PostFetchJwksUri
  simp [hok, hj, hu, Exec.emit]

/-- The state `DiscoverJwksUri` hands to `FetchPubKey` when the discovery
request, issued from `s` to the URL `d`, delivers a document whose `jwks_uri`
is `u`. -/
theorem DiscoverJwksUri_delivers (env : Env) (d : String) (s : Exec) (doc : String)
    (j : env.Json) (u : String)
    (hdel : (env.RunHTTPRequest (httpGets s.trace).length d).delivers doc)
    (hj : env.grpc_json_parse_string doc = some j)
    (hu : env.GetStringValue j "jwks_uri" = some u) :
    DiscoverJwksUri env d s =
      if (env.RunHTTPRequest (httpGets s.trace).length d).ret.ok then
        FetchPubKey env u
          { s with
            world := { s.world with
              now := s.world.now + (env.RunHTTPRequest (httpGets s.trace).length d).delay
              jwks_uri := Registry.SetJwksUri s.world.jwks_uri s.user_info_.issuer u false }
            trace := s.trace ++
              [Event.LogDebug ("http fetch: " ++ d), Event.HttpGet d,
               Event.SetJwksUri s.user_info_.issuer u false] }
      else
        Unauthorized "Unable to fetch URI of the key via OpenID discovery"
          (FetchPubKey env u
            { s with
              world := { s.world with
                now := s.world.now + (env.RunHTTPRequest (httpGets s.trace).length d).delay
                jwks_uri := Registry.SetJwksUri s.world.jwks_uri s.user_info_.issuer u false }
              trace := s.trace ++
                [Event.LogDebug ("http fetch: " ++ d), Event.HttpGet d,
                 Event.SetJwksUri s.user_info_.issuer u false] }) := by
  obtain ⟨st, hst, hc⟩ := hdel
  unfold DiscoverJwksUri
  rw [HttpFetch_some env d _ s st doc hc]
  dsimp only
  rw [PostFetchJwksUri_ok env _ doc _ j u (by rw [SetErrorCause_ok]; exact hst) hj hu]
  cases (env.RunHTTPRequest (httpGets s.trace).length d).ret.ok <;> simp [Exec.emit]

/-- The result of `FetchPubKey` when the key-set request, issued from `s` to
`url`, delivers the non-empty body `b` and the signature verifies against it. -/
theorem FetchPubKey_delivers (env : Env) (url : String) (s : Exec) (b : String)
    (v : JwtValidator)
    (hdel : (env.RunHTTPRequest (httpGets s.trace).length url).delivers b)
    (hb : b.isEmpty = false) (hv : s.validator_ = some v)
    (hver : (v.VerifySignature b).ok = true) :
    FetchPubKey env url s =
      { s with
        world :=
          { now := s.world.now + (env.RunHTTPRequest (httpGets s.trace).length url).delay
            jwt_cache := JwtCache.Insert s.world.jwt_cache s.auth_token_ s.user_info_
              v.GetExpirationTime
              (s.world.now + (env.RunHTTPRequest (httpGets s.trace).length url).delay)
            certs := Certs.Update s.world.certs s.user_info_.issuer b
              (s.world.now + (env.RunHTTPRequest (httpGets s.trace).length url).delay +
                kPubKeyCacheDuration)
            jwks_uri := s.world.jwks_uri }
        trace := s.trace ++
          [Event.LogDebug ("http fetch: " ++ url), Event.HttpGet url,
           Event.CertsUpdate s.user_info_.issuer b
             (s.world.now + (env.RunHTTPRequest (httpGets s.trace).length url).delay +
               kPubKeyCacheDuration),
           Event.GetCert s.user_info_.issuer,
           Event.ValidatorVerifySignature s.auth_token_ b,
           Event.ValidatorGetExpirationTime s.auth_token_,
           Event.JwtCacheInsert s.auth_token_ s.user_info_ v.GetExpirationTime
             (s.world.now + (env.RunHTTPRequest (httpGets s.trace).length url).delay),
           Event.SetUserInfo s.user_info_,
           Event.on_done Status.OK] ++
          (if (env.RunHTTPRequest (httpGets s.trace).length url).ret.ok then []
           else [Event.on_done (denial "Unable to fetch public key")]) } := by
  obtain ⟨st, hst, hc⟩ := hdel
  unfold FetchPubKey
  rw [HttpFetch_some env url _ s st b hc]
  dsimp only
  rw [PostFetchPubKey_ok _ b _ (by rw [SetErrorCause_ok]; exact hst) hb]
  rw [VerifySignature_ok _ (b, s.world.now +
    (env.RunHTTPRequest (httpGets s.trace).length url).delay + kPubKeyCacheDuration) v
    (by simp [Certs.Update]) (by simpa using hv) hver]
  cases (env.RunHTTPRequest (httpGets s.trace).length url).ret.ok <;>
    simp [Exec.emit, Unauthorized_eq]

/-- The first HTTP fetch `DiscoverJwksUri` issues goes to its URL. -/
theorem DiscoverJwksUri_first_get (env : Env) (d : String) (s : Exec) :
    ∃ rest, httpGets (DiscoverJwksUri env d s).trace = httpGets s.trace ++ d :: rest := by
  have hpre : ∃ rest, httpGets (HttpFetch env d (PostFetchJwksUri env) s).2.trace =
      httpGets s.trace ++ d :: rest := by
    cases hc : (env.RunHTTPRequest (httpGets s.trace).length d).completion with
    | none =>
      rw [HttpFetch_none env d _ s hc]
      exact ⟨[], by simp⟩
    | some c =>
      rw [HttpFetch_some env d _ s c.1 c.2 hc]
      obtain ⟨added, h1, _⟩ := PostFetchJwksUri_certs env (c.1.SetErrorCause ErrorCause.AUTH) c.2
        { ((s.emit (Event.LogDebug ("http fetch: " ++ d))).emit (Event.HttpGet d)) with
          world :=
            { s.world with
              now := s.world.now + (env.RunHTTPRequest (httpGets s.trace).length d).delay } }
      exact ⟨httpGets added, by rw [h1]; simp⟩
  unfold DiscoverJwksUri
  dsimp only
  split
  · obtain ⟨rest, h⟩ := hpre
    exact ⟨rest, by simp [Unauthorized_eq, h]⟩
  · exact hpre

theorem policyState_httpGets (env : Env) (ctx : Context) (w : World) (t : String)
    (cache_hit : Bool) (info : UserInfo) :
    httpGets (policyState env ctx w t cache_hit info).trace = [] := by
  simp [policyState, lookupState, httpGets_readEvents, httpGets_lookupEvents,
    httpGets_policyEvents]

theorem policyState_completions (env : Env) (ctx : Context) (w : World) (t : String)
    (cache_hit : Bool) (info : UserInfo) :
    completions (policyState env ctx w t cache_hit info).trace = [] := by
  simp [policyState, lookupState, completions_readEvents, completions_lookupEvents,
    completions_policyEvents]

theorem policyState_userInfos (env : Env) (ctx : Context) (w : World) (t : String)
    (cache_hit : Bool) (info : UserInfo) :
    userInfos (policyState env ctx w t cache_hit info).trace = [] := by
  simp [policyState, lookupState, userInfos_readEvents, userInfos_lookupEvents,
    userInfos_policyEvents]

theorem policyState_verifies (env : Env) (ctx : Context) (w : World) (t : String)
    (cache_hit : Bool) (info : UserInfo) :
    verifies (policyState env ctx w t cache_hit info).trace = [] := by
  have hl : verifies (lookupEvents w t cache_hit) = [] := by
    unfold lookupEvents
    repeat' split
    all_goals simp
  simp [policyState, lookupState, verifies_readEvents, hl, verifies_policyEvents]

/-- The check of a parsed, policy-accepted token with no fresh key-cache entry,
whose issuer the registry resolves to the discovery URL `d`, continues with
`DiscoverJwksUri` from a state that has issued no HTTP fetch. -/
theorem CheckAuth_to_discovery (env : Env) (ctx : Context) (w : World) (m : MethodInfo)
    (t d : String) (info : UserInfo)
    (hreq : ctx.RequireAuth = true) (hm : ctx.method = some m) (hauth : m.auth = true)
    (htok : GetAuthToken_reference ctx = t) (hne : t.isEmpty = false)
    (hin : ReachesPolicy env w t false info)
    (hiss : m.isIssuerAllowed info.issuer = true) (hacc : audienceAccepted ctx m info = true)
    (hnokey : ∀ cert, w.certs info.issuer = some cert → cert.2 < w.now)
    (hreg : w.jwks_uri info.issuer = (d, true)) (hd : d.isEmpty = false) :
    CheckAuth env ctx w = DiscoverJwksUri env d (keyLookupState env ctx w t info) := by
  have hto := policy_accepted_next env ctx w m t false info hreq hm hauth htok hne hin
    hiss hacc
  simp only [Bool.false_eq_true, if_false] at hto
  have hw : (policyState env ctx w t false info).world = w.afterLookup t := rfl
  have hui : (policyState env ctx w t false info).user_info_ = info := rfl
  rw [hto, InitKey_stale env _ (by
    intro cert hc
    rw [hw, hui, afterLookup_certs] at hc
    rw [hw, afterLookup_now]
    exact hnokey cert hc)]
  simp only [hw, hui, afterLookup_jwks_uri, hreg, hd, Bool.false_eq_true, if_false, if_true]
  simp only [Exec.emit, List.append_assoc, List.singleton_append]
  rfl

theorem keyLookupState_httpGets (env : Env) (ctx : Context) (w : World) (t : String)
    (info : UserInfo) : httpGets (keyLookupState env ctx w t info).trace = [] := by
  simp [keyLookupState, policyState_httpGets]

theorem discoveredState_httpGets (env : Env) (ctx : Context) (w : World) (t : String)
    (info : UserInfo) (d u : String) :
    httpGets (discoveredState env ctx w t info d u).trace = [d] := by
  simp [discoveredState, keyLookupState_httpGets]

/-- How `DiscoverJwksUri` continues when the discovery request delivers a
document whose `jwks_uri` is `u`. -/
theorem discovery_to_fetch (env : Env) (ctx : Context) (w : World) (t : String)
    (info : UserInfo) (d u doc : String) (j : env.Json)
    (hdel : (env.RunHTTPRequest 0 d).delivers doc)
    (hj : env.grpc_json_parse_string doc = some j)
    (hu : env.GetStringValue j "jwks_uri" = some u) :
    DiscoverJwksUri env d (keyLookupState env ctx w t info) =
      if (env.RunHTTPRequest 0 d).ret.ok then
        FetchPubKey env u (discoveredState env ctx w t info d u)
      else
        Unauthorized "Unable to fetch URI of the key via OpenID discovery"
          (FetchPubKey env u (discoveredState env ctx w t info d u)) := by
  have h0 : (httpGets (keyLookupState env ctx w t info).trace).length = 0 := by
    rw [keyLookupState_httpGets]; rfl
  have hdisc := DiscoverJwksUri_delivers env d (keyLookupState env ctx w t info) doc j u
    (by rw [h0]; exact hdel) hj hu
  rw [h0] at hdisc
  have hnow : (keyLookupState env ctx w t info).world.now = w.now := afterLookup_now w t
  have hjw : (keyLookupState env ctx w t info).world.jwks_uri = w.jwks_uri :=
    afterLookup_jwks_uri w t
  have hui : (keyLookupState env ctx w t info).user_info_ = info := rfl
  rw [hdisc, hnow, hjw, hui]
  rfl


/-- C10. For a parsed, policy-accepted token of issuer `I` with no fresh
key-cache entry, when the registry yields the non-empty discovery URL `d` with
discovery required, the first HTTP fetch of the check is a GET to `d`.  If it
completes OK with a document whose `jwks_uri` is `u`, the check records `u` for
`I` in the registry and issues a second GET, to `u`, and no other.  If that
completes OK with a non-empty body `b` and the signature verifies against `b`,
the check verifies against `b` only, reports Allow and calls `SetUserInfo`
once, with the parsed user info; its trace is spelled out, and when both
requests were dispatched with status OK, Allow is its only completion. -/
theorem CheckAuth_cold_discovery (env : Env) (ctx : Context) (w : World) (m : MethodInfo)
    (t d : String) (info : UserInfo) (v : JwtValidator)
    (hreq : ctx.RequireAuth = true) (hm : ctx.method = some m) (hauth : m.auth = true)
    (htok : GetAuthToken_reference ctx = t) (hne : t.isEmpty = false)
    (hin : ReachesPolicy env w t false info) (hcreate : env.Create t = some v)
    (hiss : m.isIssuerAllowed info.issuer = true) (hacc : audienceAccepted ctx m info = true)
    (hnokey : ∀ cert, w.certs info.issuer = some cert → cert.2 < w.now)
    (hreg : w.jwks_uri info.issuer = (d, true)) (hd : d.isEmpty = false) :
    (∃ rest, httpGets (CheckAuth env ctx w).trace = d :: rest) ∧
    (∀ (doc : String) (j : env.Json) (u : String),
      (env.RunHTTPRequest 0 d).delivers doc →
      env.grpc_json_parse_string doc = some j →
      env.GetStringValue j "jwks_uri" = some u →
      Event.SetJwksUri info.issuer u false ∈ (CheckAuth env ctx w).trace ∧
        (CheckAuth env ctx w).world.jwks_uri info.issuer = (u, false) ∧
        httpGets (CheckAuth env ctx w).trace = [d, u] ∧
        ∀ b : String,
          (env.RunHTTPRequest 1 u).delivers b → b.isEmpty = false →
          (v.VerifySignature b).ok = true →
          (CheckAuth env ctx w).trace =
              (policyState env ctx w t false info).trace ++
                [Event.GetCert info.issuer, Event.GetJwksUri info.issuer,
                 Event.LogDebug ("http fetch: " ++ d), Event.HttpGet d,
                 Event.SetJwksUri info.issuer u false,
                 Event.LogDebug ("http fetch: " ++ u), Event.HttpGet u,
                 Event.CertsUpdate info.issuer b
                   (w.now + (env.RunHTTPRequest 0 d).delay + (env.RunHTTPRequest 1 u).delay +
                     kPubKeyCacheDuration),
                 Event.GetCert info.issuer,
                 Event.ValidatorVerifySignature t b,
                 Event.ValidatorGetExpirationTime t,
                 Event.JwtCacheInsert t info v.GetExpirationTime
                   (w.now + (env.RunHTTPRequest 0 d).delay + (env.RunHTTPRequest 1 u).delay),
                 Event.SetUserInfo info,
                 Event.on_done Status.OK] ++
                (if (env.RunHTTPRequest 1 u).ret.ok then []
                 else [Event.on_done (denial "Unable to fetch public key")]) ++
                (if (env.RunHTTPRequest 0 d).ret.ok then []
                 else [Event.on_done
                   (denial "Unable to fetch URI of the key via OpenID discovery")]) ∧
            verifies (CheckAuth env ctx w).trace = [(t, b)] ∧
            userInfos (CheckAuth env ctx w).trace = [info] ∧
            Status.OK ∈ completions (CheckAuth env ctx w).trace ∧
            ((env.RunHTTPRequest 0 d).ret.ok = true → (env.RunHTTPRequest 1 u).ret.ok = true →
              completions (CheckAuth env ctx w).trace = [Status.OK])) := by
  have hto := CheckAuth_to_discovery env ctx w m t d info hreq hm hauth htok hne hin hiss hacc
    hnokey hreg hd
  have hg := policyState_httpGets env ctx w t false info
  have hcs := policyState_completions env ctx w t false info
  have hus := policyState_userInfos env ctx w t false info
  have hvs := policyState_verifies env ctx w t false info
  constructor
  · obtain ⟨rest, h⟩ := DiscoverJwksUri_first_get env d (keyLookupState env ctx w t info)
    exact ⟨rest, by rw [hto, h, keyLookupState_httpGets]; rfl⟩
  · intro doc j u hdel hj hu
    have hdisc := discovery_to_fetch env ctx w t info d u doc j hdel hj hu
    have hgd := discoveredState_httpGets env ctx w t info d u
    have htr : (discoveredState env ctx w t info d u).trace =
        (policyState env ctx w t false info).trace ++
          [Event.GetCert info.issuer, Event.GetJwksUri info.issuer,
           Event.LogDebug ("http fetch: " ++ d), Event.HttpGet d,
           Event.SetJwksUri info.issuer u false] := by
      simp [discoveredState, keyLookupState]
    have hjw : (discoveredState env ctx w t info d u).world.jwks_uri info.issuer = (u, false) := by
      simp [discoveredState, Registry.SetJwksUri]
    obtain ⟨added, ha, hb, hc⟩ := FetchPubKey_frame env u (discoveredState env ctx w t info d u)
    refine ⟨?_, ?_, ?_, ?_⟩
    · rw [hto, hdisc]
      split <;> simp [Unauthorized_eq, ha, htr]
    · rw [hto, hdisc]
      split <;> simp [Unauthorized_eq, hc, hjw]
    · rw [hto, hdisc]
      split <;> simp [Unauthorized_eq, ha, hb, hgd]
    · intro b hdel2 hbody hver
      have h1 : (httpGets (discoveredState env ctx w t info d u).trace).length = 1 := by
        rw [hgd]; rfl
      have hval : (discoveredState env ctx w t info d u).validator_ = some v := by
        simp [discoveredState, keyLookupState, policyState, hcreate]
      have hfetch := FetchPubKey_delivers env u (discoveredState env ctx w t info d u) b v
        (by rw [h1]; exact hdel2) hbody hval hver
      rw [h1] at hfetch
      have hui : (discoveredState env ctx w t info d u).user_info_ = info := rfl
      have htk : (discoveredState env ctx w t info d u).auth_token_ = t := rfl
      have hnow : (discoveredState env ctx w t info d u).world.now =
          w.now + (env.RunHTTPRequest 0 d).delay := rfl
      simp only [hui, htk, hnow, htr] at hfetch
      have hne1 : ¬ Status.OK = denial "Unable to fetch public key" :=
        fun h => denial_ne_OK _ h.symm
      have hne2 : ¬ Status.OK = denial "Unable to fetch URI of the key via OpenID discovery" :=
        fun h => denial_ne_OK _ h.symm
      rw [hto, hdisc, hfetch]
      cases (env.RunHTTPRequest 0 d).ret.ok <;> cases (env.RunHTTPRequest 1 u).ret.ok <;>
        simp [Unauthorized_eq, hg, hcs, hus, hvs, hne1, hne2]

/-- Witness of C10: the cold check of `kToken` in the sample service. -/
theorem CheckAuth_cold_discovery_witness :
    httpGets (CheckAuth Sample.env (Sample.ctx (some "Bearer kToken") none)
        Sample.world).trace = [Sample.kIssuer1OpenIdUrl, Sample.kIssuer1PubkeyUrl] ∧
      (CheckAuth Sample.env (Sample.ctx (some "Bearer kToken") none)
        Sample.world).world.jwks_uri Sample.kIss = (Sample.kIssuer1PubkeyUrl, false) ∧
      userInfos (CheckAuth Sample.env (Sample.ctx (some "Bearer kToken") none)
        Sample.world).trace =
        [{ id := Sample.kSub, issuer := Sample.kIss, audiences := [Sample.kServiceName] }] ∧
      completions (CheckAuth Sample.env (Sample.ctx (some "Bearer kToken") none)
        Sample.world).trace = [Status.OK] :=
  have h := (CheckAuth_cold_discovery Sample.env (Sample.ctx (some "Bearer kToken") none)
    Sample.world Sample.method "kToken" Sample.kIssuer1OpenIdUrl
    { id := Sample.kSub, issuer := Sample.kIss, audiences := [Sample.kServiceName] }
    (Sample.validator Sample.kSub Sample.kIss Sample.kServiceName Sample.kExp)
    rfl rfl rfl (by decide) (by decide)
    (Or.inr ⟨rfl, fun _ hv => by simp [Sample.world] at hv,
      Sample.validator Sample.kSub Sample.kIss Sample.kServiceName Sample.kExp,
      rfl, by decide, by decide⟩)
    rfl (by decide) (by decide) (fun _ hc => by simp [Sample.world] at hc) (by decide)
    (by decide)).2 Sample.kOpenIdContent Sample.kIssuer1PubkeyUrl Sample.kIssuer1PubkeyUrl
    ⟨Status.OK, rfl, rfl⟩ rfl rfl
  have h2 := h.2.2.2 Sample.kPubkey ⟨Status.OK, rfl, rfl⟩ (by decide) (by decide)
  ⟨h.2.2.1, h.2.1, h2.2.2.1, h2.2.2.2.2 (by decide) (by decide)⟩

/-! ## Every check follows the shape -/

theorem replay_nil (w : World) : replay [] w = w := rfl

theorem replay_cons (e : Event) (l : List Event) (w : World) :
    replay (e :: l) w = replay l (applyEvent w e) := rfl

theorem replay_append (a b : List Event) (w : World) :
    replay (a ++ b) w = replay b (replay a w) := by
  simp [replay, List.foldl_append]

theorem sameStores_refl (w : World) : sameStores w w := ⟨rfl, rfl, rfl⟩

theorem sameStores_trans (a b c : World) (h1 : sameStores a b) (h2 : sameStores b c) :
    sameStores a c :=
  ⟨h1.1.trans h2.1, h1.2.1.trans h2.2.1, h1.2.2.trans h2.2.2⟩

theorem sameStores_applyEvent (a b : World) (e : Event) (h : sameStores a b) :
    sameStores (applyEvent a e) (applyEvent b e) := by
  obtain ⟨h1, h2, h3⟩ := h
  cases e <;> simp [applyEvent, sameStores, h1, h2, h3]

theorem sameStores_replay (l : List Event) (a b : World) (h : sameStores a b) :
    sameStores (replay l a) (replay l b) := by
  induction l generalizing a b with
  | nil => exact h
  | cons e l ih =>
    rw [replay_cons, replay_cons]
    exact ih _ _ (sameStores_applyEvent a b e h)

/-- A step that moves from `s` to `s2`, adding `pre`, followed by a run of
known shape. -/
theorem produces_step (G G2 : List Event → Prop) (s s2 e : Exec) (pre : List Event)
    (htr : s2.trace = s.trace ++ pre) (hst : sameStores s2.world (replay pre s.world))
    (hG : ∀ added, G2 added → G (pre ++ added)) (h : Produces s2 e G2) :
    Produces s e G := by
  obtain ⟨added, h1, h2, h3⟩ := h
  refine ⟨pre ++ added, ?_, hG _ h2, ?_⟩
  · rw [h1, htr, List.append_assoc]
  · rw [replay_append]
    exact sameStores_trans _ _ _ h3 (sameStores_replay added _ _ hst)

/-- A run followed by a denial. -/
theorem produces_then_denial (G G2 : List Event → Prop) (s e : Exec) (error : String)
    (hG : ∀ added, G2 added → G (added ++ [Event.on_done (denial error)]))
    (h : Produces s e G2) :
    Produces s (Unauthorized error e) G := by
  obtain ⟨added, h1, h2, h3⟩ := h
  refine ⟨added ++ [Event.on_done (denial error)], ?_, hG _ h2, ?_⟩
  · simp [Unauthorized_eq, h1]
  · rw [replay_append]
    exact h3

theorem VerifySignature_missing (s : Exec) (hc : s.world.certs s.user_info_.issuer = none) :
    VerifySignature s =
      { s with
        trace := s.trace ++
          [Event.GetCert s.user_info_.issuer,
           Event.on_done (denial "Missing verification key")] } := by
  unfold VerifySignature
  simp [hc, Unauthorized_eq, Exec.emit]

theorem VerifySignature_produces (s : Exec) (v : JwtValidator) (hv : s.validator_ = some v) :
    Produces s (VerifySignature s) (VerifyTrace s.auth_token_ s.user_info_ v) := by
  cases hc : s.world.certs s.user_info_.issuer with
  | none =>
    rw [VerifySignature_missing s hc]
    exact ⟨_, rfl, VerifyTrace.missing, sameStores_refl _⟩
  | some cert =>
    cases hok : (v.VerifySignature cert.1).ok with
    | true =>
      rw [VerifySignature_ok s cert v hc hv hok]
      exact ⟨_, rfl, VerifyTrace.verified cert.1 s.world.now hok, ⟨rfl, rfl, rfl⟩⟩
    | false =>
      rw [VerifySignature_failed s cert v hc hv hok]
      exact ⟨_, rfl, VerifyTrace.failed cert.1 hok, sameStores_refl _⟩

theorem PostFetchPubKey_failed (status : Status) (body : String) (s : Exec)
    (h : status.ok = false ∨ body.isEmpty = true) :
    PostFetchPubKey status body s =
      { s with
        trace := s.trace ++ [Event.on_done (denial "Unable to fetch verification key")] } := by
  unfold PostFetchPubKey
  rcases h with h | h <;> simp [h, Unauthorized_eq]

theorem PostFetchPubKey_produces (status : Status) (body : String) (s : Exec) (v : JwtValidator)
    (hv : s.validator_ = some v) :
    Produces s (PostFetchPubKey status body s) (PubKeyTrace s.auth_token_ s.user_info_ v) := by
  by_cases h : status.ok = true ∧ body.isEmpty = false
  · rw [PostFetchPubKey_ok status body s h.1 h.2]
    exact produces_step _ (VerifyTrace s.auth_token_ s.user_info_ v) s
      { s with
        world := { s.world with
          certs := Certs.Update s.world.certs s.user_info_.issuer body
            (s.world.now + kPubKeyCacheDuration) }
        trace := s.trace ++
          [Event.CertsUpdate s.user_info_.issuer body (s.world.now + kPubKeyCacheDuration)] }
      _ [Event.CertsUpdate s.user_info_.issuer body (s.world.now + kPubKeyCacheDuration)]
      rfl ⟨rfl, rfl, rfl⟩ (fun added ha => PubKeyTrace.stored _ _ _ h.2 ha)
      (VerifySignature_produces _ v hv)
  · have h2 : status.ok = false ∨ body.isEmpty = true := by
      by_cases h3 : status.ok = true
      · right
        have : ¬ body.isEmpty = false := fun h4 => h ⟨h3, h4⟩
        simpa using this
      · left
        simpa using h3
    rw [PostFetchPubKey_failed status body s h2]
    exact ⟨_, rfl, PubKeyTrace.failed, sameStores_refl _⟩

theorem produces_dispatch (G2 : List Event → Prop) (s e : Exec) (ok : Bool) (error : String)
    (h : Produces s e G2) :
    Produces s (if !ok then Unauthorized error e else e)
      (fun l => ∃ a, G2 a ∧ l = a ++ dispatchDenial ok error) := by
  cases ok with
  | true =>
    obtain ⟨added, h1, h2, h3⟩ := h
    exact ⟨added, by simpa using h1, ⟨added, h2, by simp [dispatchDenial]⟩, by simpa using h3⟩
  | false =>
    simp only [Bool.not_false, if_true]
    exact produces_then_denial _ G2 s e error
      (fun added ha => ⟨added, ha, by simp [dispatchDenial]⟩) h

theorem FetchPubKey_none (env : Env) (url : String) (s : Exec)
    (hc : (env.RunHTTPRequest (httpGets s.trace).length url).completion = none) :
    FetchPubKey env url s =
      { s with
        trace := s.trace ++
          ([Event.LogDebug ("http fetch: " ++ url), Event.HttpGet url] ++
            dispatchDenial (env.RunHTTPRequest (httpGets s.trace).length url).ret.ok
              "Unable to fetch public key") } := by
  unfold FetchPubKey
  rw [HttpFetch_none env url _ s hc]
  cases h : (env.RunHTTPRequest (httpGets s.trace).length url).ret.ok <;>
    simp [h, dispatchDenial, Unauthorized_eq, Exec.emit]

theorem FetchPubKey_some (env : Env) (url : String) (s : Exec) (status : Status)
    (body : String)
    (hc : (env.RunHTTPRequest (httpGets s.trace).length url).completion = some (status, body)) :
    FetchPubKey env url s =
      if !(env.RunHTTPRequest (httpGets s.trace).length url).ret.ok then
        Unauthorized "Unable to fetch public key"
          (PostFetchPubKey (status.SetErrorCause ErrorCause.AUTH) body (fetchedState env url s))
      else PostFetchPubKey (status.SetErrorCause ErrorCause.AUTH) body (fetchedState env url s) := by
  unfold FetchPubKey
  rw [HttpFetch_some env url _ s status body hc]
  simp [fetchedState, Exec.emit]

theorem DiscoverJwksUri_none (env : Env) (url : String) (s : Exec)
    (hc : (env.RunHTTPRequest (httpGets s.trace).length url).completion = none) :
    DiscoverJwksUri env url s =
      { s with
        trace := s.trace ++
          ([Event.LogDebug ("http fetch: " ++ url), Event.HttpGet url] ++
            dispatchDenial (env.RunHTTPRequest (httpGets s.trace).length url).ret.ok
              "Unable to fetch URI of the key via OpenID discovery") } := by
  unfold DiscoverJwksUri
  rw [HttpFetch_none env url _ s hc]
  cases h : (env.RunHTTPRequest (httpGets s.trace).length url).ret.ok <;>
    simp [h, dispatchDenial, Unauthorized_eq, Exec.emit]

theorem DiscoverJwksUri_some (env : Env) (url : String) (s : Exec) (status : Status)
    (body : String)
    (hc : (env.RunHTTPRequest (httpGets s.trace).length url).completion = some (status, body)) :
    DiscoverJwksUri env url s =
      if !(env.RunHTTPRequest (httpGets s.trace).length url).ret.ok then
        Unauthorized "Unable to fetch URI of the key via OpenID discovery"
          (PostFetchJwksUri env (status.SetErrorCause ErrorCause.AUTH) body
            (fetchedState env url s))
      else
        PostFetchJwksUri env (status.SetErrorCause ErrorCause.AUTH) body
          (fetchedState env url s) := by
  unfold DiscoverJwksUri
  rw [HttpFetch_some env url _ s status body hc]
  simp [fetchedState, Exec.emit]

theorem fetchedState_stores (env : Env) (url : String) (s : Exec) :
    sameStores (fetchedState env url s).world
      (replay [Event.LogDebug ("http fetch: " ++ url), Event.HttpGet url] s.world) :=
  ⟨rfl, rfl, rfl⟩

theorem FetchPubKey_produces (env : Env) (url : String) (s : Exec) (v : JwtValidator)
    (hv : s.validator_ = some v) :
    Produces s (FetchPubKey env url s) (FetchTrace s.auth_token_ s.user_info_ v url) := by
  cases hc : (env.RunHTTPRequest (httpGets s.trace).length url).completion with
  | none =>
    rw [FetchPubKey_none env url s hc]
    refine ⟨_, rfl, FetchTrace.dropped _, ?_⟩
    cases h : (env.RunHTTPRequest (httpGets s.trace).length url).ret.ok <;>
      exact ⟨rfl, rfl, rfl⟩
  | some c =>
    rw [FetchPubKey_some env url s c.1 c.2 hc]
    have h1 : Produces s
        (PostFetchPubKey (c.1.SetErrorCause ErrorCause.AUTH) c.2 (fetchedState env url s))
        (fun l => ∃ mid, PubKeyTrace s.auth_token_ s.user_info_ v mid ∧
          l = [Event.LogDebug ("http fetch: " ++ url), Event.HttpGet url] ++ mid) :=
      produces_step _ (PubKeyTrace s.auth_token_ s.user_info_ v) s (fetchedState env url s) _
        [Event.LogDebug ("http fetch: " ++ url), Event.HttpGet url] rfl
        (fetchedState_stores env url s) (fun added ha => ⟨added, ha, rfl⟩)
        (PostFetchPubKey_produces _ _ (fetchedState env url s) v hv)
    obtain ⟨added, h2, ⟨a, ⟨mid, hm, ha⟩, hl⟩, h4⟩ :=
      produces_dispatch _ s _ (env.RunHTTPRequest (httpGets s.trace).length url).ret.ok
        "Unable to fetch public key" h1
    refine ⟨added, h2, ?_, h4⟩
    rw [hl, ha]
    exact FetchTrace.completed _ mid hm

theorem PostFetchJwksUri_failed (env : Env) (status : Status) (body : String) (s : Exec)
    (h : status.ok = false) :
    PostFetchJwksUri env status body s =
      Unauthorized "Unable to fetch URI of the key via OpenID discovery"
        (recordedState s [] "") := by
  unfold PostFetchJwksUri
  simp [h, recordedState, Exec.emit]

theorem PostFetchJwksUri_invalid (env : Env) (status : Status) (body : String) (s : Exec)
    (h : status.ok = true) (hu : jwksUriOf env body = none) :
    PostFetchJwksUri env status body s =
      Unauthorized "Unable to fetch URI of the key via OpenID discovery"
        (recordedState s [Event.LogError "OpenID discovery failed due to invalid doc format"]
          "") := by
  unfold jwksUriOf at hu
  unfold PostFetchJwksUri
  simp only [h, Bool.not_true, Bool.false_eq_true, if_false]
  rw [hu]
  simp [recordedState, Exec.emit]

theorem PostFetchJwksUri_found (env : Env) (status : Status) (body : String) (s : Exec)
    (u : String) (h : status.ok = true) (hu : jwksUriOf env body = some u) :
    PostFetchJwksUri env status body s = FetchPubKey env u (recordedState s [] u) := by
  unfold jwksUriOf at hu
  unfold PostFetchJwksUri
  simp only [h, Bool.not_true, Bool.false_eq_true, if_false]
  rw [hu]
  simp [recordedState, Exec.emit]

theorem recordedState_stores (s : Exec) (pre : List Event) (u : String)
    (hp : replay pre s.world = s.world) :
    sameStores (recordedState s pre u).world
      (replay (pre ++ [Event.SetJwksUri s.user_info_.issuer u false]) s.world) := by
  rw [replay_append, hp]
  exact ⟨rfl, rfl, rfl⟩

theorem PostFetchJwksUri_produces (env : Env) (status : Status) (body : String) (s : Exec)
    (v : JwtValidator) (hv : s.validator_ = some v) :
    Produces s (PostFetchJwksUri env status body s)
      (JwksUriTrace s.auth_token_ s.user_info_ v) := by
  cases hok : status.ok with
  | false =>
    rw [PostFetchJwksUri_failed env status body s hok]
    exact ⟨_, by simp [Unauthorized_eq, recordedState], JwksUriTrace.failed, ⟨rfl, rfl, rfl⟩⟩
  | true =>
    cases hu : jwksUriOf env body with
    | none =>
      rw [PostFetchJwksUri_invalid env status body s hok hu]
      exact ⟨_, by simp [Unauthorized_eq, recordedState], JwksUriTrace.invalid,
        ⟨rfl, rfl, rfl⟩⟩
    | some u =>
      rw [PostFetchJwksUri_found env status body s u hok hu]
      exact produces_step _ (FetchTrace s.auth_token_ s.user_info_ v u) s (recordedState s [] u)
        _ [Event.SetJwksUri s.user_info_.issuer u false] (by simp [recordedState])
        ⟨rfl, rfl, rfl⟩ (fun added ha => JwksUriTrace.found u added ha)
        (FetchPubKey_produces env u (recordedState s [] u) v hv)

theorem DiscoverJwksUri_produces (env : Env) (url : String) (s : Exec) (v : JwtValidator)
    (hv : s.validator_ = some v) :
    Produces s (DiscoverJwksUri env url s) (DiscoverTrace s.auth_token_ s.user_info_ v url) := by
  cases hc : (env.RunHTTPRequest (httpGets s.trace).length url).completion with
  | none =>
    rw [DiscoverJwksUri_none env url s hc]
    refine ⟨_, rfl, DiscoverTrace.dropped _, ?_⟩
    cases h : (env.RunHTTPRequest (httpGets s.trace).length url).ret.ok <;>
      exact ⟨rfl, rfl, rfl⟩
  | some c =>
    rw [DiscoverJwksUri_some env url s c.1 c.2 hc]
    have h1 : Produces s
        (PostFetchJwksUri env (c.1.SetErrorCause ErrorCause.AUTH) c.2 (fetchedState env url s))
        (fun l => ∃ mid, JwksUriTrace s.auth_token_ s.user_info_ v mid ∧
          l = [Event.LogDebug ("http fetch: " ++ url), Event.HttpGet url] ++ mid) :=
      produces_step _ (JwksUriTrace s.auth_token_ s.user_info_ v) s (fetchedState env url s) _
        [Event.LogDebug ("http fetch: " ++ url), Event.HttpGet url] rfl
        (fetchedState_stores env url s) (fun added ha => ⟨added, ha, rfl⟩)
        (PostFetchJwksUri_produces env _ _ (fetchedState env url s) v hv)
    obtain ⟨added, h2, ⟨a, ⟨mid, hm, ha⟩, hl⟩, h4⟩ :=
      produces_dispatch _ s _ (env.RunHTTPRequest (httpGets s.trace).length url).ret.ok
        "Unable to fetch URI of the key via OpenID discovery" h1
    refine ⟨added, h2, ?_, h4⟩
    rw [hl, ha]
    exact DiscoverTrace.completed _ mid hm

theorem InitKey_produces (env : Env) (s : Exec) (v : JwtValidator)
    (hv : s.validator_ = some v) :
    Produces s (InitKey env s) (KeyTrace s.auth_token_ s.user_info_ v) := by
  by_cases hfresh : ∃ cert, s.world.certs s.user_info_.issuer = some cert ∧ s.world.now ≤ cert.2
  · obtain ⟨cert, hc, hn⟩ := hfresh
    rw [InitKey_cached env s cert hc hn]
    exact produces_step _ (VerifyTrace s.auth_token_ s.user_info_ v) s
      (s.emit (Event.GetCert s.user_info_.issuer)) _ [Event.GetCert s.user_info_.issuer]
      rfl ⟨rfl, rfl, rfl⟩ (fun added ha => KeyTrace.cached added ha)
      (VerifySignature_produces _ v hv)
  · have hnokey : ∀ cert, s.world.certs s.user_info_.issuer = some cert →
        cert.2 < s.world.now := by
      intro cert hc
      by_contra hlt
      exact hfresh ⟨cert, hc, Nat.not_lt.mp hlt⟩
    rw [InitKey_stale env s hnokey]
    cases hu : (s.world.jwks_uri s.user_info_.issuer).1.isEmpty with
    | true =>
      simp only [if_true]
      exact ⟨_, by simp [Unauthorized_eq], KeyTrace.no_url, ⟨rfl, rfl, rfl⟩⟩
    | false =>
      simp only [Bool.false_eq_true, if_false]
      cases ho : (s.world.jwks_uri s.user_info_.issuer).2 with
      | true =>
        simp only [if_true]
        exact produces_step _ (DiscoverTrace s.auth_token_ s.user_info_ v _) s (resolveState s) _
          [Event.GetCert s.user_info_.issuer, Event.GetJwksUri s.user_info_.issuer]
          (by simp [resolveState]) ⟨rfl, rfl, rfl⟩
          (fun added ha => KeyTrace.discover _ added hu ha)
          (DiscoverJwksUri_produces env _ (resolveState s) v hv)
      | false =>
        simp only [Bool.false_eq_true, if_false]
        exact produces_step _ (FetchTrace s.auth_token_ s.user_info_ v _) s (resolveState s) _
          [Event.GetCert s.user_info_.issuer, Event.GetJwksUri s.user_info_.issuer]
          (by simp [resolveState]) ⟨rfl, rfl, rfl⟩
          (fun added ha => KeyTrace.fetch _ added hu ha)
          (FetchPubKey_produces env _ (resolveState s) v hv)

theorem CheckAudience_produces (env : Env) (ctx : Context) (cache_hit : Bool) (s : Exec)
    (m : MethodInfo) (hm : ctx.method = some m)
    (hv : cache_hit = true ∨ ∃ v, s.validator_ = some v) :
    Produces s (CheckAudience env ctx cache_hit s)
      (PolicyTrace env ctx m s.auth_token_ s.user_info_ s.validator_ cache_hit) := by
  have hpol : replay (policyEvents env ctx s.user_info_) s.world = s.world := by
    unfold policyEvents
    by_cases h : ctx.service_name ∈ s.user_info_.audiences <;> simp [h, replay, applyEvent]
  cases hiss : m.isIssuerAllowed s.user_info_.issuer with
  | false =>
    rw [CheckAudience_issuer_denied env ctx cache_hit s m hm hiss]
    exact ⟨_, rfl, PolicyTrace.issuer_denied cache_hit hiss, ⟨rfl, rfl, rfl⟩⟩
  | true =>
    cases hacc : audienceAccepted ctx m s.user_info_ with
    | false =>
      rw [CheckAudience_audience_denied env ctx cache_hit s m hm hiss hacc]
      refine ⟨_, by simp, PolicyTrace.audience_denied cache_hit hiss hacc, ?_⟩
      rw [replay_append, hpol]
      exact ⟨rfl, rfl, rfl⟩
    | true =>
      rw [CheckAudience_accepted env ctx cache_hit s m hm hiss hacc]
      cases cache_hit with
      | true =>
        refine ⟨_, by simp [PassUserInfoOnSuccess], PolicyTrace.cached hiss hacc, ?_⟩
        rw [replay_append, hpol]
        exact ⟨rfl, rfl, rfl⟩
      | false =>
        obtain ⟨v, hv1⟩ := hv.resolve_left (by simp)
        simp only [Bool.false_eq_true, if_false]
        exact produces_step _ (KeyTrace s.auth_token_ s.user_info_ v) s
          { s with trace := s.trace ++ policyEvents env ctx s.user_info_ } _
          (policyEvents env ctx s.user_info_) rfl (by rw [hpol]; exact ⟨rfl, rfl, rfl⟩)
          (fun added ha => PolicyTrace.key v added hv1 hiss hacc ha)
          (InitKey_produces env _ v hv1)

theorem LookupJwtCache_miss (env : Env) (ctx : Context) (w : World) (t : String)
    (hmiss : ∀ val, w.jwt_cache t = some val → val.exp < w.now) :
    LookupJwtCache env ctx (lookupState ctx w t) = ParseJwt env ctx (missState ctx w t) := by
  unfold LookupJwtCache
  cases hval : w.jwt_cache t with
  | none => simp [lookupState, hval, missState, missEvents, World.afterLookup, Exec.emit]
  | some val =>
    have hlt := hmiss val hval
    simp [lookupState, hval, Nat.not_le.mpr hlt, missState, missEvents, World.afterLookup,
      Exec.emit]

theorem lookupEvents_miss (w : World) (t : String) :
    lookupEvents w t false =
      missEvents w t ++ [Event.ValidatorCreate t, Event.ValidatorParse t] := by
  unfold lookupEvents missEvents
  cases w.jwt_cache t <;> simp

theorem ParseJwt_create_failed (env : Env) (ctx : Context) (w : World) (t : String)
    (hc : env.Create t = none) :
    ParseJwt env ctx (missState ctx w t) =
      { missState ctx w t with
        trace := (lookupState ctx w t).trace ++ missEvents w t ++
          [Event.ValidatorCreate t, Event.on_done (denial "Internal error")] } := by
  unfold ParseJwt
  simp [missState, lookupState, hc, Unauthorized_eq]

theorem ParseJwt_parse_failed (env : Env) (ctx : Context) (w : World) (t : String)
    (v : JwtValidator) (hc : env.Create t = some v) (hp : (v.Parse w.now).1.ok = false) :
    ParseJwt env ctx (missState ctx w t) =
      { missState ctx w t with
        validator_ := some v
        user_info_ := (v.Parse w.now).2
        trace := (lookupState ctx w t).trace ++ lookupEvents w t false ++
          [Event.on_done (denial (v.Parse w.now).1.message)] } := by
  have hn : (w.afterLookup t).now = w.now := afterLookup_now w t
  unfold ParseJwt
  simp [missState, lookupState, hc, ParseJwt.parse, hn, hp, Unauthorized_eq, lookupEvents_miss]

theorem replay_readEvents (ctx : Context) (w : World) : replay (readEvents ctx) w = w := by
  unfold readEvents
  split <;> rfl

theorem replay_lookupState (ctx : Context) (w : World) (t : String) :
    replay (lookupState ctx w t).trace w = w := by
  simp only [lookupState, replay_append, replay_readEvents]
  rfl

theorem replay_missEvents (w : World) (t : String)
    (hmiss : ∀ val, w.jwt_cache t = some val → val.exp < w.now) :
    replay (missEvents w t) w = w.afterLookup t := by
  unfold missEvents World.afterLookup
  cases hval : w.jwt_cache t with
  | none => rfl
  | some val =>
    have hlt := hmiss val hval
    simp [Nat.not_le.mpr hlt, replay, applyEvent]

/-- Every check follows the shape `CheckTrace`, and the shared stores it leaves
are those it found with the writes on its trace applied. -/
theorem CheckAuth_produces (env : Env) (ctx : Context) (w : World) :
    CheckTrace env ctx w (CheckAuth env ctx w).trace ∧
      sameStores (CheckAuth env ctx w).world (replay (CheckAuth env ctx w).trace w) := by
  by_cases hnr : ctx.RequireAuth = false ∨ ctx.method = none ∨
      ∃ m, ctx.method = some m ∧ m.auth = false
  · obtain ⟨h1, h2⟩ := Check_not_required env ctx w hnr
    rw [h1, h2]
    exact ⟨CheckTrace.not_required hnr, ⟨rfl, rfl, rfl⟩⟩
  · have hreq : ctx.RequireAuth = true := by
      by_contra h
      exact hnr (Or.inl (by simpa using h))
    obtain ⟨m, hm⟩ : ∃ m, ctx.method = some m := by
      cases hmm : ctx.method with
      | none => exact absurd (Or.inr (Or.inl hmm)) hnr
      | some m => exact ⟨m, rfl⟩
    have hauth : m.auth = true := by
      by_contra h
      exact hnr (Or.inr (Or.inr ⟨m, hm, by simpa using h⟩))
    cases hne : (GetAuthToken_reference ctx).isEmpty with
    | true =>
      rw [CheckAuth, Check_auth_required env ctx _ m hreq hm hauth, GetAuthToken_eq]
      simp only [hne, if_true, Unauthorized_eq]
      refine ⟨CheckTrace.no_token m hreq hm hauth hne, ?_⟩
      rw [replay_append, replay_readEvents]
      exact ⟨rfl, rfl, rfl⟩
    | false =>
      rw [CheckAuth_to_lookup env ctx w m _ hreq hm hauth rfl hne]
      by_cases hhit : ∃ val, w.jwt_cache (GetAuthToken_reference ctx) = some val ∧
          w.now ≤ val.exp
      · obtain ⟨val, hval, hexp⟩ := hhit
        rw [LookupJwtCache_to_policy env ctx w _ true val.user_info
          (Or.inl ⟨rfl, val, hval, hexp, rfl⟩)]
        obtain ⟨added, h1, h2, h3⟩ := CheckAudience_produces env ctx true
          (policyEntryState env ctx w (GetAuthToken_reference ctx) true val.user_info) m hm
          (Or.inl rfl)
        have hw : (policyEntryState env ctx w (GetAuthToken_reference ctx) true
            val.user_info).world = w := by
          simp [policyEntryState, World.afterLookup, hval, hexp]
        refine ⟨?_, ?_⟩
        · rw [h1]
          exact CheckTrace.hit m val added hreq hm hauth hne hval hexp h2
        · rw [h1, replay_append]
          rw [hw] at h3
          have hpre : replay (policyEntryState env ctx w (GetAuthToken_reference ctx) true
              val.user_info).trace w = w := by
            simp only [policyEntryState, replay_append, replay_lookupState]
            simp [lookupEvents, replay, applyEvent]
          rw [hpre]
          exact h3
      · have hmiss : ∀ val, w.jwt_cache (GetAuthToken_reference ctx) = some val →
            val.exp < w.now := by
          intro val hv
          by_contra hlt
          exact hhit ⟨val, hv, Nat.not_lt.mp hlt⟩
        have hmw : sameStores (w.afterLookup (GetAuthToken_reference ctx))
            (replay ((lookupState ctx w (GetAuthToken_reference ctx)).trace ++
              missEvents w (GetAuthToken_reference ctx)) w) := by
          rw [replay_append, replay_lookupState, replay_missEvents w _ hmiss]
          exact sameStores_refl _
        cases hc : env.Create (GetAuthToken_reference ctx) with
        | none =>
          rw [LookupJwtCache_miss env ctx w _ hmiss, ParseJwt_create_failed env ctx w _ hc]
          refine ⟨CheckTrace.create_failed m hreq hm hauth hne hmiss hc, ?_⟩
          rw [replay_append]
          exact hmw
        | some v =>
          cases hp : (v.Parse w.now).1.ok with
          | false =>
            rw [LookupJwtCache_miss env ctx w _ hmiss,
              ParseJwt_parse_failed env ctx w _ v hc hp]
            refine ⟨CheckTrace.parse_failed m v hreq hm hauth hne hmiss hc hp, ?_⟩
            rw [lookupEvents_miss, replay_append, ← List.append_assoc, replay_append]
            exact hmw
          | true =>
            rw [LookupJwtCache_to_policy env ctx w _ false (v.Parse w.now).2
              (Or.inr ⟨rfl, hmiss, v, hc, hp, rfl⟩)]
            obtain ⟨added, h1, h2, h3⟩ := CheckAudience_produces env ctx false
              (policyEntryState env ctx w (GetAuthToken_reference ctx) false (v.Parse w.now).2)
              m hm (Or.inr ⟨v, by simp [policyEntryState, hc]⟩)
            have hval : (policyEntryState env ctx w (GetAuthToken_reference ctx) false
                (v.Parse w.now).2).validator_ = some v := by
              simp [policyEntryState, hc]
            rw [hval] at h2
            refine ⟨?_, ?_⟩
            · rw [h1]
              exact CheckTrace.parsed m v added hreq hm hauth hne hmiss hc hp h2
            · rw [h1, replay_append]
              refine sameStores_trans _ _ _ h3 (sameStores_replay _ _ _ ?_)
              show sameStores (w.afterLookup (GetAuthToken_reference ctx)) _
              simp only [policyEntryState]
              rw [lookupEvents_miss, ← List.append_assoc, replay_append]
              exact hmw

/-! ## Configured key URL -/

@[simp] theorem registryWrites_nil : registryWrites [] = [] := rfl

@[simp] theorem registryWrites_append (a b : List Event) :
    registryWrites (a ++ b) = registryWrites a ++ registryWrites b := by
  simp [registryWrites, List.filterMap_append]

@[simp] theorem registryWrites_cons (e : Event) (t : List Event) :
    registryWrites (e :: t) =
      (match e with
        | Event.SetJwksUri issuer url valid => [(issuer, url, valid)]
        | _ => []) ++ registryWrites t := by
  cases e <;> simp [registryWrites, List.filterMap_cons]

theorem registryWrites_readEvents (ctx : Context) : registryWrites (readEvents ctx) = [] := by
  unfold readEvents
  split <;> simp

theorem registryWrites_lookupEvents (w : World) (t : String) (cache_hit : Bool) :
    registryWrites (lookupEvents w t cache_hit) = [] := by
  unfold lookupEvents
  repeat' split
  all_goals simp

theorem registryWrites_policyEvents (env : Env) (ctx : Context) (info : UserInfo) :
    registryWrites (policyEvents env ctx info) = [] := by
  unfold policyEvents
  by_cases h : ctx.service_name ∈ info.audiences <;> simp [h]

theorem keyLookupState_registryWrites (env : Env) (ctx : Context) (w : World) (t : String)
    (info : UserInfo) : registryWrites (keyLookupState env ctx w t info).trace = [] := by
  simp [keyLookupState, policyState, lookupState, registryWrites_readEvents,
    registryWrites_lookupEvents, registryWrites_policyEvents]

theorem registryWrites_dispatchDenial (ok : Bool) (error : String) :
    registryWrites (dispatchDenial ok error) = [] := by
  cases ok <;> simp [dispatchDenial]

theorem VerifyTrace_registryWrites (t : String) (info : UserInfo) (v : JwtValidator)
    (added : List Event) (h : VerifyTrace t info v added) : registryWrites added = [] := by
  cases h <;> simp

theorem PubKeyTrace_registryWrites (t : String) (info : UserInfo) (v : JwtValidator)
    (added : List Event) (h : PubKeyTrace t info v added) : registryWrites added = [] := by
  cases h with
  | failed => simp
  | stored body exp tail hb h => simp [VerifyTrace_registryWrites t info v tail h]

theorem FetchTrace_registryWrites (t : String) (info : UserInfo) (v : JwtValidator)
    (url : String) (added : List Event) (h : FetchTrace t info v url added) :
    registryWrites added = [] := by
  cases h with
  | dropped ok => simp [registryWrites_dispatchDenial]
  | completed ok mid h =>
    simp [registryWrites_dispatchDenial, PubKeyTrace_registryWrites t info v mid h]

/-- The check of a parsed, policy-accepted token with no fresh key-cache entry,
whose issuer the registry resolves to the key URL `k` with no discovery,
continues with `FetchPubKey` from a state that has issued no HTTP fetch. -/
theorem CheckAuth_to_fetch (env : Env) (ctx : Context) (w : World) (m : MethodInfo)
    (t k : String) (info : UserInfo)
    (hreq : ctx.RequireAuth = true) (hm : ctx.method = some m) (hauth : m.auth = true)
    (htok : GetAuthToken_reference ctx = t) (hne : t.isEmpty = false)
    (hin : ReachesPolicy env w t false info)
    (hiss : m.isIssuerAllowed info.issuer = true) (hacc : audienceAccepted ctx m info = true)
    (hnokey : ∀ cert, w.certs info.issuer = some cert → cert.2 < w.now)
    (hreg : w.jwks_uri info.issuer = (k, false)) (hk : k.isEmpty = false) :
    CheckAuth env ctx w = FetchPubKey env k (keyLookupState env ctx w t info) := by
  have hto := policy_accepted_next env ctx w m t false info hreq hm hauth htok hne hin
    hiss hacc
  simp only [Bool.false_eq_true, if_false] at hto
  have hw : (policyState env ctx w t false info).world = w.afterLookup t := rfl
  have hui : (policyState env ctx w t false info).user_info_ = info := rfl
  rw [hto, InitKey_stale env _ (by
    intro cert hc
    rw [hw, hui, afterLookup_certs] at hc
    rw [hw, afterLookup_now]
    exact hnokey cert hc)]
  simp only [hw, hui, afterLookup_jwks_uri, hreg, hk, Bool.false_eq_true, if_false]
  simp only [Exec.emit, List.append_assoc, List.singleton_append]
  rfl

/-- C11. For a parsed, policy-accepted token of issuer `I` with no fresh
key-cache entry, when the registry yields the non-empty key URL `k` with no
discovery required, the check issues exactly one GET, to `k`, and never writes
the issuer registry, which it leaves as it found it.  If the GET completes OK
with a non-empty body `b` and the signature verifies against `b`, the check
reports Allow and calls `SetUserInfo` once, with the parsed user info; its
trace is spelled out, and when the request was dispatched with status OK,
Allow is its only completion. -/
theorem CheckAuth_configured_key (env : Env) (ctx : Context) (w : World) (m : MethodInfo)
    (t k : String) (info : UserInfo) (v : JwtValidator)
    (hreq : ctx.RequireAuth = true) (hm : ctx.method = some m) (hauth : m.auth = true)
    (htok : GetAuthToken_reference ctx = t) (hne : t.isEmpty = false)
    (hin : ReachesPolicy env w t false info) (hcreate : env.Create t = some v)
    (hiss : m.isIssuerAllowed info.issuer = true) (hacc : audienceAccepted ctx m info = true)
    (hnokey : ∀ cert, w.certs info.issuer = some cert → cert.2 < w.now)
    (hreg : w.jwks_uri info.issuer = (k, false)) (hk : k.isEmpty = false) :
    httpGets (CheckAuth env ctx w).trace = [k] ∧
    registryWrites (CheckAuth env ctx w).trace = [] ∧
    (CheckAuth env ctx w).world.jwks_uri = w.jwks_uri ∧
    ∀ b : String,
      (env.RunHTTPRequest 0 k).delivers b → b.isEmpty = false →
      (v.VerifySignature b).ok = true →
      (CheckAuth env ctx w).trace =
          (policyState env ctx w t false info).trace ++
            [Event.GetCert info.issuer, Event.GetJwksUri info.issuer,
             Event.LogDebug ("http fetch: " ++ k), Event.HttpGet k,
             Event.CertsUpdate info.issuer b
               (w.now + (env.RunHTTPRequest 0 k).delay + kPubKeyCacheDuration),
             Event.GetCert info.issuer,
             Event.ValidatorVerifySignature t b,
             Event.ValidatorGetExpirationTime t,
             Event.JwtCacheInsert t info v.GetExpirationTime
               (w.now + (env.RunHTTPRequest 0 k).delay),
             Event.SetUserInfo info,
             Event.on_done Status.OK] ++
            (if (env.RunHTTPRequest 0 k).ret.ok then []
             else [Event.on_done (denial "Unable to fetch public key")]) ∧
        verifies (CheckAuth env ctx w).trace = [(t, b)] ∧
        userInfos (CheckAuth env ctx w).trace = [info] ∧
        Status.OK ∈ completions (CheckAuth env ctx w).trace ∧
        ((env.RunHTTPRequest 0 k).ret.ok = true →
          completions (CheckAuth env ctx w).trace = [Status.OK]) := by
  have hto := CheckAuth_to_fetch env ctx w m t k info hreq hm hauth htok hne hin hiss hacc
    hnokey hreg hk
  have hg := keyLookupState_httpGets env ctx w t info
  have hval : (keyLookupState env ctx w t info).validator_ = some v := by
    simp [keyLookupState, policyState, hcreate]
  obtain ⟨added, ha, hb, hc⟩ := FetchPubKey_frame env k (keyLookupState env ctx w t info)
  obtain ⟨added2, ha2, hb2, _⟩ := FetchPubKey_produces env k (keyLookupState env ctx w t info) v
    hval
  refine ⟨?_, ?_, ?_, ?_⟩
  · rw [hto, ha, httpGets_append, hg, hb]
    rfl
  · rw [hto, ha2, registryWrites_append, keyLookupState_registryWrites,
      FetchTrace_registryWrites _ _ _ _ _ hb2]
    rfl
  · rw [hto, hc]
    exact afterLookup_jwks_uri w t
  · intro b hdel hbody hver
    have h0 : (httpGets (keyLookupState env ctx w t info).trace).length = 0 := by
      rw [hg]; rfl
    have hfetch := FetchPubKey_delivers env k (keyLookupState env ctx w t info) b v
      (by rw [h0]; exact hdel) hbody hval hver
    rw [h0] at hfetch
    have hui : (keyLookupState env ctx w t info).user_info_ = info := rfl
    have htk : (keyLookupState env ctx w t info).auth_token_ = t := rfl
    have hnow : (keyLookupState env ctx w t info).world.now = w.now := afterLookup_now w t
    have htr : (keyLookupState env ctx w t info).trace =
        (policyState env ctx w t false info).trace ++
          [Event.GetCert info.issuer, Event.GetJwksUri info.issuer] := rfl
    simp only [hui, htk, hnow, htr] at hfetch
    have hne1 : ¬ Status.OK = denial "Unable to fetch public key" :=
      fun h => denial_ne_OK _ h.symm
    rw [hto, hfetch]
    cases (env.RunHTTPRequest 0 k).ret.ok <;>
      simp [policyState_httpGets, policyState_completions, policyState_userInfos,
        policyState_verifies, hne1]

/-- Witness of C11: the cold check of `kTokenIssuer2`, whose issuer has a
configured key URL, in the sample service. -/
theorem CheckAuth_configured_key_witness :
    httpGets (CheckAuth Sample.env (Sample.ctx (some "Bearer kTokenIssuer2") none)
        Sample.world).trace = [Sample.kIssuer2PubkeyUrl] ∧
      registryWrites (CheckAuth Sample.env (Sample.ctx (some "Bearer kTokenIssuer2") none)
        Sample.world).trace = [] ∧
      completions (CheckAuth Sample.env (Sample.ctx (some "Bearer kTokenIssuer2") none)
        Sample.world).trace = [Status.OK] :=
  have h := CheckAuth_configured_key Sample.env (Sample.ctx (some "Bearer kTokenIssuer2") none)
    Sample.world Sample.method "kTokenIssuer2" Sample.kIssuer2PubkeyUrl
    { id := Sample.kSub, issuer := Sample.kIss2, audiences := [Sample.kServiceName] }
    (Sample.validator Sample.kSub Sample.kIss2 Sample.kServiceName Sample.kExp)
    rfl rfl rfl (by decide) (by decide)
    (Or.inr ⟨rfl, fun _ hv => by simp [Sample.world] at hv,
      Sample.validator Sample.kSub Sample.kIss2 Sample.kServiceName Sample.kExp,
      rfl, by decide, by decide⟩)
    rfl (by decide) (by decide) (fun _ hc => by simp [Sample.world] at hc) (by decide)
    (by decide)
  ⟨h.1, h.2.1,
    (h.2.2.2 Sample.kPubkey ⟨Status.OK, rfl, rfl⟩ (by decide) (by decide)).2.2.2.2
      (by decide)⟩

/-! ## Discovery failure -/

theorem keyLookupState_completions (env : Env) (ctx : Context) (w : World) (t : String)
    (info : UserInfo) : completions (keyLookupState env ctx w t info).trace = [] := by
  simp [keyLookupState, policyState_completions]

/-- The check of a parsed, policy-accepted token with no fresh key-cache entry,
whose issuer the registry resolves to the empty URL, denies at once. -/
theorem CheckAuth_no_url (env : Env) (ctx : Context) (w : World) (m : MethodInfo)
    (t : String) (info : UserInfo)
    (hreq : ctx.RequireAuth = true) (hm : ctx.method = some m) (hauth : m.auth = true)
    (htok : GetAuthToken_reference ctx = t) (hne : t.isEmpty = false)
    (hin : ReachesPolicy env w t false info)
    (hiss : m.isIssuerAllowed info.issuer = true) (hacc : audienceAccepted ctx m info = true)
    (hnokey : ∀ cert, w.certs info.issuer = some cert → cert.2 < w.now)
    (hreg : (w.jwks_uri info.issuer).1.isEmpty = true) :
    CheckAuth env ctx w =
      Unauthorized "Cannot determine the URI of the key" (keyLookupState env ctx w t info) := by
  have hto := policy_accepted_next env ctx w m t false info hreq hm hauth htok hne hin
    hiss hacc
  simp only [Bool.false_eq_true, if_false] at hto
  have hw : (policyState env ctx w t false info).world = w.afterLookup t := rfl
  have hui : (policyState env ctx w t false info).user_info_ = info := rfl
  rw [hto, InitKey_stale env _ (by
    intro cert hc
    rw [hw, hui, afterLookup_certs] at hc
    rw [hw, afterLookup_now]
    exact hnokey cert hc)]
  simp only [hw, hui, afterLookup_jwks_uri, hreg, if_true]
  simp only [Exec.emit, List.append_assoc, List.singleton_append]
  rfl

/-- What `PostFetchJwksUri` does when the discovery request failed or its
document yields no `jwks_uri`: it records the empty URL and denies. -/
theorem PostFetchJwksUri_denies (env : Env) (status : Status) (body : String) (s : Exec)
    (h : status.ok = false ∨ jwksUriOf env body = none) :
    ∃ pre, completions pre = [] ∧ httpGets pre = [] ∧ registryWrites pre = [] ∧
      PostFetchJwksUri env status body s =
        Unauthorized "Unable to fetch URI of the key via OpenID discovery"
          (recordedState s pre "") := by
  cases hok : status.ok with
  | false => exact ⟨[], rfl, rfl, rfl, PostFetchJwksUri_failed env status body s hok⟩
  | true =>
    have hu : jwksUriOf env body = none := h.resolve_left (by simp [hok])
    exact ⟨[Event.LogError "OpenID discovery failed due to invalid doc format"],
      by simp, by simp, by simp, PostFetchJwksUri_invalid env status body s hok hu⟩

/-- C12. For a parsed, policy-accepted token of issuer `I` with no fresh
key-cache entry whose key URL is to be discovered at `d`: if the discovery GET
completes with a non-OK status, or with a body that does not parse as JSON, or
with JSON that has no string member `jwks_uri`, the check records the empty key
URL for `I` in the registry (its only registry write), issues no GET but the
discovery GET, and every completion it reports is the denial `Unable to fetch
URI of the key via OpenID discovery` (one completion when the request was
dispatched with status OK).  A later check of any token of `I` that reaches key
lookup, in a state whose key-cache and registry entries of `I` are as the first
check left them, issues zero GETs and denies with `Cannot determine the URI of
the key`. -/
theorem CheckAuth_discovery_failure (env : Env) (ctx : Context) (w : World) (m : MethodInfo)
    (t d : String) (info : UserInfo) (st : Status) (body : String)
    (hreq : ctx.RequireAuth = true) (hm : ctx.method = some m) (hauth : m.auth = true)
    (htok : GetAuthToken_reference ctx = t) (hne : t.isEmpty = false)
    (hin : ReachesPolicy env w t false info)
    (hiss : m.isIssuerAllowed info.issuer = true) (hacc : audienceAccepted ctx m info = true)
    (hnokey : ∀ cert, w.certs info.issuer = some cert → cert.2 < w.now)
    (hreg : w.jwks_uri info.issuer = (d, true)) (hd : d.isEmpty = false)
    (hcomp : (env.RunHTTPRequest 0 d).completion = some (st, body))
    (hfail : st.ok = false ∨ env.grpc_json_parse_string body = none ∨
      ∃ j, env.grpc_json_parse_string body = some j ∧ env.GetStringValue j "jwks_uri" = none) :
    registryWrites (CheckAuth env ctx w).trace = [(info.issuer, "", false)] ∧
    (CheckAuth env ctx w).world.jwks_uri =
      Registry.SetJwksUri w.jwks_uri info.issuer "" false ∧
    (CheckAuth env ctx w).world.certs = w.certs ∧
    httpGets (CheckAuth env ctx w).trace = [d] ∧
    completions (CheckAuth env ctx w).trace =
      denial "Unable to fetch URI of the key via OpenID discovery" ::
        (if (env.RunHTTPRequest 0 d).ret.ok then []
         else [denial "Unable to fetch URI of the key via OpenID discovery"]) ∧
    ∀ (env2 : Env) (ctx2 : Context) (w2 : World) (m2 : MethodInfo) (t2 : String)
      (info2 : UserInfo),
      ctx2.RequireAuth = true → ctx2.method = some m2 → m2.auth = true →
      GetAuthToken_reference ctx2 = t2 → t2.isEmpty = false →
      ReachesPolicy env2 w2 t2 false info2 →
      m2.isIssuerAllowed info2.issuer = true → audienceAccepted ctx2 m2 info2 = true →
      info2.issuer = info.issuer →
      w2.certs info.issuer = (CheckAuth env ctx w).world.certs info.issuer →
      w2.jwks_uri info.issuer = (CheckAuth env ctx w).world.jwks_uri info.issuer →
      w.now ≤ w2.now →
      httpGets (CheckAuth env2 ctx2 w2).trace = [] ∧
        completions (CheckAuth env2 ctx2 w2).trace =
          [denial "Cannot determine the URI of the key"] := by
  have hto := CheckAuth_to_discovery env ctx w m t d info hreq hm hauth htok hne hin hiss hacc
    hnokey hreg hd
  have h0 : (httpGets (keyLookupState env ctx w t info).trace).length = 0 := by
    rw [keyLookupState_httpGets]; rfl
  have hfail2 : (st.SetErrorCause ErrorCause.AUTH).ok = false ∨ jwksUriOf env body = none := by
    rcases hfail with h | h | ⟨j, hj, hu⟩
    · exact Or.inl h
    · exact Or.inr (by simp [jwksUriOf, h])
    · exact Or.inr (by simp [jwksUriOf, hj, hu])
  obtain ⟨pre, hp1, hp2, hp3, hpost⟩ := PostFetchJwksUri_denies env
    (st.SetErrorCause ErrorCause.AUTH) body (fetchedState env d (keyLookupState env ctx w t info))
    hfail2
  have hdisc := DiscoverJwksUri_some env d (keyLookupState env ctx w t info) st body
    (by rw [h0]; exact hcomp)
  rw [h0, hpost] at hdisc
  have hg := keyLookupState_httpGets env ctx w t info
  have hcs := keyLookupState_completions env ctx w t info
  have hrw := keyLookupState_registryWrites env ctx w t info
  have hjw : (keyLookupState env ctx w t info).world.jwks_uri = w.jwks_uri :=
    afterLookup_jwks_uri w t
  have hce : (keyLookupState env ctx w t info).world.certs = w.certs := afterLookup_certs w t
  have hui : (keyLookupState env ctx w t info).user_info_ = info := rfl
  have h1 : registryWrites (CheckAuth env ctx w).trace = [(info.issuer, "", false)] := by
    rw [hto, hdisc]
    cases (env.RunHTTPRequest 0 d).ret.ok <;>
      simp [Unauthorized_eq, recordedState, fetchedState, hrw, hp3, hui]
  have h2 : (CheckAuth env ctx w).world.jwks_uri =
      Registry.SetJwksUri w.jwks_uri info.issuer "" false := by
    rw [hto, hdisc]
    cases (env.RunHTTPRequest 0 d).ret.ok <;>
      simp [Unauthorized_eq, recordedState, fetchedState, hjw, hui]
  have h3 : (CheckAuth env ctx w).world.certs = w.certs := by
    rw [hto, hdisc]
    cases (env.RunHTTPRequest 0 d).ret.ok <;>
      simp [Unauthorized_eq, recordedState, fetchedState, hce]
  refine ⟨h1, h2, h3, ?_, ?_, ?_⟩
  · rw [hto, hdisc]
    cases (env.RunHTTPRequest 0 d).ret.ok <;>
      simp [Unauthorized_eq, recordedState, fetchedState, hg, hp2]
  · rw [hto, hdisc]
    cases (env.RunHTTPRequest 0 d).ret.ok <;>
      simp [Unauthorized_eq, recordedState, fetchedState, hcs, hp1]
  · intro env2 ctx2 w2 m2 t2 info2 hreq2 hm2 hauth2 htok2 hne2 hin2 hiss2 hacc2 hsame hc2 hr2
      hnow
    rw [h3] at hc2
    rw [h2] at hr2
    have hnokey2 : ∀ cert, w2.certs info2.issuer = some cert → cert.2 < w2.now := by
      intro cert hc
      rw [hsame, hc2] at hc
      exact Nat.lt_of_lt_of_le (hnokey cert hc) hnow
    have hreg2 : (w2.jwks_uri info2.issuer).1.isEmpty = true := by
      rw [hsame, hr2]
      simp only [Registry.SetJwksUri, if_true]
      rfl
    rw [CheckAuth_no_url env2 ctx2 w2 m2 t2 info2 hreq2 hm2 hauth2 htok2 hne2 hin2 hiss2 hacc2
      hnokey2 hreg2]
    simp [Unauthorized_eq, keyLookupState_httpGets, keyLookupState_completions]

/-- Witness of C12: in the environment of `TestOpenIdFailed` the check of
`kToken` is denied for the failed discovery, and the check of `kToken2` that
follows issues no GET. -/
theorem CheckAuth_discovery_failure_witness :
    httpGets (CheckAuth Sample.emptyDiscoveryEnv (Sample.ctx (some "Bearer kToken") none)
        Sample.world).trace = [Sample.kIssuer1OpenIdUrl] ∧
      completions (CheckAuth Sample.emptyDiscoveryEnv (Sample.ctx (some "Bearer kToken") none)
        Sample.world).trace =
        [denial "Unable to fetch URI of the key via OpenID discovery"] ∧
      httpGets (CheckAuth Sample.emptyDiscoveryEnv (Sample.ctx (some "Bearer kToken2") none)
        (CheckAuth Sample.emptyDiscoveryEnv (Sample.ctx (some "Bearer kToken") none)
          Sample.world).world).trace = [] ∧
      completions (CheckAuth Sample.emptyDiscoveryEnv (Sample.ctx (some "Bearer kToken2") none)
        (CheckAuth Sample.emptyDiscoveryEnv (Sample.ctx (some "Bearer kToken") none)
          Sample.world).world).trace = [denial "Cannot determine the URI of the key"] :=
  have h := CheckAuth_discovery_failure Sample.emptyDiscoveryEnv
    (Sample.ctx (some "Bearer kToken") none) Sample.world Sample.method "kToken"
    Sample.kIssuer1OpenIdUrl
    { id := Sample.kSub, issuer := Sample.kIss, audiences := [Sample.kServiceName] }
    Status.OK ""
    rfl rfl rfl (by decide) (by decide)
    (Or.inr ⟨rfl, fun _ hv => by simp [Sample.world] at hv,
      Sample.validator Sample.kSub Sample.kIss Sample.kServiceName Sample.kExp,
      rfl, by decide, by decide⟩)
    (by decide) (by decide) (fun _ hc => by simp [Sample.world] at hc) (by decide)
    (by decide) rfl (Or.inr (Or.inl rfl))
  have hnone : (CheckAuth Sample.emptyDiscoveryEnv (Sample.ctx (some "Bearer kToken") none)
      Sample.world).world.jwt_cache "kToken2" = none := rfl
  have h2 := h.2.2.2.2.2 Sample.emptyDiscoveryEnv (Sample.ctx (some "Bearer kToken2") none)
    (CheckAuth Sample.emptyDiscoveryEnv (Sample.ctx (some "Bearer kToken") none)
      Sample.world).world Sample.method "kToken2"
    { id := Sample.kSub2, issuer := Sample.kIss, audiences := [Sample.kServiceName] }
    rfl rfl rfl (by decide) (by decide)
    (Or.inr ⟨rfl, fun _ hv => Option.noConfusion (hnone.symm.trans hv),
      Sample.validator Sample.kSub2 Sample.kIss Sample.kServiceName Sample.kExp,
      rfl, by decide, by decide⟩)
    (by decide) (by decide) rfl rfl rfl (by decide)
  ⟨h.2.2.2.1, h.2.2.2.2.1, h2.1, h2.2⟩

/-! ## Validator failures -/

theorem completions_missEvents (w : World) (t : String) : completions (missEvents w t) = [] := by
  unfold missEvents
  split <;> simp

theorem httpGets_missEvents (w : World) (t : String) : httpGets (missEvents w t) = [] := by
  unfold missEvents
  split <;> simp

theorem pastParsing_missState (ctx : Context) (w : World) (t : String) :
    ∀ e ∈ (missState ctx w t).trace, e.pastParsing = false := by
  intro e he
  have h : ((missState ctx w t).trace.all fun e => !e.pastParsing) = true := by
    simp only [missState, lookupState, readEvents, missEvents]
    cases ctx.FindHeader "authorization" <;> cases w.jwt_cache t <;> rfl
  simpa using List.all_eq_true.mp h e he

/-- The whole check of a non-empty token that misses the token cache and for
which no validator can be created. -/
theorem CheckAuth_create_failed (env : Env) (ctx : Context) (w : World) (m : MethodInfo)
    (t : String)
    (hreq : ctx.RequireAuth = true) (hm : ctx.method = some m) (hauth : m.auth = true)
    (htok : GetAuthToken_reference ctx = t) (hne : t.isEmpty = false)
    (hmiss : ∀ val, w.jwt_cache t = some val → val.exp < w.now)
    (hc : env.Create t = none) :
    CheckAuth env ctx w =
      { missState ctx w t with
        trace := (missState ctx w t).trace ++
          [Event.ValidatorCreate t, Event.on_done (denial "Internal error")] } := by
  rw [CheckAuth_to_lookup env ctx w m t hreq hm hauth htok hne, LookupJwtCache_miss env ctx w t
    hmiss, ParseJwt_create_failed env ctx w t hc]
  simp [missState]

/-- The whole check of a non-empty token that misses the token cache and whose
parsing fails. -/
theorem CheckAuth_parse_failed (env : Env) (ctx : Context) (w : World) (m : MethodInfo)
    (t : String) (v : JwtValidator)
    (hreq : ctx.RequireAuth = true) (hm : ctx.method = some m) (hauth : m.auth = true)
    (htok : GetAuthToken_reference ctx = t) (hne : t.isEmpty = false)
    (hmiss : ∀ val, w.jwt_cache t = some val → val.exp < w.now)
    (hc : env.Create t = some v) (hp : (v.Parse w.now).1.ok = false) :
    CheckAuth env ctx w =
      { missState ctx w t with
        validator_ := some v
        user_info_ := (v.Parse w.now).2
        trace := (missState ctx w t).trace ++
          [Event.ValidatorCreate t, Event.ValidatorParse t,
           Event.on_done (denial (v.Parse w.now).1.message)] } := by
  rw [CheckAuth_to_lookup env ctx w m t hreq hm hauth htok hne, LookupJwtCache_miss env ctx w t
    hmiss, ParseJwt_parse_failed env ctx w t v hc hp, lookupEvents_miss]
  simp [missState]

theorem completions_missState (ctx : Context) (w : World) (t : String) :
    completions (missState ctx w t).trace = [] := by
  simp [missState, lookupState, completions_readEvents, completions_missEvents]

theorem httpGets_missState (ctx : Context) (w : World) (t : String) :
    httpGets (missState ctx w t).trace = [] := by
  simp [missState, lookupState, httpGets_readEvents, httpGets_missEvents]

/-- C16. For every non-empty token that misses the token cache, a validator
failure denies before any network I/O.  If no validator can be created, the
check ends right after `ValidatorCreate` and its only completion is the denial
`JWT validation failed: Internal error`; if parsing fails with error text `e`,
it ends right after `ValidatorParse` and its only completion is the denial
`JWT validation failed: ` followed by `e`.  In both cases the trace has no call
that evaluates the method policy, reads or writes the key cache or the
registry, or issues an HTTP request, and the key cache and the registry are as
the check found them. -/
theorem CheckAuth_validator_failure (env : Env) (ctx : Context) (w : World) (m : MethodInfo)
    (t : String)
    (hreq : ctx.RequireAuth = true) (hm : ctx.method = some m) (hauth : m.auth = true)
    (htok : GetAuthToken_reference ctx = t) (hne : t.isEmpty = false)
    (hmiss : ∀ val, w.jwt_cache t = some val → val.exp < w.now) :
    (env.Create t = none →
      (CheckAuth env ctx w).trace =
        (lookupState ctx w t).trace ++ missEvents w t ++
          [Event.ValidatorCreate t, Event.on_done (denial "Internal error")] ∧
      completions (CheckAuth env ctx w).trace = [denial "Internal error"] ∧
      (denial "Internal error").message = "JWT validation failed: Internal error") ∧
    (∀ v, env.Create t = some v → (v.Parse w.now).1.ok = false →
      (CheckAuth env ctx w).trace =
        (lookupState ctx w t).trace ++ missEvents w t ++
          [Event.ValidatorCreate t, Event.ValidatorParse t,
           Event.on_done (denial (v.Parse w.now).1.message)] ∧
      completions (CheckAuth env ctx w).trace = [denial (v.Parse w.now).1.message] ∧
      (denial (v.Parse w.now).1.message).message =
        "JWT validation failed: " ++ (v.Parse w.now).1.message) ∧
    ((env.Create t = none ∨ ∃ v, env.Create t = some v ∧ (v.Parse w.now).1.ok = false) →
      httpGets (CheckAuth env ctx w).trace = [] ∧
      (∀ e ∈ (CheckAuth env ctx w).trace, e.pastParsing = false) ∧
      (CheckAuth env ctx w).world.certs = w.certs ∧
      (CheckAuth env ctx w).world.jwks_uri = w.jwks_uri) := by
  refine ⟨?_, ?_, ?_⟩
  · intro hc
    rw [CheckAuth_create_failed env ctx w m t hreq hm hauth htok hne hmiss hc]
    exact ⟨rfl, by simp [completions_missState], rfl⟩
  · intro v hc hp
    rw [CheckAuth_parse_failed env ctx w m t v hreq hm hauth htok hne hmiss hc hp]
    exact ⟨rfl, by simp [completions_missState], rfl⟩
  · intro h
    rcases h with hc | ⟨v, hc, hp⟩
    · rw [CheckAuth_create_failed env ctx w m t hreq hm hauth htok hne hmiss hc]
      refine ⟨by simp [httpGets_missState], ?_, afterLookup_certs w t, afterLookup_jwks_uri w t⟩
      intro e he
      rcases List.mem_append.mp he with h1 | h1
      · exact pastParsing_missState ctx w t e h1
      · simp at h1
        rcases h1 with rfl | rfl <;> rfl
    · rw [CheckAuth_parse_failed env ctx w m t v hreq hm hauth htok hne hmiss hc hp]
      refine ⟨by simp [httpGets_missState], ?_, afterLookup_certs w t, afterLookup_jwks_uri w t⟩
      intro e he
      rcases List.mem_append.mp he with h1 | h1
      · exact pastParsing_missState ctx w t e h1
      · simp at h1
        rcases h1 with rfl | rfl | rfl <;> rfl

/-- Witness of C16: the check of the expired token of `TestInvalidToken` in the
sample service. -/
theorem CheckAuth_validator_failure_witness :
    completions (CheckAuth Sample.env (Sample.ctx (some "Bearer kTokenExpired") none)
        Sample.world).trace = [denial "TIME_CONSTRAINT_FAILURE"] ∧
      httpGets (CheckAuth Sample.env (Sample.ctx (some "Bearer kTokenExpired") none)
        Sample.world).trace = [] :=
  have h := CheckAuth_validator_failure Sample.env
    (Sample.ctx (some "Bearer kTokenExpired") none) Sample.world Sample.method "kTokenExpired"
    rfl rfl rfl (by decide) (by decide) (fun _ hv => by simp [Sample.world] at hv)
  ⟨(h.2.1 (Sample.validator Sample.kSub Sample.kIss Sample.kServiceName 1461782921) rfl
      (by decide)).2.1,
    (h.2.2 (Or.inr ⟨Sample.validator Sample.kSub Sample.kIss Sample.kServiceName 1461782921,
      rfl, by decide⟩)).1⟩

/-! ## A malformed token behind a well-formed prefix -/

/-- C17, as amended. For the authorization header `bad_token`, which lacks the
`Bearer ` prefix, the check denies with `Missing or invalid credentials`.  For
the header `Bearer bad_token` the token is `bad_token`, which is not empty:
when it misses the token cache, the only completion of the check is the denial
`Internal error` if no validator can be created for it, and the denial with
the parse error text if its parsing fails. -/
theorem CheckAuth_bad_token (env : Env) (ctx : Context) (w : World) (m : MethodInfo)
    (hreq : ctx.RequireAuth = true) (hm : ctx.method = some m) (hauth : m.auth = true)
    (hmiss : ∀ val, w.jwt_cache "bad_token" = some val → val.exp < w.now) :
    (ctx.FindHeader "authorization" = some "bad_token" →
      completions (CheckAuth env ctx w).trace = [denial "Missing or invalid credentials"]) ∧
    (ctx.FindHeader "authorization" = some "Bearer bad_token" →
      GetAuthToken_reference ctx = "bad_token" ∧
      Event.SetAuthToken "bad_token" ∈ (CheckAuth env ctx w).trace ∧
      (env.Create "bad_token" = none →
        completions (CheckAuth env ctx w).trace = [denial "Internal error"]) ∧
      (∀ v, env.Create "bad_token" = some v → (v.Parse w.now).1.ok = false →
        completions (CheckAuth env ctx w).trace = [denial (v.Parse w.now).1.message])) := by
  constructor
  · intro hh
    have htok : GetAuthToken_reference ctx = "" := by
      unfold GetAuthToken_reference
      rw [hh]
      rfl
    rw [CheckAuth, Check_auth_required env ctx _ m hreq hm hauth, GetAuthToken_eq, htok]
    have he : ("" : String).isEmpty = true := rfl
    simp only [he, if_true]
    simp [Unauthorized_eq, completions_readEvents]
  · intro hh
    have htok : GetAuthToken_reference ctx = "bad_token" := by
      unfold GetAuthToken_reference
      rw [hh]
      rfl
    have hne : ("bad_token" : String).isEmpty = false := by decide
    refine ⟨htok, ?_, ?_, ?_⟩
    · rw [CheckAuth_to_lookup env ctx w m "bad_token" hreq hm hauth htok hne]
      obtain ⟨added, h, _⟩ := LookupJwtCache_certs env ctx (lookupState ctx w "bad_token") m hm
        rfl
      rw [h]
      simp [lookupState]
    · intro hc
      rw [CheckAuth_create_failed env ctx w m "bad_token" hreq hm hauth htok hne hmiss hc]
      simp [completions_missState]
    · intro v hc hp
      rw [CheckAuth_parse_failed env ctx w m "bad_token" v hreq hm hauth htok hne hmiss hc hp]
      simp [completions_missState]

/-- Witness of C17: the two headers of the malformed token in the sample
service, whose validator cannot be created for `bad_token`. -/
theorem CheckAuth_bad_token_witness :
    completions (CheckAuth Sample.env (Sample.ctx (some "bad_token") none)
        Sample.world).trace = [denial "Missing or invalid credentials"] ∧
      completions (CheckAuth Sample.env (Sample.ctx (some "Bearer bad_token") none)
        Sample.world).trace = [denial "Internal error"] :=
  ⟨(CheckAuth_bad_token Sample.env (Sample.ctx (some "bad_token") none) Sample.world
      Sample.method rfl rfl rfl (fun _ hv => by simp [Sample.world] at hv)).1 rfl,
    ((CheckAuth_bad_token Sample.env (Sample.ctx (some "Bearer bad_token") none) Sample.world
      Sample.method rfl rfl rfl (fun _ hv => by simp [Sample.world] at hv)).2 rfl).2.2.1 rfl⟩

/-- The claim C17 fails: in the sample service the request with the header
`Bearer bad_token` gets past the empty-token test (the token is set to
`bad_token`, the token cache is looked up and the creation of a validator is
attempted), and is denied with `Internal error`, not with `Missing or invalid
credentials`. -/
theorem CheckAuth_bearer_bad_token_not_missing_credentials :
    (CheckAuth Sample.env (Sample.ctx (some "Bearer bad_token") none) Sample.world).trace =
        [Event.FindHeader "authorization", Event.SetAuthToken "bad_token",
         Event.LogDebug "auth token: bad_token", Event.JwtCacheLookup "bad_token",
         Event.ValidatorCreate "bad_token",
         Event.on_done
           { code := 16, message := "JWT validation failed: Internal error",
             cause := ErrorCause.AUTH }] ∧
      denial "Missing or invalid credentials" ∉
        completions (CheckAuth Sample.env (Sample.ctx (some "Bearer bad_token") none)
          Sample.world).trace := by
  decide

/-! ## The boundary of a token-cache hit -/

theorem replay_policyEvents (env : Env) (ctx : Context) (info : UserInfo) (w : World) :
    replay (policyEvents env ctx info) w = w := by
  unfold policyEvents
  by_cases h : ctx.service_name ∈ info.audiences <;> simp [h, replay, applyEvent]

/-- C19, as amended. On token-cache lookup a found entry is used as a hit when
its expiry is not earlier than now (`now <= exp`, so also when it equals now):
the check continues with the policy stage on the cached user info, the shared
state as it was and only the lookup added to the trace.  An entry whose expiry
is strictly earlier than now is a miss: it is removed from the cache and the
check continues with `ParseJwt`, whose first call creates a validator for the
token. -/
theorem CheckAuth_token_cache_lookup (env : Env) (ctx : Context) (w : World) (m : MethodInfo)
    (t : String) (val : JwtValue)
    (hreq : ctx.RequireAuth = true) (hm : ctx.method = some m) (hauth : m.auth = true)
    (htok : GetAuthToken_reference ctx = t) (hne : t.isEmpty = false)
    (hval : w.jwt_cache t = some val) :
    (w.now ≤ val.exp →
      CheckAuth env ctx w =
        CheckAudience env ctx true
          { lookupState ctx w t with
            user_info_ := val.user_info
            trace := (lookupState ctx w t).trace ++ [Event.JwtCacheLookup t] } ∧
      (CheckAuth env ctx w).world.jwt_cache = w.jwt_cache) ∧
    (val.exp < w.now →
      CheckAuth env ctx w =
        ParseJwt env ctx
          { lookupState ctx w t with
            world := { w with jwt_cache := JwtCache.Remove w.jwt_cache t }
            trace := (lookupState ctx w t).trace ++
              [Event.JwtCacheLookup t, Event.JwtCacheRemove t] } ∧
      ∃ rest, (CheckAuth env ctx w).trace =
        (lookupState ctx w t).trace ++
          [Event.JwtCacheLookup t, Event.JwtCacheRemove t, Event.ValidatorCreate t] ++ rest) := by
  have hto := CheckAuth_to_lookup env ctx w m t hreq hm hauth htok hne
  constructor
  · intro hexp
    have hpe : policyEntryState env ctx w t true val.user_info =
        { lookupState ctx w t with
          user_info_ := val.user_info
          trace := (lookupState ctx w t).trace ++ [Event.JwtCacheLookup t] } := by
      simp [policyEntryState, lookupState, lookupEvents, World.afterLookup, hval, hexp]
    have h1 : CheckAuth env ctx w =
        CheckAudience env ctx true (policyEntryState env ctx w t true val.user_info) := by
      rw [hto, LookupJwtCache_to_policy env ctx w t true val.user_info
        (Or.inl ⟨rfl, val, hval, hexp, rfl⟩)]
    refine ⟨by rw [h1, hpe], ?_⟩
    obtain ⟨added, _, h3, h4⟩ := CheckAudience_produces env ctx true
      (policyEntryState env ctx w t true val.user_info) m hm (Or.inl rfl)
    have hw : (policyEntryState env ctx w t true val.user_info).world = w := by
      rw [hpe]
      rfl
    rw [hw] at h4
    rw [h1, h4.1]
    cases h3 with
    | issuer_denied _ h => rfl
    | audience_denied _ h ha => rw [replay_append, replay_policyEvents]; rfl
    | cached h ha => rw [replay_append, replay_policyEvents]; rfl
  · intro hexp
    have hmiss : ∀ val2, w.jwt_cache t = some val2 → val2.exp < w.now := by
      intro val2 h2
      rw [hval] at h2
      cases h2
      exact hexp
    have hms : missState ctx w t =
        { lookupState ctx w t with
          world := { w with jwt_cache := JwtCache.Remove w.jwt_cache t }
          trace := (lookupState ctx w t).trace ++
            [Event.JwtCacheLookup t, Event.JwtCacheRemove t] } := by
      simp [missState, lookupState, missEvents, World.afterLookup, hval, Nat.not_le.mpr hexp]
    have h1 : CheckAuth env ctx w = ParseJwt env ctx (missState ctx w t) := by
      rw [hto, LookupJwtCache_miss env ctx w t hmiss]
    refine ⟨by rw [h1, hms], ?_⟩
    cases hc : env.Create t with
    | none =>
      rw [CheckAuth_create_failed env ctx w m t hreq hm hauth htok hne hmiss hc, hms]
      exact ⟨[Event.on_done (denial "Internal error")], by simp⟩
    | some v =>
      cases hp : (v.Parse w.now).1.ok with
      | false =>
        rw [CheckAuth_parse_failed env ctx w m t v hreq hm hauth htok hne hmiss hc hp, hms]
        exact ⟨[Event.ValidatorParse t, Event.on_done (denial (v.Parse w.now).1.message)],
          by simp⟩
      | true =>
        rw [hto, LookupJwtCache_to_policy env ctx w t false (v.Parse w.now).2
          (Or.inr ⟨rfl, hmiss, v, hc, hp, rfl⟩)]
        obtain ⟨added, h, _⟩ := CheckAudience_certs env ctx false
          (policyEntryState env ctx w t false (v.Parse w.now).2) m hm
        rw [h]
        exact ⟨Event.ValidatorParse t :: added, by simp [policyEntryState, lookupEvents, hval]⟩

/-- Witness of C19: in the sample service, the entry of `kToken` that expires
at `kNow` exactly is a hit at `kNow`, and the entry of `kTokenStale`, which
expired ten seconds before `kNow`, is removed and the token parsed again. -/
theorem CheckAuth_token_cache_lookup_witness :
    (CheckAuth Sample.env (Sample.ctx (some "Bearer kToken") none)
        Sample.boundaryWorld).world.jwt_cache = Sample.boundaryWorld.jwt_cache ∧
      ∃ rest, (CheckAuth Sample.env (Sample.ctx (some "Bearer kTokenStale") none)
        Sample.staleWorld).trace =
          (lookupState (Sample.ctx (some "Bearer kTokenStale") none) Sample.staleWorld
            "kTokenStale").trace ++
            [Event.JwtCacheLookup "kTokenStale", Event.JwtCacheRemove "kTokenStale",
             Event.ValidatorCreate "kTokenStale"] ++ rest :=
  ⟨((CheckAuth_token_cache_lookup Sample.env (Sample.ctx (some "Bearer kToken") none)
      Sample.boundaryWorld Sample.method "kToken"
      { user_info := { id := Sample.kSub, issuer := Sample.kIss,
                       audiences := [Sample.kServiceName] },
        exp := Sample.kNow, inserted_at := Sample.kNow - 60 }
      rfl rfl rfl (by decide) (by decide) rfl).1 (by decide)).2,
    ((CheckAuth_token_cache_lookup Sample.env (Sample.ctx (some "Bearer kTokenStale") none)
      Sample.staleWorld Sample.method "kTokenStale"
      { user_info := Sample.staleInfo, exp := Sample.kNow - 10,
        inserted_at := Sample.kNow - 60 }
      rfl rfl rfl (by decide) (by decide) rfl).2 (by decide)).2⟩

/-- The claim C19 fails: in the sample service the token-cache entry of
`kToken` expires at `kNow` exactly, and the check of `kToken` at `kNow` uses
it as a hit: the entry is not removed, no validator is created or asked to
parse, and the check reports Allow with the cached user info. -/
theorem CheckAuth_entry_expiring_now_is_hit :
    (Sample.boundaryWorld.jwt_cache "kToken").map (fun val => val.exp) =
        some Sample.boundaryWorld.now ∧
      (CheckAuth Sample.env (Sample.ctx (some "Bearer kToken") none)
        Sample.boundaryWorld).trace =
        [Event.FindHeader "authorization", Event.SetAuthToken "kToken",
         Event.LogDebug "auth token: kToken", Event.JwtCacheLookup "kToken",
         Event.set_auth_issuer "https://issuer1.com",
         Event.set_auth_audience "endpoints-test.cloudendpointsapis.com",
         Event.isIssuerAllowed "https://issuer1.com",
         Event.SetUserInfo
           { id := "end-user-id", issuer := "https://issuer1.com",
             audiences := ["endpoints-test.cloudendpointsapis.com"] },
         Event.on_done Status.OK] := by
  decide

/-! ## A refused discovery request -/

/-- The behaviour C13 excludes: when the fetcher refuses to dispatch the
discovery request, the check of `kToken` is denied with `Unable to fetch URI
of the key via OpenID discovery` but writes nothing to the issuer registry,
which still resolves issuer 1 by discovery; the check of `kToken2` that follows
in the state the first one left issues the discovery GET again. -/
theorem CheckAuth_refused_discovery_not_recorded :
    completions (CheckAuth Sample.refusingEnv (Sample.ctx (some "Bearer kToken") none)
        Sample.world).trace =
        [denial "Unable to fetch URI of the key via OpenID discovery"] ∧
      registryWrites (CheckAuth Sample.refusingEnv (Sample.ctx (some "Bearer kToken") none)
        Sample.world).trace = [] ∧
      (CheckAuth Sample.refusingEnv (Sample.ctx (some "Bearer kToken") none)
        Sample.world).world.jwks_uri Sample.kIss = (Sample.kIssuer1OpenIdUrl, true) ∧
      httpGets (CheckAuth Sample.refusingEnv (Sample.ctx (some "Bearer kToken2") none)
        (CheckAuth Sample.refusingEnv (Sample.ctx (some "Bearer kToken") none)
          Sample.world).world).trace = [Sample.kIssuer1OpenIdUrl] := by
  decide

/-! ## Key fetch failure -/

theorem inserts_lookupEvents (w : World) (t : String) (cache_hit : Bool) :
    inserts (lookupEvents w t cache_hit) = [] := by
  unfold lookupEvents
  repeat' split
  all_goals simp

theorem updates_lookupEvents (w : World) (t : String) (cache_hit : Bool) :
    updates (lookupEvents w t cache_hit) = [] := by
  unfold lookupEvents
  repeat' split
  all_goals simp

theorem policyState_inserts (env : Env) (ctx : Context) (w : World) (t : String)
    (cache_hit : Bool) (info : UserInfo) :
    inserts (policyState env ctx w t cache_hit info).trace = [] := by
  simp [policyState, lookupState, inserts_readEvents, inserts_lookupEvents,
    inserts_policyEvents]

theorem policyState_updates (env : Env) (ctx : Context) (w : World) (t : String)
    (cache_hit : Bool) (info : UserInfo) :
    updates (policyState env ctx w t cache_hit info).trace = [] := by
  simp [policyState, lookupState, updates_readEvents, updates_lookupEvents,
    updates_policyEvents]

theorem jwksUriOf_some (env : Env) (doc u : String) (h : jwksUriOf env doc = some u) :
    ∃ j, env.grpc_json_parse_string doc = some j ∧ env.GetStringValue j "jwks_uri" = some u := by
  unfold jwksUriOf at h
  cases hj : env.grpc_json_parse_string doc with
  | none => simp [hj] at h
  | some j => exact ⟨j, rfl, by simpa [hj] using h⟩

/-- A check that enters `FetchPubKey` continues there. -/
theorem CheckAuth_enters_fetch (env : Env) (ctx : Context) (w : World) (m : MethodInfo)
    (t k : String) (info : UserInfo) (s0 : Exec)
    (hreq : ctx.RequireAuth = true) (hm : ctx.method = some m) (hauth : m.auth = true)
    (htok : GetAuthToken_reference ctx = t) (hne : t.isEmpty = false)
    (hin : ReachesPolicy env w t false info)
    (hiss : m.isIssuerAllowed info.issuer = true) (hacc : audienceAccepted ctx m info = true)
    (hnokey : ∀ cert, w.certs info.issuer = some cert → cert.2 < w.now)
    (henter : EntersKeyFetch env ctx w t info k s0) :
    CheckAuth env ctx w = FetchPubKey env k s0 := by
  rcases henter with ⟨hreg, hk, rfl⟩ | ⟨d, doc, hreg, hd, hret, hdel, hu, rfl⟩
  · exact CheckAuth_to_fetch env ctx w m t k info hreq hm hauth htok hne hin hiss hacc hnokey
      hreg hk
  · obtain ⟨j, hj, hu2⟩ := jwksUriOf_some env doc k hu
    rw [CheckAuth_to_discovery env ctx w m t d info hreq hm hauth htok hne hin hiss hacc hnokey
      hreg hd, discovery_to_fetch env ctx w t info d k doc j hdel hj hu2]
    simp [hret]

/-- The state in which a check enters `FetchPubKey`: nothing was completed,
verified, inserted or stored so far, the key cache is as the check found it,
the token cache is as the lookup left it, and the registry resolves the issuer
to the key URL with no discovery required. -/
theorem EntersKeyFetch_state (env : Env) (ctx : Context) (w : World) (t : String)
    (info : UserInfo) (k : String) (s0 : Exec) (henter : EntersKeyFetch env ctx w t info k s0) :
    completions s0.trace = [] ∧ verifies s0.trace = [] ∧ inserts s0.trace = [] ∧
      updates s0.trace = [] ∧ s0.world.certs = w.certs ∧
      s0.world.jwt_cache = (w.afterLookup t).jwt_cache ∧
      s0.world.jwks_uri info.issuer = (k, false) ∧ w.now ≤ s0.world.now := by
  rcases henter with ⟨hreg, _, rfl⟩ | ⟨d, doc, hreg, _, _, _, _, rfl⟩
  · refine ⟨?_, ?_, ?_, ?_, afterLookup_certs w t, rfl, ?_, ?_⟩
    · simp [keyLookupState, policyState_completions]
    · simp [keyLookupState, policyState_verifies]
    · simp [keyLookupState, policyState_inserts]
    · simp [keyLookupState, policyState_updates]
    · show (w.afterLookup t).jwks_uri info.issuer = (k, false)
      rw [afterLookup_jwks_uri, hreg]
    · show w.now ≤ (w.afterLookup t).now
      rw [afterLookup_now]
  · refine ⟨?_, ?_, ?_, ?_, afterLookup_certs w t, rfl, ?_, ?_⟩
    · simp [discoveredState, keyLookupState, policyState_completions]
    · simp [discoveredState, keyLookupState, policyState_verifies]
    · simp [discoveredState, keyLookupState, policyState_inserts]
    · simp [discoveredState, keyLookupState, policyState_updates]
    · simp [discoveredState, Registry.SetJwksUri]
    · simp [discoveredState]

/-- C14, as amended. If the key-set GET of a check completes with a non-OK
status, or with an empty body even though the status is OK, the check denies
with `Unable to fetch verification key` (its only completion when the request
was dispatched with status OK), never invokes signature verification, and
leaves the key cache unchanged; it inserts nothing into the token cache, which
is unchanged except that an expired entry found for this very token has been
removed.  The failure is not negatively cached: the registry still resolves
the issuer to the key URL `k`, and when `k` is not empty a later check of a
token of the same issuer that reaches key lookup, in a state whose key-cache
and registry entries of the issuer are as the first check left them, issues
the key-set GET to `k` again, and no other GET. -/
theorem CheckAuth_key_fetch_failure (env : Env) (ctx : Context) (w : World) (m : MethodInfo)
    (t k : String) (info : UserInfo) (s0 : Exec) (st : Status) (body : String)
    (hreq : ctx.RequireAuth = true) (hm : ctx.method = some m) (hauth : m.auth = true)
    (htok : GetAuthToken_reference ctx = t) (hne : t.isEmpty = false)
    (hin : ReachesPolicy env w t false info)
    (hiss : m.isIssuerAllowed info.issuer = true) (hacc : audienceAccepted ctx m info = true)
    (hnokey : ∀ cert, w.certs info.issuer = some cert → cert.2 < w.now)
    (henter : EntersKeyFetch env ctx w t info k s0)
    (hcomp : (env.RunHTTPRequest (httpGets s0.trace).length k).completion = some (st, body))
    (hfail : st.ok = false ∨ body.isEmpty = true) :
    completions (CheckAuth env ctx w).trace =
      denial "Unable to fetch verification key" ::
        (if (env.RunHTTPRequest (httpGets s0.trace).length k).ret.ok then []
         else [denial "Unable to fetch public key"]) ∧
    verifies (CheckAuth env ctx w).trace = [] ∧
    updates (CheckAuth env ctx w).trace = [] ∧
    (CheckAuth env ctx w).world.certs = w.certs ∧
    inserts (CheckAuth env ctx w).trace = [] ∧
    (w.jwt_cache t = none → (CheckAuth env ctx w).world.jwt_cache = w.jwt_cache) ∧
    (∀ val, w.jwt_cache t = some val →
      val.exp < w.now ∧
        (CheckAuth env ctx w).world.jwt_cache = JwtCache.Remove w.jwt_cache t) ∧
    (CheckAuth env ctx w).world.jwks_uri info.issuer = (k, false) ∧
    ∀ (env2 : Env) (ctx2 : Context) (w2 : World) (m2 : MethodInfo) (t2 : String)
      (info2 : UserInfo),
      ctx2.RequireAuth = true → ctx2.method = some m2 → m2.auth = true →
      GetAuthToken_reference ctx2 = t2 → t2.isEmpty = false →
      ReachesPolicy env2 w2 t2 false info2 →
      m2.isIssuerAllowed info2.issuer = true → audienceAccepted ctx2 m2 info2 = true →
      info2.issuer = info.issuer →
      w2.certs info.issuer = (CheckAuth env ctx w).world.certs info.issuer →
      w2.jwks_uri info.issuer = (CheckAuth env ctx w).world.jwks_uri info.issuer →
      w.now ≤ w2.now → k.isEmpty = false →
      httpGets (CheckAuth env2 ctx2 w2).trace = [k] := by
  have hto := CheckAuth_enters_fetch env ctx w m t k info s0 hreq hm hauth htok hne hin hiss
    hacc hnokey henter
  obtain ⟨hs1, hs2, hs3, hs4, hs5, hs6, hs7, _⟩ := EntersKeyFetch_state env ctx w t info k s0
    henter
  have hfail2 : (st.SetErrorCause ErrorCause.AUTH).ok = false ∨ body.isEmpty = true := hfail
  have hfin : CheckAuth env ctx w =
      if !(env.RunHTTPRequest (httpGets s0.trace).length k).ret.ok then
        Unauthorized "Unable to fetch public key"
          { fetchedState env k s0 with
            trace := (fetchedState env k s0).trace ++
              [Event.on_done (denial "Unable to fetch verification key")] }
      else
        { fetchedState env k s0 with
          trace := (fetchedState env k s0).trace ++
            [Event.on_done (denial "Unable to fetch verification key")] } := by
    rw [hto, FetchPubKey_some env k s0 st body hcomp, PostFetchPubKey_failed _ body _ hfail2]
  have hmiss : ∀ val, w.jwt_cache t = some val → val.exp < w.now := by
    rcases hin with ⟨h, _⟩ | ⟨_, h, _⟩
    · exact absurd h (by simp)
    · exact h
  have hcache : (CheckAuth env ctx w).world.jwt_cache = (w.afterLookup t).jwt_cache := by
    rw [hfin]
    cases (env.RunHTTPRequest (httpGets s0.trace).length k).ret.ok <;>
      simp [Unauthorized_eq, fetchedState, hs6]
  have hcerts : (CheckAuth env ctx w).world.certs = w.certs := by
    rw [hfin]
    cases (env.RunHTTPRequest (httpGets s0.trace).length k).ret.ok <;>
      simp [Unauthorized_eq, fetchedState, hs5]
  have hjw : (CheckAuth env ctx w).world.jwks_uri info.issuer = (k, false) := by
    rw [hfin]
    cases (env.RunHTTPRequest (httpGets s0.trace).length k).ret.ok <;>
      simp [Unauthorized_eq, fetchedState, hs7]
  refine ⟨?_, ?_, ?_, hcerts, ?_, ?_, ?_, hjw, ?_⟩
  · rw [hfin]
    cases (env.RunHTTPRequest (httpGets s0.trace).length k).ret.ok <;>
      simp [Unauthorized_eq, fetchedState, hs1]
  · rw [hfin]
    cases (env.RunHTTPRequest (httpGets s0.trace).length k).ret.ok <;>
      simp [Unauthorized_eq, fetchedState, hs2]
  · rw [hfin]
    cases (env.RunHTTPRequest (httpGets s0.trace).length k).ret.ok <;>
      simp [Unauthorized_eq, fetchedState, hs4]
  · rw [hfin]
    cases (env.RunHTTPRequest (httpGets s0.trace).length k).ret.ok <;>
      simp [Unauthorized_eq, fetchedState, hs3]
  · intro hnone
    rw [hcache]
    simp [World.afterLookup, hnone]
  · intro val hval
    refine ⟨hmiss val hval, ?_⟩
    rw [hcache]
    simp [World.afterLookup, hval, Nat.not_le.mpr (hmiss val hval)]
  · intro env2 ctx2 w2 m2 t2 info2 hreq2 hm2 hauth2 htok2 hne2 hin2 hiss2 hacc2 hsame hc2 hr2
      hnow hk
    rw [hcerts] at hc2
    rw [hjw] at hr2
    have hnokey2 : ∀ cert, w2.certs info2.issuer = some cert → cert.2 < w2.now := by
      intro cert hc
      rw [hsame, hc2] at hc
      exact Nat.lt_of_lt_of_le (hnokey cert hc) hnow
    rw [CheckAuth_to_fetch env2 ctx2 w2 m2 t2 k info2 hreq2 hm2 hauth2 htok2 hne2 hin2 hiss2
      hacc2 hnokey2 (by rw [hsame, hr2]) hk]
    obtain ⟨added, ha, hb, _⟩ := FetchPubKey_frame env2 k (keyLookupState env2 ctx2 w2 t2 info2)
    rw [ha, httpGets_append, keyLookupState_httpGets, hb]
    rfl

/-- Witness of C14: in the sample service with key-set endpoints that answer
with an empty body, the cold check of `kToken` is denied after discovery, and
the check of `kToken2` that follows issues the key-set GET again. -/
theorem CheckAuth_key_fetch_failure_witness :
    completions (CheckAuth Sample.emptyKeyEnv (Sample.ctx (some "Bearer kToken") none)
        Sample.world).trace = [denial "Unable to fetch verification key"] ∧
      verifies (CheckAuth Sample.emptyKeyEnv (Sample.ctx (some "Bearer kToken") none)
        Sample.world).trace = [] ∧
      httpGets (CheckAuth Sample.emptyKeyEnv (Sample.ctx (some "Bearer kToken2") none)
        (CheckAuth Sample.emptyKeyEnv (Sample.ctx (some "Bearer kToken") none)
          Sample.world).world).trace = [Sample.kIssuer1PubkeyUrl] :=
  have h := CheckAuth_key_fetch_failure Sample.emptyKeyEnv
    (Sample.ctx (some "Bearer kToken") none) Sample.world Sample.method "kToken"
    Sample.kIssuer1PubkeyUrl
    { id := Sample.kSub, issuer := Sample.kIss, audiences := [Sample.kServiceName] }
    (discoveredState Sample.emptyKeyEnv (Sample.ctx (some "Bearer kToken") none) Sample.world
      "kToken" { id := Sample.kSub, issuer := Sample.kIss, audiences := [Sample.kServiceName] }
      Sample.kIssuer1OpenIdUrl Sample.kIssuer1PubkeyUrl)
    Status.OK ""
    rfl rfl rfl (by decide) (by decide)
    (Or.inr ⟨rfl, fun _ hv => by simp [Sample.world] at hv,
      Sample.validator Sample.kSub Sample.kIss Sample.kServiceName Sample.kExp,
      rfl, by decide, by decide⟩)
    (by decide) (by decide) (fun _ hc => by simp [Sample.world] at hc)
    (Or.inr ⟨Sample.kIssuer1OpenIdUrl, Sample.kOpenIdContent, rfl, by decide, rfl,
      ⟨Status.OK, rfl, rfl⟩, rfl, rfl⟩)
    rfl (Or.inr rfl)
  have hnone : (CheckAuth Sample.emptyKeyEnv (Sample.ctx (some "Bearer kToken") none)
      Sample.world).world.jwt_cache "kToken2" = none := rfl
  ⟨h.1, h.2.1,
    h.2.2.2.2.2.2.2.2 Sample.emptyKeyEnv (Sample.ctx (some "Bearer kToken2") none)
      (CheckAuth Sample.emptyKeyEnv (Sample.ctx (some "Bearer kToken") none)
        Sample.world).world Sample.method "kToken2"
      { id := Sample.kSub2, issuer := Sample.kIss, audiences := [Sample.kServiceName] }
      rfl rfl rfl (by decide) (by decide)
      (Or.inr ⟨rfl, fun _ hv => Option.noConfusion (hnone.symm.trans hv),
        Sample.validator Sample.kSub2 Sample.kIss Sample.kServiceName Sample.kExp,
        rfl, by decide, by decide⟩)
      (by decide) (by decide) rfl rfl rfl (by decide) (by decide)⟩

/-- The claim C14 fails in two ways.  First, the token cache is not always left
unchanged: in the sample service with key-set endpoints that answer with an
empty body, the token `kTokenStale` sits in the token cache with an expired
entry while its validator still parses it; its check, for a method that accepts
its audience, is denied with `Unable to fetch verification key` and has removed
the entry.  Second, the key-set GET is not always issued again: when the
discovery document has an empty `jwks_uri`, the key-set GET goes to the empty
URL and fails, and the check of `kToken2` that follows issues no GET at all. -/
theorem CheckAuth_failed_key_fetch_changes_token_cache :
    completions (CheckAuth Sample.emptyKeyEnv (Sample.openCtx (some "Bearer kTokenStale"))
        Sample.staleWorld).trace = [denial "Unable to fetch verification key"] ∧
      (Sample.staleWorld.jwt_cache "kTokenStale").isSome = true ∧
      ((CheckAuth Sample.emptyKeyEnv (Sample.openCtx (some "Bearer kTokenStale"))
        Sample.staleWorld).world.jwt_cache "kTokenStale").isSome = false ∧
      completions (CheckAuth Sample.emptyUriEnv (Sample.ctx (some "Bearer kToken") none)
        Sample.world).trace = [denial "Unable to fetch verification key"] ∧
      httpGets (CheckAuth Sample.emptyUriEnv (Sample.ctx (some "Bearer kToken") none)
        Sample.world).trace = [Sample.kIssuer1OpenIdUrl, ""] ∧
      httpGets (CheckAuth Sample.emptyUriEnv (Sample.ctx (some "Bearer kToken2") none)
        (CheckAuth Sample.emptyUriEnv (Sample.ctx (some "Bearer kToken") none)
          Sample.world).world).trace = [] := by
  decide

/-! ## The lifetime of a key-cache entry -/

@[simp] theorem resolutions_nil : resolutions [] = [] := rfl

@[simp] theorem resolutions_append (a b : List Event) :
    resolutions (a ++ b) = resolutions a ++ resolutions b := by
  simp [resolutions, List.filterMap_append]

@[simp] theorem resolutions_cons (e : Event) (t : List Event) :
    resolutions (e :: t) =
      (match e with
        | Event.GetJwksUri issuer => [issuer]
        | _ => []) ++ resolutions t := by
  cases e <;> simp [resolutions, List.filterMap_cons]

theorem resolutions_readEvents (ctx : Context) : resolutions (readEvents ctx) = [] := by
  unfold readEvents
  split <;> simp

theorem resolutions_lookupEvents (w : World) (t : String) (cache_hit : Bool) :
    resolutions (lookupEvents w t cache_hit) = [] := by
  unfold lookupEvents
  repeat' split
  all_goals simp

theorem resolutions_policyEvents (env : Env) (ctx : Context) (info : UserInfo) :
    resolutions (policyEvents env ctx info) = [] := by
  unfold policyEvents
  by_cases h : ctx.service_name ∈ info.audiences <;> simp [h]

theorem policyState_resolutions (env : Env) (ctx : Context) (w : World) (t : String)
    (cache_hit : Bool) (info : UserInfo) :
    resolutions (policyState env ctx w t cache_hit info).trace = [] := by
  simp [policyState, lookupState, resolutions_readEvents, resolutions_lookupEvents,
    resolutions_policyEvents]

/-- The key lookup of a check that reaches it: an entry of the issuer that has
not expired (`now <= expires_at`) is used, with no URL resolution and no HTTP
fetch; with no entry, or an entry with `expires_at < now`, the key URL is
resolved, and a fetch is issued to it when it is not empty. -/
theorem CheckAuth_key_lookup (env : Env) (ctx : Context) (w : World) (m : MethodInfo)
    (t : String) (info : UserInfo)
    (hreq : ctx.RequireAuth = true) (hm : ctx.method = some m) (hauth : m.auth = true)
    (htok : GetAuthToken_reference ctx = t) (hne : t.isEmpty = false)
    (hin : ReachesPolicy env w t false info)
    (hiss : m.isIssuerAllowed info.issuer = true) (hacc : audienceAccepted ctx m info = true) :
    (∀ c, w.certs info.issuer = some c → w.now ≤ c.2 →
      resolutions (CheckAuth env ctx w).trace = [] ∧
      httpGets (CheckAuth env ctx w).trace = [] ∧
      verifies (CheckAuth env ctx w).trace = [(t, c.1)]) ∧
    ((∀ c, w.certs info.issuer = some c → c.2 < w.now) →
      (∃ rest, resolutions (CheckAuth env ctx w).trace = info.issuer :: rest) ∧
      ((w.jwks_uri info.issuer).1.isEmpty = true →
        httpGets (CheckAuth env ctx w).trace = []) ∧
      ((w.jwks_uri info.issuer).1.isEmpty = false →
        ∃ rest, httpGets (CheckAuth env ctx w).trace = (w.jwks_uri info.issuer).1 :: rest)) := by
  have hto := policy_accepted_next env ctx w m t false info hreq hm hauth htok hne hin
    hiss hacc
  simp only [Bool.false_eq_true, if_false] at hto
  have hw : (policyState env ctx w t false info).world = w.afterLookup t := rfl
  have hui : (policyState env ctx w t false info).user_info_ = info := rfl
  have hg := policyState_httpGets env ctx w t false info
  have hr := policyState_resolutions env ctx w t false info
  have hvs := policyState_verifies env ctx w t false info
  obtain ⟨v, hcreate⟩ : ∃ v, env.Create t = some v := by
    rcases hin with ⟨h, _⟩ | ⟨_, _, v, hv, _⟩
    · exact absurd h (by simp)
    · exact ⟨v, hv⟩
  have hval : (policyState env ctx w t false info).validator_ = some v := by
    simp [policyState, hcreate]
  constructor
  · intro c hc hnow
    rw [hto, InitKey_cached env _ c (by rw [hw, hui, afterLookup_certs]; exact hc)
      (by rw [hw, afterLookup_now]; exact hnow)]
    cases hok : (v.VerifySignature c.1).ok with
    | true =>
      rw [VerifySignature_ok _ c v (by simpa [hw, afterLookup_certs] using hc)
        (by simpa using hval) hok]
      simp only [emit_trace, emit_auth_token, emit_user_info]
      refine ⟨by simp [hr], by simp [hg], ?_⟩
      simp [hvs]
      rfl
    | false =>
      rw [VerifySignature_failed _ c v (by simpa [hw, afterLookup_certs] using hc)
        (by simpa using hval) hok]
      simp only [emit_trace, emit_auth_token, emit_user_info]
      refine ⟨by simp [hr], by simp [hg], ?_⟩
      simp [hvs]
      rfl
  · intro hnokey
    rw [hto, InitKey_stale env _ (by
      intro cert hc
      rw [hw, hui, afterLookup_certs] at hc
      rw [hw, afterLookup_now]
      exact hnokey cert hc)]
    simp only [hw, hui, afterLookup_jwks_uri]
    cases hu : (w.jwks_uri info.issuer).1.isEmpty with
    | true =>
      simp only [if_true]
      refine ⟨⟨[], by simp [Unauthorized_eq, hr]⟩, fun _ => by simp [Unauthorized_eq, hg],
        fun h => absurd h (by simp)⟩
    | false =>
      simp only [Bool.false_eq_true, if_false]
      cases ho : (w.jwks_uri info.issuer).2 with
      | true =>
        simp only [if_true]
        obtain ⟨added, ha, _⟩ := DiscoverJwksUri_certs env (w.jwks_uri info.issuer).1
          (((policyState env ctx w t false info).emit (Event.GetCert info.issuer)).emit
            (Event.GetJwksUri info.issuer))
        obtain ⟨rest, hrest⟩ := DiscoverJwksUri_first_get env (w.jwks_uri info.issuer).1
          (((policyState env ctx w t false info).emit (Event.GetCert info.issuer)).emit
            (Event.GetJwksUri info.issuer))
        refine ⟨⟨resolutions added, by rw [ha]; simp [hr]⟩, fun h => absurd h (by simp),
          fun _ => ⟨rest, by rw [hrest]; simp [hg]⟩⟩
      | false =>
        simp only [Bool.false_eq_true, if_false]
        obtain ⟨added, ha, hb, _⟩ := FetchPubKey_frame env (w.jwks_uri info.issuer).1
          (((policyState env ctx w t false info).emit (Event.GetCert info.issuer)).emit
            (Event.GetJwksUri info.issuer))
        refine ⟨⟨resolutions added, by rw [ha]; simp [hr]⟩, fun h => absurd h (by simp),
          fun _ => ⟨[], by rw [ha]; simp [hg, hb]⟩⟩

theorem dispatch_VerifySignature_certs (S : Exec) (ok : Bool) (error : String) :
    updates (if !ok then Unauthorized error (VerifySignature S) else VerifySignature S).trace =
        updates S.trace ∧
      (if !ok then Unauthorized error (VerifySignature S) else VerifySignature S).world.certs =
        S.world.certs := by
  obtain ⟨added, ha, hupd, hcerts⟩ := VerifySignature_certs S
  cases ok <;> simp [Unauthorized_eq, ha, hupd, hcerts]

/-- A key-set request that delivers a non-empty body stores it in the key cache
with the expiry 300 seconds after the time of its completion. -/
theorem FetchPubKey_stores (env : Env) (url : String) (s : Exec) (b : String)
    (hdel : (env.RunHTTPRequest (httpGets s.trace).length url).delivers b)
    (hb : b.isEmpty = false) :
    updates (FetchPubKey env url s).trace =
        updates s.trace ++
          [(s.user_info_.issuer, b,
            s.world.now + (env.RunHTTPRequest (httpGets s.trace).length url).delay + 300)] ∧
      (FetchPubKey env url s).world.certs =
        Certs.Update s.world.certs s.user_info_.issuer b
          (s.world.now + (env.RunHTTPRequest (httpGets s.trace).length url).delay + 300) := by
  obtain ⟨st, hst, hc⟩ := hdel
  rw [FetchPubKey_some env url s st b hc,
    PostFetchPubKey_ok _ b _ (by rw [SetErrorCause_ok]; exact hst) hb]
  refine ⟨(dispatch_VerifySignature_certs _ _ _).1.trans ?_,
    (dispatch_VerifySignature_certs _ _ _).2.trans ?_⟩
  · simp [fetchedState, kPubKeyCacheDuration]
  · simp [fetchedState, kPubKeyCacheDuration]

theorem EntersKeyFetch_info (env : Env) (ctx : Context) (w : World) (t : String)
    (info : UserInfo) (k : String) (s0 : Exec) (henter : EntersKeyFetch env ctx w t info k s0) :
    s0.user_info_ = info ∧ s0.auth_token_ = t ∧ s0.validator_ = env.Create t := by
  rcases henter with ⟨_, _, rfl⟩ | ⟨d, doc, _, _, _, _, _, rfl⟩
  · exact ⟨rfl, rfl, by simp [keyLookupState, policyState]⟩
  · exact ⟨rfl, rfl, by simp [discoveredState, keyLookupState, policyState]⟩

/-- C20, as amended. A key-set fetch that completes OK with a non-empty body
`b` at time `tc` stores the entry (issuer, `b`, `tc + 300`) in the key cache,
where it still is when the check ends.  At the key lookup of any check that
reaches it, an entry with `now <= expires_at` is used, with no URL resolution
and no HTTP fetch; the lookup is a miss exactly when the entry is absent or
`expires_at < now`, and then the key URL is resolved and, when it is not
empty, fetched (with the empty URL the check issues no fetch).  Hence a later
check of a token of the same issuer that finds the stored entry uses `b` without
any fetch at every instant up to and including `tc + 300`, and at every later
instant resolves the key URL again and, when it is not empty, fetches it. -/
theorem CheckAuth_key_cache_lifetime (env : Env) (ctx : Context) (w : World) (m : MethodInfo)
    (t k : String) (info : UserInfo) (s0 : Exec) (b : String)
    (hreq : ctx.RequireAuth = true) (hm : ctx.method = some m) (hauth : m.auth = true)
    (htok : GetAuthToken_reference ctx = t) (hne : t.isEmpty = false)
    (hin : ReachesPolicy env w t false info)
    (hiss : m.isIssuerAllowed info.issuer = true) (hacc : audienceAccepted ctx m info = true)
    (hnokey : ∀ cert, w.certs info.issuer = some cert → cert.2 < w.now)
    (henter : EntersKeyFetch env ctx w t info k s0)
    (hdel : (env.RunHTTPRequest (httpGets s0.trace).length k).delivers b)
    (hb : b.isEmpty = false) :
    updates (CheckAuth env ctx w).trace =
      [(info.issuer, b,
        s0.world.now + (env.RunHTTPRequest (httpGets s0.trace).length k).delay + 300)] ∧
    (CheckAuth env ctx w).world.certs info.issuer =
      some (b, s0.world.now + (env.RunHTTPRequest (httpGets s0.trace).length k).delay + 300) ∧
    ∀ (env2 : Env) (ctx2 : Context) (w2 : World) (m2 : MethodInfo) (t2 : String)
      (info2 : UserInfo),
      ctx2.RequireAuth = true → ctx2.method = some m2 → m2.auth = true →
      GetAuthToken_reference ctx2 = t2 → t2.isEmpty = false →
      ReachesPolicy env2 w2 t2 false info2 →
      m2.isIssuerAllowed info2.issuer = true → audienceAccepted ctx2 m2 info2 = true →
      ((∀ c, w2.certs info2.issuer = some c → w2.now ≤ c.2 →
          resolutions (CheckAuth env2 ctx2 w2).trace = [] ∧
          httpGets (CheckAuth env2 ctx2 w2).trace = [] ∧
          verifies (CheckAuth env2 ctx2 w2).trace = [(t2, c.1)]) ∧
        ((w2.certs info2.issuer = none ∨
            ∃ c, w2.certs info2.issuer = some c ∧ c.2 < w2.now) →
          (∃ rest, resolutions (CheckAuth env2 ctx2 w2).trace = info2.issuer :: rest) ∧
          ((w2.jwks_uri info2.issuer).1.isEmpty = true →
            httpGets (CheckAuth env2 ctx2 w2).trace = []) ∧
          ((w2.jwks_uri info2.issuer).1.isEmpty = false →
            ∃ rest, httpGets (CheckAuth env2 ctx2 w2).trace =
              (w2.jwks_uri info2.issuer).1 :: rest))) ∧
      (info2.issuer = info.issuer →
        w2.certs info.issuer = (CheckAuth env ctx w).world.certs info.issuer →
        (w2.now ≤ s0.world.now + (env.RunHTTPRequest (httpGets s0.trace).length k).delay + 300 →
          resolutions (CheckAuth env2 ctx2 w2).trace = [] ∧
          httpGets (CheckAuth env2 ctx2 w2).trace = [] ∧
          verifies (CheckAuth env2 ctx2 w2).trace = [(t2, b)]) ∧
        (s0.world.now + (env.RunHTTPRequest (httpGets s0.trace).length k).delay + 300 < w2.now →
          (∃ rest, resolutions (CheckAuth env2 ctx2 w2).trace = info.issuer :: rest) ∧
          ((w2.jwks_uri info.issuer).1.isEmpty = false →
            ∃ rest, httpGets (CheckAuth env2 ctx2 w2).trace =
              (w2.jwks_uri info.issuer).1 :: rest))) := by
  have hto := CheckAuth_enters_fetch env ctx w m t k info s0 hreq hm hauth htok hne hin hiss
    hacc hnokey henter
  obtain ⟨_, _, _, hs4, _, _, _, _⟩ := EntersKeyFetch_state env ctx w t info k s0 henter
  obtain ⟨hui, _, _⟩ := EntersKeyFetch_info env ctx w t info k s0 henter
  obtain ⟨hst1, hst2⟩ := FetchPubKey_stores env k s0 b hdel hb
  have h1 : updates (CheckAuth env ctx w).trace =
      [(info.issuer, b,
        s0.world.now + (env.RunHTTPRequest (httpGets s0.trace).length k).delay + 300)] := by
    rw [hto, hst1, hs4, hui]
    rfl
  have h2 : (CheckAuth env ctx w).world.certs info.issuer =
      some (b, s0.world.now + (env.RunHTTPRequest (httpGets s0.trace).length k).delay + 300) := by
    rw [hto, hst2, hui]
    simp [Certs.Update]
  refine ⟨h1, h2, ?_⟩
  intro env2 ctx2 w2 m2 t2 info2 hreq2 hm2 hauth2 htok2 hne2 hin2 hiss2 hacc2
  obtain ⟨hfresh, hstale⟩ := CheckAuth_key_lookup env2 ctx2 w2 m2 t2 info2 hreq2 hm2 hauth2
    htok2 hne2 hin2 hiss2 hacc2
  refine ⟨⟨hfresh, ?_⟩, ?_⟩
  · intro hmiss
    refine hstale ?_
    intro c hc
    rcases hmiss with hnone | ⟨c2, hc2, hlt⟩
    · rw [hnone] at hc
      cases hc
    · rw [hc2] at hc
      cases hc
      exact hlt
  · intro hsame hc2
    rw [h2] at hc2
    rw [← hsame] at hc2
    constructor
    · intro hnow
      exact hfresh _ hc2 hnow
    · intro hnow
      have hst := hstale (by
        intro c hc
        rw [hc2] at hc
        cases hc
        exact hnow)
      rw [hsame] at hst
      exact ⟨hst.1, hst.2.2⟩

/-- Witness of C20: the cold check of `kToken` in the sample service stores the
key set of issuer 1 at `kNow + 2` with expiry `kNow + 302`; the check of
`kToken2` at `kNow + 302` uses it without any fetch, and the check of `kToken2`
at `kNow + 303` fetches the key set again. -/
theorem CheckAuth_key_cache_lifetime_witness :
    (CheckAuth Sample.env (Sample.ctx (some "Bearer kToken") none) Sample.world).world.certs
        Sample.kIss = some (Sample.kPubkey, Sample.kNow + 302) ∧
      httpGets (CheckAuth Sample.env (Sample.ctx (some "Bearer kToken2") none)
        (Sample.warmWorldAt (Sample.kNow + 302))).trace = [] ∧
      ∃ rest, httpGets (CheckAuth Sample.env (Sample.ctx (some "Bearer kToken2") none)
        (Sample.warmWorldAt (Sample.kNow + 303))).trace = Sample.kIssuer1PubkeyUrl :: rest :=
  have h := CheckAuth_key_cache_lifetime Sample.env
    (Sample.ctx (some "Bearer kToken") none) Sample.world Sample.method "kToken"
    Sample.kIssuer1PubkeyUrl
    { id := Sample.kSub, issuer := Sample.kIss, audiences := [Sample.kServiceName] }
    (discoveredState Sample.env (Sample.ctx (some "Bearer kToken") none) Sample.world
      "kToken" { id := Sample.kSub, issuer := Sample.kIss, audiences := [Sample.kServiceName] }
      Sample.kIssuer1OpenIdUrl Sample.kIssuer1PubkeyUrl)
    Sample.kPubkey
    rfl rfl rfl (by decide) (by decide)
    (Or.inr ⟨rfl, fun _ hv => by simp [Sample.world] at hv,
      Sample.validator Sample.kSub Sample.kIss Sample.kServiceName Sample.kExp,
      rfl, by decide, by decide⟩)
    (by decide) (by decide) (fun _ hc => by simp [Sample.world] at hc)
    (Or.inr ⟨Sample.kIssuer1OpenIdUrl, Sample.kOpenIdContent, rfl, by decide, rfl,
      ⟨Status.OK, rfl, rfl⟩, rfl, rfl⟩)
    ⟨Status.OK, rfl, rfl⟩ (by decide)
  have hnone : ∀ n, (Sample.warmWorldAt n).jwt_cache "kToken2" = none := fun _ => rfl
  have h302 := (h.2.2 Sample.env (Sample.ctx (some "Bearer kToken2") none)
    (Sample.warmWorldAt (Sample.kNow + 302)) Sample.method "kToken2"
    { id := Sample.kSub2, issuer := Sample.kIss, audiences := [Sample.kServiceName] }
    rfl rfl rfl (by decide) (by decide)
    (Or.inr ⟨rfl, fun _ hv => Option.noConfusion ((hnone _).symm.trans hv),
      Sample.validator Sample.kSub2 Sample.kIss Sample.kServiceName Sample.kExp,
      rfl, by decide, by decide⟩)
    (by decide) (by decide)).2 rfl rfl
  have h303 := (h.2.2 Sample.env (Sample.ctx (some "Bearer kToken2") none)
    (Sample.warmWorldAt (Sample.kNow + 303)) Sample.method "kToken2"
    { id := Sample.kSub2, issuer := Sample.kIss, audiences := [Sample.kServiceName] }
    rfl rfl rfl (by decide) (by decide)
    (Or.inr ⟨rfl, fun _ hv => Option.noConfusion ((hnone _).symm.trans hv),
      Sample.validator Sample.kSub2 Sample.kIss Sample.kServiceName Sample.kExp,
      rfl, by decide, by decide⟩)
    (by decide) (by decide)).2 rfl rfl
  ⟨h.2.1, (h302.1 (by decide)).2.1, (h303.2 (by decide)).2 (by decide)⟩

/-- The claim C20 fails: a miss at key lookup does not always lead to a fetch.
In the sample service after a failed discovery for issuer 1 (the registry holds
the empty key URL for it), the key cache has no entry for issuer 1 and the
check of `kToken` looks the key up, resolves the key URL, and denies with
`Cannot determine the URI of the key` without issuing any HTTP fetch. -/
theorem CheckAuth_key_miss_without_fetch :
    Sample.negativeWorld.certs Sample.kIss = none ∧
      (CheckAuth Sample.env (Sample.ctx (some "Bearer kToken") none)
        Sample.negativeWorld).trace =
        [Event.FindHeader "authorization", Event.SetAuthToken "kToken",
         Event.LogDebug "auth token: kToken", Event.JwtCacheLookup "kToken",
         Event.ValidatorCreate "kToken", Event.ValidatorParse "kToken",
         Event.set_auth_issuer "https://issuer1.com",
         Event.set_auth_audience "endpoints-test.cloudendpointsapis.com",
         Event.isIssuerAllowed "https://issuer1.com",
         Event.GetCert "https://issuer1.com", Event.GetJwksUri "https://issuer1.com",
         Event.on_done
           { code := 16,
             message := "JWT validation failed: Cannot determine the URI of the key",
             cause := ErrorCause.AUTH }] ∧
      httpGets (CheckAuth Sample.env (Sample.ctx (some "Bearer kToken") none)
        Sample.negativeWorld).trace = [] := by
  decide

/-! ## The messages of a denial -/

theorem KeyStatus_fixed (v : JwtValidator) (r : String) (h : r ∈ fixedReasons) :
    KeyStatus v (denial r) := Or.inr (Or.inl ⟨r, h, rfl⟩)

theorem mem_dispatchDenial (ok : Bool) (error : String) (st : Status)
    (h : st ∈ completions (dispatchDenial ok error)) : st = denial error := by
  cases ok <;> simp [dispatchDenial] at h
  exact h

theorem VerifyTrace_status (t : String) (info : UserInfo) (v : JwtValidator)
    (added : List Event) (h : VerifyTrace t info v added) :
    ∀ st ∈ completions added, KeyStatus v st := by
  intro st hst
  cases h with
  | missing =>
    simp at hst
    subst hst
    exact KeyStatus_fixed v _ (by decide)
  | failed key h =>
    simp at hst
    subst hst
    exact Or.inr (Or.inr ⟨key, rfl⟩)
  | verified key n h =>
    simp at hst
    subst hst
    exact Or.inl rfl

theorem PubKeyTrace_status (t : String) (info : UserInfo) (v : JwtValidator)
    (added : List Event) (h : PubKeyTrace t info v added) :
    ∀ st ∈ completions added, KeyStatus v st := by
  intro st hst
  cases h with
  | failed =>
    simp at hst
    subst hst
    exact KeyStatus_fixed v _ (by decide)
  | stored body exp tail hb h =>
    simp at hst
    exact VerifyTrace_status t info v tail h st hst

theorem FetchTrace_status (t : String) (info : UserInfo) (v : JwtValidator) (url : String)
    (added : List Event) (h : FetchTrace t info v url added) :
    ∀ st ∈ completions added, KeyStatus v st := by
  intro st hst
  cases h with
  | dropped ok =>
    simp at hst
    rw [mem_dispatchDenial ok _ st hst]
    exact KeyStatus_fixed v _ (by decide)
  | completed ok mid h =>
    simp at hst
    rcases hst with hst | hst
    · exact PubKeyTrace_status t info v mid h st hst
    · rw [mem_dispatchDenial ok _ st hst]
      exact KeyStatus_fixed v _ (by decide)

theorem JwksUriTrace_status (t : String) (info : UserInfo) (v : JwtValidator)
    (added : List Event) (h : JwksUriTrace t info v added) :
    ∀ st ∈ completions added, KeyStatus v st := by
  intro st hst
  cases h with
  | failed =>
    simp at hst
    subst hst
    exact KeyStatus_fixed v _ (by decide)
  | invalid =>
    simp at hst
    subst hst
    exact KeyStatus_fixed v _ (by decide)
  | found u tail h =>
    simp at hst
    exact FetchTrace_status t info v u tail h st hst

theorem DiscoverTrace_status (t : String) (info : UserInfo) (v : JwtValidator) (d : String)
    (added : List Event) (h : DiscoverTrace t info v d added) :
    ∀ st ∈ completions added, KeyStatus v st := by
  intro st hst
  cases h with
  | dropped ok =>
    simp at hst
    rw [mem_dispatchDenial ok _ st hst]
    exact KeyStatus_fixed v _ (by decide)
  | completed ok mid h =>
    simp at hst
    rcases hst with hst | hst
    · exact JwksUriTrace_status t info v mid h st hst
    · rw [mem_dispatchDenial ok _ st hst]
      exact KeyStatus_fixed v _ (by decide)

theorem KeyTrace_status (t : String) (info : UserInfo) (v : JwtValidator)
    (added : List Event) (h : KeyTrace t info v added) :
    ∀ st ∈ completions added, KeyStatus v st := by
  intro st hst
  cases h with
  | cached tail h =>
    simp at hst
    exact VerifyTrace_status t info v tail h st hst
  | no_url =>
    simp at hst
    subst hst
    exact KeyStatus_fixed v _ (by decide)
  | discover d tail hd h =>
    simp at hst
    exact DiscoverTrace_status t info v d tail h st hst
  | fetch k tail hk h =>
    simp at hst
    exact FetchTrace_status t info v k tail h st hst

theorem PolicyTrace_status (env : Env) (ctx : Context) (m : MethodInfo) (t : String)
    (info : UserInfo) (vo : Option JwtValidator) (cache_hit : Bool) (added : List Event)
    (h : PolicyTrace env ctx m t info vo cache_hit added) :
    ∀ st ∈ completions added,
      st = Status.OK ∨ (∃ r, r ∈ fixedReasons ∧ st = denial r) ∨
        ∃ v key, vo = some v ∧ st = denial (v.VerifySignature key).message := by
  intro st hst
  cases h with
  | issuer_denied _ h =>
    simp at hst
    subst hst
    exact Or.inr (Or.inl ⟨_, by decide, rfl⟩)
  | audience_denied _ h ha =>
    simp [completions_policyEvents] at hst
    subst hst
    exact Or.inr (Or.inl ⟨_, by decide, rfl⟩)
  | cached h ha =>
    simp [completions_policyEvents] at hst
    subst hst
    exact Or.inl rfl
  | key v tail hv h ha ht =>
    simp [completions_policyEvents] at hst
    rcases KeyTrace_status t info v tail ht st hst with h1 | h1 | ⟨key, h1⟩
    · exact Or.inl h1
    · exact Or.inr (Or.inl h1)
    · exact Or.inr (Or.inr ⟨v, key, hv, h1⟩)

theorem completions_lookupState (ctx : Context) (w : World) (t : String) :
    completions (lookupState ctx w t).trace = [] := by
  simp [lookupState, completions_readEvents]

/-- C18, as amended. Every status a check reports is Allow or a denial with
code `UNAUTHENTICATED` whose message is `JWT validation failed: ` followed by
one of nine fixed reasons (the seven of the table, `Internal error` when no
validator can be created, and `Unable to fetch public key` when the key-set
request is not dispatched) or by the error text returned by the parse or the
signature verification of the token's validator. -/
theorem CheckAuth_denial_messages (env : Env) (ctx : Context) (w : World) :
    (∀ st ∈ completions (CheckAuth env ctx w).trace,
      st = Status.OK ∨ (∃ r, r ∈ fixedReasons ∧ st = denial r) ∨
        ∃ v, env.Create (GetAuthToken_reference ctx) = some v ∧
          (st = denial (v.Parse w.now).1.message ∨
            ∃ key, st = denial (v.VerifySignature key).message)) ∧
    (∀ e, (denial e).message = "JWT validation failed: " ++ e ∧
      (denial e).code = Code.UNAUTHENTICATED) ∧
    fixedReasons =
      ["Missing or invalid credentials", "Issuer not allowed", "Audience not allowed",
       "Cannot determine the URI of the key",
       "Unable to fetch URI of the key via OpenID discovery",
       "Unable to fetch verification key", "Missing verification key",
       "Internal error", "Unable to fetch public key"] := by
  refine ⟨?_, fun e => ⟨rfl, rfl⟩, rfl⟩
  obtain ⟨hshape, _⟩ := CheckAuth_produces env ctx w
  generalize (CheckAuth env ctx w).trace = T at hshape
  intro st hst
  cases hshape with
  | not_required h =>
    simp at hst
    exact Or.inl hst
  | no_token m hreq hm hauth ht =>
    simp [completions_readEvents] at hst
    subst hst
    exact Or.inr (Or.inl ⟨_, by decide, rfl⟩)
  | hit m val tail hreq hm hauth ht hval hexp h =>
    simp [completions_lookupState, completions_lookupEvents] at hst
    rcases PolicyTrace_status env ctx m _ _ _ _ tail h st hst with h1 | h1 | ⟨v, key, hv, _⟩
    · exact Or.inl h1
    · exact Or.inr (Or.inl h1)
    · cases hv
  | create_failed m hreq hm hauth ht hmiss hc =>
    simp [completions_lookupState, completions_missEvents] at hst
    subst hst
    exact Or.inr (Or.inl ⟨_, by decide, rfl⟩)
  | parse_failed m v hreq hm hauth ht hmiss hc hp =>
    simp [completions_lookupState, completions_lookupEvents] at hst
    subst hst
    exact Or.inr (Or.inr ⟨v, hc, Or.inl rfl⟩)
  | parsed m v tail hreq hm hauth ht hmiss hc hp h =>
    simp [completions_lookupState, completions_lookupEvents] at hst
    rcases PolicyTrace_status env ctx m _ _ _ _ tail h st hst with h1 | h1 | ⟨v2, key, hv, h1⟩
    · exact Or.inl h1
    · exact Or.inr (Or.inl h1)
    · cases hv
      exact Or.inr (Or.inr ⟨v, hc, Or.inr ⟨key, h1⟩⟩)

/-- The claim C18 fails: two denials of the sample service have a reason
outside the seven of the table that is not an error text of the validator.
The token `bad_token`, for which no validator can be created, is denied with
`Internal error`; and when the fetcher refuses to dispatch the key-set request
of `kTokenIssuer2`, whose parse succeeded and whose signature was never
verified, the denial is `Unable to fetch public key`. -/
theorem CheckAuth_denials_outside_table :
    completions (CheckAuth Sample.env (Sample.ctx (some "Bearer bad_token") none)
        Sample.world).trace = [denial "Internal error"] ∧
      "Internal error" ∉ tableReasons ∧
      (Sample.env.Create "bad_token").isNone = true ∧
      completions (CheckAuth Sample.refusingEnv (Sample.ctx (some "Bearer kTokenIssuer2") none)
        Sample.world).trace = [denial "Unable to fetch public key"] ∧
      "Unable to fetch public key" ∉ tableReasons ∧
      ((Sample.validator Sample.kSub Sample.kIss2 Sample.kServiceName Sample.kExp).Parse
        Sample.world.now).1.message = "" ∧
      verifies (CheckAuth Sample.refusingEnv (Sample.ctx (some "Bearer kTokenIssuer2") none)
        Sample.world).trace = [] := by
  decide

/-! ## Writes to the token cache -/

@[simp] theorem removes_nil : removes [] = [] := rfl

@[simp] theorem removes_append (a b : List Event) :
    removes (a ++ b) = removes a ++ removes b := by
  simp [removes, List.filterMap_append]

@[simp] theorem removes_cons (e : Event) (t : List Event) :
    removes (e :: t) =
      (match e with
        | Event.JwtCacheRemove token => [token]
        | _ => []) ++ removes t := by
  cases e <;> simp [removes, List.filterMap_cons]

theorem quiet_nil : quiet [] := ⟨rfl, rfl, rfl⟩

theorem quiet_append (a b : List Event) (ha : quiet a) (hb : quiet b) : quiet (a ++ b) := by
  obtain ⟨a1, a2, a3⟩ := ha
  obtain ⟨b1, b2, b3⟩ := hb
  exact ⟨by simp [a1, b1], by simp [a2, b2], by simp [a3, b3]⟩

theorem quiet_dispatchDenial (ok : Bool) (error : String) : quiet (dispatchDenial ok error) := by
  cases ok <;> exact ⟨by simp [dispatchDenial], by simp [dispatchDenial], by simp [dispatchDenial]⟩

theorem quiet_policyEvents (env : Env) (ctx : Context) (info : UserInfo) :
    quiet (policyEvents env ctx info) := by
  refine ⟨inserts_policyEvents env ctx info, ?_, verifies_policyEvents env ctx info⟩
  unfold policyEvents
  by_cases h : ctx.service_name ∈ info.audiences <;> simp [h]

theorem quiet_readEvents (ctx : Context) : quiet (readEvents ctx) := by
  refine ⟨inserts_readEvents ctx, ?_, verifies_readEvents ctx⟩
  unfold readEvents
  split <;> simp

theorem quiet_lookupState (ctx : Context) (w : World) (t : String) :
    quiet (lookupState ctx w t).trace := by
  unfold lookupState
  exact quiet_append _ _ (quiet_readEvents ctx) ⟨by simp, by simp, by simp⟩

theorem OK_not_mem_dispatchDenial (ok : Bool) (error : String) :
    Status.OK ∉ completions (dispatchDenial ok error) := by
  intro h
  exact denial_ne_OK error (mem_dispatchDenial ok error _ h).symm

/-- A key stage shape stays one between two quiet stretches with no Allow
completion. -/
theorem KeyShape_wrap (t : String) (info : UserInfo) (v : JwtValidator)
    (a b added : List Event) (ha : quiet a) (hb : quiet b)
    (hca : Status.OK ∉ completions a) (hcb : Status.OK ∉ completions b)
    (h : KeyShape t info v added) : KeyShape t info v (a ++ added ++ b) := by
  rcases h with ⟨h1, h2, h3, h4⟩ | ⟨key, n, pre, post, hok, heq, hpre, hpost⟩
  · left
    refine ⟨by simp [ha.1, hb.1, h1], by simp [ha.2.1, hb.2.1, h2], ?_, ?_⟩
    · simp only [completions_append, List.mem_append]
      rintro ((h | h) | h)
      · exact hca h
      · exact h3 h
      · exact hcb h
    · intro p hp
      simp only [verifies_append, ha.2.2, hb.2.2, List.nil_append, List.append_nil] at hp
      exact h4 p hp
  · right
    refine ⟨key, n, a ++ pre, post ++ b, hok, ?_, quiet_append _ _ ha hpre,
      quiet_append _ _ hpost hb⟩
    rw [heq]
    simp only [List.append_assoc]

theorem KeyShape_denial (t : String) (info : UserInfo) (v : JwtValidator) (a : List Event)
    (ha : quiet a) (hca : Status.OK ∉ completions a) : KeyShape t info v a :=
  Or.inl ⟨ha.1, ha.2.1, hca, by simp [ha.2.2]⟩

theorem OK_not_mem_single_denial (error : String) :
    Status.OK ∉ completions [Event.on_done (denial error)] := by
  intro h
  simp at h
  exact denial_ne_OK error h.symm

theorem VerifyTrace_shape (t : String) (info : UserInfo) (v : JwtValidator)
    (added : List Event) (h : VerifyTrace t info v added) : KeyShape t info v added := by
  cases h with
  | missing =>
    refine KeyShape_denial t info v _ ⟨by simp, by simp, by simp⟩ ?_
    intro h
    simp at h
    exact denial_ne_OK _ h.symm
  | failed key h =>
    refine Or.inl ⟨by simp, by simp, ?_, ?_⟩
    · intro h2
      simp at h2
      exact denial_ne_OK _ h2.symm
    · intro p hp
      simp at hp
      subst hp
      exact h
  | verified key n h =>
    exact Or.inr ⟨key, n, [Event.GetCert info.issuer], [], h, rfl,
      ⟨by simp, by simp, by simp⟩, quiet_nil⟩

theorem PubKeyTrace_shape (t : String) (info : UserInfo) (v : JwtValidator)
    (added : List Event) (h : PubKeyTrace t info v added) : KeyShape t info v added := by
  cases h with
  | failed =>
    exact KeyShape_denial t info v _ ⟨by simp, by simp, by simp⟩
      (OK_not_mem_single_denial _)
  | stored body exp tail hb h =>
    have := KeyShape_wrap t info v [Event.CertsUpdate info.issuer body exp] [] tail
      ⟨by simp, by simp, by simp⟩ quiet_nil (by simp) (by simp) (VerifyTrace_shape t info v tail h)
    simpa using this

theorem FetchTrace_shape (t : String) (info : UserInfo) (v : JwtValidator) (url : String)
    (added : List Event) (h : FetchTrace t info v url added) : KeyShape t info v added := by
  cases h with
  | dropped ok =>
    refine KeyShape_denial t info v _
      (quiet_append _ _ ⟨by simp, by simp, by simp⟩ (quiet_dispatchDenial ok _)) ?_
    simp only [completions_append, List.mem_append]
    rintro (h | h)
    · simp at h
    · exact OK_not_mem_dispatchDenial ok _ h
  | completed ok mid h =>
    exact KeyShape_wrap t info v _ _ mid ⟨by simp, by simp, by simp⟩
      (quiet_dispatchDenial ok _) (by simp) (OK_not_mem_dispatchDenial ok _)
      (PubKeyTrace_shape t info v mid h)

theorem JwksUriTrace_shape (t : String) (info : UserInfo) (v : JwtValidator)
    (added : List Event) (h : JwksUriTrace t info v added) : KeyShape t info v added := by
  cases h with
  | failed =>
    refine KeyShape_denial t info v _ ⟨by simp, by simp, by simp⟩ ?_
    intro h
    simp at h
    exact denial_ne_OK _ h.symm
  | invalid =>
    refine KeyShape_denial t info v _ ⟨by simp, by simp, by simp⟩ ?_
    intro h
    simp at h
    exact denial_ne_OK _ h.symm
  | found u tail h =>
    have := KeyShape_wrap t info v [Event.SetJwksUri info.issuer u false] [] tail
      ⟨by simp, by simp, by simp⟩ quiet_nil (by simp) (by simp)
      (FetchTrace_shape t info v u tail h)
    simpa using this

theorem DiscoverTrace_shape (t : String) (info : UserInfo) (v : JwtValidator) (d : String)
    (added : List Event) (h : DiscoverTrace t info v d added) : KeyShape t info v added := by
  cases h with
  | dropped ok =>
    refine KeyShape_denial t info v _
      (quiet_append _ _ ⟨by simp, by simp, by simp⟩ (quiet_dispatchDenial ok _)) ?_
    simp only [completions_append, List.mem_append]
    rintro (h | h)
    · simp at h
    · exact OK_not_mem_dispatchDenial ok _ h
  | completed ok mid h =>
    exact KeyShape_wrap t info v _ _ mid ⟨by simp, by simp, by simp⟩
      (quiet_dispatchDenial ok _) (by simp) (OK_not_mem_dispatchDenial ok _)
      (JwksUriTrace_shape t info v mid h)

theorem KeyTrace_shape (t : String) (info : UserInfo) (v : JwtValidator)
    (added : List Event) (h : KeyTrace t info v added) : KeyShape t info v added := by
  cases h with
  | cached tail h =>
    have := KeyShape_wrap t info v [Event.GetCert info.issuer] [] tail
      ⟨by simp, by simp, by simp⟩ quiet_nil (by simp) (by simp)
      (VerifyTrace_shape t info v tail h)
    simpa using this
  | no_url =>
    refine KeyShape_denial t info v _ ⟨by simp, by simp, by simp⟩ ?_
    intro h
    simp at h
    exact denial_ne_OK _ h.symm
  | discover d tail hd h =>
    have := KeyShape_wrap t info v
      [Event.GetCert info.issuer, Event.GetJwksUri info.issuer] [] tail
      ⟨by simp, by simp, by simp⟩ quiet_nil (by simp) (by simp)
      (DiscoverTrace_shape t info v d tail h)
    simpa using this
  | fetch k tail hk h =>
    have := KeyShape_wrap t info v
      [Event.GetCert info.issuer, Event.GetJwksUri info.issuer] [] tail
      ⟨by simp, by simp, by simp⟩ quiet_nil (by simp) (by simp)
      (FetchTrace_shape t info v k tail h)
    simpa using this

/-- The policy stage of a parsed token follows the key stage shape. -/
theorem PolicyTrace_shape (env : Env) (ctx : Context) (m : MethodInfo) (t : String)
    (info : UserInfo) (v : JwtValidator) (added : List Event)
    (h : PolicyTrace env ctx m t info (some v) false added) : KeyShape t info v added := by
  cases h with
  | issuer_denied _ h =>
    refine KeyShape_denial t info v _ ⟨by simp, by simp, by simp⟩ ?_
    intro h
    simp at h
    exact denial_ne_OK _ h.symm
  | audience_denied _ h ha =>
    refine KeyShape_denial t info v _
      (quiet_append _ _ (quiet_policyEvents env ctx info) ⟨by simp, by simp, by simp⟩) ?_
    intro h
    simp [completions_policyEvents] at h
    exact denial_ne_OK _ h.symm
  | key v2 tail hv h ha ht =>
    cases hv
    have := KeyShape_wrap t info v (policyEvents env ctx info) [] tail
      (quiet_policyEvents env ctx info) quiet_nil
      (by simp [completions_policyEvents]) (by simp) (KeyTrace_shape t info v tail ht)
    simpa using this

/-- The policy stage of a token found in the token cache writes nothing to the
token cache and verifies no signature. -/
theorem PolicyTrace_hit_quiet (env : Env) (ctx : Context) (m : MethodInfo) (t : String)
    (info : UserInfo) (vo : Option JwtValidator) (added : List Event)
    (h : PolicyTrace env ctx m t info vo true added) : quiet added := by
  cases h with
  | issuer_denied _ h => exact ⟨by simp, by simp, by simp⟩
  | audience_denied _ h ha =>
    exact quiet_append _ _ (quiet_policyEvents env ctx info) ⟨by simp, by simp, by simp⟩
  | cached h ha =>
    exact quiet_append _ _ (quiet_policyEvents env ctx info) ⟨by simp, by simp, by simp⟩

/-- A stretch of a trace with no token-cache write leaves the token cache
alone. -/
theorem replay_no_cache_write (l : List Event) (w : World) (h1 : inserts l = [])
    (h2 : removes l = []) : (replay l w).jwt_cache = w.jwt_cache := by
  induction l generalizing w with
  | nil => rfl
  | cons e l ih =>
    rw [replay_cons]
    cases e <;> simp at h1 h2 <;> exact (ih _ (by simpa using h1) (by simpa using h2))

theorem afterLookup_cache_cases (w : World) (t : String)
    (hmiss : ∀ val, w.jwt_cache t = some val → val.exp < w.now) :
    (w.afterLookup t).jwt_cache = w.jwt_cache ∨
      ∃ val, w.jwt_cache t = some val ∧ val.exp < w.now ∧
        (w.afterLookup t).jwt_cache = JwtCache.Remove w.jwt_cache t := by
  cases hval : w.jwt_cache t with
  | none => exact Or.inl (by simp [World.afterLookup, hval])
  | some val =>
    exact Or.inr ⟨val, rfl, hmiss val hval,
      by simp [World.afterLookup, hval, Nat.not_le.mpr (hmiss val hval)]⟩

/-- The calls of a check up to the parse of a token that misses the token
cache: no insertion, no verification, and the token cache as the lookup leaves
it. -/
theorem missPrefix_facts (ctx : Context) (w : World) (t : String)
    (hmiss : ∀ val, w.jwt_cache t = some val → val.exp < w.now) :
    inserts ((lookupState ctx w t).trace ++ missEvents w t) = [] ∧
      verifies ((lookupState ctx w t).trace ++ missEvents w t) = [] ∧
      completions ((lookupState ctx w t).trace ++ missEvents w t) = [] ∧
      (replay ((lookupState ctx w t).trace ++ missEvents w t) w).jwt_cache =
        (w.afterLookup t).jwt_cache := by
  have hq := quiet_lookupState ctx w t
  have hm1 : inserts (missEvents w t) = [] := by
    unfold missEvents
    split <;> simp
  have hm2 : verifies (missEvents w t) = [] := by
    unfold missEvents
    split <;> simp
  refine ⟨by simp [hq.1, hm1], by simp [hq.2.2, hm2],
    by simp [completions_lookupState, completions_missEvents], ?_⟩
  rw [replay_append, replay_lookupState, replay_missEvents w t hmiss]

/-- What a check does to the token cache, read off the shape of its trace:
either it inserts nothing, every signature verification it made failed, and the
writes on its trace leave the token cache as it was or with the expired entry
of its token removed; or it verified the signature once, with success, and
inserted the entry of its token right after. -/
theorem CheckTrace_cache (env : Env) (ctx : Context) (w : World) (T : List Event)
    (h : CheckTrace env ctx w T) :
    (inserts T = [] ∧
      (∀ v key, env.Create (GetAuthToken_reference ctx) = some v →
        (GetAuthToken_reference ctx, key) ∈ verifies T → (v.VerifySignature key).ok = false) ∧
      ((replay T w).jwt_cache = w.jwt_cache ∨
        ∃ val, w.jwt_cache (GetAuthToken_reference ctx) = some val ∧ val.exp < w.now ∧
          (replay T w).jwt_cache =
            JwtCache.Remove w.jwt_cache (GetAuthToken_reference ctx))) ∨
    (∃ v key n pre post, env.Create (GetAuthToken_reference ctx) = some v ∧
      (v.VerifySignature key).ok = true ∧
      T = pre ++ verifiedEvents (GetAuthToken_reference ctx) (v.Parse w.now).2 v key n ++ post ∧
      inserts pre = [] ∧ verifies pre = [] ∧ quiet post) := by
  cases h with
  | not_required h =>
    exact Or.inl ⟨by simp, fun _ _ _ hm => by simp at hm, Or.inl rfl⟩
  | no_token m hreq hm hauth ht =>
    have hq := quiet_readEvents ctx
    refine Or.inl ⟨by simp [hq.1], fun _ _ _ hm => by simp [hq.2.2] at hm, Or.inl ?_⟩
    rw [replay_append, replay_readEvents]
    rfl
  | hit m val tail hreq hm hauth ht hval hexp h =>
    have hq : quiet ((lookupState ctx w (GetAuthToken_reference ctx)).trace ++
        lookupEvents w (GetAuthToken_reference ctx) true ++ tail) :=
      quiet_append _ _ (quiet_append _ _ (quiet_lookupState ctx w _)
        ⟨by simp [lookupEvents], by simp [lookupEvents], by simp [lookupEvents]⟩)
        (PolicyTrace_hit_quiet env ctx m _ _ _ tail h)
    exact Or.inl ⟨hq.1, (fun _ _ _ hm => by rw [hq.2.2] at hm; cases hm),
      Or.inl (replay_no_cache_write _ w hq.1 hq.2.1)⟩
  | create_failed m hreq hm hauth ht hmiss hc =>
    obtain ⟨h1, h2, _, h4⟩ := missPrefix_facts ctx w (GetAuthToken_reference ctx) hmiss
    refine Or.inl ⟨by rw [inserts_append, h1]; simp,
      fun _ _ _ hm => by rw [verifies_append, h2] at hm; simp at hm, ?_⟩
    have hr : (replay ((lookupState ctx w (GetAuthToken_reference ctx)).trace ++
        missEvents w (GetAuthToken_reference ctx) ++
        [Event.ValidatorCreate (GetAuthToken_reference ctx),
         Event.on_done (denial "Internal error")]) w).jwt_cache =
        (w.afterLookup (GetAuthToken_reference ctx)).jwt_cache := by
      rw [replay_append, ← h4]
      rfl
    rw [hr]
    exact afterLookup_cache_cases w _ hmiss
  | parse_failed m v hreq hm hauth ht hmiss hc hp =>
    obtain ⟨h1, h2, _, h4⟩ := missPrefix_facts ctx w (GetAuthToken_reference ctx) hmiss
    rw [lookupEvents_miss, ← List.append_assoc]
    refine Or.inl ⟨by simp only [inserts_append, h1]; simp,
      fun _ _ _ hm => by simp only [verifies_append, h2] at hm; simp at hm, ?_⟩
    have hr : (replay ((lookupState ctx w (GetAuthToken_reference ctx)).trace ++
        missEvents w (GetAuthToken_reference ctx) ++
        [Event.ValidatorCreate (GetAuthToken_reference ctx),
         Event.ValidatorParse (GetAuthToken_reference ctx)] ++
        [Event.on_done (denial (v.Parse w.now).1.message)]) w).jwt_cache =
        (w.afterLookup (GetAuthToken_reference ctx)).jwt_cache := by
      rw [replay_append, replay_append, ← h4]
      rfl
    rw [hr]
    exact afterLookup_cache_cases w _ hmiss
  | parsed m v tail hreq hm hauth ht hmiss hc hp h =>
    obtain ⟨h1, h2, _, h4⟩ := missPrefix_facts ctx w (GetAuthToken_reference ctx) hmiss
    rw [lookupEvents_miss, ← List.append_assoc]
    have hp1 : inserts ((lookupState ctx w (GetAuthToken_reference ctx)).trace ++
        missEvents w (GetAuthToken_reference ctx) ++
        [Event.ValidatorCreate (GetAuthToken_reference ctx),
         Event.ValidatorParse (GetAuthToken_reference ctx)]) = [] := by
      rw [inserts_append, h1]; simp
    have hp2 : verifies ((lookupState ctx w (GetAuthToken_reference ctx)).trace ++
        missEvents w (GetAuthToken_reference ctx) ++
        [Event.ValidatorCreate (GetAuthToken_reference ctx),
         Event.ValidatorParse (GetAuthToken_reference ctx)]) = [] := by
      rw [verifies_append, h2]; simp
    have hp4 : (replay ((lookupState ctx w (GetAuthToken_reference ctx)).trace ++
        missEvents w (GetAuthToken_reference ctx) ++
        [Event.ValidatorCreate (GetAuthToken_reference ctx),
         Event.ValidatorParse (GetAuthToken_reference ctx)]) w).jwt_cache =
        (w.afterLookup (GetAuthToken_reference ctx)).jwt_cache := by
      rw [replay_append, ← h4]
      rfl
    rcases PolicyTrace_shape env ctx m _ _ v tail h with
      ⟨k1, k2, _, k4⟩ | ⟨key, n, pre, post, hok, heq, hpre, hpost⟩
    · refine Or.inl ⟨by rw [inserts_append, hp1, k1]; rfl, ?_, ?_⟩
      · intro v2 key hc2 hmem
        rw [hc] at hc2
        cases hc2
        rw [verifies_append, hp2] at hmem
        exact k4 _ hmem
      · rw [replay_append, replay_no_cache_write tail _ k1 k2, hp4]
        exact afterLookup_cache_cases w _ hmiss
    · refine Or.inr ⟨v, key, n,
        ((lookupState ctx w (GetAuthToken_reference ctx)).trace ++
          missEvents w (GetAuthToken_reference ctx) ++
          [Event.ValidatorCreate (GetAuthToken_reference ctx),
           Event.ValidatorParse (GetAuthToken_reference ctx)]) ++ pre,
        post, hc, hok, ?_, ?_, ?_, hpost⟩
      · rw [heq]
        simp only [List.append_assoc]
      · rw [inserts_append, hp1, hpre.1]; rfl
      · rw [verifies_append, hp2, hpre.2.2]; rfl

/-- C15. The token cache is written only after a successful signature
verification.  A check that reports no Allow inserts nothing into the token
cache and leaves it unchanged, except for the removal of an expired entry found
for this very token.  An insertion takes place exactly when a signature
verification of the token succeeds; it is then the only one, it maps the raw
token to the parsed user info with the validator's expiration time, it follows
the verification at once and comes before `SetUserInfo` and the Allow
completion, and the entry is in the token cache the check leaves. -/
theorem CheckAuth_token_cache_writes (env : Env) (ctx : Context) (w : World) :
    (Status.OK ∉ completions (CheckAuth env ctx w).trace →
      inserts (CheckAuth env ctx w).trace = [] ∧
      ((CheckAuth env ctx w).world.jwt_cache = w.jwt_cache ∨
        ∃ val, w.jwt_cache (GetAuthToken_reference ctx) = some val ∧ val.exp < w.now ∧
          (CheckAuth env ctx w).world.jwt_cache =
            JwtCache.Remove w.jwt_cache (GetAuthToken_reference ctx))) ∧
    (inserts (CheckAuth env ctx w).trace ≠ [] ↔
      ∃ v key, env.Create (GetAuthToken_reference ctx) = some v ∧
        (GetAuthToken_reference ctx, key) ∈ verifies (CheckAuth env ctx w).trace ∧
        (v.VerifySignature key).ok = true) ∧
    (inserts (CheckAuth env ctx w).trace ≠ [] →
      ∃ v key n pre post, env.Create (GetAuthToken_reference ctx) = some v ∧
        (v.VerifySignature key).ok = true ∧
        (CheckAuth env ctx w).trace =
          pre ++
            [Event.ValidatorVerifySignature (GetAuthToken_reference ctx) key,
             Event.ValidatorGetExpirationTime (GetAuthToken_reference ctx),
             Event.JwtCacheInsert (GetAuthToken_reference ctx) (v.Parse w.now).2
               v.GetExpirationTime n,
             Event.SetUserInfo (v.Parse w.now).2,
             Event.on_done Status.OK] ++ post ∧
        inserts pre = [] ∧ inserts post = [] ∧
        inserts (CheckAuth env ctx w).trace =
          [(GetAuthToken_reference ctx, (v.Parse w.now).2, v.GetExpirationTime, n)] ∧
        (CheckAuth env ctx w).world.jwt_cache (GetAuthToken_reference ctx) =
          some { user_info := (v.Parse w.now).2, exp := v.GetExpirationTime,
                 inserted_at := n }) := by
  obtain ⟨hshape, hstores⟩ := CheckAuth_produces env ctx w
  have hcache := hstores.1
  generalize (CheckAuth env ctx w).trace = T at hshape hcache
  generalize (CheckAuth env ctx w).world = W at hcache
  rcases CheckTrace_cache env ctx w T hshape with
    ⟨a1, a2, a3⟩ | ⟨v, key, n, pre, post, hc, hok, heq, hpre1, hpre2, hpost⟩
  · refine ⟨fun _ => ⟨a1, by rw [hcache]; exact a3⟩, ⟨fun h => absurd a1 h, ?_⟩,
      fun h => absurd a1 h⟩
    rintro ⟨v, key, hc, hmem, hok⟩
    rw [a2 v key hc hmem] at hok
    cases hok
  · subst heq
    have hins : inserts (pre ++ verifiedEvents (GetAuthToken_reference ctx) (v.Parse w.now).2 v
        key n ++ post) =
        [(GetAuthToken_reference ctx, (v.Parse w.now).2, v.GetExpirationTime, n)] := by
      simp [verifiedEvents, hpre1, hpost.1]
    have hver : verifies (pre ++ verifiedEvents (GetAuthToken_reference ctx) (v.Parse w.now).2 v
        key n ++ post) = [(GetAuthToken_reference ctx, key)] := by
      simp [verifiedEvents, hpre2, hpost.2.2]
    refine ⟨?_, ⟨fun _ => ⟨v, key, hc, by rw [hver]; simp, hok⟩, fun _ => by rw [hins]; simp⟩,
      fun _ => ⟨v, key, n, pre, post, hc, hok, rfl, hpre1, hpost.1, hins, ?_⟩⟩
    · intro hno
      exact absurd (by simp [verifiedEvents]) hno
    · rw [hcache, replay_append, replay_no_cache_write post _ hpost.1 hpost.2.1, replay_append]
      simp [verifiedEvents, replay, applyEvent, JwtCache.Insert]

/-- Witness of C15: in the sample service, the check of `kTokenBadAud`, denied
for its audience, inserts nothing, and the cold check of `kToken` inserts after
a successful verification. -/
theorem CheckAuth_token_cache_writes_witness :
    inserts (CheckAuth Sample.env (Sample.ctx (some "Bearer kTokenBadAud") none)
        Sample.world).trace = [] ∧
      ∃ v key, Sample.env.Create "kToken" = some v ∧
        ("kToken", key) ∈ verifies (CheckAuth Sample.env
          (Sample.ctx (some "Bearer kToken") none) Sample.world).trace ∧
        (v.VerifySignature key).ok = true :=
  ⟨((CheckAuth_token_cache_writes Sample.env (Sample.ctx (some "Bearer kTokenBadAud") none)
      Sample.world).1 (by decide)).1,
    (CheckAuth_token_cache_writes Sample.env (Sample.ctx (some "Bearer kToken") none)
      Sample.world).2.1.mp (by decide)⟩

/-- Witness of C18: the denial of `kTokenBadAud` in the sample service has one
of the fixed reasons. -/
theorem CheckAuth_denial_messages_witness :
    denial "Audience not allowed" = Status.OK ∨
      (∃ r, r ∈ fixedReasons ∧ denial "Audience not allowed" = denial r) ∨
      ∃ v, Sample.env.Create "kTokenBadAud" = some v ∧
        (denial "Audience not allowed" = denial (v.Parse Sample.world.now).1.message ∨
          ∃ key, denial "Audience not allowed" = denial (v.VerifySignature key).message) :=
  (CheckAuth_denial_messages Sample.env (Sample.ctx (some "Bearer kTokenBadAud") none)
    Sample.world).1 (denial "Audience not allowed") (by decide)

/-! ## Every key stage follows its run -/

theorem dispatch_trace (e : Exec) (ok : Bool) (error : String) :
    (if !ok then Unauthorized error e else e).trace = e.trace ++ dispatchDenial ok error := by
  cases ok <;> simp [Unauthorized_eq, dispatchDenial]

/-- The method `VerifySignature`, from a state whose key cache holds an entry
for the issuer, follows `VerifyRun` on the blob of this entry. -/
theorem VerifySignature_run (s : Exec) (v : JwtValidator) (cert : String × Nat)
    (hv : s.validator_ = some v) (hc : s.world.certs s.user_info_.issuer = some cert) :
    ∃ added, (VerifySignature s).trace = s.trace ++ added ∧
      VerifyRun s.auth_token_ s.user_info_ v cert.1 s.world.now added := by
  cases hok : (v.VerifySignature cert.1).ok with
  | true =>
    rw [VerifySignature_ok s cert v hc hv hok]
    exact ⟨_, rfl, VerifyRun.verified hok⟩
  | false =>
    rw [VerifySignature_failed s cert v hc hv hok]
    exact ⟨_, rfl, VerifyRun.failed hok⟩

theorem FetchPubKey_run (env : Env) (url : String) (s : Exec) (v : JwtValidator)
    (hv : s.validator_ = some v) :
    ∃ added, (FetchPubKey env url s).trace = s.trace ++ added ∧
      FetchRun env s.auth_token_ s.user_info_ v (httpGets s.trace).length url s.world.now
        added := by
  cases hc : (env.RunHTTPRequest (httpGets s.trace).length url).completion with
  | none =>
    rw [FetchPubKey_none env url s hc]
    exact ⟨_, rfl, FetchRun.dropped hc⟩
  | some c =>
    rw [FetchPubKey_some env url s c.1 c.2 hc, dispatch_trace]
    by_cases h : c.1.ok = true ∧ c.2.isEmpty = false
    · rw [PostFetchPubKey_ok _ c.2 _ (by rw [SetErrorCause_ok]; exact h.1) h.2]
      obtain ⟨added, ha, hrun⟩ := VerifySignature_run
        { fetchedState env url s with
          world := { (fetchedState env url s).world with
            certs := Certs.Update (fetchedState env url s).world.certs
              (fetchedState env url s).user_info_.issuer c.2
              ((fetchedState env url s).world.now + kPubKeyCacheDuration) }
          trace := (fetchedState env url s).trace ++
            [Event.CertsUpdate (fetchedState env url s).user_info_.issuer c.2
              ((fetchedState env url s).world.now + kPubKeyCacheDuration)] }
        v (c.2, (fetchedState env url s).world.now + kPubKeyCacheDuration) hv
        (by simp [Certs.Update])
      rw [ha]
      refine ⟨_, ?_, FetchRun.stored c.1 c.2 added hc h.1 h.2 hrun⟩
      simp [fetchedState, kPubKeyCacheDuration]
    · have h2 : c.1.ok = false ∨ c.2.isEmpty = true := by
        by_cases h3 : c.1.ok = true
        · right
          have : ¬ c.2.isEmpty = false := fun h4 => h ⟨h3, h4⟩
          simpa using this
        · left
          simpa using h3
      rw [PostFetchPubKey_failed _ c.2 _ (by rw [SetErrorCause_ok]; exact h2)]
      refine ⟨_, ?_, FetchRun.failed c.1 c.2 hc h2⟩
      simp [fetchedState]

theorem resolveState_httpGets (s : Exec) :
    httpGets (resolveState s).trace = httpGets s.trace := by
  simp [resolveState]

/-- The method `DiscoverJwksUri`, called by `InitKey` from `s` on the URL the
registry yields for discovery, adds the rest of a `KeyRun`. -/
theorem DiscoverJwksUri_run (env : Env) (s : Exec) (v : JwtValidator)
    (hv : s.validator_ = some v)
    (hstale : ∀ cert, s.world.certs s.user_info_.issuer = some cert → cert.2 < s.world.now)
    (hu : (s.world.jwks_uri s.user_info_.issuer).1.isEmpty = false)
    (ho : (s.world.jwks_uri s.user_info_.issuer).2 = true) :
    ∃ added,
      (DiscoverJwksUri env (s.world.jwks_uri s.user_info_.issuer).1 (resolveState s)).trace =
        s.trace ++ added ∧ KeyRun env v s added := by
  have hidx : (httpGets (resolveState s).trace).length = (httpGets s.trace).length := by
    rw [resolveState_httpGets]
  cases hc : (env.RunHTTPRequest (httpGets s.trace).length
      (s.world.jwks_uri s.user_info_.issuer).1).completion with
  | none =>
    rw [DiscoverJwksUri_none env _ (resolveState s) (by rw [hidx]; exact hc), hidx]
    exact ⟨_, by simp [resolveState], KeyRun.discover_dropped hstale hu ho hc⟩
  | some c =>
    rw [DiscoverJwksUri_some env _ (resolveState s) c.1 c.2 (by rw [hidx]; exact hc),
      dispatch_trace, hidx]
    cases hok : c.1.ok with
    | false =>
      rw [PostFetchJwksUri_failed env _ c.2 _ (by rw [SetErrorCause_ok]; exact hok)]
      exact ⟨_, by simp [Unauthorized_eq, recordedState, fetchedState, resolveState],
        KeyRun.discover_failed c.1 c.2 [] hstale hu ho hc (Or.inl ⟨hok, rfl⟩)⟩
    | true =>
      cases hj : jwksUriOf env c.2 with
      | none =>
        rw [PostFetchJwksUri_invalid env _ c.2 _ (by rw [SetErrorCause_ok]; exact hok) hj]
        exact ⟨_, by simp [Unauthorized_eq, recordedState, fetchedState, resolveState],
          KeyRun.discover_failed c.1 c.2
            [Event.LogError "OpenID discovery failed due to invalid doc format"] hstale hu ho hc
            (Or.inr ⟨hok, hj, rfl⟩)⟩
      | some u =>
        rw [PostFetchJwksUri_found env _ c.2 _ u (by rw [SetErrorCause_ok]; exact hok) hj]
        obtain ⟨added, ha, hrun⟩ := FetchPubKey_run env u
          (recordedState (fetchedState env (s.world.jwks_uri s.user_info_.issuer).1
            (resolveState s)) [] u) v hv
        have hidx2 : (httpGets (recordedState (fetchedState env
            (s.world.jwks_uri s.user_info_.issuer).1 (resolveState s)) [] u).trace).length =
            (httpGets s.trace).length + 1 := by
          simp [recordedState, fetchedState, resolveState]
        have hnow : (recordedState (fetchedState env
            (s.world.jwks_uri s.user_info_.issuer).1 (resolveState s)) [] u).world.now =
            s.world.now + (env.RunHTTPRequest (httpGets s.trace).length
              (s.world.jwks_uri s.user_info_.issuer).1).delay := by
          simp [recordedState, fetchedState, resolveState]
        rw [hidx2, hnow] at hrun
        rw [ha]
        exact ⟨_, by simp [recordedState, fetchedState, resolveState],
          KeyRun.discover_found c.1 c.2 u added hstale hu ho hc hok hj hrun⟩

/-- The method `InitKey`, from a state with a validator, follows `KeyRun`. -/
theorem InitKey_run (env : Env) (s : Exec) (v : JwtValidator) (hv : s.validator_ = some v) :
    ∃ added, (InitKey env s).trace = s.trace ++ added ∧ KeyRun env v s added := by
  by_cases hfresh : ∃ cert, s.world.certs s.user_info_.issuer = some cert ∧ s.world.now ≤ cert.2
  · obtain ⟨cert, hc, hn⟩ := hfresh
    rw [InitKey_cached env s cert hc hn]
    obtain ⟨added, ha, hrun⟩ := VerifySignature_run (s.emit (Event.GetCert s.user_info_.issuer))
      v cert hv hc
    rw [ha]
    exact ⟨_, by simp, KeyRun.cached cert added hc hn hrun⟩
  · have hstale : ∀ cert, s.world.certs s.user_info_.issuer = some cert →
        cert.2 < s.world.now := by
      intro cert hc
      by_contra hlt
      exact hfresh ⟨cert, hc, Nat.not_lt.mp hlt⟩
    rw [InitKey_stale env s hstale]
    cases hu : (s.world.jwks_uri s.user_info_.issuer).1.isEmpty with
    | true =>
      simp only [if_true]
      exact ⟨_, by simp [Unauthorized_eq], KeyRun.no_url hstale hu⟩
    | false =>
      simp only [Bool.false_eq_true, if_false]
      cases ho : (s.world.jwks_uri s.user_info_.issuer).2 with
      | true =>
        simp only [if_true]
        exact DiscoverJwksUri_run env s v hv hstale hu ho
      | false =>
        simp only [Bool.false_eq_true, if_false]
        obtain ⟨added, ha, hrun⟩ := FetchPubKey_run env (s.world.jwks_uri s.user_info_.issuer).1
          (resolveState s) v hv
        rw [resolveState_httpGets] at hrun
        have ht : FetchPubKey env (s.world.jwks_uri s.user_info_.issuer).1
            ((s.emit (Event.GetCert s.user_info_.issuer)).emit
              (Event.GetJwksUri s.user_info_.issuer)) =
            FetchPubKey env (s.world.jwks_uri s.user_info_.issuer).1 (resolveState s) := rfl
        rw [ht, ha]
        exact ⟨_, by simp [resolveState], KeyRun.fetch added hstale hu ho hrun⟩

theorem replay_policyState (env : Env) (ctx : Context) (w : World) (t : String)
    (info : UserInfo) (hmiss : ∀ val, w.jwt_cache t = some val → val.exp < w.now) :
    replay (policyState env ctx w t false info).trace w = w.afterLookup t := by
  simp only [policyState, lookupEvents_miss, replay_append, replay_lookupState,
    replay_missEvents w t hmiss, replay_policyEvents]
  rfl

/-- Every check follows the shape `CheckTrace` and leaves the stores its trace
records; and the key stage of a check whose token was parsed and accepted by
the policy follows `KeyRun` from the state in which the policy stage ends. -/
theorem CheckAuth_run (env : Env) (ctx : Context) (w : World) :
    CheckTrace env ctx w (CheckAuth env ctx w).trace ∧
      sameStores (CheckAuth env ctx w).world (replay (CheckAuth env ctx w).trace w) ∧
      ∀ m v tail, ctx.RequireAuth = true → ctx.method = some m → m.auth = true →
        (GetAuthToken_reference ctx).isEmpty = false →
        (∀ val, w.jwt_cache (GetAuthToken_reference ctx) = some val → val.exp < w.now) →
        env.Create (GetAuthToken_reference ctx) = some v → (v.Parse w.now).1.ok = true →
        m.isIssuerAllowed (v.Parse w.now).2.issuer = true →
        audienceAccepted ctx m (v.Parse w.now).2 = true →
        (CheckAuth env ctx w).trace =
          (lookupState ctx w (GetAuthToken_reference ctx)).trace ++
            lookupEvents w (GetAuthToken_reference ctx) false ++
            (policyEvents env ctx (v.Parse w.now).2 ++ tail) →
        KeyRun env v
          (policyState env ctx w (GetAuthToken_reference ctx) false (v.Parse w.now).2) tail := by
  obtain ⟨h1, h2⟩ := CheckAuth_produces env ctx w
  refine ⟨h1, h2, ?_⟩
  intro m v tail hreq hm hauth hne hmiss hc hp hiss hacc hT
  have hto := policy_accepted_next env ctx w m (GetAuthToken_reference ctx) false
    (v.Parse w.now).2 hreq hm hauth rfl hne (Or.inr ⟨rfl, hmiss, v, hc, hp, rfl⟩) hiss hacc
  simp only [Bool.false_eq_true, if_false] at hto
  obtain ⟨added, ha, hrun⟩ := InitKey_run env
    (policyState env ctx w (GetAuthToken_reference ctx) false (v.Parse w.now).2) v
    (by simp [policyState, hc])
  rw [hto, ha] at hT
  have heq : added = tail := by
    have hps : (policyState env ctx w (GetAuthToken_reference ctx) false (v.Parse w.now).2).trace =
        (lookupState ctx w (GetAuthToken_reference ctx)).trace ++
          lookupEvents w (GetAuthToken_reference ctx) false ++
          policyEvents env ctx (v.Parse w.now).2 := rfl
    rw [hps, ← List.append_assoc] at hT
    exact List.append_cancel_left hT
  rw [← heq]
  exact hrun

/-! ## The key blob of a signature verification -/

@[simp] theorem verifies_dispatchDenial (ok : Bool) (error : String) :
    verifies (dispatchDenial ok error) = [] := (quiet_dispatchDenial ok error).2.2

@[simp] theorem inserts_dispatchDenial (ok : Bool) (error : String) :
    inserts (dispatchDenial ok error) = [] := (quiet_dispatchDenial ok error).1

@[simp] theorem updates_dispatchDenial (ok : Bool) (error : String) :
    updates (dispatchDenial ok error) = [] := by
  cases ok <;> simp [dispatchDenial]

@[simp] theorem httpGets_dispatchDenial (ok : Bool) (error : String) :
    httpGets (dispatchDenial ok error) = [] := by
  cases ok <;> simp [dispatchDenial]

@[simp] theorem userInfos_dispatchDenial (ok : Bool) (error : String) :
    userInfos (dispatchDenial ok error) = [] := by
  cases ok <;> simp [dispatchDenial]

/-- A stretch of a trace with no key-cache update leaves the key cache alone. -/
theorem replay_no_update (l : List Event) (w : World) (h : updates l = []) :
    (replay l w).certs = w.certs := by
  induction l generalizing w with
  | nil => rfl
  | cons e l ih =>
    rw [replay_cons]
    cases e <;> simp at h <;> exact (ih _ (by simpa using h))

theorem VerifyRun_facts (t : String) (info : UserInfo) (v : JwtValidator) (key : String)
    (now : Nat) (tail : List Event) (h : VerifyRun t info v key now tail) :
    verifies tail = [(t, key)] ∧ updates tail = [] ∧ httpGets tail = [] ∧
      ∃ post, tail = [Event.GetCert info.issuer, Event.ValidatorVerifySignature t key] ++ post ∧
        updates post = [] := by
  cases h with
  | failed h => exact ⟨by simp, by simp, by simp, _, rfl, by simp⟩
  | verified h => exact ⟨by simp, by simp, by simp, _, rfl, by simp⟩

theorem FetchRun_verifies (env : Env) (t : String) (info : UserInfo) (v : JwtValidator)
    (idx : Nat) (url : String) (now : Nat) (tail : List Event)
    (h : FetchRun env t info v idx url now tail) :
    ∀ p ∈ verifies tail, p.1 = t ∧
      ∃ st post, (env.RunHTTPRequest idx url).completion = some (st, p.2) ∧ st.ok = true ∧
        tail = [Event.LogDebug ("http fetch: " ++ url), Event.HttpGet url,
          Event.CertsUpdate info.issuer p.2 (now + (env.RunHTTPRequest idx url).delay + 300)] ++
          [Event.GetCert info.issuer, Event.ValidatorVerifySignature t p.2] ++ post ∧
        updates post = [] ∧
        updates tail =
          [(info.issuer, p.2, now + (env.RunHTTPRequest idx url).delay + 300)] := by
  intro p hp
  cases h with
  | dropped h => simp at hp
  | failed st body h hf => simp at hp
  | stored st body vt h hok hb ht =>
    obtain ⟨h1, h2, _, post, h4, h5⟩ := VerifyRun_facts t info v body _ vt ht
    simp [h1] at hp
    subst hp
    refine ⟨rfl, st, post ++ dispatchDenial (env.RunHTTPRequest idx url).ret.ok
      "Unable to fetch public key", h, hok, ?_, by simp [h5], by simp [h2]⟩
    rw [h4]
    simp

theorem KeyRun_verifies (env : Env) (v : JwtValidator) (s : Exec) (tail : List Event)
    (h : KeyRun env v s tail) :
    ∀ p ∈ verifies tail, p.1 = s.auth_token_ ∧
      ∃ exp, VerifiesStored env s.user_info_.issuer s.world s.world.now tail p exp := by
  intro p hp
  cases h with
  | cached cert vt hc hn ht =>
    obtain ⟨h1, h2, _, post, h4, h5⟩ := VerifyRun_facts _ _ v cert.1 _ vt ht
    simp [h1] at hp
    subst hp
    refine ⟨rfl, cert.2, [Event.GetCert s.user_info_.issuer], post, ?_, ?_, h5,
      Or.inl ⟨by simp [h2], hc, hn⟩⟩
    · rw [h4]
      rfl
    · exact hc
  | no_url hstale hu => simp at hp
  | fetch ft hstale hu ho ht =>
    simp at hp
    obtain ⟨hp1, st, post, hcomp, hok, heq, hpost, hupd⟩ :=
      FetchRun_verifies env _ _ v _ _ _ ft ht p hp
    refine ⟨hp1,
      s.world.now + (env.RunHTTPRequest (httpGets s.trace).length
        (s.world.jwks_uri s.user_info_.issuer).1).delay + 300,
      [Event.GetCert s.user_info_.issuer, Event.GetJwksUri s.user_info_.issuer,
      Event.LogDebug ("http fetch: " ++ (s.world.jwks_uri s.user_info_.issuer).1),
      Event.HttpGet (s.world.jwks_uri s.user_info_.issuer).1,
      Event.CertsUpdate s.user_info_.issuer p.2
        (s.world.now + (env.RunHTTPRequest (httpGets s.trace).length
          (s.world.jwks_uri s.user_info_.issuer).1).delay + 300)], post, ?_, ?_, hpost,
      Or.inr ⟨_, _, st, hcomp, hok, by simp, by simp [hupd]⟩⟩
    · rw [heq, hp1]
      simp
    · simp [replay, applyEvent, Certs.Update]
  | discover_dropped hstale hu ho h => simp at hp
  | discover_failed st body pre hstale hu ho h hf =>
    rcases hf with ⟨_, rfl⟩ | ⟨_, _, rfl⟩ <;> simp at hp
  | discover_found st body u ft hstale hu ho h hok hfound ht =>
    simp at hp
    obtain ⟨hp1, st2, post, hcomp, hok2, heq, hpost, hupd⟩ :=
      FetchRun_verifies env _ _ v _ _ _ ft ht p hp
    refine ⟨hp1,
      s.world.now + (env.RunHTTPRequest (httpGets s.trace).length
        (s.world.jwks_uri s.user_info_.issuer).1).delay +
        (env.RunHTTPRequest ((httpGets s.trace).length + 1) u).delay + 300,
      [Event.GetCert s.user_info_.issuer, Event.GetJwksUri s.user_info_.issuer,
      Event.LogDebug ("http fetch: " ++ (s.world.jwks_uri s.user_info_.issuer).1),
      Event.HttpGet (s.world.jwks_uri s.user_info_.issuer).1,
      Event.SetJwksUri s.user_info_.issuer u false,
      Event.LogDebug ("http fetch: " ++ u), Event.HttpGet u,
      Event.CertsUpdate s.user_info_.issuer p.2
        (s.world.now + (env.RunHTTPRequest (httpGets s.trace).length
          (s.world.jwks_uri s.user_info_.issuer).1).delay +
          (env.RunHTTPRequest ((httpGets s.trace).length + 1) u).delay + 300)],
      post ++ dispatchDenial (env.RunHTTPRequest (httpGets s.trace).length
        (s.world.jwks_uri s.user_info_.issuer).1).ret.ok
        "Unable to fetch URI of the key via OpenID discovery", ?_, ?_, by simp [hpost],
      Or.inr ⟨_, _, st2, hcomp, hok2, by simp, by simp [hupd]⟩⟩
    · rw [heq, hp1]
      simp
    · simp [replay, applyEvent, Certs.Update]

theorem verifies_missPrefix (ctx : Context) (w : World) (t : String) :
    verifies ((lookupState ctx w t).trace ++ lookupEvents w t false) = [] := by
  have hq := quiet_lookupState ctx w t
  have hm : verifies (missEvents w t) = [] := by
    unfold missEvents
    split <;> simp
  rw [lookupEvents_miss]
  simp [hq.2.2, hm]

/-- C21. Every signature verification of a check is made right after a read of
the key cache for the token's issuer, with the key blob the cache holds for
this issuer at that point (as the trace before the read leaves it), and the
cache still holds this entry when the check ends.  On the warm path, where the
check stores nothing in the key cache, the blob is the one of the entry the
check found, which had not expired; on the fetch path, where the check stores
once, before the read, the blob is the very body that a GET of the check
delivered with status OK. -/
theorem CheckAuth_verifies_stored_key (env : Env) (ctx : Context) (w : World) :
    ∀ p ∈ verifies (CheckAuth env ctx w).trace,
      ∃ v exp, env.Create (GetAuthToken_reference ctx) = some v ∧
        p.1 = GetAuthToken_reference ctx ∧
        VerifiesStored env (v.Parse w.now).2.issuer w w.now (CheckAuth env ctx w).trace p exp ∧
        (CheckAuth env ctx w).world.certs (v.Parse w.now).2.issuer = some (p.2, exp) := by
  obtain ⟨hshape, hstores, hrun⟩ := CheckAuth_run env ctx w
  have hcerts := hstores.2.1
  generalize (CheckAuth env ctx w).trace = T at hshape hcerts hrun
  generalize (CheckAuth env ctx w).world = W at hcerts
  intro p hp
  cases hshape with
  | not_required h => simp at hp
  | no_token m hreq hm hauth ht => simp [verifies_readEvents] at hp
  | hit m val tail hreq hm hauth ht hval hexp h =>
    have hq := quiet_append _ _ (quiet_lookupState ctx w (GetAuthToken_reference ctx))
      (PolicyTrace_hit_quiet env ctx m _ _ _ tail h)
    simp [lookupEvents, hq.2.2, (quiet_lookupState ctx w (GetAuthToken_reference ctx)).2.2,
      (PolicyTrace_hit_quiet env ctx m _ _ _ tail h).2.2] at hp
  | create_failed m hreq hm hauth ht hmiss hc =>
    obtain ⟨_, h2, _, _⟩ := missPrefix_facts ctx w (GetAuthToken_reference ctx) hmiss
    rw [verifies_append, h2] at hp
    simp at hp
  | parse_failed m v hreq hm hauth ht hmiss hc hp2 =>
    rw [verifies_append, verifies_missPrefix] at hp
    simp at hp
  | parsed m v tail hreq hm hauth ht hmiss hc hp2 h =>
    cases h with
    | issuer_denied _ h =>
      rw [verifies_append, verifies_missPrefix] at hp
      simp at hp
    | audience_denied _ h ha =>
      rw [verifies_append, verifies_missPrefix] at hp
      simp [verifies_policyEvents] at hp
    | key v2 tail2 hv hiss hacc hkt =>
      cases hv
      have hk := hrun m v tail2 hreq hm hauth ht hmiss hc hp2 hiss hacc rfl
      rw [verifies_append, verifies_missPrefix, verifies_append, verifies_policyEvents] at hp
      simp only [List.nil_append] at hp
      obtain ⟨hp1, exp, pre, post, heq, hrep, hpost, hcase⟩ := KeyRun_verifies env v _ tail2 hk p hp
      have hT : (lookupState ctx w (GetAuthToken_reference ctx)).trace ++
          lookupEvents w (GetAuthToken_reference ctx) false ++
          (policyEvents env ctx (v.Parse w.now).2 ++ tail2) =
          ((policyState env ctx w (GetAuthToken_reference ctx) false (v.Parse w.now).2).trace ++
            pre) ++
            [Event.GetCert (v.Parse w.now).2.issuer, Event.ValidatorVerifySignature p.1 p.2] ++
            post := by
        rw [heq]
        simp [policyState, List.append_assoc]
      have hrep2 : (replay ((policyState env ctx w (GetAuthToken_reference ctx) false
          (v.Parse w.now).2).trace ++ pre) w).certs (v.Parse w.now).2.issuer =
          some (p.2, exp) := by
        rw [replay_append, replay_policyState env ctx w _ _ hmiss]
        exact hrep
      have hupd : updates ((lookupState ctx w (GetAuthToken_reference ctx)).trace ++
          lookupEvents w (GetAuthToken_reference ctx) false ++
          (policyEvents env ctx (v.Parse w.now).2 ++ tail2)) = updates tail2 := by
        have := policyState_updates env ctx w (GetAuthToken_reference ctx) false
          (v.Parse w.now).2
        simp only [policyState, updates_append] at this
        simp only [updates_append, ← List.append_assoc, this, List.nil_append]
      refine ⟨v, exp, hc, hp1, ⟨_, post, hT, hrep2, hpost, ?_⟩, ?_⟩
      · rcases hcase with ⟨h1, h2, h3⟩ | ⟨idx, url, st, h1, h2, h3, h4⟩
        · refine Or.inl ⟨by rw [hupd]; exact h1, ?_, ?_⟩
          · have h2b : (w.afterLookup (GetAuthToken_reference ctx)).certs
                (v.Parse w.now).2.issuer = some (p.2, exp) := h2
            rw [afterLookup_certs] at h2b
            exact h2b
          · have h3b : (w.afterLookup (GetAuthToken_reference ctx)).now ≤ exp := h3
            rw [afterLookup_now] at h3b
            exact h3b
        · exact Or.inr ⟨idx, url, st, h1, h2, by simp [h3], by rw [hupd]; exact h4⟩
      · rw [hcerts, hT, replay_append, replay_no_update post _ hpost, replay_append]
        exact hrep2

/-! ## The key lookup of `VerifySignature` finds an entry -/

theorem scan_readEvents (ctx : Context) (f p : Bool) :
    (readEvents ctx).foldl missScan (f, p) = (f, false) := by
  unfold readEvents
  split <;> simp [missScan]

theorem scan_lookupState (ctx : Context) (w : World) (t : String) (f p : Bool) :
    (lookupState ctx w t).trace.foldl missScan (f, p) = (f, false) := by
  simp [lookupState, List.foldl_append, scan_readEvents, missScan]

theorem scan_lookupEvents (w : World) (t : String) (cache_hit : Bool) (f p : Bool) :
    (lookupEvents w t cache_hit).foldl missScan (f, p) = (f, false) := by
  unfold lookupEvents
  repeat' split
  all_goals simp [missScan]

theorem scan_missEvents (w : World) (t : String) (f p : Bool) :
    (missEvents w t).foldl missScan (f, p) = (f, false) := by
  unfold missEvents
  split <;> simp [missScan]

theorem scan_policyEvents (env : Env) (ctx : Context) (info : UserInfo) (f p : Bool) :
    (policyEvents env ctx info).foldl missScan (f, p) = (f, false) := by
  unfold policyEvents
  by_cases h : ctx.service_name ∈ info.audiences <;> simp [h, missScan]

theorem scan_dispatchDenial (ok : Bool) (error : String) (f : Bool) :
    (dispatchDenial ok error).foldl missScan (f, false) = (f, false) := by
  cases ok <;> simp [dispatchDenial, missScan]

theorem VerifyRun_scan (t : String) (info : UserInfo) (v : JwtValidator) (key : String)
    (now : Nat) (tail : List Event) (h : VerifyRun t info v key now tail) (f p : Bool) :
    tail.foldl missScan (f, p) = (f, false) := by
  cases h <;> simp [missScan]

theorem FetchRun_scan (env : Env) (t : String) (info : UserInfo) (v : JwtValidator)
    (idx : Nat) (url : String) (now : Nat) (tail : List Event)
    (h : FetchRun env t info v idx url now tail) (f p : Bool) :
    tail.foldl missScan (f, p) = (f, false) := by
  cases h with
  | dropped h => simp [List.foldl_append, missScan, scan_dispatchDenial]
  | failed st body h hf => simp [List.foldl_append, missScan, scan_dispatchDenial]
  | stored st body vt h hok hb ht =>
    simp [List.foldl_append, missScan, VerifyRun_scan _ _ _ _ _ vt ht, scan_dispatchDenial]

theorem KeyRun_scan (env : Env) (v : JwtValidator) (s : Exec) (tail : List Event)
    (h : KeyRun env v s tail) (f p : Bool) :
    tail.foldl missScan (f, p) = (f, false) := by
  cases h with
  | cached cert vt hc hn ht => simp [missScan, VerifyRun_scan _ _ _ _ _ vt ht]
  | no_url hstale hu => simp [missScan]
  | fetch ft hstale hu ho ht =>
    simp [List.foldl_append, missScan, FetchRun_scan _ _ _ _ _ _ _ ft ht]
  | discover_dropped hstale hu ho h =>
    simp [List.foldl_append, missScan, scan_dispatchDenial]
  | discover_failed st body pre hstale hu ho h hf =>
    rcases hf with ⟨_, rfl⟩ | ⟨_, _, rfl⟩ <;>
      simp [List.foldl_append, missScan, scan_dispatchDenial]
  | discover_found st body u ft hstale hu ho h hok hfound ht =>
    simp [List.foldl_append, missScan, FetchRun_scan _ _ _ _ _ _ _ ft ht, scan_dispatchDenial]

theorem RunStatus_reason (v : JwtValidator) (r : String) (h : r ∈ reachableReasons) :
    RunStatus v (denial r) := Or.inr (Or.inl ⟨r, h, rfl⟩)

theorem VerifyRun_status (t : String) (info : UserInfo) (v : JwtValidator) (key : String)
    (now : Nat) (tail : List Event) (h : VerifyRun t info v key now tail) :
    ∀ st ∈ completions tail, RunStatus v st := by
  intro st hst
  cases h with
  | failed h =>
    simp at hst
    subst hst
    exact Or.inr (Or.inr ⟨key, rfl⟩)
  | verified h =>
    simp at hst
    subst hst
    exact Or.inl rfl

theorem FetchRun_status (env : Env) (t : String) (info : UserInfo) (v : JwtValidator)
    (idx : Nat) (url : String) (now : Nat) (tail : List Event)
    (h : FetchRun env t info v idx url now tail) :
    ∀ st ∈ completions tail, RunStatus v st := by
  intro st hst
  cases h with
  | dropped h =>
    simp at hst
    rw [mem_dispatchDenial _ _ st hst]
    exact RunStatus_reason v _ (by decide)
  | failed st2 body h hf =>
    simp at hst
    rcases hst with hst | hst
    · subst hst
      exact RunStatus_reason v _ (by decide)
    · rw [mem_dispatchDenial _ _ st hst]
      exact RunStatus_reason v _ (by decide)
  | stored st2 body vt h hok hb ht =>
    simp at hst
    rcases hst with hst | hst
    · exact VerifyRun_status t info v body _ vt ht st hst
    · rw [mem_dispatchDenial _ _ st hst]
      exact RunStatus_reason v _ (by decide)

theorem KeyRun_status (env : Env) (v : JwtValidator) (s : Exec) (tail : List Event)
    (h : KeyRun env v s tail) : ∀ st ∈ completions tail, RunStatus v st := by
  intro st hst
  cases h with
  | cached cert vt hc hn ht =>
    simp at hst
    exact VerifyRun_status _ _ v cert.1 _ vt ht st hst
  | no_url hstale hu =>
    simp at hst
    subst hst
    exact RunStatus_reason v _ (by decide)
  | fetch ft hstale hu ho ht =>
    simp at hst
    exact FetchRun_status env _ _ v _ _ _ ft ht st hst
  | discover_dropped hstale hu ho h =>
    simp at hst
    rw [mem_dispatchDenial _ _ st hst]
    exact RunStatus_reason v _ (by decide)
  | discover_failed st2 body pre hstale hu ho h hf =>
    rcases hf with ⟨_, rfl⟩ | ⟨_, _, rfl⟩
    · simp at hst
      rcases hst with hst | hst
      · subst hst
        exact RunStatus_reason v _ (by decide)
      · rw [mem_dispatchDenial _ _ st hst]
        exact RunStatus_reason v _ (by decide)
    · simp at hst
      rcases hst with hst | hst
      · subst hst
        exact RunStatus_reason v _ (by decide)
      · rw [mem_dispatchDenial _ _ st hst]
        exact RunStatus_reason v _ (by decide)
  | discover_found st2 body u ft hstale hu ho h hok hfound ht =>
    simp at hst
    rcases hst with hst | hst
    · exact FetchRun_status env _ _ v _ _ _ ft ht st hst
    · rw [mem_dispatchDenial _ _ st hst]
      exact RunStatus_reason v _ (by decide)

/-- Every status a check reports is Allow, a denial with one of the
`reachableReasons`, or a denial with the error text of the parse or of the
signature verification of the token's validator. -/
theorem CheckAuth_statuses (env : Env) (ctx : Context) (w : World) :
    ∀ st ∈ completions (CheckAuth env ctx w).trace,
      st = Status.OK ∨ (∃ r, r ∈ reachableReasons ∧ st = denial r) ∨
        ∃ v, env.Create (GetAuthToken_reference ctx) = some v ∧
          (st = denial (v.Parse w.now).1.message ∨
            ∃ key, st = denial (v.VerifySignature key).message) := by
  obtain ⟨hshape, _, hrun⟩ := CheckAuth_run env ctx w
  generalize (CheckAuth env ctx w).trace = T at hshape hrun
  intro st hst
  cases hshape with
  | not_required h =>
    simp at hst
    exact Or.inl hst
  | no_token m hreq hm hauth ht =>
    simp [completions_readEvents] at hst
    subst hst
    exact Or.inr (Or.inl ⟨_, by decide, rfl⟩)
  | hit m val tail hreq hm hauth ht hval hexp h =>
    cases h with
    | issuer_denied _ h =>
      simp [completions_lookupState, completions_lookupEvents] at hst
      subst hst
      exact Or.inr (Or.inl ⟨_, by decide, rfl⟩)
    | audience_denied _ h ha =>
      simp [completions_lookupState, completions_lookupEvents, completions_policyEvents]
        at hst
      subst hst
      exact Or.inr (Or.inl ⟨_, by decide, rfl⟩)
    | cached h ha =>
      simp [completions_lookupState, completions_lookupEvents, completions_policyEvents]
        at hst
      exact Or.inl hst
  | create_failed m hreq hm hauth ht hmiss hc =>
    simp [completions_lookupState, completions_missEvents] at hst
    subst hst
    exact Or.inr (Or.inl ⟨_, by decide, rfl⟩)
  | parse_failed m v hreq hm hauth ht hmiss hc hp =>
    simp [completions_lookupState, completions_lookupEvents] at hst
    subst hst
    exact Or.inr (Or.inr ⟨v, hc, Or.inl rfl⟩)
  | parsed m v tail hreq hm hauth ht hmiss hc hp h =>
    cases h with
    | issuer_denied _ h =>
      simp [completions_lookupState, completions_lookupEvents] at hst
      subst hst
      exact Or.inr (Or.inl ⟨_, by decide, rfl⟩)
    | audience_denied _ h ha =>
      simp [completions_lookupState, completions_lookupEvents, completions_policyEvents]
        at hst
      subst hst
      exact Or.inr (Or.inl ⟨_, by decide, rfl⟩)
    | key v2 tail2 hv hiss hacc hkt =>
      cases hv
      have hk := hrun m v tail2 hreq hm hauth ht hmiss hc hp hiss hacc rfl
      simp [completions_lookupState, completions_lookupEvents, completions_policyEvents]
        at hst
      rcases KeyRun_status env v _ tail2 hk st hst with h1 | h1 | ⟨key, h1⟩
      · exact Or.inl h1
      · exact Or.inr (Or.inl h1)
      · exact Or.inr (Or.inr ⟨v, hc, Or.inr ⟨key, h1⟩⟩)

/-- C25. With the shared state written by this check only, the key lookup of
`VerifySignature` always finds an entry, so the denial `Missing verification
key` is unreachable.  Where the lookup finds nothing, `VerifySignature` leaves
a key-cache read directly followed by a completion, the denial `Missing
verification key`; no check has such a pair in its trace.  And every status a
check reports is Allow, a denial with one of eight fixed reasons, of which
`Missing verification key` is none, or a denial with the error text of the
parse or of the signature verification of the token's validator. -/
theorem CheckAuth_key_found (env : Env) (ctx : Context) (w : World) :
    missingKey (CheckAuth env ctx w).trace = false ∧
    (∀ st ∈ completions (CheckAuth env ctx w).trace,
      st = Status.OK ∨ (∃ r, r ∈ reachableReasons ∧ st = denial r) ∨
        ∃ v, env.Create (GetAuthToken_reference ctx) = some v ∧
          (st = denial (v.Parse w.now).1.message ∨
            ∃ key, st = denial (v.VerifySignature key).message)) ∧
    "Missing verification key" ∉ reachableReasons ∧
    (∀ s : Exec, s.world.certs s.user_info_.issuer = none →
      (VerifySignature s).trace =
        s.trace ++ [Event.GetCert s.user_info_.issuer,
          Event.on_done (denial "Missing verification key")] ∧
      missingKey (VerifySignature s).trace = true) := by
  refine ⟨?_, ?_, by decide, ?_⟩
  · obtain ⟨hshape, _, hrun⟩ := CheckAuth_run env ctx w
    generalize (CheckAuth env ctx w).trace = T at hshape hrun
    unfold missingKey
    cases hshape with
    | not_required h => simp [missScan]
    | no_token m hreq hm hauth ht => simp [List.foldl_append, scan_readEvents, missScan]
    | hit m val tail hreq hm hauth ht hval hexp h =>
      cases h with
      | issuer_denied _ h =>
        simp [List.foldl_append, scan_lookupState, scan_lookupEvents, missScan]
      | audience_denied _ h ha =>
        simp [List.foldl_append, scan_lookupState, scan_lookupEvents, scan_policyEvents,
          missScan]
      | cached h ha =>
        simp [List.foldl_append, scan_lookupState, scan_lookupEvents, scan_policyEvents,
          missScan]
    | create_failed m hreq hm hauth ht hmiss hc =>
      simp [List.foldl_append, scan_lookupState, scan_missEvents, missScan]
    | parse_failed m v hreq hm hauth ht hmiss hc hp =>
      simp [List.foldl_append, scan_lookupState, scan_lookupEvents, missScan]
    | parsed m v tail hreq hm hauth ht hmiss hc hp h =>
      cases h with
      | issuer_denied _ h =>
        simp [List.foldl_append, scan_lookupState, scan_lookupEvents, missScan]
      | audience_denied _ h ha =>
        simp [List.foldl_append, scan_lookupState, scan_lookupEvents, scan_policyEvents,
          missScan]
      | key v2 tail2 hv hiss hacc hkt =>
        cases hv
        have hk := hrun m v tail2 hreq hm hauth ht hmiss hc hp hiss hacc rfl
        simp [List.foldl_append, scan_lookupState, scan_lookupEvents, scan_policyEvents,
          KeyRun_scan env v _ tail2 hk]
  · exact CheckAuth_statuses env ctx w
  · intro s hs
    rw [VerifySignature_missing s hs]
    refine ⟨rfl, ?_⟩
    simp only [missingKey, List.foldl_append]
    simp [missScan]

/-- Witness of C25: the cold check of `kToken` in the sample service reads the
key cache in `VerifySignature` after the fetched key set was stored, and its
only completion is Allow. -/
theorem CheckAuth_key_found_witness :
    missingKey (CheckAuth Sample.env (Sample.ctx (some "Bearer kToken") none)
        Sample.world).trace = false ∧
      completions (CheckAuth Sample.env (Sample.ctx (some "Bearer kToken") none)
        Sample.world).trace = [Status.OK] :=
  ⟨(CheckAuth_key_found Sample.env (Sample.ctx (some "Bearer kToken") none) Sample.world).1,
    by decide⟩

/-- Witness of C21: the signature verification of the cold check of `kToken`
in the sample service uses the key set that the key-set GET delivered. -/
theorem CheckAuth_verifies_stored_key_witness :
    ∃ v exp, Sample.env.Create "kToken" = some v ∧
      VerifiesStored Sample.env (v.Parse Sample.world.now).2.issuer Sample.world
        Sample.world.now
        (CheckAuth Sample.env (Sample.ctx (some "Bearer kToken") none) Sample.world).trace
        ("kToken", Sample.kPubkey) exp ∧
      (CheckAuth Sample.env (Sample.ctx (some "Bearer kToken") none) Sample.world).world.certs
        (v.Parse Sample.world.now).2.issuer = some (Sample.kPubkey, exp) :=
  match CheckAuth_verifies_stored_key Sample.env (Sample.ctx (some "Bearer kToken") none)
      Sample.world ("kToken", Sample.kPubkey) (by decide) with
  | ⟨v, exp, h1, _, h3, h4⟩ => ⟨v, exp, h1, h3, h4⟩

/-! ## The status of a denial -/

/-- C23. Every status a check reports is Allow or a denial that `Unauthorized`
built: its code is `UNAUTHENTICATED`, its error cause is `AUTH`, and its
message is `JWT validation failed: ` followed by the reason.  So no completion
of a check is a denial with another code or cause. -/
theorem CheckAuth_denial_status (env : Env) (ctx : Context) (w : World) :
    ∀ st ∈ completions (CheckAuth env ctx w).trace,
      st = Status.OK ∨
        (st.ok = false ∧ st.code = Code.UNAUTHENTICATED ∧ st.cause = ErrorCause.AUTH ∧
          ∃ e, st.message = "JWT validation failed: " ++ e ∧ st = denial e) := by
  intro st hst
  rcases CheckAuth_statuses env ctx w st hst with h | ⟨r, _, h⟩ | ⟨v, _, h | ⟨key, h⟩⟩
  · exact Or.inl h
  · subst h
    exact Or.inr ⟨rfl, rfl, rfl, r, rfl, rfl⟩
  · subst h
    exact Or.inr ⟨rfl, rfl, rfl, _, rfl, rfl⟩
  · subst h
    exact Or.inr ⟨rfl, rfl, rfl, _, rfl, rfl⟩

/-- Witness of C23: the denial of the second request of `TestOpenIdFailed`. -/
theorem CheckAuth_denial_status_witness :
    denial "Cannot determine the URI of the key" = Status.OK ∨
      ((denial "Cannot determine the URI of the key").ok = false ∧
        (denial "Cannot determine the URI of the key").code = Code.UNAUTHENTICATED ∧
        (denial "Cannot determine the URI of the key").cause = ErrorCause.AUTH ∧
        ∃ e, (denial "Cannot determine the URI of the key").message =
            "JWT validation failed: " ++ e ∧
          denial "Cannot determine the URI of the key" = denial e) :=
  CheckAuth_denial_status Sample.env (Sample.ctx (some "Bearer kToken") none)
    Sample.negativeWorld (denial "Cannot determine the URI of the key") (by decide)

/-! ## A fetcher that completes and reports a dispatch error -/

theorem FetchRun_completions_pos (env : Env) (t : String) (info : UserInfo) (v : JwtValidator)
    (idx : Nat) (url : String) (now : Nat) (tail : List Event)
    (h : FetchRun env t info v idx url now tail)
    (hlive : ¬ ((env.RunHTTPRequest idx url).completion = none ∧
      (env.RunHTTPRequest idx url).ret.ok = true)) :
    1 ≤ (completions tail).length := by
  cases h with
  | dropped h =>
    cases hok : (env.RunHTTPRequest idx url).ret.ok with
    | true => exact absurd ⟨h, hok⟩ hlive
    | false => simp [dispatchDenial]
  | failed st body h hf => simp
  | stored st body vt h hok hb ht =>
    cases ht <;> simp

/-- C24. If the fetcher both invokes the continuation of a request and returns
a non-OK dispatch status for it, the check reports more than one completion.
For the key-set GET the completions are two: the one the continuation's path
reports, then the denial `Unable to fetch public key`.  For the discovery GET
the completions of the continuation's path are followed by the denial `Unable
to fetch URI of the key via OpenID discovery`: they are this same denial when
the discovery fails, and at least one when the document yields a key URL whose
request is not left without completion and without dispatch error. -/
theorem CheckAuth_double_completion (env : Env) (ctx : Context) (w : World) (m : MethodInfo)
    (t : String) (info : UserInfo) (v : JwtValidator)
    (hreq : ctx.RequireAuth = true) (hm : ctx.method = some m) (hauth : m.auth = true)
    (htok : GetAuthToken_reference ctx = t) (hne : t.isEmpty = false)
    (hin : ReachesPolicy env w t false info) (hcreate : env.Create t = some v)
    (hiss : m.isIssuerAllowed info.issuer = true) (hacc : audienceAccepted ctx m info = true)
    (hnokey : ∀ cert, w.certs info.issuer = some cert → cert.2 < w.now) :
    (∀ (k : String) (s0 : Exec) (c : Status × String),
      EntersKeyFetch env ctx w t info k s0 →
      (env.RunHTTPRequest (httpGets s0.trace).length k).completion = some c →
      (env.RunHTTPRequest (httpGets s0.trace).length k).ret.ok = false →
      ∃ x, completions (CheckAuth env ctx w).trace =
        [x, denial "Unable to fetch public key"]) ∧
    (∀ (d : String) (c : Status × String),
      w.jwks_uri info.issuer = (d, true) → d.isEmpty = false →
      (env.RunHTTPRequest 0 d).completion = some c →
      (env.RunHTTPRequest 0 d).ret.ok = false →
      ∃ pre, completions (CheckAuth env ctx w).trace =
          pre ++ [denial "Unable to fetch URI of the key via OpenID discovery"] ∧
        (c.1.ok = false ∨ jwksUriOf env c.2 = none →
          pre = [denial "Unable to fetch URI of the key via OpenID discovery"]) ∧
        (∀ u, c.1.ok = true → jwksUriOf env c.2 = some u →
          ¬ ((env.RunHTTPRequest 1 u).completion = none ∧
            (env.RunHTTPRequest 1 u).ret.ok = true) →
          1 ≤ pre.length)) := by
  constructor
  · intro k s0 c henter hcomp hret
    have hto := CheckAuth_enters_fetch env ctx w m t k info s0 hreq hm hauth htok hne hin hiss
      hacc hnokey henter
    obtain ⟨hs1, _⟩ := EntersKeyFetch_state env ctx w t info k s0 henter
    obtain ⟨_, _, hval⟩ := EntersKeyFetch_info env ctx w t info k s0 henter
    have hcount := doneCount_PostFetchPubKey (c.1.SetErrorCause ErrorCause.AUTH) c.2
      (fetchedState env k s0) (by
        show s0.validator_.isSome = true
        rw [hval, hcreate]
        rfl)
    have hfs : doneCount (fetchedState env k s0) = 0 := by
      simp [doneCount, fetchedState, hs1]
    rw [hfs] at hcount
    obtain ⟨x, hx⟩ := List.length_eq_one.mp hcount
    refine ⟨x, ?_⟩
    rw [hto, FetchPubKey_some env k s0 c.1 c.2 hcomp, dispatch_trace, hret]
    simp [dispatchDenial, hx]
  · intro d c hreg hd hcomp hret
    have hto := CheckAuth_to_discovery env ctx w m t d info hreq hm hauth htok hne hin hiss hacc
      hnokey hreg hd
    have h0 : (httpGets (keyLookupState env ctx w t info).trace).length = 0 := by
      rw [keyLookupState_httpGets]; rfl
    have hcs := keyLookupState_completions env ctx w t info
    have hdisc := DiscoverJwksUri_some env d (keyLookupState env ctx w t info) c.1 c.2
      (by rw [h0]; exact hcomp)
    rw [h0, hret] at hdisc
    have hT : completions (CheckAuth env ctx w).trace =
        completions (PostFetchJwksUri env (c.1.SetErrorCause ErrorCause.AUTH) c.2
          (fetchedState env d (keyLookupState env ctx w t info))).trace ++
          [denial "Unable to fetch URI of the key via OpenID discovery"] := by
      rw [hto, hdisc]
      simp [Unauthorized_eq]
    refine ⟨_, hT, ?_, ?_⟩
    · intro hfail
      obtain ⟨pre, hp1, _, _, hpost⟩ := PostFetchJwksUri_denies env
        (c.1.SetErrorCause ErrorCause.AUTH) c.2
        (fetchedState env d (keyLookupState env ctx w t info)) hfail
      rw [hpost]
      simp [Unauthorized_eq, recordedState, fetchedState, hcs, hp1]
    · intro u hok hu hlive
      rw [PostFetchJwksUri_found env _ c.2 _ u (by rw [SetErrorCause_ok]; exact hok) hu]
      obtain ⟨added, ha, hrun⟩ := FetchPubKey_run env u
        (recordedState (fetchedState env d (keyLookupState env ctx w t info)) [] u) v
        (by simp [recordedState, fetchedState, keyLookupState, policyState, hcreate])
      have hidx : (httpGets (recordedState (fetchedState env d
          (keyLookupState env ctx w t info)) [] u).trace).length = 1 := by
        simp [recordedState, fetchedState, keyLookupState_httpGets]
      rw [hidx] at hrun
      have hpos := FetchRun_completions_pos env _ _ v 1 u _ added hrun hlive
      rw [ha]
      simp [recordedState, fetchedState, hcs]
      exact hpos

/-- Witness of C24: the key-set request of `kTokenIssuer2` both delivers the
key set and reports a dispatch error, and the check reports Allow and then the
denial `Unable to fetch public key`. -/
theorem CheckAuth_double_completion_witness :
    ∃ x, completions (CheckAuth Sample.doubleKeyEnv
        (Sample.ctx (some "Bearer kTokenIssuer2") none) Sample.world).trace =
      [x, denial "Unable to fetch public key"] :=
  (CheckAuth_double_completion Sample.doubleKeyEnv
    (Sample.ctx (some "Bearer kTokenIssuer2") none) Sample.world Sample.method "kTokenIssuer2"
    { id := Sample.kSub, issuer := Sample.kIss2, audiences := [Sample.kServiceName] }
    (Sample.validator Sample.kSub Sample.kIss2 Sample.kServiceName Sample.kExp)
    rfl rfl rfl (by decide) (by decide)
    (Or.inr ⟨rfl, fun _ hv => by simp [Sample.world] at hv,
      Sample.validator Sample.kSub Sample.kIss2 Sample.kServiceName Sample.kExp,
      rfl, by decide, by decide⟩)
    rfl (by decide) (by decide) (fun _ hc => by simp [Sample.world] at hc)).1
    Sample.kIssuer2PubkeyUrl
    (keyLookupState Sample.doubleKeyEnv (Sample.ctx (some "Bearer kTokenIssuer2") none)
      Sample.world "kTokenIssuer2"
      { id := Sample.kSub, issuer := Sample.kIss2, audiences := [Sample.kServiceName] })
    (Status.OK, Sample.kPubkey)
    (Or.inl ⟨rfl, by decide, rfl⟩) rfl rfl

/-! ## A discovery document with an empty `jwks_uri` -/

theorem FetchRun_keyset_status (env : Env) (t : String) (info : UserInfo) (v : JwtValidator)
    (idx : Nat) (url : String) (now : Nat) (tail : List Event)
    (h : FetchRun env t info v idx url now tail) :
    ∀ st ∈ completions tail,
      st = Status.OK ∨ st = denial "Unable to fetch verification key" ∨
        st = denial "Unable to fetch public key" ∨
        ∃ key, st = denial (v.VerifySignature key).message := by
  intro st hst
  cases h with
  | dropped h =>
    simp at hst
    exact Or.inr (Or.inr (Or.inl (mem_dispatchDenial _ _ st hst)))
  | failed st2 body h hf =>
    simp at hst
    rcases hst with hst | hst
    · exact Or.inr (Or.inl hst)
    · exact Or.inr (Or.inr (Or.inl (mem_dispatchDenial _ _ st hst)))
  | stored st2 body vt h hok hb ht =>
    simp at hst
    rcases hst with hst | hst
    · cases ht with
      | failed h2 =>
        simp at hst
        exact Or.inr (Or.inr (Or.inr ⟨body, hst⟩))
      | verified h2 =>
        simp at hst
        exact Or.inl hst
    · exact Or.inr (Or.inr (Or.inl (mem_dispatchDenial _ _ st hst)))

/-- C28. A discovery document whose `jwks_uri` is the empty string is not
treated as a discovery failure by the current check: when the discovery
request was dispatched with status OK, the check continues with `FetchPubKey`
on the empty URL, so its GETs are the discovery GET and a GET to the empty URL,
and every status it reports is Allow, `Unable to fetch verification key`,
`Unable to fetch public key` or a verification error text.  Yet what it writes
to the registry is the empty key URL for the issuer, the very entry a failed
discovery records, so a later check of a token of this issuer that misses the
key cache, in a state whose registry entry of the issuer is as this check left
it, is denied with `Cannot determine the URI of the key` without any GET. -/
theorem CheckAuth_empty_jwks_uri (env : Env) (ctx : Context) (w : World) (m : MethodInfo)
    (t d doc : String) (info : UserInfo) (v : JwtValidator)
    (hreq : ctx.RequireAuth = true) (hm : ctx.method = some m) (hauth : m.auth = true)
    (htok : GetAuthToken_reference ctx = t) (hne : t.isEmpty = false)
    (hin : ReachesPolicy env w t false info) (hcreate : env.Create t = some v)
    (hiss : m.isIssuerAllowed info.issuer = true) (hacc : audienceAccepted ctx m info = true)
    (hnokey : ∀ cert, w.certs info.issuer = some cert → cert.2 < w.now)
    (hreg : w.jwks_uri info.issuer = (d, true)) (hd : d.isEmpty = false)
    (hret : (env.RunHTTPRequest 0 d).ret.ok = true)
    (hdel : (env.RunHTTPRequest 0 d).delivers doc)
    (hempty : jwksUriOf env doc = some "") :
    CheckAuth env ctx w = FetchPubKey env "" (discoveredState env ctx w t info d "") ∧
    httpGets (CheckAuth env ctx w).trace = [d, ""] ∧
    (∀ st ∈ completions (CheckAuth env ctx w).trace,
      st = Status.OK ∨ st = denial "Unable to fetch verification key" ∨
        st = denial "Unable to fetch public key" ∨
        ∃ key, st = denial (v.VerifySignature key).message) ∧
    registryWrites (CheckAuth env ctx w).trace = [(info.issuer, "", false)] ∧
    (CheckAuth env ctx w).world.jwks_uri =
      Registry.SetJwksUri w.jwks_uri info.issuer "" false ∧
    ∀ (env2 : Env) (ctx2 : Context) (w2 : World) (m2 : MethodInfo) (t2 : String)
      (info2 : UserInfo),
      ctx2.RequireAuth = true → ctx2.method = some m2 → m2.auth = true →
      GetAuthToken_reference ctx2 = t2 → t2.isEmpty = false →
      ReachesPolicy env2 w2 t2 false info2 →
      m2.isIssuerAllowed info2.issuer = true → audienceAccepted ctx2 m2 info2 = true →
      info2.issuer = info.issuer →
      (∀ cert, w2.certs info.issuer = some cert → cert.2 < w2.now) →
      w2.jwks_uri info.issuer = (CheckAuth env ctx w).world.jwks_uri info.issuer →
      httpGets (CheckAuth env2 ctx2 w2).trace = [] ∧
        completions (CheckAuth env2 ctx2 w2).trace =
          [denial "Cannot determine the URI of the key"] := by
  have hto : CheckAuth env ctx w = FetchPubKey env "" (discoveredState env ctx w t info d "") := by
    obtain ⟨j, hj, hu2⟩ := jwksUriOf_some env doc "" hempty
    rw [CheckAuth_to_discovery env ctx w m t d info hreq hm hauth htok hne hin hiss hacc hnokey
      hreg hd, discovery_to_fetch env ctx w t info d "" doc j hdel hj hu2]
    simp [hret]
  have hval : (discoveredState env ctx w t info d "").validator_ = some v := by
    simp [discoveredState, keyLookupState, policyState, hcreate]
  obtain ⟨added, ha, hb, hc⟩ := FetchPubKey_frame env "" (discoveredState env ctx w t info d "")
  obtain ⟨added2, ha2, hb2, _⟩ := FetchPubKey_produces env ""
    (discoveredState env ctx w t info d "") v hval
  obtain ⟨added3, ha3, hrun⟩ := FetchPubKey_run env "" (discoveredState env ctx w t info d "") v
    hval
  have hjw : (CheckAuth env ctx w).world.jwks_uri =
      Registry.SetJwksUri w.jwks_uri info.issuer "" false := by
    rw [hto, hc]
    rfl
  refine ⟨hto, ?_, ?_, ?_, hjw, ?_⟩
  · rw [hto, ha, httpGets_append, discoveredState_httpGets, hb]
    rfl
  · intro st hst
    rw [hto, ha3] at hst
    have hcs : completions (discoveredState env ctx w t info d "").trace = [] := by
      simp [discoveredState, keyLookupState_completions]
    rw [completions_append, hcs] at hst
    exact FetchRun_keyset_status env _ _ v _ _ _ added3 hrun st hst
  · rw [hto, ha2, registryWrites_append, FetchTrace_registryWrites _ _ _ _ _ hb2]
    simp [discoveredState, keyLookupState_registryWrites]
  · intro env2 ctx2 w2 m2 t2 info2 hreq2 hm2 hauth2 htok2 hne2 hin2 hiss2 hacc2 hsame hnokey2
      hr2
    rw [hjw] at hr2
    have hreg2 : (w2.jwks_uri info2.issuer).1.isEmpty = true := by
      rw [hsame, hr2]
      simp only [Registry.SetJwksUri, if_true]
      rfl
    rw [CheckAuth_no_url env2 ctx2 w2 m2 t2 info2 hreq2 hm2 hauth2 htok2 hne2 hin2 hiss2 hacc2
      (by rw [hsame]; exact hnokey2) hreg2]
    simp [Unauthorized_eq, keyLookupState_httpGets, keyLookupState_completions]

/-- Witness of C28: in the sample service whose discovery document has an empty
`jwks_uri`, the check of `kToken` fetches the empty URL and is denied with
`Unable to fetch verification key`, and the check of `kToken2` that follows is
denied with `Cannot determine the URI of the key` without any GET. -/
theorem CheckAuth_empty_jwks_uri_witness :
    httpGets (CheckAuth Sample.emptyUriEnv (Sample.ctx (some "Bearer kToken") none)
        Sample.world).trace = [Sample.kIssuer1OpenIdUrl, ""] ∧
      registryWrites (CheckAuth Sample.emptyUriEnv (Sample.ctx (some "Bearer kToken") none)
        Sample.world).trace = [(Sample.kIss, "", false)] ∧
      httpGets (CheckAuth Sample.emptyUriEnv (Sample.ctx (some "Bearer kToken2") none)
        (CheckAuth Sample.emptyUriEnv (Sample.ctx (some "Bearer kToken") none)
          Sample.world).world).trace = [] ∧
      completions (CheckAuth Sample.emptyUriEnv (Sample.ctx (some "Bearer kToken2") none)
        (CheckAuth Sample.emptyUriEnv (Sample.ctx (some "Bearer kToken") none)
          Sample.world).world).trace = [denial "Cannot determine the URI of the key"] :=
  have h := CheckAuth_empty_jwks_uri Sample.emptyUriEnv
    (Sample.ctx (some "Bearer kToken") none) Sample.world Sample.method "kToken"
    Sample.kIssuer1OpenIdUrl "jwks_uri="
    { id := Sample.kSub, issuer := Sample.kIss, audiences := [Sample.kServiceName] }
    (Sample.validator Sample.kSub Sample.kIss Sample.kServiceName Sample.kExp)
    rfl rfl rfl (by decide) (by decide)
    (Or.inr ⟨rfl, fun _ hv => by simp [Sample.world] at hv,
      Sample.validator Sample.kSub Sample.kIss Sample.kServiceName Sample.kExp,
      rfl, by decide, by decide⟩)
    rfl (by decide) (by decide) (fun _ hc => by simp [Sample.world] at hc) (by decide)
    (by decide) rfl ⟨Status.OK, rfl, rfl⟩ rfl
  have hnone : (CheckAuth Sample.emptyUriEnv (Sample.ctx (some "Bearer kToken") none)
      Sample.world).world.jwt_cache "kToken2" = none := rfl
  have hcert : (CheckAuth Sample.emptyUriEnv (Sample.ctx (some "Bearer kToken") none)
      Sample.world).world.certs Sample.kIss = none := rfl
  have h2 := h.2.2.2.2.2 Sample.emptyUriEnv (Sample.ctx (some "Bearer kToken2") none)
    (CheckAuth Sample.emptyUriEnv (Sample.ctx (some "Bearer kToken") none)
      Sample.world).world Sample.method "kToken2"
    { id := Sample.kSub2, issuer := Sample.kIss, audiences := [Sample.kServiceName] }
    rfl rfl rfl (by decide) (by decide)
    (Or.inr ⟨rfl, fun _ hv => Option.noConfusion (hnone.symm.trans hv),
      Sample.validator Sample.kSub2 Sample.kIss Sample.kServiceName Sample.kExp,
      rfl, by decide, by decide⟩)
    (by decide) (by decide) rfl (fun _ hc => Option.noConfusion (hcert.symm.trans hc)) rfl
  ⟨h.2.1, h.2.2.2.1, h2.1, h2.2⟩

/-! ## The validator exists wherever it is used -/

theorem null_not_mem_readEvents (ctx : Context) : Event.NullDereference ∉ readEvents ctx := by
  unfold readEvents
  split <;> simp

theorem null_not_mem_lookupState (ctx : Context) (w : World) (t : String) :
    Event.NullDereference ∉ (lookupState ctx w t).trace := by
  simp [lookupState, null_not_mem_readEvents]

theorem null_not_mem_lookupEvents (w : World) (t : String) (cache_hit : Bool) :
    Event.NullDereference ∉ lookupEvents w t cache_hit := by
  unfold lookupEvents
  repeat' split
  all_goals simp

theorem null_not_mem_missEvents (w : World) (t : String) :
    Event.NullDereference ∉ missEvents w t := by
  unfold missEvents
  split <;> simp

theorem null_not_mem_policyEvents (env : Env) (ctx : Context) (info : UserInfo) :
    Event.NullDereference ∉ policyEvents env ctx info := by
  unfold policyEvents
  by_cases h : ctx.service_name ∈ info.audiences <;> simp [h]

theorem null_not_mem_dispatchDenial (ok : Bool) (error : String) :
    Event.NullDereference ∉ dispatchDenial ok error := by
  cases ok <;> simp [dispatchDenial]

theorem VerifyRun_no_null (t : String) (info : UserInfo) (v : JwtValidator) (key : String)
    (now : Nat) (tail : List Event) (h : VerifyRun t info v key now tail) :
    Event.NullDereference ∉ tail := by
  cases h <;> simp

theorem FetchRun_no_null (env : Env) (t : String) (info : UserInfo) (v : JwtValidator)
    (idx : Nat) (url : String) (now : Nat) (tail : List Event)
    (h : FetchRun env t info v idx url now tail) : Event.NullDereference ∉ tail := by
  cases h with
  | dropped h => simp [null_not_mem_dispatchDenial]
  | failed st body h hf => simp [null_not_mem_dispatchDenial]
  | stored st body vt h hok hb ht =>
    simp [null_not_mem_dispatchDenial, VerifyRun_no_null _ _ _ _ _ vt ht]

theorem KeyRun_no_null (env : Env) (v : JwtValidator) (s : Exec) (tail : List Event)
    (h : KeyRun env v s tail) : Event.NullDereference ∉ tail := by
  cases h with
  | cached cert vt hc hn ht => simp [VerifyRun_no_null _ _ _ _ _ vt ht]
  | no_url hstale hu => simp
  | fetch ft hstale hu ho ht => simp [FetchRun_no_null _ _ _ _ _ _ _ ft ht]
  | discover_dropped hstale hu ho h => simp [null_not_mem_dispatchDenial]
  | discover_failed st body pre hstale hu ho h hf =>
    rcases hf with ⟨_, rfl⟩ | ⟨_, _, rfl⟩ <;> simp [null_not_mem_dispatchDenial]
  | discover_found st body u ft hstale hu ho h hok hfound ht =>
    simp [null_not_mem_dispatchDenial, FetchRun_no_null _ _ _ _ _ _ _ ft ht]

theorem keyStage_readEvents (ctx : Context) : (readEvents ctx).any Event.keyStage = false := by
  unfold readEvents
  split <;> rfl

theorem keyStage_lookupState (ctx : Context) (w : World) (t : String) :
    (lookupState ctx w t).trace.any Event.keyStage = false := by
  simp [lookupState, keyStage_readEvents, Event.keyStage]

theorem keyStage_lookupEvents (w : World) (t : String) (cache_hit : Bool) :
    (lookupEvents w t cache_hit).any Event.keyStage = false := by
  unfold lookupEvents
  repeat' split
  all_goals rfl

theorem keyStage_missEvents (w : World) (t : String) :
    (missEvents w t).any Event.keyStage = false := by
  unfold missEvents
  split <;> rfl

theorem keyStage_policyEvents (env : Env) (ctx : Context) (info : UserInfo) :
    (policyEvents env ctx info).any Event.keyStage = false := by
  unfold policyEvents
  by_cases h : ctx.service_name ∈ info.audiences <;> simp [h, Event.keyStage]

/-- C26. The key stage of a check (`InitKey`, the fetches, `VerifySignature`
with its use of the validator and of its expiration time) is reached only on
the token-cache-miss path, after `ParseJwt` has created a validator and parsed
the token successfully and the policy has accepted the parsed user info: the
check then continues with `InitKey` from a state that holds this validator.  A
check whose token hits the token cache makes no call of the key stage.  And no
check dereferences a null validator or method. -/
theorem CheckAuth_validator_present (env : Env) (ctx : Context) (w : World) :
    Event.NullDereference ∉ (CheckAuth env ctx w).trace ∧
    ((CheckAuth env ctx w).trace.any Event.keyStage = true →
      ctx.RequireAuth = true ∧ (GetAuthToken_reference ctx).isEmpty = false ∧
      (∀ val, w.jwt_cache (GetAuthToken_reference ctx) = some val → val.exp < w.now) ∧
      ∃ m v, ctx.method = some m ∧ m.auth = true ∧
        env.Create (GetAuthToken_reference ctx) = some v ∧ (v.Parse w.now).1.ok = true ∧
        m.isIssuerAllowed (v.Parse w.now).2.issuer = true ∧
        audienceAccepted ctx m (v.Parse w.now).2 = true ∧
        CheckAuth env ctx w =
          InitKey env
            (policyState env ctx w (GetAuthToken_reference ctx) false (v.Parse w.now).2) ∧
        (policyState env ctx w (GetAuthToken_reference ctx) false
          (v.Parse w.now).2).validator_ = some v) ∧
    ((∃ val, w.jwt_cache (GetAuthToken_reference ctx) = some val ∧ w.now ≤ val.exp) →
      (CheckAuth env ctx w).trace.any Event.keyStage = false) := by
  have h12 : Event.NullDereference ∉ (CheckAuth env ctx w).trace ∧
      ((CheckAuth env ctx w).trace.any Event.keyStage = true →
        ctx.RequireAuth = true ∧ (GetAuthToken_reference ctx).isEmpty = false ∧
        (∀ val, w.jwt_cache (GetAuthToken_reference ctx) = some val → val.exp < w.now) ∧
        ∃ m v, ctx.method = some m ∧ m.auth = true ∧
          env.Create (GetAuthToken_reference ctx) = some v ∧ (v.Parse w.now).1.ok = true ∧
          m.isIssuerAllowed (v.Parse w.now).2.issuer = true ∧
          audienceAccepted ctx m (v.Parse w.now).2 = true ∧
          CheckAuth env ctx w =
            InitKey env
              (policyState env ctx w (GetAuthToken_reference ctx) false (v.Parse w.now).2) ∧
          (policyState env ctx w (GetAuthToken_reference ctx) false
            (v.Parse w.now).2).validator_ = some v) := by
    obtain ⟨hshape, _, hrun⟩ := CheckAuth_run env ctx w
    generalize (CheckAuth env ctx w).trace = T at hshape hrun
    cases hshape with
    | not_required h =>
      exact ⟨by simp, fun hk => by simp [Event.keyStage] at hk⟩
    | no_token m hreq hm hauth ht =>
      exact ⟨by simp [null_not_mem_readEvents],
        fun hk => by simp [keyStage_readEvents, Event.keyStage] at hk⟩
    | hit m val tail hreq hm hauth ht hval hexp h =>
      cases h with
      | issuer_denied _ h =>
        exact ⟨by simp [null_not_mem_lookupState, null_not_mem_lookupEvents],
          fun hk => by
            simp [keyStage_lookupState, keyStage_lookupEvents, Event.keyStage] at hk⟩
      | audience_denied _ h ha =>
        exact ⟨by simp [null_not_mem_lookupState, null_not_mem_lookupEvents,
            null_not_mem_policyEvents],
          fun hk => by
            simp [keyStage_lookupState, keyStage_lookupEvents, keyStage_policyEvents,
              Event.keyStage] at hk⟩
      | cached h ha =>
        exact ⟨by simp [null_not_mem_lookupState, null_not_mem_lookupEvents,
            null_not_mem_policyEvents],
          fun hk => by
            simp [keyStage_lookupState, keyStage_lookupEvents, keyStage_policyEvents,
              Event.keyStage] at hk⟩
    | create_failed m hreq hm hauth ht hmiss hc =>
      exact ⟨by simp [null_not_mem_lookupState, null_not_mem_missEvents],
        fun hk => by
          simp [keyStage_lookupState, keyStage_missEvents, Event.keyStage] at hk⟩
    | parse_failed m v hreq hm hauth ht hmiss hc hp =>
      exact ⟨by simp [null_not_mem_lookupState, null_not_mem_lookupEvents],
        fun hk => by
          simp [keyStage_lookupState, keyStage_lookupEvents, Event.keyStage] at hk⟩
    | parsed m v tail hreq hm hauth ht hmiss hc hp h =>
      cases h with
      | issuer_denied _ h =>
        exact ⟨by simp [null_not_mem_lookupState, null_not_mem_lookupEvents],
          fun hk => by
            simp [keyStage_lookupState, keyStage_lookupEvents, Event.keyStage] at hk⟩
      | audience_denied _ h ha =>
        exact ⟨by simp [null_not_mem_lookupState, null_not_mem_lookupEvents,
            null_not_mem_policyEvents],
          fun hk => by
            simp [keyStage_lookupState, keyStage_lookupEvents, keyStage_policyEvents,
              Event.keyStage] at hk⟩
      | key v2 tail2 hv hiss hacc hkt =>
        cases hv
        have hk := hrun m v tail2 hreq hm hauth ht hmiss hc hp hiss hacc rfl
        refine ⟨by simp [null_not_mem_lookupState, null_not_mem_lookupEvents,
            null_not_mem_policyEvents, KeyRun_no_null env v _ tail2 hk], fun _ => ?_⟩
        have hto := policy_accepted_next env ctx w m (GetAuthToken_reference ctx) false
          (v.Parse w.now).2 hreq hm hauth rfl ht (Or.inr ⟨rfl, hmiss, v, hc, hp, rfl⟩) hiss
          hacc
        simp only [Bool.false_eq_true, if_false] at hto
        exact ⟨hreq, ht, hmiss, m, v, hm, hauth, hc, hp, hiss, hacc, hto,
          by simp [policyState, hc]⟩
  refine ⟨h12.1, h12.2, ?_⟩
  rintro ⟨val, hval, hexp⟩
  by_contra hk
  obtain ⟨_, _, hmiss, _⟩ := h12.2 (by simpa using hk)
  exact absurd (hmiss val hval) (Nat.not_lt.mpr hexp)

/-- Witness of C26: in the sample service, the second check of `kToken`, which
hits the token cache, makes no call of the key stage, and the cold check of
`kToken` reaches the key stage with a validator. -/
theorem CheckAuth_validator_present_witness :
    (CheckAuth Sample.env (Sample.ctx (some "Bearer kToken") none)
        Sample.warmWorld).trace.any Event.keyStage = false ∧
      ∃ v, Sample.env.Create "kToken" = some v ∧ (v.Parse Sample.world.now).1.ok = true :=
  ⟨(CheckAuth_validator_present Sample.env (Sample.ctx (some "Bearer kToken") none)
      Sample.warmWorld).2.2
      ⟨{ user_info := { id := Sample.kSub, issuer := Sample.kIss,
                        audiences := [Sample.kServiceName] },
         exp := Sample.kExp, inserted_at := 1500000002 }, rfl, by decide⟩,
    match (CheckAuth_validator_present Sample.env (Sample.ctx (some "Bearer kToken") none)
        Sample.world).2.1 (by decide) with
    | ⟨_, _, _, _, v, _, _, hc, hp, _⟩ => ⟨v, hc, hp⟩⟩

/-! ## The setters of the request -/

@[simp] theorem authTokens_nil : authTokens [] = [] := rfl

@[simp] theorem authTokens_append (a b : List Event) :
    authTokens (a ++ b) = authTokens a ++ authTokens b := by
  simp [authTokens, List.filterMap_append]

@[simp] theorem authTokens_cons (e : Event) (t : List Event) :
    authTokens (e :: t) =
      (match e with
        | Event.SetAuthToken token => [token]
        | _ => []) ++ authTokens t := by
  cases e <;> simp [authTokens, List.filterMap_cons]

theorem authTokens_readEvents (ctx : Context) : authTokens (readEvents ctx) = [] := by
  unfold readEvents
  split <;> simp

theorem authTokens_lookupState (ctx : Context) (w : World) (t : String) :
    authTokens (lookupState ctx w t).trace = [t] := by
  simp [lookupState, authTokens_readEvents]

theorem authTokens_lookupEvents (w : World) (t : String) (cache_hit : Bool) :
    authTokens (lookupEvents w t cache_hit) = [] := by
  unfold lookupEvents
  repeat' split
  all_goals simp

theorem authTokens_missEvents (w : World) (t : String) : authTokens (missEvents w t) = [] := by
  unfold missEvents
  split <;> simp

theorem authTokens_policyEvents (env : Env) (ctx : Context) (info : UserInfo) :
    authTokens (policyEvents env ctx info) = [] := by
  unfold policyEvents
  by_cases h : ctx.service_name ∈ info.audiences <;> simp [h]

@[simp] theorem authTokens_dispatchDenial (ok : Bool) (error : String) :
    authTokens (dispatchDenial ok error) = [] := by
  cases ok <;> simp [dispatchDenial]

theorem VerifyRun_authTokens (t : String) (info : UserInfo) (v : JwtValidator) (key : String)
    (now : Nat) (tail : List Event) (h : VerifyRun t info v key now tail) :
    authTokens tail = [] := by
  cases h <;> simp

theorem FetchRun_authTokens (env : Env) (t : String) (info : UserInfo) (v : JwtValidator)
    (idx : Nat) (url : String) (now : Nat) (tail : List Event)
    (h : FetchRun env t info v idx url now tail) : authTokens tail = [] := by
  cases h with
  | dropped h => simp
  | failed st body h hf => simp
  | stored st body vt h hok hb ht => simp [VerifyRun_authTokens _ _ _ _ _ vt ht]

theorem KeyRun_authTokens (env : Env) (v : JwtValidator) (s : Exec) (tail : List Event)
    (h : KeyRun env v s tail) : authTokens tail = [] := by
  cases h with
  | cached cert vt hc hn ht => simp [VerifyRun_authTokens _ _ _ _ _ vt ht]
  | no_url hstale hu => simp
  | fetch ft hstale hu ho ht => simp [FetchRun_authTokens _ _ _ _ _ _ _ ft ht]
  | discover_dropped hstale hu ho h => simp
  | discover_failed st body pre hstale hu ho h hf =>
    rcases hf with ⟨_, rfl⟩ | ⟨_, _, rfl⟩ <;> simp
  | discover_found st body u ft hstale hu ho h hok hfound ht =>
    simp [FetchRun_authTokens _ _ _ _ _ _ _ ft ht]

theorem userInfos_lookupState (ctx : Context) (w : World) (t : String) :
    userInfos (lookupState ctx w t).trace = [] := by
  simp [lookupState, userInfos_readEvents]

theorem userInfos_missEvents (w : World) (t : String) : userInfos (missEvents w t) = [] := by
  unfold missEvents
  split <;> simp

/-- A stretch with no `SetUserInfo` and no Allow completion. -/
theorem AllowShape_denial (info : UserInfo) (a : List Event) (hu : userInfos a = [])
    (hc : Status.OK ∉ completions a) : AllowShape info a :=
  Or.inl ⟨hu, hc⟩

/-- The shape is kept between two stretches with no `SetUserInfo` and no Allow
completion. -/
theorem AllowShape_wrap (info : UserInfo) (a b l : List Event)
    (ha : userInfos a = []) (hb : userInfos b = [])
    (hca : Status.OK ∉ completions a) (hcb : Status.OK ∉ completions b)
    (h : AllowShape info l) : AllowShape info (a ++ l ++ b) := by
  rcases h with ⟨h1, h2⟩ | ⟨pre, post, heq, hpre, hpost, hcpre, hcpost⟩
  · left
    refine ⟨by simp [ha, hb, h1], ?_⟩
    simp only [completions_append, List.mem_append]
    rintro ((h | h) | h)
    · exact hca h
    · exact h2 h
    · exact hcb h
  · right
    refine ⟨a ++ pre, post ++ b, ?_, by simp [ha, hpre], by simp [hb, hpost], ?_, ?_⟩
    · rw [heq]
      simp only [List.append_assoc]
    · simp only [completions_append, List.mem_append]
      rintro (h | h)
      · exact hca h
      · exact hcpre h
    · simp only [completions_append, List.mem_append]
      rintro (h | h)
      · exact hcpost h
      · exact hcb h

theorem VerifyRun_allow (t : String) (info : UserInfo) (v : JwtValidator) (key : String)
    (now : Nat) (tail : List Event) (h : VerifyRun t info v key now tail) :
    AllowShape info tail := by
  cases h with
  | failed h => exact AllowShape_denial info _ (by simp) (OK_not_mem_single_denial _)
  | verified h =>
    exact Or.inr ⟨[Event.GetCert info.issuer, Event.ValidatorVerifySignature t key,
      Event.ValidatorGetExpirationTime t,
      Event.JwtCacheInsert t info v.GetExpirationTime now], [], rfl, by simp, by simp,
      by simp, by simp⟩

theorem FetchRun_allow (env : Env) (t : String) (info : UserInfo) (v : JwtValidator)
    (idx : Nat) (url : String) (now : Nat) (tail : List Event)
    (h : FetchRun env t info v idx url now tail) : AllowShape info tail := by
  cases h with
  | dropped h =>
    refine AllowShape_denial info _ (by simp) ?_
    simp only [completions_append, List.mem_append]
    rintro (h | h)
    · simp at h
    · exact OK_not_mem_dispatchDenial _ _ h
  | failed st body h hf =>
    refine AllowShape_denial info _ (by simp) ?_
    simp only [completions_append, List.mem_append]
    rintro (h | h)
    · simp at h
      exact denial_ne_OK _ h.symm
    · exact OK_not_mem_dispatchDenial _ _ h
  | stored st body vt h hok hb ht =>
    exact AllowShape_wrap info _ _ vt (by simp) (by simp) (by simp)
      (OK_not_mem_dispatchDenial _ _) (VerifyRun_allow _ _ _ _ _ vt ht)

theorem KeyRun_allow (env : Env) (v : JwtValidator) (s : Exec) (tail : List Event)
    (h : KeyRun env v s tail) : AllowShape s.user_info_ tail := by
  cases h with
  | cached cert vt hc hn ht =>
    have := AllowShape_wrap s.user_info_ [Event.GetCert s.user_info_.issuer] [] vt
      (by simp) (by simp) (by simp) (by simp) (VerifyRun_allow _ _ _ _ _ vt ht)
    simpa using this
  | no_url hstale hu =>
    refine AllowShape_denial _ _ (by simp) ?_
    intro h
    simp at h
    exact denial_ne_OK _ h.symm
  | fetch ft hstale hu ho ht =>
    have := AllowShape_wrap s.user_info_
      [Event.GetCert s.user_info_.issuer, Event.GetJwksUri s.user_info_.issuer] [] ft
      (by simp) (by simp) (by simp) (by simp) (FetchRun_allow _ _ _ _ _ _ _ ft ht)
    simpa using this
  | discover_dropped hstale hu ho h =>
    refine AllowShape_denial _ _ (by simp) ?_
    simp only [completions_append, List.mem_append]
    rintro (h | h)
    · simp at h
    · exact OK_not_mem_dispatchDenial _ _ h
  | discover_failed st body pre hstale hu ho h hf =>
    refine AllowShape_denial _ _
      (by rcases hf with ⟨_, rfl⟩ | ⟨_, _, rfl⟩ <;> simp) ?_
    simp only [completions_append, List.mem_append]
    rintro ((h | h) | h)
    · rcases hf with ⟨_, rfl⟩ | ⟨_, _, rfl⟩ <;> simp at h
    · simp at h
      exact denial_ne_OK _ h.symm
    · exact OK_not_mem_dispatchDenial _ _ h
  | discover_found st body u ft hstale hu ho h hok hfound ht =>
    exact AllowShape_wrap s.user_info_ _ _ ft (by simp) (by simp) (by simp)
      (OK_not_mem_dispatchDenial _ _) (FetchRun_allow _ _ _ _ _ _ _ ft ht)

/-- C22. For every check on an auth-requiring method, with `t` the extracted
token: when `t` is not empty, `SetAuthToken` is called exactly once, with `t`,
right after the reads of the header and the query parameter that extract the
token and hence before any cache lookup or parsing, whatever the outcome of
the check; when `t` is empty it is not called.  `SetUserInfo` is either not
called at all, and then the check has no Allow completion, or it is called
exactly once, directly followed by the only Allow completion of the check,
with a user info that reached the policy stage (from an unexpired token-cache
entry or from a successful parse) and that the policy accepted. -/
theorem CheckAuth_request_setters (env : Env) (ctx : Context) (w : World) (m : MethodInfo)
    (hreq : ctx.RequireAuth = true) (hm : ctx.method = some m) (hauth : m.auth = true) :
    ((GetAuthToken_reference ctx).isEmpty = false →
      authTokens (CheckAuth env ctx w).trace = [GetAuthToken_reference ctx] ∧
      (∀ e ∈ readEvents ctx,
        e = Event.FindHeader "authorization" ∨ e = Event.FindQuery "access_token") ∧
      ∃ rest, (CheckAuth env ctx w).trace =
        readEvents ctx ++ Event.SetAuthToken (GetAuthToken_reference ctx) :: rest) ∧
    ((GetAuthToken_reference ctx).isEmpty = true →
      authTokens (CheckAuth env ctx w).trace = []) ∧
    ((userInfos (CheckAuth env ctx w).trace = [] ∧
        Status.OK ∉ completions (CheckAuth env ctx w).trace) ∨
      ∃ info pre post,
        (CheckAuth env ctx w).trace =
          pre ++ [Event.SetUserInfo info, Event.on_done Status.OK] ++ post ∧
        userInfos pre = [] ∧ userInfos post = [] ∧
        Status.OK ∉ completions pre ∧ Status.OK ∉ completions post ∧
        m.isIssuerAllowed info.issuer = true ∧ audienceAccepted ctx m info = true ∧
        ∃ hit, ReachesPolicy env w (GetAuthToken_reference ctx) hit info) := by
  have hreads : ∀ e ∈ readEvents ctx,
      e = Event.FindHeader "authorization" ∨ e = Event.FindQuery "access_token" := by
    intro e he
    unfold readEvents at he
    split at he <;> simp at he
    · rcases he with rfl | rfl
      · exact Or.inl rfl
      · exact Or.inr rfl
    · exact Or.inl he
  have hrest : ∀ l : List Event,
      (lookupState ctx w (GetAuthToken_reference ctx)).trace ++ l =
        readEvents ctx ++ Event.SetAuthToken (GetAuthToken_reference ctx) ::
          (Event.LogDebug ("auth token: " ++ GetAuthToken_reference ctx) :: l) := by
    intro l
    simp [lookupState]
  have hpreU : ∀ hit info,
      userInfos ((lookupState ctx w (GetAuthToken_reference ctx)).trace ++
        lookupEvents w (GetAuthToken_reference ctx) hit ++ policyEvents env ctx info) = [] := by
    intro hit info
    simp [userInfos_lookupState, userInfos_lookupEvents, userInfos_policyEvents]
  have hpreC : ∀ hit info,
      Status.OK ∉ completions ((lookupState ctx w (GetAuthToken_reference ctx)).trace ++
        lookupEvents w (GetAuthToken_reference ctx) hit ++ policyEvents env ctx info) := by
    intro hit info
    simp [completions_lookupState, completions_lookupEvents, completions_policyEvents]
  obtain ⟨hshape, _, hrun⟩ := CheckAuth_run env ctx w
  generalize (CheckAuth env ctx w).trace = T at hshape hrun
  cases hshape with
  | not_required h =>
    rcases h with h | h | ⟨m2, h2, h3⟩
    · rw [hreq] at h
      exact absurd h (by decide)
    · rw [hm] at h
      exact Option.noConfusion h
    · cases hm.symm.trans h2
      rw [hauth] at h3
      exact absurd h3 (by decide)
  | no_token m2 _ hm2 _ ht =>
    refine ⟨fun hne => ?_, fun _ => by simp [authTokens_readEvents], Or.inl ⟨?_, ?_⟩⟩
    · rw [ht] at hne
      exact absurd hne (by decide)
    · simp [userInfos_readEvents]
    · simp only [completions_append, completions_readEvents, List.nil_append]
      exact OK_not_mem_single_denial _
  | hit m2 val tail _ hm2 _ ht hval hexp h =>
    cases hm.symm.trans hm2
    refine ⟨fun _ => ⟨?_, hreads, ?_⟩, fun he => ?_, ?_⟩
    · cases h with
      | issuer_denied _ h =>
        simp [authTokens_lookupState, authTokens_lookupEvents]
      | audience_denied _ h ha =>
        simp [authTokens_lookupState, authTokens_lookupEvents, authTokens_policyEvents]
      | cached h ha =>
        simp [authTokens_lookupState, authTokens_lookupEvents, authTokens_policyEvents]
    · rw [List.append_assoc]
      exact ⟨_, hrest _⟩
    · rw [ht] at he
      exact absurd he (by decide)
    · cases h with
      | issuer_denied _ h =>
        refine Or.inl ⟨by simp [userInfos_lookupState, userInfos_lookupEvents], ?_⟩
        simp only [completions_append, completions_lookupState, completions_lookupEvents,
          List.nil_append]
        intro h2
        simp at h2
        exact denial_ne_OK _ h2.symm
      | audience_denied _ h ha =>
        refine Or.inl ⟨by simp [userInfos_lookupState, userInfos_lookupEvents,
          userInfos_policyEvents], ?_⟩
        simp only [completions_append, completions_lookupState, completions_lookupEvents,
          completions_policyEvents, List.nil_append]
        exact OK_not_mem_single_denial _
      | cached h ha =>
        refine Or.inr ⟨val.user_info,
          (lookupState ctx w (GetAuthToken_reference ctx)).trace ++
            lookupEvents w (GetAuthToken_reference ctx) true ++
            policyEvents env ctx val.user_info, [], ?_, hpreU _ _, rfl, hpreC _ _, by simp,
          h, ha, true, Or.inl ⟨rfl, val, hval, hexp, rfl⟩⟩
        simp only [List.append_assoc, List.append_nil]
  | create_failed m2 _ hm2 _ ht hmiss hc =>
    refine ⟨fun _ => ⟨by simp [authTokens_lookupState, authTokens_missEvents], hreads, ?_⟩,
      fun he => ?_, Or.inl ⟨by simp [userInfos_lookupState, userInfos_missEvents], ?_⟩⟩
    · rw [List.append_assoc]
      exact ⟨_, hrest _⟩
    · rw [ht] at he
      exact absurd he (by decide)
    · simp only [completions_append, completions_lookupState, completions_missEvents,
        List.nil_append]
      intro h2
      simp at h2
      exact denial_ne_OK _ h2.symm
  | parse_failed m2 v _ hm2 _ ht hmiss hc hp =>
    refine ⟨fun _ => ⟨by simp [authTokens_lookupState, authTokens_lookupEvents], hreads, ?_⟩,
      fun he => ?_, Or.inl ⟨by simp [userInfos_lookupState, userInfos_lookupEvents], ?_⟩⟩
    · rw [List.append_assoc]
      exact ⟨_, hrest _⟩
    · rw [ht] at he
      exact absurd he (by decide)
    · simp only [completions_append, completions_lookupState, completions_lookupEvents,
        List.nil_append]
      exact OK_not_mem_single_denial _
  | parsed m2 v tail hreq2 hm2 hauth2 ht hmiss hc hp h =>
    cases hm.symm.trans hm2
    refine ⟨fun _ => ⟨?_, hreads, ?_⟩, fun he => ?_, ?_⟩
    · cases h with
      | issuer_denied _ h =>
        simp [authTokens_lookupState, authTokens_lookupEvents]
      | audience_denied _ h ha =>
        simp [authTokens_lookupState, authTokens_lookupEvents, authTokens_policyEvents]
      | key v2 tail2 hv hiss hacc hkt =>
        cases hv
        have hk := hrun m v tail2 hreq2 hm2 hauth2 ht hmiss hc hp hiss hacc rfl
        simp [authTokens_lookupState, authTokens_lookupEvents, authTokens_policyEvents,
          KeyRun_authTokens env v _ tail2 hk]
    · rw [List.append_assoc]
      exact ⟨_, hrest _⟩
    · rw [ht] at he
      exact absurd he (by decide)
    · cases h with
      | issuer_denied _ h =>
        refine Or.inl ⟨by simp [userInfos_lookupState, userInfos_lookupEvents], ?_⟩
        simp only [completions_append, completions_lookupState, completions_lookupEvents,
          List.nil_append]
        intro h2
        simp at h2
        exact denial_ne_OK _ h2.symm
      | audience_denied _ h ha =>
        refine Or.inl ⟨by simp [userInfos_lookupState, userInfos_lookupEvents,
          userInfos_policyEvents], ?_⟩
        simp only [completions_append, completions_lookupState, completions_lookupEvents,
          completions_policyEvents, List.nil_append]
        exact OK_not_mem_single_denial _
      | key v2 tail2 hv hiss hacc hkt =>
        cases hv
        have hk := hrun m v tail2 hreq2 hm2 hauth2 ht hmiss hc hp hiss hacc rfl
        have hal := KeyRun_allow env v _ tail2 hk
        have hw := AllowShape_wrap (v.Parse w.now).2
          ((lookupState ctx w (GetAuthToken_reference ctx)).trace ++
            lookupEvents w (GetAuthToken_reference ctx) false ++
            policyEvents env ctx (v.Parse w.now).2) [] tail2 (hpreU _ _) rfl (hpreC _ _)
          (by simp) hal
        simp only [List.append_nil] at hw
        rcases hw with ⟨h1, h2⟩ | ⟨pre, post, heq, h1, h2, h3, h4⟩
        · left
          simp only [List.append_assoc] at h1 h2 ⊢
          exact ⟨h1, h2⟩
        · right
          refine ⟨(v.Parse w.now).2, pre, post, ?_, h1, h2, h3, h4, hiss, hacc, false,
            Or.inr ⟨rfl, hmiss, v, hc, hp, rfl⟩⟩
          rw [← heq]
          simp only [List.append_assoc]

/-- Witness of C22: the check of the expired token of `TestInvalidToken` in the
sample service, which is denied, has called `SetAuthToken` once, with the token. -/
theorem CheckAuth_request_setters_witness :
    authTokens (CheckAuth Sample.env (Sample.ctx (some "Bearer kTokenExpired") none)
        Sample.world).trace = ["kTokenExpired"] ∧
      userInfos (CheckAuth Sample.env (Sample.ctx (some "Bearer kTokenExpired") none)
        Sample.world).trace = [] :=
  ⟨((CheckAuth_request_setters Sample.env (Sample.ctx (some "Bearer kTokenExpired") none)
      Sample.world Sample.method rfl rfl rfl).1 (by decide)).1, by decide⟩

/-! ## The requests of a check and the order of its steps -/

@[simp] theorem calls_nil : calls [] = [] := rfl

@[simp] theorem calls_append (a b : List Event) : calls (a ++ b) = calls a ++ calls b := by
  simp [calls, List.filterMap_append]

@[simp] theorem calls_cons (e : Event) (t : List Event) :
    calls (e :: t) = (Event.call e).toList ++ calls t := by
  cases h : Event.call e <;> simp [calls, List.filterMap_cons, h]

theorem calls_readEvents (ctx : Context) : calls (readEvents ctx) = [Call.FindHeader] := by
  unfold readEvents
  split <;> simp [Event.call]

theorem calls_lookupState (ctx : Context) (w : World) (t : String) :
    calls (lookupState ctx w t).trace = [Call.FindHeader] := by
  simp [lookupState, calls_readEvents, Event.call]

theorem calls_lookupEvents_hit (w : World) (t : String) :
    calls (lookupEvents w t true) = [Call.JwtCacheLookup] := by
  simp [lookupEvents, Event.call]

theorem calls_lookupEvents_miss (w : World) (t : String) :
    calls (lookupEvents w t false) = [Call.JwtCacheLookup, Call.ValidatorCreate] := by
  unfold lookupEvents
  cases w.jwt_cache t <;> simp [Event.call]

theorem calls_missEvents (w : World) (t : String) :
    calls (missEvents w t) = [Call.JwtCacheLookup] := by
  unfold missEvents
  split <;> simp [Event.call]

theorem calls_policyEvents (env : Env) (ctx : Context) (info : UserInfo) :
    calls (policyEvents env ctx info) = [Call.set_auth_issuer] := by
  unfold policyEvents
  by_cases h : ctx.service_name ∈ info.audiences <;> simp [h, Event.call]

@[simp] theorem calls_dispatchDenial (ok : Bool) (error : String) :
    calls (dispatchDenial ok error) = [] := by
  cases ok <;> simp [dispatchDenial, Event.call]

theorem VerifyRun_calls (t : String) (info : UserInfo) (v : JwtValidator) (key : String)
    (now : Nat) (tail : List Event) (h : VerifyRun t info v key now tail) :
    (calls tail).Sublist [Call.GetCert, Call.ValidatorVerifySignature, Call.SetUserInfo] := by
  cases h <;> simp [Event.call]

theorem FetchRun_calls (env : Env) (t : String) (info : UserInfo) (v : JwtValidator)
    (idx : Nat) (url : String) (now : Nat) (tail : List Event)
    (h : FetchRun env t info v idx url now tail) :
    (calls tail).Sublist
      [Call.HttpGet, Call.CertsUpdate, Call.GetCert, Call.ValidatorVerifySignature,
       Call.SetUserInfo] := by
  cases h with
  | dropped h => simp [Event.call]
  | failed st body h hf => simp [Event.call]
  | stored st body vt h hok hb ht =>
    have hv := VerifyRun_calls _ _ _ _ _ vt ht
    have := List.Sublist.append (List.Sublist.refl [Call.HttpGet, Call.CertsUpdate]) hv
    simpa [Event.call] using this

theorem KeyRun_calls (env : Env) (v : JwtValidator) (s : Exec) (tail : List Event)
    (h : KeyRun env v s tail) : (calls tail).Sublist keyPipeline := by
  cases h with
  | cached cert vt hc hn ht =>
    have hv := VerifyRun_calls _ _ _ _ _ vt ht
    have h1 : [Call.GetCert].Sublist
        [Call.GetCert, Call.GetJwksUri, Call.HttpGet, Call.SetJwksUri, Call.HttpGet,
          Call.CertsUpdate] := by decide
    have := List.Sublist.append h1 hv
    simpa [Event.call, keyPipeline] using this
  | no_url hstale hu =>
    simp only [calls_cons, calls_nil, Event.call, Option.toList, List.nil_append,
      List.cons_append, List.append_nil, keyPipeline]
    decide
  | fetch ft hstale hu ho ht =>
    have hf := FetchRun_calls _ _ _ _ _ _ _ ft ht
    have h1 : [Call.GetCert, Call.GetJwksUri].Sublist
        [Call.GetCert, Call.GetJwksUri, Call.HttpGet, Call.SetJwksUri] := by decide
    have := List.Sublist.append h1 hf
    simpa [Event.call, keyPipeline] using this
  | discover_dropped hstale hu ho h =>
    simp only [calls_append, calls_cons, calls_nil, calls_dispatchDenial, Event.call,
      Option.toList, List.nil_append, List.cons_append, List.append_nil, keyPipeline]
    decide
  | discover_failed st body pre hstale hu ho h hf =>
    rcases hf with ⟨_, rfl⟩ | ⟨_, _, rfl⟩
    · simp only [calls_append, calls_cons, calls_nil, calls_dispatchDenial, Event.call,
        Option.toList, List.nil_append, List.cons_append, List.append_nil, keyPipeline]
      decide
    · simp only [calls_append, calls_cons, calls_nil, calls_dispatchDenial, Event.call,
        Option.toList, List.nil_append, List.cons_append, List.append_nil, keyPipeline]
      decide
  | discover_found st body u ft hstale hu ho h hok hfound ht =>
    have hf := FetchRun_calls _ _ _ _ _ _ _ ft ht
    have := List.Sublist.append
      (List.Sublist.refl [Call.GetCert, Call.GetJwksUri, Call.HttpGet, Call.SetJwksUri]) hf
    simpa [Event.call, keyPipeline] using this

theorem VerifyRun_gets (t : String) (info : UserInfo) (v : JwtValidator) (key : String)
    (now : Nat) (tail : List Event) (h : VerifyRun t info v key now tail) :
    httpGets tail = [] := by
  cases h <;> simp

theorem FetchRun_gets (env : Env) (t : String) (info : UserInfo) (v : JwtValidator)
    (idx : Nat) (url : String) (now : Nat) (tail : List Event)
    (h : FetchRun env t info v idx url now tail) : httpGets tail = [url] := by
  cases h with
  | dropped h => simp
  | failed st body h hf => simp
  | stored st body vt h hok hb ht => simp [VerifyRun_gets _ _ _ _ _ vt ht]

theorem KeyRun_gets (env : Env) (v : JwtValidator) (s : Exec) (tail : List Event)
    (h : KeyRun env v s tail) :
    KeyGets env s.user_info_.issuer s.world (httpGets s.trace).length (httpGets tail) := by
  cases h with
  | cached cert vt hc hn ht =>
    exact Or.inl ⟨by simp [VerifyRun_gets _ _ _ _ _ vt ht], Or.inl ⟨cert, hc, hn⟩⟩
  | no_url hstale hu => exact Or.inl ⟨by simp, Or.inr hu⟩
  | fetch ft hstale hu ho ht =>
    exact Or.inr ⟨hstale, hu, Or.inl ⟨ho, by simp [FetchRun_gets _ _ _ _ _ _ _ ft ht]⟩⟩
  | discover_dropped hstale hu ho h =>
    refine Or.inr ⟨hstale, hu, Or.inr (Or.inl ⟨ho, by simp, ?_⟩)⟩
    intro st body hc
    rw [h] at hc
    exact Option.noConfusion hc
  | discover_failed st body pre hstale hu ho h hf =>
    refine Or.inr ⟨hstale, hu, Or.inr (Or.inl ⟨ho, ?_, ?_⟩)⟩
    · rcases hf with ⟨_, rfl⟩ | ⟨_, _, rfl⟩ <;> simp
    · intro st2 body2 hc hok2
      rw [h] at hc
      cases hc
      rcases hf with ⟨hno, _⟩ | ⟨_, hnone, _⟩
      · rw [hno] at hok2
        exact absurd hok2 (by decide)
      · exact hnone
  | discover_found st body u ft hstale hu ho h hok hfound ht =>
    exact Or.inr ⟨hstale, hu, Or.inr (Or.inr ⟨ho, st, body, u, h, hok, hfound,
      by simp [FetchRun_gets _ _ _ _ _ _ _ ft ht]⟩)⟩

theorem KeyGets_afterLookup (env : Env) (issuer : String) (w : World) (t : String) (idx : Nat)
    (gets : List String) (h : KeyGets env issuer (w.afterLookup t) idx gets) :
    KeyGets env issuer w idx gets := by
  unfold KeyGets at h ⊢
  rw [afterLookup_certs, afterLookup_now, afterLookup_jwks_uri] at h
  exact h

theorem KeyGets_length (env : Env) (issuer : String) (w : World) (idx : Nat)
    (gets : List String) (h : KeyGets env issuer w idx gets) : gets.length ≤ 2 := by
  rcases h with ⟨rfl, _⟩ | ⟨_, _, ⟨_, rfl⟩ | ⟨_, rfl, _⟩ | ⟨_, _, _, _, _, _, _, rfl⟩⟩ <;> simp

theorem httpGets_lookupState (ctx : Context) (w : World) (t : String) :
    httpGets (lookupState ctx w t).trace = [] := by
  simp [lookupState, httpGets_readEvents]

/-- The requests and the marking calls of a check, by the way it ends. -/
theorem CheckAuth_gets_shape (env : Env) (ctx : Context) (w : World) :
    (calls (CheckAuth env ctx w).trace).Sublist pipeline ∧
    (httpGets (CheckAuth env ctx w).trace = [] ∨
      ∃ m v, ctx.RequireAuth = true ∧ ctx.method = some m ∧ m.auth = true ∧
        (GetAuthToken_reference ctx).isEmpty = false ∧
        (∀ val, w.jwt_cache (GetAuthToken_reference ctx) = some val → val.exp < w.now) ∧
        env.Create (GetAuthToken_reference ctx) = some v ∧ (v.Parse w.now).1.ok = true ∧
        m.isIssuerAllowed (v.Parse w.now).2.issuer = true ∧
        audienceAccepted ctx m (v.Parse w.now).2 = true ∧
        KeyGets env (v.Parse w.now).2.issuer w 0 (httpGets (CheckAuth env ctx w).trace)) := by
  obtain ⟨hshape, _, hrun⟩ := CheckAuth_run env ctx w
  generalize (CheckAuth env ctx w).trace = T at hshape hrun
  cases hshape with
  | not_required h =>
    exact ⟨by simp [Event.call], Or.inl (by simp)⟩
  | no_token m hreq hm hauth ht =>
    refine ⟨?_, Or.inl (by simp [httpGets_readEvents])⟩
    simp only [calls_append, calls_readEvents, calls_cons, calls_nil, Event.call,
      Option.toList, List.append_nil, pipeline, keyPipeline]
    decide
  | hit m val tail hreq hm hauth ht hval hexp h =>
    cases h with
    | issuer_denied _ h =>
      refine ⟨?_, Or.inl (by simp [httpGets_lookupState, httpGets_lookupEvents])⟩
      simp only [calls_append, calls_lookupState, calls_lookupEvents_hit, calls_cons,
        calls_nil, Event.call, Option.toList, List.append_nil, List.nil_append,
        List.cons_append, pipeline, keyPipeline]
      decide
    | audience_denied _ h ha =>
      refine ⟨?_, Or.inl (by simp [httpGets_lookupState, httpGets_lookupEvents,
        httpGets_policyEvents])⟩
      simp only [calls_append, calls_lookupState, calls_lookupEvents_hit, calls_policyEvents,
        calls_cons, calls_nil, Event.call, Option.toList, List.append_nil, List.nil_append,
        List.cons_append, pipeline, keyPipeline]
      decide
    | cached h ha =>
      refine ⟨?_, Or.inl (by simp [httpGets_lookupState, httpGets_lookupEvents,
        httpGets_policyEvents])⟩
      simp only [calls_append, calls_lookupState, calls_lookupEvents_hit, calls_policyEvents,
        calls_cons, calls_nil, Event.call, Option.toList, List.append_nil, List.nil_append,
        List.cons_append, pipeline, keyPipeline]
      decide
  | create_failed m hreq hm hauth ht hmiss hc =>
    refine ⟨?_, Or.inl (by simp [httpGets_lookupState, httpGets_missEvents])⟩
    simp only [calls_append, calls_lookupState, calls_missEvents, calls_cons,
      calls_nil, Event.call, Option.toList, List.append_nil, List.nil_append,
      List.cons_append, pipeline, keyPipeline]
    decide
  | parse_failed m v hreq hm hauth ht hmiss hc hp =>
    refine ⟨?_, Or.inl (by simp [httpGets_lookupState, httpGets_lookupEvents])⟩
    simp only [calls_append, calls_lookupState, calls_lookupEvents_miss, calls_cons,
      calls_nil, Event.call, Option.toList, List.append_nil, List.nil_append,
      List.cons_append, pipeline, keyPipeline]
    decide
  | parsed m v tail hreq hm hauth ht hmiss hc hp h =>
    cases h with
    | issuer_denied _ h =>
      refine ⟨?_, Or.inl (by simp [httpGets_lookupState, httpGets_lookupEvents])⟩
      simp only [calls_append, calls_lookupState, calls_lookupEvents_miss, calls_cons,
        calls_nil, Event.call, Option.toList, List.append_nil, List.nil_append,
        List.cons_append, pipeline, keyPipeline]
      decide
    | audience_denied _ h ha =>
      refine ⟨?_, Or.inl (by simp [httpGets_lookupState, httpGets_lookupEvents,
        httpGets_policyEvents])⟩
      simp only [calls_append, calls_lookupState, calls_lookupEvents_miss, calls_policyEvents,
        calls_cons, calls_nil, Event.call, Option.toList, List.append_nil, List.nil_append,
        List.cons_append, pipeline, keyPipeline]
      decide
    | key v2 tail2 hv hiss hacc hkt =>
      cases hv
      have hk := hrun m v tail2 hreq hm hauth ht hmiss hc hp hiss hacc rfl
      refine ⟨?_, Or.inr ⟨m, v, hreq, hm, hauth, ht, hmiss, hc, hp, hiss, hacc, ?_⟩⟩
      · have := List.Sublist.append
          (List.Sublist.refl
            [Call.FindHeader, Call.JwtCacheLookup, Call.ValidatorCreate, Call.set_auth_issuer])
          (KeyRun_calls env v _ tail2 hk)
        simpa [calls_lookupState, calls_lookupEvents_miss, calls_policyEvents, pipeline]
          using this
      · have hg := KeyRun_gets env v _ tail2 hk
        rw [policyState_httpGets] at hg
        have hg2 := KeyGets_afterLookup env (v.Parse w.now).2.issuer w
          (GetAuthToken_reference ctx) 0 (httpGets tail2) hg
        simpa [httpGets_lookupState, httpGets_lookupEvents, httpGets_policyEvents] using hg2

/-- C27. Every check issues at most two HTTP GETs.  The calls that mark the
steps of the state machine occur in the trace in the order in which the code
chains the steps, each step at most once (no step is entered again).  A check
that issues a GET has parsed its token after a token-cache miss, passed the
policy, found no fresh key-cache entry and a non-empty URL in the registry, and
its GETs are: the URL of the registry alone, as the key-set GET when the URL
needs no discovery, or as the discovery GET when it delivers no key URL; or the
discovery GET to the URL of the registry followed by the key-set GET to the key
URL taken from the delivered document.  Hence a check that ends at an empty
token, a token-cache hit, a validator failure, a policy denial, an empty
resolved key URL, or that finds a fresh key-cache entry issues no GET. -/
theorem CheckAuth_requests (env : Env) (ctx : Context) (w : World) :
    (httpGets (CheckAuth env ctx w).trace).length ≤ 2 ∧
    (calls (CheckAuth env ctx w).trace).Sublist pipeline ∧
    (httpGets (CheckAuth env ctx w).trace = [] ∨
      ∃ m v, ctx.RequireAuth = true ∧ ctx.method = some m ∧ m.auth = true ∧
        (GetAuthToken_reference ctx).isEmpty = false ∧
        (∀ val, w.jwt_cache (GetAuthToken_reference ctx) = some val → val.exp < w.now) ∧
        env.Create (GetAuthToken_reference ctx) = some v ∧ (v.Parse w.now).1.ok = true ∧
        m.isIssuerAllowed (v.Parse w.now).2.issuer = true ∧
        audienceAccepted ctx m (v.Parse w.now).2 = true ∧
        KeyGets env (v.Parse w.now).2.issuer w 0 (httpGets (CheckAuth env ctx w).trace)) ∧
    (((GetAuthToken_reference ctx).isEmpty = true ∨
      (∃ val, w.jwt_cache (GetAuthToken_reference ctx) = some val ∧ w.now ≤ val.exp) ∨
      env.Create (GetAuthToken_reference ctx) = none ∨
      ∃ v, env.Create (GetAuthToken_reference ctx) = some v ∧
        ((v.Parse w.now).1.ok = false ∨
         (∃ m, ctx.method = some m ∧
           (m.isIssuerAllowed (v.Parse w.now).2.issuer = false ∨
            audienceAccepted ctx m (v.Parse w.now).2 = false)) ∨
         (∃ cert, w.certs (v.Parse w.now).2.issuer = some cert ∧ w.now ≤ cert.2) ∨
         (w.jwks_uri (v.Parse w.now).2.issuer).1.isEmpty = true)) →
      httpGets (CheckAuth env ctx w).trace = []) := by
  obtain ⟨hcalls, hgets⟩ := CheckAuth_gets_shape env ctx w
  refine ⟨?_, hcalls, hgets, ?_⟩
  · rcases hgets with h | ⟨_, _, _, _, _, _, _, _, _, _, _, hk⟩
    · simp [h]
    · exact KeyGets_length _ _ _ _ _ hk
  · intro hz
    rcases hgets with h | ⟨m, v, _, hm, _, ht, hmiss, hc, hp, hiss, hacc, hk⟩
    · exact h
    · rcases hk with ⟨h, _⟩ | ⟨hstale, hu, _⟩
      · exact h
      · exfalso
        rcases hz with he | ⟨val, hval, hexp⟩ | hnone | ⟨v2, hc2, hrest⟩
        · rw [ht] at he
          exact absurd he (by decide)
        · exact absurd (hmiss val hval) (Nat.not_lt.mpr hexp)
        · rw [hc] at hnone
          exact Option.noConfusion hnone
        · cases hc.symm.trans hc2
          rcases hrest with hpf | ⟨m2, hm2, hden⟩ | ⟨cert, hcert, hfresh⟩ | hempty
          · rw [hp] at hpf
            exact absurd hpf (by decide)
          · cases hm.symm.trans hm2
            rcases hden with hd | hd
            · rw [hiss] at hd
              exact absurd hd (by decide)
            · rw [hacc] at hd
              exact absurd hd (by decide)
          · exact absurd (hstale cert hcert) (Nat.not_lt.mpr hfresh)
          · rw [hu] at hempty
            exact absurd hempty (by decide)

/-- Witness of C27: in the sample service the cold check of `kToken` issues the
discovery GET and then the key-set GET, two in all, and the second check of
`kToken`, which hits the token cache, issues none. -/
theorem CheckAuth_requests_witness :
    httpGets (CheckAuth Sample.env (Sample.ctx (some "Bearer kToken") none)
        Sample.world).trace = [Sample.kIssuer1OpenIdUrl, Sample.kIssuer1PubkeyUrl] ∧
      (httpGets (CheckAuth Sample.env (Sample.ctx (some "Bearer kToken") none)
        Sample.world).trace).length ≤ 2 ∧
      httpGets (CheckAuth Sample.env (Sample.ctx (some "Bearer kToken") none)
        Sample.warmWorld).trace = [] :=
  ⟨by decide,
    (CheckAuth_requests Sample.env (Sample.ctx (some "Bearer kToken") none) Sample.world).1,
    (CheckAuth_requests Sample.env (Sample.ctx (some "Bearer kToken") none)
      Sample.warmWorld).2.2.2
      (Or.inr (Or.inl
        ⟨{ user_info := { id := Sample.kSub, issuer := Sample.kIss,
                          audiences := [Sample.kServiceName] },
           exp := Sample.kExp, inserted_at := 1500000002 }, rfl, by decide⟩))⟩

end CheckAuthModel
